import Mathlib

/-!
BurgWar match core: identity registry, player slots and layer migration.

A shallow embedding of `Match` (src/src/CoreLib/Match.cpp, src/include/CoreLib/Match.inl)
and `Player` (src/src/CoreLib/Player.cpp).

Conventions of the embedding:
* the mutable C++ objects become one explicit state record `Match`; every member
  function is a state transformer on it, a `Player` method taking the index of
  the slot that holds `this`;
* every externally visible effect (gamemode callback, call on a session's
  visibility object, packet handed to a player's session) is appended to
  `Match.trace`, so ordering properties can be stated on the trace;
* a failed `assert`, a dereference of an invalid handle and a thrown
  `std::runtime_error` end the computation with an `Err`;
* the entity worlds of all layers are one arena `Match.entities`; an
  `Ndk::EntityHandle` is `Option Nat`, valid iff it indexes a live entity.
-/

namespace bw

/-! ## Basic types -/

/-- An `Ndk::EntityHandle`: an index into the entity arena, or the invalid handle.
Unique ids (`EntityId`), layer indices (`LayerIndex`), entity ids and player
indices are unsigned machine integers and are all represented by `Nat`. -/
abbrev EntityHandle := Option Nat

/-- Constants and type parameters whose declarations live in headers outside the
translated sources: the `NoLayer` layer index, `InvalidEntityId`, the number of
values of the `EntityId` integer type, and the default value of the `onlyReady`
argument of `Match::BroadcastPacket`. -/
structure Constants where
  NoLayer : Nat
  InvalidEntityId : Nat
  entityIdCount : Nat
  broadcastOnlyReady : Bool
deriving DecidableEq, Repr

inductive Err where
  | assertion
  | invalidHandle
  | outOfRange
  | runtimeError
deriving DecidableEq, Repr

inductive DisconnectionReason where
  | Kicked
  | PlayerLeft
  | TimedOut
  | Other
deriving DecidableEq, Repr

/-- Wire packets built by `Match` and `Player`; a field the code leaves unset is `none`. -/
inductive Packet where
  | ChatMessage (localIndex : Option Nat) (playerIndex : Option Nat) (content : String)
  | PlayerJoined (playerIndex : Nat) (playerName : String)
  | PlayerLeaving (playerIndex : Nat)
  | PlayerControlEntity (playerIndex : Nat) (controlledEntityId : Nat)
  | ControlEntity (localIndex : Nat) (layerIndex : Nat) (entityId : Nat)
  | PlayerWeapons (localIndex : Nat) (layerIndex : Nat) (weaponEntities : List Nat)
  | PlayerNameUpdate (playerIndex : Nat) (newName : String)
deriving DecidableEq, Repr

inductive GamemodeEvent where
  | Init
  | PlayerConnected (player : Nat)
  | PlayerJoined (player : Nat)
  | PlayerLeave (player : Nat)
  | PlayerLayerUpdate (player : Nat) (oldLayer newLayer : Nat)
  | PlayerNameUpdate (player : Nat) (newName : String)
  | PlayerDeath (player : Nat) (attacker : EntityHandle)
  | Tick
deriving DecidableEq, Repr

/-- Calls received by a session's `MatchClientVisibility`. -/
inductive VisibilityCall where
  | HideLayer (layer : Nat)
  | ShowLayer (layer : Nat)
  | PushLayerUpdate (localIndex : Nat) (layer : Nat)
  | SetEntityControlledStatus (layer : Nat) (entityId : Nat) (controlled : Bool)
  | PushEntityPacket (layer : Nat) (entityId : Nat) (packet : Packet)
  | PushEntitiesPacket (layer : Nat) (entityIds : List Nat) (packet : Packet)
deriving DecidableEq, Repr

inductive Event where
  | gamemode (ev : GamemodeEvent)
  | visibility (session : Nat) (call : VisibilityCall)
  | send (player : Nat) (packet : Packet)
  | sessionOnTick (session : Nat)
  | sessionUpdate (session : Nat)
  | playerOnTick (player : Nat) (lastTick : Bool)
  | terrainUpdate
deriving DecidableEq, Repr

/-! ## Nz::Bitset (the operations the translated code uses) -/

namespace Bitset

def FindFirst : List Bool → Option Nat
  | [] => none
  | true :: _ => some 0
  | false :: bs => (FindFirst bs).map (· + 1)

def Resize (b : List Bool) (n : Nat) (v : Bool) : List Bool :=
  b.take n ++ List.replicate (n - b.length) v

def Set (b : List Bool) (bit : Nat) (v : Bool) : List Bool :=
  b.set bit v

def Test (b : List Bool) (bit : Nat) : Bool :=
  b.getD bit false

def UnboundedTest (b : List Bool) (bit : Nat) : Bool :=
  decide (bit < b.length) && Test b bit

def UnboundedSet (b : List Bool) (bit : Nat) (v : Bool) : List Bool :=
  if bit < b.length then Set b bit v
  else if v then Set (Resize b (bit + 1) false) bit true
  else b

def TestAll (b : List Bool) : Bool :=
  b.all id

/-- Indices of the set bits, in increasing order (the `FindFirst`/`FindNext` walk). -/
def setBits (b : List Bool) : List Nat :=
  (List.range b.length).filter (fun i => Test b i)

end Bitset

/-! ## Entities and components -/

structure MatchComponent where
  layerIndex : Nat
  uniqueId : Nat
deriving DecidableEq, Repr

/-- A `PlayerHandle`: the slot of the player it refers to, or `none` for the null
handle. A handle becomes null when its player is destroyed. -/
abbrev PlayerHandle := Option Nat

/-- One `Ndk::Entity` together with the components the translated code looks at. The
`OwnerComponent` and the `PlayerControlledComponent`, when present, hold the
`PlayerHandle` they were constructed with. -/
structure EntityData where
  alive : Bool
  world : Nat
  id : Nat
  matchComponent : Option MatchComponent
  ownerComponent : Option PlayerHandle
  playerControlledComponent : Option PlayerHandle
  weaponWielderComponent : Option (List EntityHandle)
  healthComponent : Bool
  scriptComponent : Bool
  nodeComponent : Option EntityHandle
  networkSyncComponent : Option EntityHandle
  weaponComponent : Option EntityHandle
deriving DecidableEq, Repr

/-- A connected `NazaraSlot`: the entity whose `OnEntityDestruction` signal it
listens to and the unique id captured by the connected lambda. -/
structure DestructionSlot where
  signalOwner : Nat
  capturedId : Nat
deriving DecidableEq, Repr

/-- The record `Match::Entity` stored in `m_entitiesByUniqueId`. -/
structure Match.Entity where
  entity : EntityHandle
  onDestruction : Option DestructionSlot
deriving DecidableEq, Repr

structure Player where
  m_layerIndex : Nat
  m_playerIndex : Nat
  m_name : String
  m_localIndex : Nat
  m_session : Nat
  m_isAdmin : Bool
  m_isReady : Bool
  m_shouldSendWeapons : Bool
  m_playerEntity : EntityHandle
  m_visibleLayers : List Bool
  m_onPlayerEntityDied : Option Nat
  m_onPlayerEntityDestruction : Option Nat
  m_onWeaponAdded : Option Nat
  m_onWeaponRemove : Option Nat
deriving DecidableEq, Repr

structure Match where
  m_maxPlayerCount : Nat
  m_nextUniqueId : Nat
  m_entitiesByUniqueId : List (Nat × Match.Entity)
  m_players : List (Option Player)
  m_freePlayerId : List Bool
  m_sessions : List Nat
  layerCount : Nat
  entities : List EntityData
  trace : List Event
deriving DecidableEq, Repr

/-- The part of `MatchSettings` read by the constructor's initialiser list. -/
structure MatchSettings where
  maxPlayerCount : Nat
  mapFreeUniqueId : Nat
  mapLayerCount : Nat
deriving DecidableEq, Repr

/-! ## Small state helpers -/

namespace Match

def log (ev : Event) (m : Match) : Match :=
  { m with trace := m.trace ++ [ev] }

def logAll (evs : List Event) (m : Match) : Match :=
  { m with trace := m.trace ++ evs }

/-- The player stored in slot `i` (`m_players[i].get()`), if the slot is in range and occupied. -/
def player? (m : Match) (i : Nat) : Option Player :=
  (m.m_players.getD i none)

def getPlayer (m : Match) (i : Nat) : Except Err Player :=
  match m.player? i with
  | some p => .ok p
  | none => .error .invalidHandle

def modifyPlayer (i : Nat) (f : Player → Player) (m : Match) : Match :=
  { m with m_players := m.m_players.modify (Option.map f) i }

/-- The entity a handle refers to; `none` for the invalid handle and for a
handle whose entity has been destroyed. -/
def entity? (m : Match) (h : EntityHandle) : Option EntityData :=
  match h with
  | none => none
  | some i =>
    match m.entities[i]? with
    | some d => if d.alive then some d else none
    | none => none

/-- Dereference of a handle (`handle->`): fails on an invalid handle. -/
def getEntity (m : Match) (h : EntityHandle) : Except Err EntityData :=
  match m.entity? h with
  | some d => .ok d
  | none => .error .invalidHandle

def modifyEntity (h : EntityHandle) (f : EntityData → EntityData) (m : Match) : Match :=
  match h with
  | none => m
  | some i => { m with entities := m.entities.modify f i }

/-- The checked accessor `entity->GetComponent<T>()`: an assertion when the component is absent. -/
def component {α : Type} (c : Option α) : Except Err α :=
  match c with
  | some a => .ok a
  | none => .error .assertion

/-! ## Match: construction and unique ids -/

/-- The constructor `Match::Match`: the member initialisers, followed by the
`Init` gamemode callback of the body. Asset and script loading and terrain
initialisation are outside the translated sources and leave the fields below
as initialised. -/
def init (settings : MatchSettings) : Match :=
  { m_maxPlayerCount := settings.maxPlayerCount
    m_nextUniqueId := settings.mapFreeUniqueId
    m_entitiesByUniqueId := []
    m_players := []
    m_freePlayerId := []
    m_sessions := []
    layerCount := settings.mapLayerCount
    entities := []
    trace := [Event.gamemode GamemodeEvent.Init] }

/-- The inline `Match::AllocateUniqueId`: `return m_nextUniqueId++;` on an integer
type with `entityIdCount` values. -/
def AllocateUniqueId (c : Constants) (m : Match) : Nat × Match :=
  (m.m_nextUniqueId, { m with m_nextUniqueId := (m.m_nextUniqueId + 1) % c.entityIdCount })

/-- The ids returned by `n` successive `AllocateUniqueId` calls, and the final state. -/
def allocateMany (c : Constants) : Nat → Match → List Nat × Match
  | 0, m => ([], m)
  | n + 1, m =>
    let r := AllocateUniqueId c m
    let rest := allocateMany c n r.2
    (r.1 :: rest.1, rest.2)

/-! ## Match: the unique-id registry -/

/-- The lookup `m_entitiesByUniqueId.find(uniqueId)`. -/
def findEntity (reg : List (Nat × Match.Entity)) (uniqueId : Nat) : Option Match.Entity :=
  match reg with
  | [] => none
  | kv :: rest => if kv.1 = uniqueId then some kv.2 else findEntity rest uniqueId

/-- The removal `m_entitiesByUniqueId.erase(uniqueId)`. -/
def eraseEntity (reg : List (Nat × Match.Entity)) (uniqueId : Nat) :
    List (Nat × Match.Entity) :=
  reg.filter (fun kv => decide (kv.1 ≠ uniqueId))

/-- The method `Match::RegisterEntity`. -/
def RegisterEntity (uniqueId : Nat) (entity : EntityHandle) (m : Match) : Except Err Match :=
  match findEntity m.m_entitiesByUniqueId uniqueId with
  | some _ => .error .assertion
  | none =>
    match entity, m.entity? entity with
    | some h, some _ =>
      .ok { m with m_entitiesByUniqueId :=
              m.m_entitiesByUniqueId ++
                [(uniqueId, { entity := entity, onDestruction := some ⟨h, uniqueId⟩ })] }
    | _, _ => .error .invalidHandle

/-- The method `Match::RetrieveEntityByUniqueId`. -/
def RetrieveEntityByUniqueId (uniqueId : Nat) (m : Match) : EntityHandle :=
  match findEntity m.m_entitiesByUniqueId uniqueId with
  | none => none
  | some e => e.entity

/-- The method `Match::RetrieveUniqueIdByEntity`. -/
def RetrieveUniqueIdByEntity (c : Constants) (entity : EntityHandle) (m : Match) : Nat :=
  match m.entity? entity with
  | none => c.InvalidEntityId
  | some d =>
    match d.matchComponent with
    | none => c.InvalidEntityId
    | some mc => mc.uniqueId

/-- The unique ids captured by the registry slots connected to the
`OnEntityDestruction` signal of entity `h`. -/
def connectedIds (reg : List (Nat × Match.Entity)) (h : Nat) : List Nat :=
  reg.filterMap (fun kv =>
    match kv.2.onDestruction with
    | some s => if s.signalOwner = h then some s.capturedId else none
    | none => none)

/-- Firing of `OnEntityDestruction` for entity `h`, as seen by the registry:
every connected slot runs its lambda `m_entitiesByUniqueId.erase(uniqueId)`. -/
def OnEntityDestruction (h : Nat) (m : Match) : Match :=
  { m with m_entitiesByUniqueId :=
      (connectedIds m.m_entitiesByUniqueId h).foldl eraseEntity m.m_entitiesByUniqueId }

/-! ## Match: players -/

/-- The occupied slots with their indices, in slot order (the walk of `ForEachPlayer`). -/
def livePlayers (m : Match) : List (Nat × Player) :=
  m.m_players.enum.filterMap (fun ip => ip.2.map (fun p => (ip.1, p)))

/-- The template `Match::BroadcastPacket`: `SendPacket` on every player that
passes the `onlyReady` filter and is not `except`. -/
def BroadcastPacket (packet : Packet) (onlyReady : Bool) (except : Option Nat) (m : Match) : Match :=
  m.logAll ((m.livePlayers.filter
      (fun ip => (!onlyReady || ip.2.m_isReady) && decide (some ip.1 ≠ except))).map
    (fun ip => Event.send ip.1 packet))

/-- The constructor `Player::Player`. -/
def newPlayer (c : Constants) (session playerIndex localIndex : Nat) (name : String) : Player :=
  { m_layerIndex := c.NoLayer
    m_playerIndex := playerIndex
    m_name := name
    m_localIndex := localIndex
    m_session := session
    m_isAdmin := false
    m_isReady := false
    m_shouldSendWeapons := false
    m_playerEntity := none
    m_visibleLayers := []
    m_onPlayerEntityDied := none
    m_onPlayerEntityDestruction := none
    m_onWeaponAdded := none
    m_onWeaponRemove := none }

/-- The tail of `Match::CreatePlayer` once the slot index is chosen:
`m_players[playerIndex] = ...` and the `PlayerConnected` callback. -/
def installPlayer (c : Constants) (session localIndex : Nat) (name : String) (playerIndex : Nat)
    (m : Match) : Except Err (Option Nat × Match) :=
  if playerIndex < m.m_players.length then
    .ok (some playerIndex,
      ({ m with m_players :=
          m.m_players.set playerIndex (some (newPlayer c session playerIndex localIndex name)) }).log
        (Event.gamemode (GamemodeEvent.PlayerConnected playerIndex)))
  else .error .outOfRange

/-- The method `Match::CreatePlayer`; the returned `Player*` is the slot index, `none` for `nullptr`. -/
def CreatePlayer (c : Constants) (session localIndex : Nat) (name : String) (m : Match) :
    Except Err (Option Nat × Match) :=
  if m.m_players.length ≥ m.m_maxPlayerCount then .ok (none, m)
  else
    match Bitset.FindFirst m.m_freePlayerId with
    | none =>
      let playerIndex := m.m_freePlayerId.length
      installPlayer c session localIndex name playerIndex
        { m with
          m_freePlayerId := Bitset.Resize m.m_freePlayerId (playerIndex + 1) false
          m_players := m.m_players.take (playerIndex + 1) ++
            List.replicate (playerIndex + 1 - m.m_players.length) none }
    | some playerIndex =>
      installPlayer c session localIndex name playerIndex
        { m with m_freePlayerId := Bitset.Set m.m_freePlayerId playerIndex false }

/-- Modelled from the spec: the handle classes and `OwnerComponent` are not among the
translated sources; an engine object handle invalidates itself when its object is
destroyed. This is what the destruction of player `idx` does to a `PlayerHandle`:
a handle to that player becomes null. -/
def expireHandle (idx : Nat) (handle : PlayerHandle) : PlayerHandle :=
  if handle = some idx then none else handle

/-- What the destruction of player `idx` does to an entity: the handles its
`OwnerComponent` and `PlayerControlledComponent` hold to that player become null;
the components stay. -/
def expireOwner (idx : Nat) (d : EntityData) : EntityData :=
  { d with
    ownerComponent := d.ownerComponent.map (expireHandle idx)
    playerControlledComponent := d.playerControlledComponent.map (expireHandle idx) }

/-- The destructor `Player::~Player`, run by `it->reset()`: one `HideLayer` per visible
layer; with the player gone, every `PlayerHandle` to it is null. -/
def destroyPlayer (idx : Nat) (p : Player) (m : Match) : Match :=
  ({ m with
      m_players := m.m_players.set idx none
      entities := m.entities.map (expireOwner idx) }).logAll
    ((Bitset.setBits p.m_visibleLayers).map
      (fun l => Event.visibility p.m_session (VisibilityCall.HideLayer l)))

def leftSuffix : DisconnectionReason → String
  | .Kicked => " (kicked)."
  | .PlayerLeft => "."
  | .TimedOut => " (timed out)."
  | .Other => " (unhandled case)."

/-- The method `Match::RemovePlayer`; `player` is the slot index of the `Player*` argument. -/
def RemovePlayer (c : Constants) (player : Nat) (reason : DisconnectionReason) (m : Match) :
    Except Err Match :=
  match m.player? player with
  | none => .error .assertion
  | some p =>
    let m1 := m.log (Event.gamemode (GamemodeEvent.PlayerLeave player))
    let content := p.m_name ++ " has left" ++ leftSuffix reason
    let m2 := if p.m_isReady then
        m1.BroadcastPacket (Packet.PlayerLeaving (p.m_playerIndex % 65536)) c.broadcastOnlyReady none
      else m1
    let m3 := destroyPlayer player p m2
    if player < m3.m_freePlayerId.length then
      let m4 := { m3 with m_freePlayerId := Bitset.Set m3.m_freePlayerId player true }
      .ok (m4.logAll (m4.livePlayers.map
        (fun ip => Event.send ip.1 (Packet.ChatMessage (some ip.2.m_localIndex) none content))))
    else .error .assertion

/-- The inline `Match::GetPlayerByIndex`, as a slot index. -/
def GetPlayerByIndex (playerIndex : Nat) (m : Match) : Except Err (Option Nat) :=
  if playerIndex ≥ m.m_players.length then .ok none
  else if playerIndex ≥ m.m_freePlayerId.length then .error .assertion
  else if Bitset.Test m.m_freePlayerId playerIndex then .ok none
  else
    match m.player? playerIndex with
    | some _ => .ok (some playerIndex)
    | none => .error .assertion

end Match

/-! ## Collaborators of `Player` outside the translated sources -/

namespace Terrain

/-- Modelled from the spec: `Terrain::GetLayer` is not among the translated
sources; `layer(index)` fails with a bounds error for an index ≥ layer count. -/
def GetLayer (layerIndex : Nat) (m : Match) : Except Err Nat :=
  if layerIndex < m.layerCount then .ok layerIndex else .error .outOfRange

end Terrain

namespace World

/-- An entity id of the world of `layer` that no entity of that world uses. -/
def freshId (layer : Nat) (m : Match) : Nat :=
  ((m.entities.filter (fun d => decide (d.world = layer))).map (fun d => d.id + 1)).foldl max 0

/-- The library call `Ndk::World::CloneEntity` on the world of `layer`: a new
live entity of that world carrying a copy of every component of the original;
the invalid handle when the argument is invalid. -/
def CloneEntity (layer : Nat) (h : EntityHandle) (m : Match) : EntityHandle × Match :=
  match m.entity? h with
  | none => (none, m)
  | some d =>
    (some m.entities.length,
      { m with entities := m.entities ++ [{ d with alive := true, world := layer, id := freshId layer m }] })

end World

/-! ## Player -/

namespace Player

/-- The method `Player::UpdateLayerVisibility`. -/
def UpdateLayerVisibility (self : Nat) (layerIndex : Nat) (isVisible : Bool) (m : Match) :
    Except Err Match :=
  match m.getPlayer self with
  | .error e => .error e
  | .ok p =>
    if layerIndex ≥ m.layerCount then .error .runtimeError
    else
      .ok ((m.log (Event.visibility p.m_session
              (if isVisible then VisibilityCall.ShowLayer layerIndex
               else VisibilityCall.HideLayer layerIndex))).modifyPlayer self
            (fun q => { q with m_visibleLayers := Bitset.UnboundedSet q.m_visibleLayers layerIndex isVisible }))

/-- The method `Player::UpdateLayerVisibility` run statement by statement on the state:
the result holds the state the call leaves behind, also when it throws (nothing is
rolled back), and the exception in flight, if any. -/
def updateLayerVisibilityUnwound (self : Nat) (layerIndex : Nat) (isVisible : Bool) (m : Match) :
    Match × Option Err :=
  match m.getPlayer self with
  | .error e => (m, some e)
  | .ok p =>
    if layerIndex ≥ m.layerCount then (m, some .runtimeError)
    else
      let m1 := m.log (Event.visibility p.m_session
        (if isVisible then VisibilityCall.ShowLayer layerIndex
         else VisibilityCall.HideLayer layerIndex))
      let m2 := m1.modifyPlayer self
        (fun q => { q with m_visibleLayers := Bitset.UnboundedSet q.m_visibleLayers layerIndex isVisible })
      (m2, none)

/-- The block `if (m_playerEntity) { ... }` opening `Player::UpdateControlledEntity`. -/
def releaseControlled (self : Nat) (m : Match) : Except Err Match :=
  match m.getPlayer self with
  | .error e => .error e
  | .ok p =>
    match m.entity? p.m_playerEntity with
    | none => .ok m
    | some d =>
      match Match.component d.matchComponent with
      | .error e => .error e
      | .ok mc =>
        .ok ((m.modifyEntity p.m_playerEntity
              (fun x => { x with ownerComponent := none, playerControlledComponent := none })).log
            (Event.visibility p.m_session
              (VisibilityCall.SetEntityControlledStatus mc.layerIndex d.id false)))

/-- The statements `m_playerEntity = InvalidHandle` and the four `Disconnect()` calls. -/
def disconnectHooks (p : Player) : Player :=
  { p with
    m_playerEntity := none
    m_onPlayerEntityDied := none
    m_onPlayerEntityDestruction := none
    m_onWeaponAdded := none
    m_onWeaponRemove := none }

/-- The part of the block `if (entity) { ... }` that follows the optional
`MoveToLayer`: hooks, control components and the controlled status. It returns
`entityUniqueId`. -/
def takeControl (self : Nat) (h : Nat) (m : Match) : Except Err (Nat × Match) :=
  match m.getPlayer self with
  | .error e => .error e
  | .ok p =>
    match m.getEntity (some h) with
    | .error e => .error e
    | .ok d =>
      match Match.component d.matchComponent with
      | .error e => .error e
      | .ok mc =>
        let m1 := m.modifyPlayer self (fun q => { q with m_playerEntity := some h })
        let m2 := if d.weaponWielderComponent.isSome then
            m1.modifyPlayer self (fun q => { q with m_onWeaponAdded := some h, m_onWeaponRemove := some h })
          else m1
        let m3 := m2.modifyEntity (some h)
          (fun x => { x with ownerComponent := some (some self),
                             playerControlledComponent := some (some self) })
        let m4 := if d.healthComponent then
            m3.modifyPlayer self (fun q => { q with m_onPlayerEntityDied := some h })
          else m3
        let m5 := m4.modifyPlayer self (fun q => { q with m_onPlayerEntityDestruction := some h })
        .ok (mc.uniqueId,
          m5.log (Event.visibility p.m_session
            (VisibilityCall.SetEntityControlledStatus mc.layerIndex d.id true)))

/-- The block `if (entity) { ... }` of `Player::UpdateControlledEntity`; `move` is the
`MoveToLayer` it calls when `ignoreLayerUpdate` is false. -/
def controlTarget (move : Nat → Match → Except Err Match) (c : Constants) (self : Nat)
    (entity : EntityHandle) (ignoreLayerUpdate : Bool) (m : Match) : Except Err (Nat × Match) :=
  match entity, m.entity? entity with
  | some h, some d =>
    match Match.component d.matchComponent with
    | .error e => .error e
    | .ok mc =>
      match (if ignoreLayerUpdate then .ok m else move mc.layerIndex m) with
      | .error e => .error e
      | .ok m1 => takeControl self h m1
  | _, _ => .ok (c.InvalidEntityId, m)

/-- The block `if (sendPacket) { ... }` of `Player::UpdateControlledEntity`. -/
def sendControlEntity (c : Constants) (self : Nat) (entity : EntityHandle) (m : Match) :
    Except Err Match :=
  match m.getPlayer self with
  | .error e => .error e
  | .ok p =>
    match m.entity? p.m_playerEntity with
    | some d =>
      match Match.component d.matchComponent with
      | .error e => .error e
      | .ok mc =>
        match m.getEntity entity with
        | .error e => .error e
        | .ok de =>
          .ok (m.log (Event.visibility p.m_session
            (VisibilityCall.PushEntityPacket mc.layerIndex (de.id % 4294967296)
              (Packet.ControlEntity p.m_localIndex mc.layerIndex (de.id % 4294967296)))))
    | none => .ok (m.log (Event.send self (Packet.ControlEntity p.m_localIndex c.NoLayer 0)))

/-- The method `Player::UpdateControlledEntity`, with the `MoveToLayer` it may call as a parameter. -/
def UpdateControlledEntityWith (move : Nat → Match → Except Err Match) (c : Constants)
    (self : Nat) (entity : EntityHandle) (sendPacket ignoreLayerUpdate : Bool) (m : Match) :
    Except Err Match :=
  match releaseControlled self m with
  | .error e => .error e
  | .ok m1 =>
    match controlTarget move c self entity ignoreLayerUpdate (m1.modifyPlayer self disconnectHooks) with
    | .error e => .error e
    | .ok (entityUniqueId, m2) =>
      match (if sendPacket then sendControlEntity c self entity m2 else .ok m2) with
      | .error e => .error e
      | .ok m3 =>
        match m3.getPlayer self with
        | .error e => .error e
        | .ok p =>
          .ok (m3.BroadcastPacket
            (Packet.PlayerControlEntity (p.m_playerIndex % 65536) entityUniqueId) true (some self))

/-- The lambda passed to `OverrideEntities` in `Player::MoveToLayer`, applied to one
weapon: it returns the clone that replaces the weapon. The kill of the replaced
entity is deferred by the entity library to the next refresh of its world and is
not part of this call. -/
def cloneWeapon (c : Constants) (layerIndex : Nat) (newPlayerEntity : EntityHandle)
    (weaponEntity : EntityHandle) (m : Match) : Except Err (EntityHandle × Match) :=
  let a := m.AllocateUniqueId c
  let k := World.CloneEntity layerIndex weaponEntity a.2
  match k.2.getEntity k.1 with
  | .error e => .error e
  | .ok d =>
    match Match.component d.nodeComponent, Match.component d.networkSyncComponent,
        Match.component d.weaponComponent with
    | .ok _, .ok _, .ok _ =>
      (k.2.modifyEntity k.1 (fun x =>
        { x with
          matchComponent := some ⟨layerIndex, a.1⟩
          nodeComponent := some newPlayerEntity
          networkSyncComponent := some newPlayerEntity
          weaponComponent := some newPlayerEntity })).RegisterEntity a.1 k.1 |>.map
        (fun m1 => (k.1, m1))
    | _, _, _ => .error .assertion

/-- Modelled from the spec: `WeaponWielderComponent::OverrideEntities` is not among
the translated sources; the callback is applied to every wielded weapon in turn,
each weapon being replaced by what the callback stores in it. -/
def OverrideEntities (f : EntityHandle → Match → Except Err (EntityHandle × Match)) :
    List EntityHandle → Match → Except Err (List EntityHandle × Match)
  | [], m => .ok ([], m)
  | w :: ws, m =>
    match f w m with
    | .error e => .error e
    | .ok (w1, m1) =>
      match OverrideEntities f ws m1 with
      | .error e => .error e
      | .ok (ws1, m2) => .ok (w1 :: ws1, m2)

/-- The block `if (m_playerEntity->HasComponent<WeaponWielderComponent>()) { ... }` of
`Player::MoveToLayer`; `m_playerEntity` is by now the clone `newPlayerEntity` was taken from. -/
def overrideWeapons (c : Constants) (self : Nat) (layerIndex : Nat)
    (newPlayerEntity : EntityHandle) (m : Match) : Except Err Match :=
  match m.getPlayer self with
  | .error e => .error e
  | .ok p =>
    match m.getEntity p.m_playerEntity with
    | .error e => .error e
    | .ok d =>
      match d.weaponWielderComponent with
      | none => .ok m
      | some weapons =>
        match OverrideEntities (cloneWeapon c layerIndex newPlayerEntity) weapons m with
        | .error e => .error e
        | .ok (ws, m1) =>
          .ok (m1.modifyEntity p.m_playerEntity
            (fun x => { x with weaponWielderComponent := some ws }))

/-- The block `if (m_playerEntity) { ... }` of `Player::MoveToLayer` (clone of the
controlled entity and of its weapons into the world of `layerIndex`). -/
def migrateEntity (c : Constants) (self : Nat) (layerIndex : Nat) (m : Match) :
    Except Err Match :=
  match m.getPlayer self with
  | .error e => .error e
  | .ok p =>
    match m.entity? p.m_playerEntity with
    | none => .ok m
    | some _ =>
      match Terrain.GetLayer layerIndex m with
      | .error e => .error e
      | .ok world =>
        let k := World.CloneEntity world p.m_playerEntity m
        let a := k.2.AllocateUniqueId c
        match (a.2.modifyEntity k.1
            (fun x => { x with matchComponent := some ⟨layerIndex, a.1⟩ })).RegisterEntity a.1 k.1 with
        | .error e => .error e
        | .ok m1 =>
          match UpdateControlledEntityWith (fun _ x => .ok x) c self k.1 true true m1 with
          | .error e => .error e
          | .ok m2 =>
            match overrideWeapons c self layerIndex k.1 m2 with
            | .error e => .error e
            | .ok m3 => .ok (m3.modifyPlayer self (fun q => { q with m_shouldSendWeapons := true }))

/-- The method `Player::MoveToLayer`. -/
def MoveToLayer (c : Constants) (self : Nat) (layerIndex : Nat) (m : Match) :
    Except Err Match :=
  match m.getPlayer self with
  | .error e => .error e
  | .ok p =>
    if p.m_layerIndex = layerIndex then .ok m
    else
      let m0 := m.log (Event.gamemode (GamemodeEvent.PlayerLayerUpdate self p.m_layerIndex layerIndex))
      match (if p.m_layerIndex ≠ c.NoLayer then UpdateLayerVisibility self p.m_layerIndex false m0
             else .ok m0) with
      | .error e => .error e
      | .ok m1 =>
        match (if p.m_layerIndex ≠ c.NoLayer ∧ layerIndex ≠ c.NoLayer then
                 migrateEntity c self layerIndex m1
               else .ok (m1.modifyPlayer self (fun q => { q with m_playerEntity := none }))) with
        | .error e => .error e
        | .ok m2 =>
          let m3 := m2.modifyPlayer self (fun q => { q with m_layerIndex := layerIndex })
          match m3.getPlayer self with
          | .error e => .error e
          | .ok p3 =>
            let m4 := m3.log (Event.visibility p3.m_session
              (VisibilityCall.PushLayerUpdate p3.m_localIndex p3.m_layerIndex))
            if layerIndex ≠ c.NoLayer then UpdateLayerVisibility self layerIndex true m4
            else .ok m4

/-- The method `Player::UpdateControlledEntity`. -/
def UpdateControlledEntity (c : Constants) (self : Nat) (entity : EntityHandle)
    (sendPacket ignoreLayerUpdate : Bool) (m : Match) : Except Err Match :=
  UpdateControlledEntityWith (MoveToLayer c self) c self entity sendPacket ignoreLayerUpdate m

end Player

/-! ## Histories of the registry -/

namespace Match

/-- Destruction of entity `h` as the registry sees it: the `OnEntityDestruction`
signal fires, then every handle to the entity becomes invalid. -/
def DestroyEntity (h : Nat) (m : Match) : Match :=
  let m1 := m.OnEntityDestruction h
  { m1 with entities := m1.entities.modify (fun d => { d with alive := false }) h }

end Match

/-- The two events that change the registry. -/
inductive RegistryOp where
  | register (uniqueId : Nat) (entity : EntityHandle)
  | destroy (entity : Nat)
deriving DecidableEq, Repr

namespace Match

def applyOp (m : Match) : RegistryOp → Except Err Match
  | .register uniqueId entity => m.RegisterEntity uniqueId entity
  | .destroy h => .ok (m.DestroyEntity h)

def runOps : List RegistryOp → Match → Except Err Match
  | [], m => .ok m
  | op :: ops, m =>
    match m.applyOp op with
    | .error e => .error e
    | .ok m1 => runOps ops m1

/-- Whether `entity` is the value of some registry entry. -/
def isRegistered (entity : EntityHandle) (m : Match) : Bool :=
  m.m_entitiesByUniqueId.any (fun kv => decide (kv.2.entity = entity))

/-- Whether every `register` of the history is given an entity that is not
registered at that moment. -/
def freshOps : List RegistryOp → Match → Bool
  | [], _ => true
  | op :: ops, m =>
    (match op with
      | .register _ entity => !m.isRegistered entity
      | .destroy _ => true) &&
    (match m.applyOp op with
      | .error _ => true
      | .ok m1 => freshOps ops m1)

end Match

namespace Spec

/-- The registry of the specification, `resolve(id) -> entity | none`:
`register(id, entity)` makes `id` resolve to `entity`; the destruction of an
entity removes every mapping to it. -/
def resolveStep (r : Nat → EntityHandle) : RegistryOp → Nat → EntityHandle
  | .register uniqueId entity => fun k => if k = uniqueId then entity else r k
  | .destroy h => fun k => if r k = some h then none else r k

/-- What `resolve` answers after a history of registrations and destructions. -/
def resolveAfter (ops : List RegistryOp) (r : Nat → EntityHandle) : Nat → EntityHandle :=
  ops.foldl resolveStep r

end Spec

/-- Every entry's slot listens to the entry's own entity and captured the entry's own key. -/
def RegistryWF (reg : List (Nat × Match.Entity)) : Prop :=
  ∀ kv ∈ reg, ∃ h, kv.2 = { entity := some h, onDestruction := some ⟨h, kv.1⟩ }

/-- The registry invariant: keys are pairwise different and every slot is tied
to its own entry. -/
def RegistryInv (m : Match) : Prop :=
  (m.m_entitiesByUniqueId.map Prod.fst).Nodup ∧ RegistryWF m.m_entitiesByUniqueId

/-! ## Example states -/

namespace Examples

def consts : Constants :=
  { NoLayer := 65535, InvalidEntityId := 0, entityIdCount := 18446744073709551616,
    broadcastOnlyReady := true }

def hero : EntityData :=
  { alive := true, world := 0, id := 0, matchComponent := some ⟨0, 5⟩
    ownerComponent := some (some 0), playerControlledComponent := some (some 0)
    weaponWielderComponent := some [some 1], healthComponent := true, scriptComponent := true
    nodeComponent := some none, networkSyncComponent := some none, weaponComponent := none }

def sword : EntityData :=
  { alive := true, world := 0, id := 1, matchComponent := some ⟨0, 6⟩
    ownerComponent := none, playerControlledComponent := none
    weaponWielderComponent := none, healthComponent := false, scriptComponent := true
    nodeComponent := some (some 0), networkSyncComponent := some (some 0)
    weaponComponent := some (some 0) }

def alice : Player :=
  { Match.newPlayer consts 0 0 0 "alice" with
    m_layerIndex := 0, m_isReady := true, m_playerEntity := some 0,
    m_visibleLayers := [true], m_onPlayerEntityDied := some 0,
    m_onPlayerEntityDestruction := some 0, m_onWeaponAdded := some 0, m_onWeaponRemove := some 0 }

def bob : Player :=
  { Match.newPlayer consts 1 1 0 "bob" with
    m_layerIndex := 0, m_isReady := true, m_visibleLayers := [true] }

/-- Two layers, two ready players; alice controls `hero` (unique id 5), which wields `sword` (6). -/
def arena : Match :=
  { m_maxPlayerCount := 4, m_nextUniqueId := 7
    m_entitiesByUniqueId :=
      [(5, { entity := some 0, onDestruction := some ⟨0, 5⟩ }),
       (6, { entity := some 1, onDestruction := some ⟨1, 6⟩ })]
    m_players := [some alice, some bob], m_freePlayerId := [false, false], m_sessions := [0, 1]
    layerCount := 2, entities := [hero, sword], trace := [] }

def settings2 : MatchSettings :=
  { maxPlayerCount := 2, mapFreeUniqueId := 10, mapLayerCount := 2 }

/-- Scenario 1 on a fresh match with `maxPlayerCount = 2`: connect A, connect B,
disconnect A, connect C. The result lists the three `CreatePlayer` results. -/
def scenario1 : Except Err (Option Nat × Option Nat × Option Nat) :=
  match Match.CreatePlayer consts 0 0 "A" (Match.init settings2) with
  | .error e => .error e
  | .ok (a, m1) =>
    match Match.CreatePlayer consts 1 0 "B" m1 with
    | .error e => .error e
    | .ok (b, m2) =>
      match Match.RemovePlayer consts 0 DisconnectionReason.PlayerLeft m2 with
      | .error e => .error e
      | .ok m3 =>
        match Match.CreatePlayer consts 2 0 "C" m3 with
        | .error e => .error e
        | .ok (c, _) => .ok (a, b, c)

/-- One live entity, nothing registered. -/
def lonely : Match :=
  { arena with m_entitiesByUniqueId := [], m_players := [], m_freePlayerId := [] }

/-- The entity 0 registered under the ids 1 and 2. -/
def twice : List RegistryOp :=
  [RegistryOp.register 1 (some 0), RegistryOp.register 2 (some 0)]

/-- Registration of two entities and destruction of the first. -/
def history : List RegistryOp :=
  [RegistryOp.register 1 (some 0), RegistryOp.register 2 (some 1), RegistryOp.destroy 0]

/-- The state a run ends in (`lonely` if the run fails). -/
def resultOf (r : Except Err Match) : Match :=
  match r with
  | .ok m => m
  | .error _ => lonely

def afterHistory : Match := resultOf (Match.runOps history lonely)

def afterRegistrations : Match := resultOf (Match.runOps (history.take 2) lonely)

/-- The state `arena` with room for two players only: both slots are occupied. -/
def crowded : Match :=
  { arena with m_maxPlayerCount := 2 }

/-- The state after alice (player 0 of `arena`) has been moved from layer 0 to layer 1. -/
def afterMove : Match := resultOf (Player.MoveToLayer consts 0 1 arena)

/-- The state after bob (player 1 of `arena`) has taken control of `sword`. -/
def afterControl : Match := resultOf (Player.UpdateControlledEntity consts 1 (some 1) true false arena)

end Examples

/-! ## Relations between the state before and after a call -/

/-- The event, if it hands a `PlayerControlEntity` packet to a player, carries `uid`. -/
def CtlId (uid : Nat) (ev : Event) : Prop :=
  ∀ q pi id, ev = Event.send q (Packet.PlayerControlEntity pi id) → id = uid

/-- What a call made on behalf of `player` leaves in place: the trace is
only extended (and every `PlayerControlEntity` packet sent carries `uid`), every
registered id keeps its entry, every live entity stays live with the same
`MatchComponent`, the layer count is unchanged, and the player keeps its slot,
session, local index and player index; when `strict`, also its layer index and
visible layers. -/
structure Step (strict : Bool) (uid player : Nat) (m m1 : Match) : Prop where
  trace : ∃ mid, m1.trace = m.trace ++ mid ∧ ∀ ev ∈ mid, CtlId uid ev
  reg : ∀ k x, Match.findEntity m.m_entitiesByUniqueId k = some x →
    Match.findEntity m1.m_entitiesByUniqueId k = some x
  ent : ∀ h d, m.entity? h = some d →
    ∃ d1, m1.entity? h = some d1 ∧ d1.matchComponent = d.matchComponent
  layerCount : m1.layerCount = m.layerCount
  keeps : ∀ p, m.player? player = some p →
    ∃ p1, m1.player? player = some p1 ∧ p1.m_session = p.m_session ∧
      p1.m_localIndex = p.m_localIndex ∧ p1.m_playerIndex = p.m_playerIndex ∧
      (strict = true →
        p1.m_layerIndex = p.m_layerIndex ∧ p1.m_visibleLayers = p.m_visibleLayers)

/-- Player `self` exists and its `m_playerEntity` is the handle `g`. -/
def Controls (self : Nat) (g : EntityHandle) (m : Match) : Prop :=
  ∃ p, m.player? self = some p ∧ p.m_playerEntity = g

/-! ## The state an exception leaves behind -/

namespace Player

/-- The statements of `Player::MoveToLayer` that come before its last one,
`if (m_layerIndex != NoLayer) UpdateLayerVisibility(m_layerIndex, true);`.
Nothing is rolled back when that last call throws, so this is the state the
exception leaves behind. -/
def moveToLayerBeforeShow (c : Constants) (self : Nat) (layerIndex : Nat) (m : Match) :
    Except Err Match :=
  match m.getPlayer self with
  | .error e => .error e
  | .ok p =>
    if p.m_layerIndex = layerIndex then .ok m
    else
      let m0 := m.log (Event.gamemode (GamemodeEvent.PlayerLayerUpdate self p.m_layerIndex layerIndex))
      match (if p.m_layerIndex ≠ c.NoLayer then UpdateLayerVisibility self p.m_layerIndex false m0
             else .ok m0) with
      | .error e => .error e
      | .ok m1 =>
        match (if p.m_layerIndex ≠ c.NoLayer ∧ layerIndex ≠ c.NoLayer then
                 migrateEntity c self layerIndex m1
               else .ok (m1.modifyPlayer self (fun q => { q with m_playerEntity := none }))) with
        | .error e => .error e
        | .ok m2 =>
          let m3 := m2.modifyPlayer self (fun q => { q with m_layerIndex := layerIndex })
          match m3.getPlayer self with
          | .error e => .error e
          | .ok p3 =>
            .ok (m3.log (Event.visibility p3.m_session
              (VisibilityCall.PushLayerUpdate p3.m_localIndex p3.m_layerIndex)))

end Player

namespace Examples

/-- The state in which `MoveToLayer(5)` of bob (player 1 of `arena`, two layers) throws. -/
def strandedMove : Match := resultOf (Player.moveToLayerBeforeShow consts 1 5 arena)

/-- The state after alice (player 0 of `arena`) was asked to show layer 0, which she already sees. -/
def shownAgain : Match := resultOf (Player.UpdateLayerVisibility 0 0 true arena)

end Examples

namespace Examples

/-- The state after bob (player 1 of `arena`) has been moved from layer 0 to `NoLayer`. -/
def afterLeave : Match := resultOf (Player.MoveToLayer consts 1 65535 arena)

end Examples

/-! ## Who receives a broadcast -/

namespace Match

/-- The slots `BroadcastPacket` hands the packet to, in slot order. -/
def recipients (onlyReady : Bool) (except : Option Nat) (m : Match) : List Nat :=
  (m.livePlayers.filter
    (fun ip => (!onlyReady || ip.2.m_isReady) && decide (some ip.1 ≠ except))).map Prod.fst

end Match

/-- The event neither hands a `PlayerControlEntity` packet to anybody nor is a
`SetEntityControlledStatus` call on a session's visibility. -/
def NoCtl (ev : Event) : Prop :=
  (∀ q pi id, ev ≠ Event.send q (Packet.PlayerControlEntity pi id)) ∧
  ∀ s l i b, ev ≠ Event.visibility s (VisibilityCall.SetEntityControlledStatus l i b)

namespace Examples

/-- The state after bob (player 1 of `arena`, no controlled entity) called
`UpdateControlledEntity` with an empty target and `sendPacket`. -/
def afterRelease : Match := resultOf (Player.UpdateControlledEntity consts 1 none true false arena)

end Examples

/-- What a call that neither touches entities nor the registry leaves in place for
`player`: entities, registry, id counter, layer count and free slots are
unchanged, every other player is unchanged, `player` keeps its slot, readiness,
indices, session, name and death hooks, and the trace is extended by events that
carry no `PlayerControlEntity` packet and set no controlled status. -/
structure Quiet (player : Nat) (m m1 : Match) : Prop where
  entities : m1.entities = m.entities
  reg : m1.m_entitiesByUniqueId = m.m_entitiesByUniqueId
  next : m1.m_nextUniqueId = m.m_nextUniqueId
  layerCount : m1.layerCount = m.layerCount
  free : m1.m_freePlayerId = m.m_freePlayerId
  others : ∀ i, i ≠ player → m1.player? i = m.player? i
  keeps : ∀ p, m.player? player = some p →
    ∃ p1, m1.player? player = some p1 ∧ p1.m_isReady = p.m_isReady ∧
      p1.m_playerIndex = p.m_playerIndex ∧ p1.m_session = p.m_session ∧
      p1.m_localIndex = p.m_localIndex ∧ p1.m_name = p.m_name ∧
      p1.m_onPlayerEntityDied = p.m_onPlayerEntityDied ∧
      p1.m_onPlayerEntityDestruction = p.m_onPlayerEntityDestruction
  trace : ∃ mid, m1.trace = m.trace ++ mid ∧ ∀ ev ∈ mid, NoCtl ev

/-- An entity once `UpdateControlledEntity` has removed its `OwnerComponent` and
`PlayerControlledComponent`. -/
def releasedData (d : EntityData) : EntityData :=
  { d with ownerComponent := none, playerControlledComponent := none }

/-- An entity once `UpdateControlledEntity` has given it the `OwnerComponent` and
`PlayerControlledComponent` of player `self`. -/
def controlledData (self : Nat) (d : EntityData) : EntityData :=
  { d with ownerComponent := some (some self), playerControlledComponent := some (some self) }

namespace Examples

/-- The state `arena` in which bob (player 1) is connected but has not yet reported ready. -/
def waiting : Match :=
  { arena with m_players := [some alice, some { bob with m_isReady := false }] }

end Examples

/-! ## Death of the controlled entity -/

namespace Player

/-- The content of the chat packet built by `Player::OnDeath`. `playerKiller` is the
`Player*` that `GetOwner()` returns: the null pointer when the handle of the
`OwnerComponent` is null, and it is dereferenced whenever it differs from `this`. -/
def deathMessage (self : Nat) (attacker : EntityHandle) (m : Match) : Except Err String :=
  match m.getPlayer self with
  | .error e => .error e
  | .ok p =>
    match m.entity? attacker with
    | some a =>
      match a.ownerComponent with
      | some playerKiller =>
        if playerKiller ≠ some self then
          match playerKiller with
          | none => .error .invalidHandle
          | some killer =>
            match m.getPlayer killer with
            | .error e => .error e
            | .ok k => .ok (k.m_name ++ " killed " ++ p.m_name)
        else .ok (p.m_name ++ " suicided")
      | none => .ok (p.m_name ++ " suicided")
    | none => .ok (p.m_name ++ " suicided")

/-- The method `Player::OnDeath`. The call `UpdateControlledEntity(InvalidHandle, false)`
leaves `ignoreLayerUpdate` to its default argument, declared in a header outside
the translated sources and taken as a parameter. The `PlayerDeath` callback
receives the attacker when it has a `ScriptComponent`, `nil` otherwise. -/
def OnDeath (c : Constants) (ignoreLayerUpdate : Bool) (self : Nat) (attacker : EntityHandle)
    (m : Match) : Except Err Match :=
  match m.getPlayer self with
  | .error e => .error e
  | .ok p =>
    match m.entity? p.m_playerEntity with
    | none => .error .assertion
    | some _ =>
      match UpdateControlledEntity c self none false ignoreLayerUpdate m with
      | .error e => .error e
      | .ok m1 =>
        match deathMessage self attacker m1 with
        | .error e => .error e
        | .ok content =>
          let m2 := m1.logAll (m1.livePlayers.map
            (fun ip => Event.send ip.1 (Packet.ChatMessage none none content)))
          let table : EntityHandle :=
            match m2.entity? attacker with
            | some a => if a.scriptComponent then attacker else none
            | none => none
          .ok (m2.log (Event.gamemode (GamemodeEvent.PlayerDeath self table)))

/-- The slot `m_onPlayerEntityDied` of player `self` when the `OnDied` signal of the
`HealthComponent` of entity `h` fires: a connected slot runs its lambda
`OnDeath(attacker)`. -/
def onPlayerEntityDied (c : Constants) (ignoreLayerUpdate : Bool) (self h : Nat)
    (attacker : EntityHandle) (m : Match) : Except Err Match :=
  match m.player? self with
  | none => .ok m
  | some p =>
    if p.m_onPlayerEntityDied = some h then OnDeath c ignoreLayerUpdate self attacker m
    else .ok m

/-- The slot `m_onPlayerEntityDestruction` of player `self` when the
`OnEntityDestruction` signal of entity `h` fires: a connected slot runs its lambda
`OnDeath(InvalidHandle)`. -/
def onPlayerEntityDestruction (c : Constants) (ignoreLayerUpdate : Bool) (self h : Nat)
    (m : Match) : Except Err Match :=
  match m.player? self with
  | none => .ok m
  | some p =>
    if p.m_onPlayerEntityDestruction = some h then OnDeath c ignoreLayerUpdate self none m
    else .ok m

/-- Destruction of entity `h` as player `self` and the registry see it: the
`OnEntityDestruction` signal reaches the player's slot and the registry's slots,
then every handle to the entity becomes invalid. -/
def entityDestroyed (c : Constants) (ignoreLayerUpdate : Bool) (self h : Nat) (m : Match) :
    Except Err Match :=
  match onPlayerEntityDestruction c ignoreLayerUpdate self h m with
  | .error e => .error e
  | .ok m1 => .ok (m1.DestroyEntity h)

end Player

namespace Examples

/-- The state after alice (player 0 of `arena`) has taken control of `hero` through
`UpdateControlledEntity(hero, false, true)`. -/
def afterReclaim : Match := resultOf (Player.UpdateControlledEntity consts 0 (some 0) false true arena)

end Examples

/-! ## Player slots and the free-slot bitset -/

namespace Match

/-- The statements of `Match::RemovePlayer` up to and including `it->reset()`, which
runs the destructor of the player; the statement that follows marks the index
free in `m_freePlayerId`. -/
def removePlayerBeforeFree (c : Constants) (player : Nat) (m : Match) : Except Err Match :=
  match m.player? player with
  | none => .error .assertion
  | some p =>
    let m1 := m.log (Event.gamemode (GamemodeEvent.PlayerLeave player))
    let m2 := if p.m_isReady then
        m1.BroadcastPacket (Packet.PlayerLeaving (p.m_playerIndex % 65536)) c.broadcastOnlyReady none
      else m1
    .ok (destroyPlayer player p m2)

end Match

/-- The slot invariant of `Match`: `m_players` and `m_freePlayerId` have the same
size, and a slot whose bit is set in `m_freePlayerId` is empty. -/
def SlotsInv (m : Match) : Prop :=
  m.m_players.length = m.m_freePlayerId.length ∧
  ∀ i, Bitset.Test m.m_freePlayerId i = true → m.player? i = none

/-! ## Ticks -/

namespace Player

/-- The loop of `Player::OnTick` over `weaponWielder.GetWeapons()`: every weapon handle
is asserted valid; its id goes, as a 32-bit value, to the end of
`weaponPacket.weaponEntities`, and is set in the bitset `weaponIds`. -/
def collectWeapons (m : Match) : List EntityHandle → List Nat × List Bool →
    Except Err (List Nat × List Bool)
  | [], acc => .ok acc
  | weapon :: rest, acc =>
    match m.entity? weapon with
    | none => .error .assertion
    | some dw =>
      collectWeapons m rest (acc.1 ++ [dw.id % 4294967296], Bitset.UnboundedSet acc.2 dw.id true)

/-- The method `Player::OnTick`. The bitset handed to `PushEntitiesPacket` is recorded
by the indices of its set bits. -/
def OnTick (self : Nat) (lastTick : Bool) (m : Match) : Except Err Match :=
  match m.getPlayer self with
  | .error e => .error e
  | .ok p =>
    if lastTick && p.m_shouldSendWeapons then
      match m.getEntity p.m_playerEntity with
      | .error e => .error e
      | .ok d =>
        match (match d.weaponWielderComponent with
            | some weapons => collectWeapons m weapons ([], [])
            | none => .ok ([], [])) with
        | .error e => .error e
        | .ok (weaponEntities, weaponIds) =>
          .ok ((m.log (Event.visibility p.m_session
              (VisibilityCall.PushEntitiesPacket p.m_layerIndex (Bitset.setBits weaponIds)
                (Packet.PlayerWeapons p.m_localIndex p.m_layerIndex weaponEntities)))).modifyPlayer
            self (fun q => { q with m_shouldSendWeapons := false }))
    else .ok m

/-- The slot `m_onWeaponAdded` of player `self` when the `OnWeaponAdded` signal of the
`WeaponWielderComponent` of entity `h` fires: a connected slot runs the lambda
`onWeaponSetUpdate`, which sets `m_shouldSendWeapons`. -/
def onWeaponAdded (self h : Nat) (m : Match) : Match :=
  match m.player? self with
  | none => m
  | some p =>
    if p.m_onWeaponAdded = some h then
      m.modifyPlayer self (fun q => { q with m_shouldSendWeapons := true })
    else m

/-- The slot `m_onWeaponRemove` of player `self` when the `OnWeaponRemove` signal of the
`WeaponWielderComponent` of entity `h` fires: the same lambda as for `m_onWeaponAdded`. -/
def onWeaponRemove (self h : Nat) (m : Match) : Match :=
  match m.player? self with
  | none => m
  | some p =>
    if p.m_onWeaponRemove = some h then
      m.modifyPlayer self (fun q => { q with m_shouldSendWeapons := true })
    else m

end Player

/-- A change of the weapon set of the entity `wielder`, as the signals of its
`WeaponWielderComponent` report it. -/
inductive WeaponEvent where
  | added (wielder : Nat)
  | removed (wielder : Nat)
deriving DecidableEq, Repr

namespace Player

def onWeaponEvent (self : Nat) (m : Match) : WeaponEvent → Match
  | .added h => onWeaponAdded self h m
  | .removed h => onWeaponRemove self h m

/-- A sequence of weapon-set changes, seen by the slots of player `self`. -/
def onWeaponEvents (self : Nat) (evs : List WeaponEvent) (m : Match) : Match :=
  evs.foldl (onWeaponEvent self) m

end Player

namespace Terrain

/-- Modelled from the spec: `Terrain::Update` is not among the translated sources;
`update(dt)` ticks every layer, which the trace records as one event. -/
def Update (m : Match) : Match :=
  m.log Event.terrainUpdate

end Terrain

namespace Match

/-- The loop `ForEachPlayer([&](Player* player) { player->OnTick(lastTick); })` over the
given slots; every call is recorded in the trace before it runs. -/
def tickPlayers (lastTick : Bool) : List Nat → Match → Except Err Match
  | [], m => .ok m
  | i :: rest, m =>
    match Player.OnTick i lastTick (m.log (Event.playerOnTick i lastTick)) with
    | .error e => .error e
    | .ok m1 => tickPlayers lastTick rest m1

/-- The method `Match::OnTick`. The hooks `MatchClientSession::OnTick` and
`MatchClientSession::Update` belong to classes outside the translated sources and
are recorded as events, for the sessions of `m_sessions` in their order. -/
def OnTick (lastTick : Bool) (m : Match) : Except Err Match :=
  let m1 := m.logAll (m.m_sessions.map Event.sessionOnTick)
  match tickPlayers lastTick (m1.livePlayers.map Prod.fst) m1 with
  | .error e => .error e
  | .ok m2 =>
    let m3 := m2.log (Event.gamemode GamemodeEvent.Tick)
    let m4 := Terrain.Update m3
    .ok (m4.logAll (m4.m_sessions.map Event.sessionUpdate))

end Match

/-- The ids of the live entities among the handles `ws`, in the order of `ws`. -/
def liveIds (m : Match) (ws : List EntityHandle) : List Nat :=
  ws.filterMap (fun w => (m.entity? w).map (fun d => d.id))

/-- Whether the weapon event reaches a connected slot of the player. -/
def WeaponEvent.connected (p : Player) : WeaponEvent → Bool
  | .added h => decide (p.m_onWeaponAdded = some h)
  | .removed h => decide (p.m_onWeaponRemove = some h)

namespace Examples

/-- The state `afterReclaim` once a weapon was added to `hero`: the slot `m_onWeaponAdded`
of alice (player 0) has set her flag `m_shouldSendWeapons`. -/
def armed : Match := Player.onWeaponAdded 0 0 afterReclaim

/-- The state `armed` after `hero` died by the hand of `sword`. -/
def fallen : Match := resultOf (Player.onPlayerEntityDied consts false 0 0 (some 1) armed)

/-- The state `armed` after alice called `UpdateControlledEntity` with an empty target. -/
def released : Match := resultOf (Player.UpdateControlledEntity consts 0 none true false armed)

/-- The state `armed` after alice was moved to `NoLayer`. -/
def parted : Match := resultOf (Player.MoveToLayer consts 0 65535 armed)

/-- The state `afterReclaim` after alice was moved to `NoLayer`. -/
def departed : Match := resultOf (Player.MoveToLayer consts 0 65535 afterReclaim)

end Examples

/-- The slot whose `Player::OnTick` call the event records, if it records one. -/
def Event.tickedPlayer : Event → Option Nat
  | .playerOnTick i _ => some i
  | _ => none

namespace Examples

/-- The state after one last tick of `arena`. -/
def afterTick : Match := resultOf (Match.OnTick true arena)

end Examples

/-! ## Histories of the player slots -/

/-- The two calls that change the player slots. -/
inductive SlotOp where
  | create (session localIndex : Nat) (name : String)
  | remove (player : Nat) (reason : DisconnectionReason)
deriving DecidableEq, Repr

namespace Match

def applySlotOp (c : Constants) (m : Match) : SlotOp → Except Err Match
  | .create session localIndex name =>
    match m.CreatePlayer c session localIndex name with
    | .error e => .error e
    | .ok r => .ok r.2
  | .remove player reason => m.RemovePlayer c player reason

def runSlotOps (c : Constants) : List SlotOp → Match → Except Err Match
  | [], m => .ok m
  | op :: ops, m =>
    match m.applySlotOp c op with
    | .error e => .error e
    | .ok m1 => runSlotOps c ops m1

end Match

/-- The exact slot invariant: `m_players` and `m_freePlayerId` have the same size, at
most `m_maxPlayerCount`; within that size a bit of `m_freePlayerId` is set exactly
when the slot is empty; and the index a player records is that of its slot. -/
def SlotsExact (m : Match) : Prop :=
  m.m_players.length = m.m_freePlayerId.length ∧
  m.m_players.length ≤ m.m_maxPlayerCount ∧
  (∀ i, i < m.m_players.length →
    (Bitset.Test m.m_freePlayerId i = true ↔ m.player? i = none)) ∧
  ∀ i p, m.player? i = some p → p.m_playerIndex = i

namespace Examples

/-- Connect A, connect B, disconnect A, connect C. -/
def comings : List SlotOp :=
  [SlotOp.create 0 0 "A", SlotOp.create 1 0 "B",
   SlotOp.remove 0 DisconnectionReason.PlayerLeft, SlotOp.create 2 0 "C"]

/-- The match of `settings2` with room for four players. -/
def settings4 : MatchSettings :=
  { settings2 with maxPlayerCount := 4 }

def afterComings : Match := resultOf (Match.runSlotOps consts comings (Match.init settings4))

end Examples

/-! ## Histories of a player's layer visibility -/

/-- The states in which the layer visibility of player `self` has been changed only by
`MoveToLayer` calls that returned, since the player was constructed: the player is
fresh (`fresh`), a `MoveToLayer` call on it returned (`move`), or something else
happened that left its `m_layerIndex` and `m_visibleLayers` as they were (`other`). -/
inductive MovedOnly (c : Constants) (self : Nat) : Match → Prop where
  | fresh (m : Match) (session playerIndex localIndex : Nat) (name : String) :
      m.player? self = some (Match.newPlayer c session playerIndex localIndex name) →
      MovedOnly c self m
  | move (m m1 : Match) (layerIndex : Nat) :
      MovedOnly c self m → Player.MoveToLayer c self layerIndex m = .ok m1 →
      MovedOnly c self m1
  | other (m m1 : Match) (p p1 : Player) :
      MovedOnly c self m → m.player? self = some p → m1.player? self = some p1 →
      p1.m_layerIndex = p.m_layerIndex → p1.m_visibleLayers = p.m_visibleLayers →
      MovedOnly c self m1

namespace Examples

/-- The state `arena` in which slot 0 holds a player that has just been constructed. -/
def newcomer : Match :=
  { arena with m_players := [some (Match.newPlayer consts 0 0 0 "carol"), some bob] }

/-- The state after the new player of `newcomer` has been moved to layer 1. -/
def afterEnter : Match := resultOf (Player.MoveToLayer consts 0 1 newcomer)

end Examples

/-! ## The `AddTilemap` binding of the client entity library -/

namespace ClientEntityLibrary

/-- What can go wrong in the cell loop of `AddTilemap`. -/
inductive Fault where
  | divisionByZero
  | outOfRange
  | assertion
deriving DecidableEq, Repr

/-- The two fields of a `TileData` that `AddTilemap` reads; `R` stands for `Nz::Rectf`. -/
structure TileData (R : Type) where
  materialPath : String
  texCoords : R

/-- The lookup `materials.find(path)` in the map from material path to material index,
kept as the list of its entries. -/
def find : List (String × Nat) → String → Option Nat
  | [], _ => none
  | (key, matIndex) :: rest, path => if key = path then some matIndex else find rest path

/-- The loop `for (const auto& tile : tiles)` that fills `materials`. -/
def collectMaterials {R : Type} : List (TileData R) → List (String × Nat) → List (String × Nat)
  | [], materials => materials
  | tile :: rest, materials =>
    match find materials tile.materialPath with
    | some _ => collectMaterials rest materials
    | none => collectMaterials rest (materials ++ [(tile.materialPath, materials.length)])

/-- One turn of the cell loop: the position computed for the cell and, when a tile is
enabled, the arguments `texCoords` and material index of the `EnableTile` call. -/
structure Cell (R : Type) where
  tilePos : Nat × Nat
  tile : Option (R × Nat)

/-- The body of the cell loop for the index `i`. `content` lists the values of the Lua
table from its index 1 on, as read into `unsigned int`; `uintSize` is the number of
values of `unsigned int`, the component type of `Nz::Vector2ui`. -/
def cell {R : Type} (uintSize : Nat) (mapSize : Nat × Nat) (content : List Nat)
    (tiles : List (TileData R)) (materials : List (String × Nat)) (i : Nat) :
    Except Fault (Cell R) :=
  match content[i]? with
  | none => .error .outOfRange
  | some value =>
    if mapSize.1 = 0 then .error .divisionByZero
    else
      let tilePos := ((i % mapSize.1) % uintSize, (i / mapSize.1) % uintSize)
      if value > 0 then
        if value ≤ tiles.length then
          match tiles[value - 1]? with
          | none => .error .outOfRange
          | some tileData =>
            match find materials tileData.materialPath with
            | none => .error .assertion
            | some matIndex => .ok ⟨tilePos, some (tileData.texCoords, matIndex)⟩
        else .ok ⟨tilePos, none⟩
      else .ok ⟨tilePos, none⟩

/-- The loop `for (std::size_t i = 0; i < cellCount; ++i)`, from the index `i` on with
`remaining = cellCount - i` turns to go. -/
def cells {R : Type} (uintSize : Nat) (mapSize : Nat × Nat) (content : List Nat)
    (tiles : List (TileData R)) (materials : List (String × Nat)) :
    (remaining : Nat) → (i : Nat) → Except Fault (List (Cell R))
  | 0, _ => .ok []
  | remaining + 1, i =>
    match cell uintSize mapSize content tiles materials i with
    | .error e => .error e
    | .ok first =>
      match cells uintSize mapSize content tiles materials remaining (i + 1) with
      | .error e => .error e
      | .ok rest => .ok (first :: rest)

/-- The tile map `AddTilemap` builds: its materials and the turns of its cell loop. -/
structure Tilemap (R : Type) where
  materials : List (String × Nat)
  cells : List (Cell R)

/-- The binding `AddTilemap`, from the computation of `materials` to the end of the
cell loop; `none` is the `return {}` taken when there is no material. -/
def AddTilemap {R : Type} (uintSize : Nat) (mapSize : Nat × Nat) (content : List Nat)
    (tiles : List (TileData R)) : Except Fault (Option (Tilemap R)) :=
  let materials := collectMaterials tiles []
  if materials.isEmpty then .ok none
  else
    let cellCount := content.length
    let expectedCellCount := (mapSize.1 * mapSize.2) % uintSize
    let cellCount := if cellCount ≠ expectedCellCount then min cellCount expectedCellCount
      else cellCount
    match cells uintSize mapSize content tiles materials cellCount 0 with
    | .error e => .error e
    | .ok visited => .ok (some ⟨materials, visited⟩)

end ClientEntityLibrary

/-! ## Entities marked controlled in a session's visibility -/

/-- Modelled from the spec: `MatchClientVisibility` is not among the translated
sources. A call `SetEntityControlledStatus(layer, id, true)` on the visibility of
`session` marks the entity `(layer, id)` controlled, and a call with `false`
removes the mark; no other call touches the marks. -/
def markStep (session : Nat) (marks : List (Nat × Nat)) : Event → List (Nat × Nat)
  | Event.visibility s (VisibilityCall.SetEntityControlledStatus layer id controlled) =>
    if s = session then
      if controlled then marks.filter (fun e => e ≠ (layer, id)) ++ [(layer, id)]
      else marks.filter (fun e => e ≠ (layer, id))
    else marks
  | _ => marks

/-- The entities marked controlled in the visibility of `session` once the calls of
`trace` have been made, by layer index and entity id. -/
def controlledMarks (session : Nat) (trace : List Event) : List (Nat × Nat) :=
  trace.foldl (markStep session) []

/-- The layer index and entity id of the entity player `self` controls, if it controls
a live entity that has a `MatchComponent`. -/
def Match.controlledKey (m : Match) (self : Nat) : Option (Nat × Nat) :=
  match m.player? self with
  | none => none
  | some p =>
    match m.entity? p.m_playerEntity with
    | none => none
    | some d => d.matchComponent.map (fun mc => (mc.layerIndex, d.id))

namespace Examples

/-- The state `afterReclaim` after alice called `UpdateControlledEntity` with an empty
target. -/
def letGo : Match := resultOf (Player.UpdateControlledEntity consts 0 none true false afterReclaim)

/-- The state after the new player of `newcomer`, still on `NoLayer`, has taken control
of `hero` through `UpdateControlledEntity(hero, false, true)`. -/
def seized : Match := resultOf (Player.UpdateControlledEntity consts 0 (some 0) false true newcomer)

/-- The state `seized` after the player was moved to layer 0. -/
def strayed : Match := resultOf (Player.MoveToLayer consts 0 0 seized)

end Examples

/-! ## Death by the entity of a player that has left -/

/-- The number of `PlayerDeath` callbacks in a trace. -/
def playerDeaths (trace : List Event) : Nat :=
  trace.countP (fun ev =>
    match ev with
    | Event.gamemode (GamemodeEvent.PlayerDeath _ _) => true
    | _ => false)

namespace Examples

/-- The state `afterControl` (bob controls `sword`) after alice has taken control of
`hero` through `UpdateControlledEntity(hero, false, true)`. -/
def duel : Match := resultOf (Player.UpdateControlledEntity consts 0 (some 0) false true afterControl)

/-- The state `duel` after bob (player 1) has left the match. -/
def bobGone : Match := resultOf (Match.RemovePlayer consts 1 DisconnectionReason.PlayerLeft duel)

/-- The state `bobGone` after a new player has connected; it is given bob's slot. -/
def daveIn : Match :=
  match Match.CreatePlayer consts 2 0 "dave" bobGone with
  | .ok (_, m) => m
  | .error _ => lonely

end Examples

/-! ## Unique ids -/

theorem allocateMany_fst (c : Constants) (n : Nat) (m : Match)
    (h : m.m_nextUniqueId + n ≤ c.entityIdCount) :
    (Match.allocateMany c n m).1 = List.range' m.m_nextUniqueId n := by
  induction n generalizing m with
  | zero => rfl
  | succ k ih =>
    cases k with
    | zero => simp [Match.allocateMany, Match.AllocateUniqueId]
    | succ j =>
      have hlt : m.m_nextUniqueId + 1 < c.entityIdCount := by omega
      have hnext : (Match.AllocateUniqueId c m).2.m_nextUniqueId = m.m_nextUniqueId + 1 := by
        simp [Match.AllocateUniqueId, Nat.mod_eq_of_lt hlt]
      have := ih (Match.AllocateUniqueId c m).2 (by rw [hnext]; omega)
      rw [Match.allocateMany, this, hnext]
      simp [Match.AllocateUniqueId, List.range'_succ]

/-- C1: `AllocateUniqueId` returns the current counter value and increments the
counter by one; the counter is seeded by the constructor with the map's free
unique id; as long as the counter does not overflow, the i-th of `n` successive
calls returns the counter's start value plus `i - 1`, later calls return
strictly larger ids and all returned ids are pairwise different. -/
theorem allocateUniqueId_fresh (c : Constants) (m : Match) (n : Nat)
    (h : m.m_nextUniqueId + n ≤ c.entityIdCount) :
    (∀ s : MatchSettings, (Match.init s).m_nextUniqueId = s.mapFreeUniqueId) ∧
    (Match.AllocateUniqueId c m).1 = m.m_nextUniqueId ∧
    (m.m_nextUniqueId + 1 < c.entityIdCount →
      (Match.AllocateUniqueId c m).2.m_nextUniqueId = m.m_nextUniqueId + 1) ∧
    (Match.allocateMany c n m).1.length = n ∧
    (∀ i, i < n → (Match.allocateMany c n m).1[i]? = some (m.m_nextUniqueId + i)) ∧
    (Match.allocateMany c n m).1.Pairwise (· < ·) ∧
    (Match.allocateMany c n m).1.Nodup := by
  rw [allocateMany_fst c n m h]
  refine ⟨fun _ => rfl, rfl, ?_, by simp, ?_, ?_, List.nodup_range' _ _⟩
  · intro hlt
    simp [Match.AllocateUniqueId, Nat.mod_eq_of_lt hlt]
  · intro i hi
    simp [List.getElem?_range', hi]
  · exact List.pairwise_lt_range' _ _

theorem allocateUniqueId_fresh_witness :
    (Match.allocateMany Examples.consts 3 (Match.init Examples.settings2)).1.Nodup :=
  (allocateUniqueId_fresh Examples.consts (Match.init Examples.settings2) 3 (by decide)).2.2.2.2.2.2

/-! ## Player slots -/

/-- C2: Scenario 1 evaluated on the code: A gets slot 0, B gets slot 1, and after
`RemovePlayer(A)` the next `CreatePlayer` still returns no player, because the
capacity test compares the length of the slot array (which never shrinks) with
`maxPlayerCount`; the freed slot 0 is not handed out. -/
theorem scenario1_third_player_rejected :
    Examples.scenario1 = .ok (some 0, some 1, none) := by
  rfl

theorem length_filter_isSome_le (l : List (Option Player)) :
    (l.filter Option.isSome).length ≤ l.length :=
  List.length_filter_le _ _

/-- C3: when `maxPlayerCount` (or more) player slots are occupied, `CreatePlayer`
returns no player and the whole match state (player array, free-slot bitset,
every player, and the trace of gamemode callbacks) is unchanged. -/
theorem createPlayer_full_rejected (c : Constants) (session localIndex : Nat) (name : String)
    (m : Match) (h : m.m_maxPlayerCount ≤ (m.m_players.filter Option.isSome).length) :
    Match.CreatePlayer c session localIndex name m = .ok (none, m) := by
  have := length_filter_isSome_le m.m_players
  simp only [Match.CreatePlayer]
  rw [if_pos (by omega)]

theorem createPlayer_full_rejected_witness :
    Match.CreatePlayer Examples.consts 2 0 "C" Examples.crowded = .ok (none, Examples.crowded) :=
  createPlayer_full_rejected Examples.consts 2 0 "C" Examples.crowded (by decide)

/-! ## The unique-id registry -/

theorem findEntity_append (reg : List (Nat × Match.Entity)) (id k : Nat) (x : Match.Entity) :
    Match.findEntity (reg ++ [(id, x)]) k =
      match Match.findEntity reg k with
      | some y => some y
      | none => if id = k then some x else none := by
  induction reg with
  | nil => simp [Match.findEntity]
  | cons kv rest ih =>
    by_cases hk : kv.1 = k
    · simp [Match.findEntity, hk]
    · simp [Match.findEntity, hk, ih]

theorem findEntity_filter (reg : List (Nat × Match.Entity)) (q : Nat → Bool) (k : Nat) :
    Match.findEntity (reg.filter (fun kv => q kv.1)) k =
      if q k then Match.findEntity reg k else none := by
  induction reg with
  | nil => simp [Match.findEntity]
  | cons kv rest ih =>
    by_cases hq : q kv.1 = true
    · by_cases hk : kv.1 = k
      · subst hk
        simp [List.filter, hq, Match.findEntity]
      · simp [List.filter, hq, Match.findEntity, hk, ih]
    · by_cases hk : kv.1 = k
      · subst hk
        simp [List.filter, hq, Match.findEntity, ih]
      · simp [List.filter, hq, Match.findEntity, hk, ih]

theorem findEntity_mem (reg : List (Nat × Match.Entity)) (k : Nat) (x : Match.Entity)
    (h : Match.findEntity reg k = some x) : (k, x) ∈ reg := by
  induction reg with
  | nil => simp [Match.findEntity] at h
  | cons kv rest ih =>
    by_cases hk : kv.1 = k
    · simp [Match.findEntity, hk] at h
      subst hk; subst h
      simp
    · simp [Match.findEntity, hk] at h
      exact List.mem_cons_of_mem _ (ih h)

theorem findEntity_of_mem (reg : List (Nat × Match.Entity)) (k : Nat) (x : Match.Entity)
    (hnd : (reg.map Prod.fst).Nodup) (h : (k, x) ∈ reg) : Match.findEntity reg k = some x := by
  induction reg with
  | nil => simp at h
  | cons kv rest ih =>
    simp only [List.map_cons, List.nodup_cons] at hnd
    rcases List.mem_cons.mp h with heq | hmem
    · subst heq
      simp [Match.findEntity]
    · have hne : kv.1 ≠ k := by
        intro hk
        apply hnd.1
        rw [hk]
        exact List.mem_map_of_mem Prod.fst hmem
      simp [Match.findEntity, hne, ih hnd.2 hmem]

theorem foldl_eraseEntity (ids : List Nat) (reg : List (Nat × Match.Entity)) :
    ids.foldl Match.eraseEntity reg = reg.filter (fun kv => decide (kv.1 ∉ ids)) := by
  induction ids generalizing reg with
  | nil => simp
  | cons a rest ih =>
    simp only [List.foldl_cons, ih, Match.eraseEntity, List.filter_filter]
    congr 1
    funext kv
    simp [Bool.and_comm]

theorem mem_connectedIds (reg : List (Nat × Match.Entity)) (hwf : RegistryWF reg) (h k : Nat) :
    k ∈ Match.connectedIds reg h ↔ ∃ x, (k, x) ∈ reg ∧ x.entity = some h := by
  simp only [Match.connectedIds, List.mem_filterMap]
  constructor
  · rintro ⟨kv, hmem, hkv⟩
    obtain ⟨h1, hx⟩ := hwf kv hmem
    rw [hx] at hkv
    by_cases hh : h1 = h
    · simp [hh] at hkv
      refine ⟨kv.2, ?_, ?_⟩
      · rw [← hkv]; exact hmem
      · rw [hx, hh]
    · simp [hh] at hkv
  · rintro ⟨x, hmem, hx⟩
    refine ⟨(k, x), hmem, ?_⟩
    obtain ⟨h1, hx1⟩ := hwf (k, x) hmem
    simp only at hx1
    rw [hx1] at hx ⊢
    simp only [Option.some.injEq] at hx
    simp [hx]

theorem findEntity_eq_none (reg : List (Nat × Match.Entity)) (k : Nat)
    (h : Match.findEntity reg k = none) : k ∉ reg.map Prod.fst := by
  induction reg with
  | nil => simp
  | cons kv rest ih =>
    by_cases hk : kv.1 = k
    · simp [Match.findEntity, hk] at h
    · simp only [Match.findEntity, hk, if_false] at h
      simp only [List.map_cons, List.mem_cons, not_or]
      exact ⟨fun e => hk e.symm, ih h⟩

theorem registerEntity_ok (uniqueId : Nat) (entity : EntityHandle) (m m1 : Match)
    (h : m.RegisterEntity uniqueId entity = .ok m1) :
    Match.findEntity m.m_entitiesByUniqueId uniqueId = none ∧
    ∃ e, entity = some e ∧ (m.entity? (some e)).isSome ∧
      m1 = { m with m_entitiesByUniqueId :=
        m.m_entitiesByUniqueId ++
          [(uniqueId, { entity := some e, onDestruction := some ⟨e, uniqueId⟩ })] } := by
  unfold Match.RegisterEntity at h
  cases hf : Match.findEntity m.m_entitiesByUniqueId uniqueId with
  | some x => simp [hf] at h
  | none =>
    refine ⟨rfl, ?_⟩
    simp only [hf] at h
    cases entity with
    | none => simp at h
    | some e =>
      cases he : m.entity? (some e) with
      | none => simp [he] at h
      | some d =>
        simp only [he, Except.ok.injEq] at h
        exact ⟨e, rfl, by rw [he]; rfl, h.symm⟩

theorem onEntityDestruction_registry (h : Nat) (m : Match) :
    (m.OnEntityDestruction h).m_entitiesByUniqueId =
      m.m_entitiesByUniqueId.filter
        (fun kv => decide (kv.1 ∉ Match.connectedIds m.m_entitiesByUniqueId h)) := by
  simp [Match.OnEntityDestruction, foldl_eraseEntity]

theorem registryInv_filter (m : Match) (q : Nat × Match.Entity → Bool) (hinv : RegistryInv m) :
    ((m.m_entitiesByUniqueId.filter q).map Prod.fst).Nodup ∧
      RegistryWF (m.m_entitiesByUniqueId.filter q) := by
  refine ⟨List.Nodup.sublist ((List.filter_sublist _).map _) hinv.1, ?_⟩
  intro kv hkv
  exact hinv.2 kv (List.mem_of_mem_filter hkv)

theorem retrieve_destroy (h : Nat) (m : Match) (hinv : RegistryInv m) (k : Nat) :
    (m.OnEntityDestruction h).RetrieveEntityByUniqueId k =
      if m.RetrieveEntityByUniqueId k = some h then none else m.RetrieveEntityByUniqueId k := by
  simp only [Match.RetrieveEntityByUniqueId, onEntityDestruction_registry]
  rw [findEntity_filter m.m_entitiesByUniqueId
    (fun k => decide (k ∉ Match.connectedIds m.m_entitiesByUniqueId h)) k]
  by_cases hk : k ∈ Match.connectedIds m.m_entitiesByUniqueId h
  · obtain ⟨x, hmem, hx⟩ := (mem_connectedIds _ hinv.2 h k).mp hk
    have hf := findEntity_of_mem _ k x hinv.1 hmem
    simp [hk, hf, hx]
  · simp only [hk, not_false_eq_true, decide_True, if_true]
    cases hf : Match.findEntity m.m_entitiesByUniqueId k with
    | none => simp
    | some x =>
      have hne : x.entity ≠ some h := by
        intro hx
        exact hk ((mem_connectedIds _ hinv.2 h k).mpr ⟨x, findEntity_mem _ k x hf, hx⟩)
      simp [hne]

theorem retrieve_register (uniqueId : Nat) (entity : EntityHandle) (m m1 : Match)
    (h : m.RegisterEntity uniqueId entity = .ok m1) (k : Nat) :
    m1.RetrieveEntityByUniqueId k =
      if k = uniqueId then entity else m.RetrieveEntityByUniqueId k := by
  obtain ⟨hnone, e, he, _, hm1⟩ := registerEntity_ok uniqueId entity m m1 h
  subst hm1
  simp only [Match.RetrieveEntityByUniqueId, findEntity_append]
  by_cases hk : k = uniqueId
  · subst hk
    simp [hnone, he]
  · have hk2 : ¬ uniqueId = k := fun e => hk e.symm
    simp only [hk, hk2, if_false]
    cases Match.findEntity m.m_entitiesByUniqueId k <;> rfl

theorem registryInv_register (uniqueId : Nat) (entity : EntityHandle) (m m1 : Match)
    (hinv : RegistryInv m) (h : m.RegisterEntity uniqueId entity = .ok m1) : RegistryInv m1 := by
  obtain ⟨hnone, e, he, _, hm1⟩ := registerEntity_ok uniqueId entity m m1 h
  subst hm1
  constructor
  · simp only [List.map_append, List.map_cons, List.map_nil]
    rw [List.nodup_append]
    refine ⟨hinv.1, by simp, ?_⟩
    intro a ha hb
    simp only [List.mem_singleton] at hb
    subst hb
    exact findEntity_eq_none _ _ hnone ha
  · intro kv hkv
    rcases List.mem_append.mp hkv with hl | hr
    · exact hinv.2 kv hl
    · simp only [List.mem_singleton] at hr
      subst hr
      exact ⟨e, rfl⟩

theorem registryInv_destroy (h : Nat) (m : Match) (hinv : RegistryInv m) :
    RegistryInv (m.DestroyEntity h) := by
  have := registryInv_filter m
    (fun kv => decide (kv.1 ∉ Match.connectedIds m.m_entitiesByUniqueId h)) hinv
  simpa [RegistryInv, Match.DestroyEntity, onEntityDestruction_registry] using this

theorem retrieve_destroyEntity (h : Nat) (m : Match) (k : Nat) :
    (m.DestroyEntity h).RetrieveEntityByUniqueId k =
      (m.OnEntityDestruction h).RetrieveEntityByUniqueId k := rfl

theorem applyOp_sim (m m1 : Match) (op : RegistryOp) (r : Nat → EntityHandle)
    (hinv : RegistryInv m) (hr : ∀ k, m.RetrieveEntityByUniqueId k = r k)
    (h : m.applyOp op = .ok m1) :
    RegistryInv m1 ∧ ∀ k, m1.RetrieveEntityByUniqueId k = Spec.resolveStep r op k := by
  cases op with
  | register uniqueId entity =>
    refine ⟨registryInv_register uniqueId entity m m1 hinv h, fun k => ?_⟩
    rw [retrieve_register uniqueId entity m m1 h k, hr]
    rfl
  | destroy e =>
    simp only [Match.applyOp, Except.ok.injEq] at h
    subst h
    refine ⟨registryInv_destroy e m hinv, fun k => ?_⟩
    rw [retrieve_destroyEntity, retrieve_destroy e m hinv k, hr]
    rfl

theorem runOps_sim (ops : List RegistryOp) (m m1 : Match) (r : Nat → EntityHandle)
    (hinv : RegistryInv m) (hr : ∀ k, m.RetrieveEntityByUniqueId k = r k)
    (h : Match.runOps ops m = .ok m1) :
    RegistryInv m1 ∧ ∀ k, m1.RetrieveEntityByUniqueId k = Spec.resolveAfter ops r k := by
  induction ops generalizing m r with
  | nil =>
    simp only [Match.runOps, Except.ok.injEq] at h
    subst h
    exact ⟨hinv, hr⟩
  | cons op ops ih =>
    simp only [Match.runOps] at h
    cases hstep : m.applyOp op with
    | error e => simp [hstep] at h
    | ok m2 =>
      simp only [hstep] at h
      obtain ⟨hinv2, hr2⟩ := applyOp_sim m m2 op r hinv hr hstep
      exact ih m2 (Spec.resolveStep r op) hinv2 hr2 h

theorem registryInv_empty (m : Match) (h : m.m_entitiesByUniqueId = []) : RegistryInv m := by
  simp [RegistryInv, RegistryWF, h]

/-- C4: `RegisterEntity` called with an id that is already a key of the registry
ends in an assertion failure, so it yields no state in which the existing
mapping is overwritten or doubled; a call that does return found the id absent. -/
theorem registerEntity_duplicate_asserts (uniqueId : Nat) (entity : EntityHandle) (m : Match)
    (h : (Match.findEntity m.m_entitiesByUniqueId uniqueId).isSome) :
    m.RegisterEntity uniqueId entity = .error .assertion ∧
    (∀ m1, m.RegisterEntity uniqueId entity ≠ .ok m1) ∧
    (∀ k e m1, m.RegisterEntity k e = .ok m1 →
      Match.findEntity m.m_entitiesByUniqueId k = none) := by
  have herr : m.RegisterEntity uniqueId entity = .error .assertion := by
    unfold Match.RegisterEntity
    cases hf : Match.findEntity m.m_entitiesByUniqueId uniqueId with
    | none => simp [hf] at h
    | some x => rfl
  refine ⟨herr, ?_, ?_⟩
  · intro m1 hm1
    rw [herr] at hm1
    cases hm1
  · intro k e m1 hm1
    exact (registerEntity_ok k e m m1 hm1).1

theorem registerEntity_duplicate_asserts_witness :
    (Match.findEntity Examples.arena.m_entitiesByUniqueId 5).isSome ∧
    Examples.arena.RegisterEntity 5 (some 1) = .error .assertion :=
  ⟨by decide, (registerEntity_duplicate_asserts 5 (some 1) Examples.arena (by decide)).1⟩

/-- C5: after any history of registrations and entity destructions that starts
from an empty registry, `RetrieveEntityByUniqueId` answers what the
specification's `resolve` answers: the entity registered under the id while the
id is registered, the invalid handle for an id never registered or whose mapping
was removed. A further `RegisterEntity(id, e)` makes `id` resolve to `e` and
leaves the answer for every other id unchanged. -/
theorem retrieve_refines_resolve (ops : List RegistryOp) (m0 m : Match)
    (h0 : m0.m_entitiesByUniqueId = []) (hrun : Match.runOps ops m0 = .ok m) :
    (∀ k, m.RetrieveEntityByUniqueId k = Spec.resolveAfter ops (fun _ => none) k) ∧
    (∀ uniqueId entity m1, m.RegisterEntity uniqueId entity = .ok m1 →
      m1.RetrieveEntityByUniqueId uniqueId = entity ∧
      ∀ k, k ≠ uniqueId → m1.RetrieveEntityByUniqueId k = m.RetrieveEntityByUniqueId k) := by
  have hsim := runOps_sim ops m0 m (fun _ => none) (registryInv_empty m0 h0)
    (fun k => by simp [Match.RetrieveEntityByUniqueId, h0, Match.findEntity]) hrun
  refine ⟨hsim.2, ?_⟩
  intro uniqueId entity m1 hreg
  refine ⟨by simp [retrieve_register uniqueId entity m m1 hreg], fun k hk => ?_⟩
  simp [retrieve_register uniqueId entity m m1 hreg, hk]

theorem retrieve_refines_resolve_witness :
    Examples.afterHistory.RetrieveEntityByUniqueId 1 = none ∧
    Examples.afterHistory.RetrieveEntityByUniqueId 2 = some 1 ∧
    Examples.afterHistory.RetrieveEntityByUniqueId 3 = none :=
  have h := (retrieve_refines_resolve Examples.history Examples.lonely Examples.afterHistory
    rfl rfl).1
  ⟨(h 1).trans rfl, (h 2).trans rfl, (h 3).trans rfl⟩

/-- C6: in every registry state reached through registrations and destructions,
when an entity `e` registered under `uniqueId` is destroyed, the firing of its
`OnEntityDestruction` signal alone removes the mapping: afterwards `uniqueId`
resolves to the invalid handle, no entry for `e` is left, and every id that did
not resolve to `e` resolves as before. -/
theorem destruction_removes_mapping (ops : List RegistryOp) (m0 m : Match)
    (h0 : m0.m_entitiesByUniqueId = []) (hrun : Match.runOps ops m0 = .ok m)
    (uniqueId e : Nat) (hreg : m.RetrieveEntityByUniqueId uniqueId = some e) :
    (m.OnEntityDestruction e).RetrieveEntityByUniqueId uniqueId = none ∧
    (m.DestroyEntity e).RetrieveEntityByUniqueId uniqueId = none ∧
    (∀ kv ∈ (m.OnEntityDestruction e).m_entitiesByUniqueId, kv.2.entity ≠ some e) ∧
    (∀ k, m.RetrieveEntityByUniqueId k ≠ some e →
      (m.OnEntityDestruction e).RetrieveEntityByUniqueId k = m.RetrieveEntityByUniqueId k) := by
  have hinv := (runOps_sim ops m0 m (fun _ => none) (registryInv_empty m0 h0)
    (fun k => by simp [Match.RetrieveEntityByUniqueId, h0, Match.findEntity]) hrun).1
  have h1 : (m.OnEntityDestruction e).RetrieveEntityByUniqueId uniqueId = none := by
    rw [retrieve_destroy e m hinv uniqueId, if_pos hreg]
  refine ⟨h1, by rw [retrieve_destroyEntity]; exact h1, ?_, ?_⟩
  · intro kv hkv hent
    rw [onEntityDestruction_registry] at hkv
    have hmem := List.mem_of_mem_filter hkv
    have hq := List.of_mem_filter hkv
    simp only [decide_eq_true_eq] at hq
    exact hq ((mem_connectedIds _ hinv.2 e kv.1).mpr ⟨kv.2, hmem, hent⟩)
  · intro k hk
    rw [retrieve_destroy e m hinv k, if_neg hk]

theorem destruction_removes_mapping_witness :
    Examples.afterRegistrations.RetrieveEntityByUniqueId 1 = some 0 ∧
    (Examples.afterRegistrations.OnEntityDestruction 0).RetrieveEntityByUniqueId 1 = none :=
  ⟨rfl, (destruction_removes_mapping (Examples.history.take 2) Examples.lonely
    Examples.afterRegistrations rfl rfl 1 0 rfl).1⟩

/-- C7, as stated, fails: `RegisterEntity` accepts an entity that is already
registered, so after registering entity 0 under the ids 1 and 2 both ids resolve
to it. -/
theorem registry_not_injective :
    ¬ (∀ m, Match.runOps Examples.twice Examples.lonely = .ok m →
        ∀ k1 k2 e, m.RetrieveEntityByUniqueId k1 = some e →
          m.RetrieveEntityByUniqueId k2 = some e → k1 = k2) := by
  intro h
  have := h (Examples.resultOf (Match.runOps Examples.twice Examples.lonely)) rfl 1 2 0 rfl rfl
  exact absurd this (by decide)

theorem not_isRegistered (entity : EntityHandle) (m : Match) (h : m.isRegistered entity = false) :
    entity ∉ m.m_entitiesByUniqueId.map (fun kv => kv.2.entity) := by
  intro hmem
  obtain ⟨kv, hkv, he⟩ := List.mem_map.mp hmem
  have : m.isRegistered entity = true := by
    simp only [Match.isRegistered, List.any_eq_true, decide_eq_true_eq]
    exact ⟨kv, hkv, he⟩
  rw [h] at this
  cases this

theorem runOps_entities_nodup (ops : List RegistryOp) (m m1 : Match)
    (hnd : (m.m_entitiesByUniqueId.map (fun kv => kv.2.entity)).Nodup)
    (hfresh : Match.freshOps ops m = true) (h : Match.runOps ops m = .ok m1) :
    (m1.m_entitiesByUniqueId.map (fun kv => kv.2.entity)).Nodup := by
  induction ops generalizing m with
  | nil =>
    simp only [Match.runOps, Except.ok.injEq] at h
    subst h
    exact hnd
  | cons op ops ih =>
    simp only [Match.runOps] at h
    cases hstep : m.applyOp op with
    | error e => simp [hstep] at h
    | ok m2 =>
      simp only [hstep] at h
      simp only [Match.freshOps, hstep, Bool.and_eq_true] at hfresh
      refine ih m2 ?_ hfresh.2 h
      cases op with
      | register uniqueId entity =>
        have hnot : m.isRegistered entity = false := by
          have := hfresh.1
          simpa using this
        obtain ⟨_, e, he, _, hm2⟩ := registerEntity_ok uniqueId entity m m2 hstep
        subst hm2
        simp only [List.map_append, List.map_cons, List.map_nil]
        rw [List.nodup_append]
        refine ⟨hnd, by simp, ?_⟩
        intro a ha hb
        simp only [List.mem_singleton] at hb
        subst hb
        exact not_isRegistered entity m hnot (he ▸ ha)
      | destroy e =>
        simp only [Match.applyOp, Except.ok.injEq] at hstep
        subst hstep
        simp only [Match.DestroyEntity, onEntityDestruction_registry]
        exact List.Nodup.sublist ((List.filter_sublist _).map _) hnd

/-- C7, amended: in every registry state reached from an empty registry through
`RegisterEntity` and entity destruction, no two different ids resolve to the
same entity, provided no `RegisterEntity` call was given an entity that was
registered at that moment (the call itself does not check this). -/
theorem registry_injective_of_fresh (ops : List RegistryOp) (m0 m : Match)
    (h0 : m0.m_entitiesByUniqueId = []) (hfresh : Match.freshOps ops m0 = true)
    (hrun : Match.runOps ops m0 = .ok m) :
    ∀ k1 k2 e, m.RetrieveEntityByUniqueId k1 = some e →
      m.RetrieveEntityByUniqueId k2 = some e → k1 = k2 := by
  have hnd := runOps_entities_nodup ops m0 m (by simp [h0]) hfresh hrun
  intro k1 k2 e h1 h2
  simp only [Match.RetrieveEntityByUniqueId] at h1 h2
  cases hf1 : Match.findEntity m.m_entitiesByUniqueId k1 with
  | none => simp [hf1] at h1
  | some x1 =>
    cases hf2 : Match.findEntity m.m_entitiesByUniqueId k2 with
    | none => simp [hf2] at h2
    | some x2 =>
      simp only [hf1] at h1
      simp only [hf2] at h2
      have := List.inj_on_of_nodup_map hnd (findEntity_mem _ k1 x1 hf1)
        (findEntity_mem _ k2 x2 hf2) (h1.trans h2.symm)
      exact congrArg Prod.fst this

theorem registry_injective_of_fresh_witness :
    Match.freshOps (Examples.history.take 2) Examples.lonely = true ∧
    Examples.afterRegistrations.RetrieveEntityByUniqueId 1 = some 0 ∧
    Examples.afterRegistrations.RetrieveEntityByUniqueId 2 ≠ some 0 :=
  ⟨rfl, rfl, fun h2 => absurd
    (registry_injective_of_fresh (Examples.history.take 2) Examples.lonely
      Examples.afterRegistrations rfl rfl rfl 1 2 0 rfl h2) (by decide)⟩

/-! ## Frame lemmas for the state helpers -/

theorem player?_modifyPlayer (m : Match) (i j : Nat) (f : Player → Player) :
    (m.modifyPlayer i f).player? j =
      if i = j then (m.player? j).map f else m.player? j := by
  simp only [Match.player?, Match.modifyPlayer, List.getD_eq_getElem?_getD, List.getElem?_modify]
  cases h : m.m_players[j]? with
  | none => simp
  | some op =>
    by_cases hij : i = j
    · cases op <;> simp [hij]
    · simp [hij]

theorem entity?_modifyEntity (m : Match) (h : EntityHandle) (f : EntityData → EntityData)
    (hf : ∀ d, (f d).alive = d.alive) (g : EntityHandle) :
    (m.modifyEntity h f).entity? g =
      if h = g then (m.entity? g).map f else m.entity? g := by
  cases h with
  | none =>
    cases g with
    | none => simp [Match.modifyEntity, Match.entity?]
    | some j => simp [Match.modifyEntity]
  | some i =>
    cases g with
    | none => simp [Match.modifyEntity, Match.entity?]
    | some j =>
      simp only [Match.modifyEntity, Match.entity?, List.getElem?_modify, Option.some.injEq]
      cases hj : m.entities[j]? with
      | none => simp
      | some d =>
        by_cases hij : i = j
        · by_cases ha : d.alive = true
          · simp [hij, hf, ha]
          · simp [hij, hf, ha]
        · simp [hij]

theorem entity?_append (m : Match) (l : List EntityData) (g : EntityHandle) (d : EntityData)
    (h : m.entity? g = some d) :
    ({ m with entities := m.entities ++ l } : Match).entity? g = some d := by
  cases g with
  | none => simp [Match.entity?] at h
  | some j =>
    simp only [Match.entity?] at h ⊢
    cases hj : m.entities[j]? with
    | none => simp [hj] at h
    | some x =>
      have hlt : j < m.entities.length := by
        rcases Nat.lt_or_ge j m.entities.length with hl | hl
        · exact hl
        · rw [List.getElem?_eq_none hl] at hj
          cases hj
      rw [List.getElem?_append_left hlt, hj]
      simpa [hj] using h

theorem entity?_lt (m : Match) (j : Nat) (d : EntityData) (h : m.entity? (some j) = some d) :
    j < m.entities.length := by
  simp only [Match.entity?] at h
  rcases Nat.lt_or_ge j m.entities.length with hl | hl
  · exact hl
  · rw [List.getElem?_eq_none hl] at h
    cases h

theorem Step.refl (strict : Bool) (uid self : Nat) (m : Match) : Step strict uid self m m :=
  { trace := ⟨[], by simp⟩
    reg := fun _ _ h => h
    ent := fun _ d h => ⟨d, h, rfl⟩
    layerCount := rfl
    keeps := fun p h => ⟨p, h, rfl, rfl, rfl, fun _ => ⟨rfl, rfl⟩⟩ }

theorem Step.trans {strict : Bool} {uid self : Nat} {m m1 m2 : Match}
    (h1 : Step strict uid self m m1) (h2 : Step strict uid self m1 m2) :
    Step strict uid self m m2 := by
  constructor
  · obtain ⟨a, ha, hca⟩ := h1.trace
    obtain ⟨b, hb, hcb⟩ := h2.trace
    refine ⟨a ++ b, by rw [hb, ha, List.append_assoc], ?_⟩
    intro ev hev
    rcases List.mem_append.mp hev with h | h
    · exact hca ev h
    · exact hcb ev h
  · exact fun k x h => h2.reg k x (h1.reg k x h)
  · intro h d hd
    obtain ⟨d1, hd1, e1⟩ := h1.ent h d hd
    obtain ⟨d2, hd2, e2⟩ := h2.ent h d1 hd1
    exact ⟨d2, hd2, e2.trans e1⟩
  · exact h2.layerCount.trans h1.layerCount
  · intro p hp
    obtain ⟨p1, hp1, a1, b1, c1, s1⟩ := h1.keeps p hp
    obtain ⟨p2, hp2, a2, b2, c2, s2⟩ := h2.keeps p1 hp1
    refine ⟨p2, hp2, a2.trans a1, b2.trans b1, c2.trans c1, fun hs => ?_⟩
    exact ⟨(s2 hs).1.trans (s1 hs).1, (s2 hs).2.trans (s1 hs).2⟩

theorem Step.weaken {strict : Bool} {uid self : Nat} {m m1 : Match} (h : Step strict uid self m m1) :
    Step false uid self m m1 :=
  { trace := h.trace
    reg := h.reg
    ent := h.ent
    layerCount := h.layerCount
    keeps := fun p hp => by
      obtain ⟨p1, hp1, a, b, c, _⟩ := h.keeps p hp
      exact ⟨p1, hp1, a, b, c, fun hs => by cases hs⟩ }

theorem Step.logAll (strict : Bool) (uid self : Nat) (m : Match) (evs : List Event)
    (hev : ∀ ev ∈ evs, CtlId uid ev) : Step strict uid self m (m.logAll evs) :=
  { trace := ⟨evs, rfl, hev⟩
    reg := fun _ _ h => h
    ent := fun _ d h => ⟨d, h, rfl⟩
    layerCount := rfl
    keeps := fun p h => ⟨p, h, rfl, rfl, rfl, fun _ => ⟨rfl, rfl⟩⟩ }

theorem Step.log (strict : Bool) (uid self : Nat) (m : Match) (ev : Event) (hev : CtlId uid ev) :
    Step strict uid self m (m.log ev) :=
  Step.logAll strict uid self m [ev] (by simpa using hev)

theorem Step.modifyPlayer (strict : Bool) (uid self : Nat) (m : Match) (f : Player → Player)
    (hf : ∀ p, (f p).m_session = p.m_session ∧ (f p).m_localIndex = p.m_localIndex ∧
      (f p).m_playerIndex = p.m_playerIndex ∧
      (strict = true →
        (f p).m_layerIndex = p.m_layerIndex ∧ (f p).m_visibleLayers = p.m_visibleLayers)) :
    Step strict uid self m (m.modifyPlayer self f) :=
  { trace := ⟨[], by simp [Match.modifyPlayer]⟩
    reg := fun _ _ h => h
    ent := fun _ d h => ⟨d, h, rfl⟩
    layerCount := rfl
    keeps := fun p h => by
      refine ⟨f p, ?_, (hf p).1, (hf p).2.1, (hf p).2.2.1, (hf p).2.2.2⟩
      rw [player?_modifyPlayer, if_pos rfl, h]
      rfl }

theorem Step.modifyEntity (strict : Bool) (uid self : Nat) (m : Match) (g : EntityHandle)
    (f : EntityData → EntityData)
    (hf : ∀ d, (f d).alive = d.alive ∧ (f d).matchComponent = d.matchComponent) :
    Step strict uid self m (m.modifyEntity g f) :=
  { trace := ⟨[], by cases g <;> simp [Match.modifyEntity]⟩
    reg := fun _ _ h => by cases g <;> exact h
    ent := fun h d hd => by
      rw [entity?_modifyEntity m g f (fun d => (hf d).1) h]
      by_cases hg : g = h
      · exact ⟨f d, by simp [hg, hd], (hf d).2⟩
      · exact ⟨d, by simp [hg, hd], rfl⟩
    layerCount := by cases g <;> rfl
    keeps := fun p h => by
      refine ⟨p, ?_, rfl, rfl, rfl, fun _ => ⟨rfl, rfl⟩⟩
      cases g <;> exact h }

/-! ## Frame lemmas for `Player::UpdateControlledEntity` -/

theorem player?_log (m : Match) (ev : Event) (i : Nat) : (m.log ev).player? i = m.player? i := rfl

theorem player?_logAll (m : Match) (evs : List Event) (i : Nat) :
    (m.logAll evs).player? i = m.player? i := rfl

theorem player?_modifyEntity (m : Match) (g : EntityHandle) (f : EntityData → EntityData)
    (i : Nat) : (m.modifyEntity g f).player? i = m.player? i := by
  cases g <;> rfl

theorem player?_of_players_eq (m m1 : Match) (h : m1.m_players = m.m_players) (i : Nat) :
    m1.player? i = m.player? i := by
  simp [Match.player?, h]


theorem getPlayer_ok (m : Match) (self : Nat) (p : Player) (h : m.getPlayer self = .ok p) :
    m.player? self = some p := by
  unfold Match.getPlayer at h
  cases hp : m.player? self with
  | none => simp [hp] at h
  | some q =>
    simp only [hp, Except.ok.injEq] at h
    rw [h]

theorem getPlayer_of (m : Match) (self : Nat) (p : Player) (h : m.player? self = some p) :
    m.getPlayer self = .ok p := by
  simp [Match.getPlayer, h]

theorem releaseControlled_step (strict : Bool) (uid self : Nat) (m m1 : Match)
    (h : Player.releaseControlled self m = .ok m1) :
    Step strict uid self m m1 ∧ m1.m_players = m.m_players := by
  unfold Player.releaseControlled at h
  cases hp : m.getPlayer self with
  | error e => simp [hp] at h
  | ok p =>
    simp only [hp] at h
    cases hd : m.entity? p.m_playerEntity with
    | none =>
      simp only [hd, Except.ok.injEq] at h
      subst h
      exact ⟨Step.refl _ _ _ _, rfl⟩
    | some d =>
      simp only [hd] at h
      cases hc : Match.component d.matchComponent with
      | error e => simp [hc] at h
      | ok mc =>
        simp only [hc, Except.ok.injEq] at h
        subst h
        refine ⟨Step.trans (Step.modifyEntity strict uid self m _ _ (by intro d; exact ⟨rfl, rfl⟩))
          (Step.log strict uid self _ _ (by intro q pi id hq; cases hq)), ?_⟩
        cases p.m_playerEntity <;> rfl

theorem broadcast_step (strict : Bool) (self : Nat) (m : Match) (pi uid : Nat) (onlyReady : Bool)
    (except : Option Nat) :
    Step strict uid self m
      (m.BroadcastPacket (Packet.PlayerControlEntity pi uid) onlyReady except) := by
  refine Step.logAll strict uid self m _ ?_
  intro ev hev q pi1 id hq
  obtain ⟨ip, _, hip⟩ := List.mem_map.mp hev
  rw [hq] at hip
  cases hip
  rfl

theorem sendControlEntity_step (strict : Bool) (c : Constants) (uid self : Nat)
    (entity : EntityHandle) (m m1 : Match) (h : Player.sendControlEntity c self entity m = .ok m1) :
    Step strict uid self m m1 ∧ m1.m_players = m.m_players := by
  unfold Player.sendControlEntity at h
  cases hp : m.getPlayer self with
  | error e => simp [hp] at h
  | ok p =>
    simp only [hp] at h
    cases hd : m.entity? p.m_playerEntity with
    | none =>
      simp only [hd, Except.ok.injEq] at h
      subst h
      refine ⟨Step.log strict uid self _ _ ?_, rfl⟩
      intro q pi id hq
      cases hq
    | some d =>
      simp only [hd] at h
      cases hc : Match.component d.matchComponent with
      | error e => simp [hc] at h
      | ok mc =>
        simp only [hc] at h
        cases he : m.getEntity entity with
        | error e => simp [he] at h
        | ok de =>
          simp only [he, Except.ok.injEq] at h
          subst h
          refine ⟨Step.log strict uid self _ _ ?_, rfl⟩
          intro q pi id hq
          cases hq

theorem component_ok {α : Type} (o : Option α) (a : α) (h : Match.component o = .ok a) :
    o = some a := by
  cases o with
  | none => simp [Match.component] at h
  | some b =>
    simp only [Match.component, Except.ok.injEq] at h
    rw [h]

theorem getEntity_ok (m : Match) (g : EntityHandle) (d : EntityData)
    (h : m.getEntity g = .ok d) : m.entity? g = some d := by
  unfold Match.getEntity at h
  cases hd : m.entity? g with
  | none => simp [hd] at h
  | some x =>
    simp only [hd, Except.ok.injEq] at h
    rw [h]

theorem takeControl_step (strict : Bool) (self h : Nat) (m m1 : Match) (id : Nat)
    (hrun : Player.takeControl self h m = .ok (id, m1)) :
    (∃ d mc, m.entity? (some h) = some d ∧ d.matchComponent = some mc ∧ id = mc.uniqueId) ∧
    (∀ uid, Step strict uid self m m1) ∧
    Controls self (some h) m1 := by
  unfold Player.takeControl at hrun
  cases hp : m.getPlayer self with
  | error e => simp [hp] at hrun
  | ok p =>
    simp only [hp] at hrun
    cases hd : m.getEntity (some h) with
    | error e => simp [hd] at hrun
    | ok d =>
      simp only [hd] at hrun
      cases hc : Match.component d.matchComponent with
      | error e => simp [hc] at hrun
      | ok mc =>
        simp only [hc, Except.ok.injEq, Prod.mk.injEq] at hrun
        obtain ⟨hid, hm1⟩ := hrun
        have hpl := getPlayer_ok m self p hp
        refine ⟨⟨d, mc, getEntity_ok m _ d hd, component_ok _ _ hc, hid.symm⟩, ?_, ?_⟩
        · intro uid
          rw [← hm1]
          refine Step.trans ?_ (Step.log strict uid self _ _ (by intro q pi id hq; cases hq))
          refine Step.trans ?_ (Step.modifyPlayer strict uid self _ _
            (by intro p; exact ⟨rfl, rfl, rfl, fun _ => ⟨rfl, rfl⟩⟩))
          have h3 : Step strict uid self m
              (((if d.weaponWielderComponent.isSome then
                  (m.modifyPlayer self (fun q => { q with m_playerEntity := some h })).modifyPlayer self
                    (fun q => { q with m_onWeaponAdded := some h, m_onWeaponRemove := some h })
                else m.modifyPlayer self (fun q => { q with m_playerEntity := some h }))).modifyEntity
                (some h)
                (fun x => { x with ownerComponent := some (some self),
                                   playerControlledComponent := some (some self) })) := by
            refine Step.trans ?_ (Step.modifyEntity strict uid self _ _ _
              (by intro d; exact ⟨rfl, rfl⟩))
            split
            · exact Step.trans (Step.modifyPlayer strict uid self _ _
                (by intro p; exact ⟨rfl, rfl, rfl, fun _ => ⟨rfl, rfl⟩⟩))
                (Step.modifyPlayer strict uid self _ _
                (by intro p; exact ⟨rfl, rfl, rfl, fun _ => ⟨rfl, rfl⟩⟩))
            · exact Step.modifyPlayer strict uid self _ _
                (by intro p; exact ⟨rfl, rfl, rfl, fun _ => ⟨rfl, rfl⟩⟩)
          split
          · exact Step.trans h3 (Step.modifyPlayer strict uid self _ _
              (by intro p; exact ⟨rfl, rfl, rfl, fun _ => ⟨rfl, rfl⟩⟩))
          · exact h3
        · rw [← hm1]
          unfold Controls
          by_cases hw : d.weaponWielderComponent.isSome = true <;>
            by_cases hh : d.healthComponent = true <;>
            simp [hw, hh, player?_log, player?_modifyEntity, player?_modifyPlayer, hpl]

theorem controls_of_players_eq (self : Nat) (g : EntityHandle) (m m1 : Match)
    (h : m1.m_players = m.m_players) (hc : Controls self g m) : Controls self g m1 := by
  obtain ⟨p, hp, hg⟩ := hc
  exact ⟨p, by rw [player?_of_players_eq m m1 h]; exact hp, hg⟩

theorem controlTarget_step (strict : Bool) (move : Nat → Match → Except Err Match) (c : Constants)
    (self h : Nat) (ignoreLayerUpdate : Bool) (m m1 : Match) (id : Nat) (d : EntityData)
    (mc : MatchComponent) (hd : m.entity? (some h) = some d) (hmc : d.matchComponent = some mc)
    (hmove : ∀ l x1, move l m = .ok x1 → Step strict mc.uniqueId self m x1)
    (hrun : Player.controlTarget move c self (some h) ignoreLayerUpdate m = .ok (id, m1)) :
    id = mc.uniqueId ∧ Step strict mc.uniqueId self m m1 ∧ Controls self (some h) m1 := by
  unfold Player.controlTarget at hrun
  simp only [hd, hmc, Match.component] at hrun
  cases hmv : (if ignoreLayerUpdate = true then Except.ok m else move mc.layerIndex m) with
  | error e => simp [hmv] at hrun
  | ok m2 =>
    simp only [hmv] at hrun
    have hstep2 : Step strict mc.uniqueId self m m2 := by
      by_cases hi : ignoreLayerUpdate = true
      · simp only [hi, if_true, Except.ok.injEq] at hmv
        subst hmv
        exact Step.refl _ _ _ _
      · simp only [hi, if_false] at hmv
        exact hmove _ _ hmv
    obtain ⟨⟨d2, mc2, hd2, hmc2, hid⟩, hst, hctl⟩ := takeControl_step strict self h m2 m1 id hrun
    obtain ⟨d3, hd3, hmc3⟩ := hstep2.ent (some h) d hd
    rw [hd2] at hd3
    simp only [Option.some.injEq] at hd3
    subst hd3
    rw [hmc2, hmc] at hmc3
    simp only [Option.some.injEq] at hmc3
    subst hmc3
    exact ⟨hid, Step.trans hstep2 (hst _), hctl⟩

theorem updateControlled_step (strict : Bool) (move : Nat → Match → Except Err Match)
    (c : Constants) (self h : Nat) (sendPacket ignoreLayerUpdate : Bool) (m m1 : Match)
    (d : EntityData) (mc : MatchComponent)
    (hd : m.entity? (some h) = some d) (hmc : d.matchComponent = some mc)
    (hmove : ∀ l x x1, Controls self none x → move l x = .ok x1 →
      Step strict mc.uniqueId self x x1)
    (hrun : Player.UpdateControlledEntityWith move c self (some h) sendPacket ignoreLayerUpdate m
      = .ok m1) :
    Step strict mc.uniqueId self m m1 ∧ Controls self (some h) m1 ∧
    ∃ (m5 : Match) (pi : Nat),
      m1 = m5.BroadcastPacket (Packet.PlayerControlEntity pi mc.uniqueId) true (some self) := by
  unfold Player.UpdateControlledEntityWith at hrun
  cases hrel : Player.releaseControlled self m with
  | error e => simp [hrel] at hrun
  | ok m2 =>
    simp only [hrel] at hrun
    obtain ⟨hs2, hpl2⟩ := releaseControlled_step strict mc.uniqueId self m m2 hrel
    have hex : ∃ p, m2.player? self = some p := by
      unfold Player.releaseControlled at hrel
      cases hp : m.getPlayer self with
      | error e => simp [hp] at hrel
      | ok p =>
        refine ⟨p, ?_⟩
        rw [player?_of_players_eq m m2 hpl2]
        exact getPlayer_ok m self p hp
    obtain ⟨p2, hp2⟩ := hex
    have hs3 : Step strict mc.uniqueId self m2 (m2.modifyPlayer self Player.disconnectHooks) :=
      Step.modifyPlayer strict _ self m2 _ (by intro p; exact ⟨rfl, rfl, rfl, fun _ => ⟨rfl, rfl⟩⟩)
    have hc3 : Controls self none (m2.modifyPlayer self Player.disconnectHooks) :=
      ⟨Player.disconnectHooks p2, by rw [player?_modifyPlayer, if_pos rfl, hp2]; rfl, rfl⟩
    obtain ⟨d3, hd3, hmc3⟩ := (Step.trans hs2 hs3).ent (some h) d hd
    cases hct : Player.controlTarget move c self (some h) ignoreLayerUpdate
        (m2.modifyPlayer self Player.disconnectHooks) with
    | error e => simp [hct] at hrun
    | ok r =>
      obtain ⟨id, m4⟩ := r
      simp only [hct] at hrun
      obtain ⟨hid, hs4, hc4⟩ := controlTarget_step strict move c self h ignoreLayerUpdate _ m4 id
        d3 mc hd3 (hmc3.trans hmc) (fun l x1 hx => hmove l _ x1 hc3 hx) hct
      cases hsend : (if sendPacket = true then Player.sendControlEntity c self (some h) m4
          else Except.ok m4) with
      | error e => simp [hsend] at hrun
      | ok m5 =>
        simp only [hsend] at hrun
        have h5 : Step strict mc.uniqueId self m4 m5 ∧ m5.m_players = m4.m_players := by
          cases sendPacket with
          | true =>
            simp only [if_true] at hsend
            exact sendControlEntity_step strict c _ self _ m4 m5 hsend
          | false =>
            simp only [Bool.false_eq_true, if_false, Except.ok.injEq] at hsend
            subst hsend
            exact ⟨Step.refl _ _ _ _, rfl⟩
        cases hp5 : m5.getPlayer self with
        | error e => simp [hp5] at hrun
        | ok p5 =>
          simp only [hp5, Except.ok.injEq] at hrun
          subst hrun
          subst hid
          refine ⟨Step.trans (Step.trans (Step.trans (Step.trans hs2 hs3) hs4) h5.1)
            (broadcast_step strict self m5 _ _ _ _), ?_, m5, _, rfl⟩
          exact controls_of_players_eq self _ m4 _ (h5.2) hc4

/-! ## Frame lemmas for cloning and registration -/

theorem Step.of_fields (strict : Bool) (uid self : Nat) (m m1 : Match)
    (htrace : m1.trace = m.trace) (hreg : m1.m_entitiesByUniqueId = m.m_entitiesByUniqueId)
    (hpl : m1.m_players = m.m_players) (hlc : m1.layerCount = m.layerCount)
    (hent : ∀ h d, m.entity? h = some d → m1.entity? h = some d) :
    Step strict uid self m m1 :=
  { trace := ⟨[], by simp [htrace]⟩
    reg := fun k x h => by rw [hreg]; exact h
    ent := fun h d hd => ⟨d, hent h d hd, rfl⟩
    layerCount := hlc
    keeps := fun p hp =>
      ⟨p, by rw [player?_of_players_eq m m1 hpl]; exact hp, rfl, rfl, rfl, fun _ => ⟨rfl, rfl⟩⟩ }

theorem entity?_of_entities_eq (m m1 : Match) (h : m1.entities = m.entities) (g : EntityHandle) :
    m1.entity? g = m.entity? g := by
  cases g with
  | none => rfl
  | some j => simp [Match.entity?, h]

theorem entity?_clone_modify (m m1 : Match) (x : EntityData) (f : EntityData → EntityData)
    (hents : m1.entities = (m.entities ++ [x]).modify f m.entities.length)
    (g : EntityHandle) (d : EntityData) (hd : m.entity? g = some d) : m1.entity? g = some d := by
  cases g with
  | none => simp [Match.entity?] at hd
  | some j =>
    have hlt := entity?_lt m j d hd
    have hne : m.entities.length ≠ j := by omega
    simp only [Match.entity?] at hd ⊢
    rw [hents, List.getElem?_modify_ne _ _ hne, List.getElem?_append_left hlt]
    exact hd

theorem entity?_clone_new (m m1 : Match) (x : EntityData) (f : EntityData → EntityData)
    (hents : m1.entities = (m.entities ++ [x]).modify f m.entities.length)
    (halive : (f x).alive = true) :
    m1.entity? (some m.entities.length) = some (f x) := by
  simp only [Match.entity?]
  rw [hents, List.getElem?_modify_eq]
  simp [halive]

theorem registerEntity_step (strict : Bool) (uid self : Nat) (uniqueId : Nat)
    (entity : EntityHandle) (m m1 : Match) (h : m.RegisterEntity uniqueId entity = .ok m1) :
    Step strict uid self m m1 ∧ m1.m_players = m.m_players ∧
    m1.RetrieveEntityByUniqueId uniqueId = entity ∧ m1.m_nextUniqueId = m.m_nextUniqueId := by
  have hret := retrieve_register uniqueId entity m m1 h uniqueId
  obtain ⟨hnone, e, he, _, hm1⟩ := registerEntity_ok uniqueId entity m m1 h
  subst hm1
  refine ⟨?_, rfl, by simpa using hret, rfl⟩
  exact
    { trace := ⟨[], by simp⟩
      reg := fun k x hk => by
        simp only [findEntity_append, hk]
      ent := fun g d hd => ⟨d, hd, rfl⟩
      layerCount := rfl
      keeps := fun p hp => ⟨p, hp, rfl, rfl, rfl, fun _ => ⟨rfl, rfl⟩⟩ }

theorem retrieve_of_step {strict : Bool} {uid self : Nat} {m m1 : Match}
    (hs : Step strict uid self m m1) (k e : Nat) (h : m.RetrieveEntityByUniqueId k = some e) :
    m1.RetrieveEntityByUniqueId k = some e := by
  simp only [Match.RetrieveEntityByUniqueId] at h ⊢
  cases hf : Match.findEntity m.m_entitiesByUniqueId k with
  | none => simp [hf] at h
  | some x =>
    rw [hs.reg k x hf]
    simpa [hf] using h

theorem alloc_step (strict : Bool) (c : Constants) (uid self : Nat) (m : Match) :
    Step strict uid self m (m.AllocateUniqueId c).2 :=
  Step.of_fields strict uid self m _ rfl rfl rfl rfl
    (fun g _ hd => (entity?_of_entities_eq m (m.AllocateUniqueId c).2 rfl g).trans hd)

theorem cloneEntity_modify_step (strict : Bool) (uid self : Nat) (layer : Nat) (g : EntityHandle)
    (f : EntityData → EntityData) (m : Match) :
    Step strict uid self m
      ((World.CloneEntity layer g m).2.modifyEntity (World.CloneEntity layer g m).1 f) := by
  unfold World.CloneEntity
  cases hg : m.entity? g with
  | none => exact Step.refl _ _ _ _
  | some _ =>
    exact Step.of_fields strict uid self m _ rfl rfl rfl rfl
      (fun g d hd => entity?_clone_modify m _ _ f rfl g d hd)

theorem cloneEntity_fields (layer : Nat) (g : EntityHandle) (m : Match) :
    (World.CloneEntity layer g m).2.m_players = m.m_players ∧
    (World.CloneEntity layer g m).2.m_nextUniqueId = m.m_nextUniqueId ∧
    (World.CloneEntity layer g m).2.m_entitiesByUniqueId = m.m_entitiesByUniqueId ∧
    (World.CloneEntity layer g m).2.trace = m.trace := by
  unfold World.CloneEntity
  cases m.entity? g <;> exact ⟨rfl, rfl, rfl, rfl⟩

theorem modifyEntity_fields (g : EntityHandle) (f : EntityData → EntityData) (m : Match) :
    (m.modifyEntity g f).m_players = m.m_players ∧
    (m.modifyEntity g f).m_nextUniqueId = m.m_nextUniqueId ∧
    (m.modifyEntity g f).m_entitiesByUniqueId = m.m_entitiesByUniqueId ∧
    (m.modifyEntity g f).trace = m.trace := by
  cases g <;> exact ⟨rfl, rfl, rfl, rfl⟩

/-- The clone of a weapon and its registration, seen from the state before the call. -/
theorem cloneWeapon_step (strict : Bool) (c : Constants) (uid self : Nat) (layerIndex : Nat)
    (newPlayerEntity weaponEntity : EntityHandle) (m m1 : Match) (w : EntityHandle)
    (h : Player.cloneWeapon c layerIndex newPlayerEntity weaponEntity m = .ok (w, m1)) :
    Step strict uid self m m1 ∧ m1.m_players = m.m_players := by
  unfold Player.cloneWeapon at h
  dsimp only at h
  split at h
  · cases h
  · split at h
    · simp only [Except.map] at h
      split at h
      · cases h
      · rename_i m2 hreg
        simp only [Except.ok.injEq, Prod.mk.injEq] at h
        obtain ⟨_, hm⟩ := h
        subst hm
        obtain ⟨hs, hpl, _, _⟩ := registerEntity_step strict uid self _ _ _ _ hreg
        refine ⟨Step.trans (Step.trans (alloc_step strict c uid self m)
          (cloneEntity_modify_step strict uid self layerIndex weaponEntity _ _)) hs, ?_⟩
        rw [hpl, (modifyEntity_fields _ _ _).1, (cloneEntity_fields _ _ _).1]
        rfl
    · cases h

theorem overrideEntities_step (strict : Bool) (uid self : Nat)
    (f : EntityHandle → Match → Except Err (EntityHandle × Match))
    (hf : ∀ w x w1 x1, f w x = .ok (w1, x1) → Step strict uid self x x1 ∧ x1.m_players = x.m_players)
    (ws : List EntityHandle) (m m1 : Match) (ws1 : List EntityHandle)
    (h : Player.OverrideEntities f ws m = .ok (ws1, m1)) :
    Step strict uid self m m1 ∧ m1.m_players = m.m_players := by
  induction ws generalizing m ws1 with
  | nil =>
    simp only [Player.OverrideEntities, Except.ok.injEq, Prod.mk.injEq] at h
    obtain ⟨_, hm⟩ := h
    subst hm
    exact ⟨Step.refl _ _ _ _, rfl⟩
  | cons w rest ih =>
    simp only [Player.OverrideEntities] at h
    cases hw : f w m with
    | error e => simp [hw] at h
    | ok r =>
      obtain ⟨w1, m2⟩ := r
      simp only [hw] at h
      cases hr : Player.OverrideEntities f rest m2 with
      | error e => simp [hr] at h
      | ok r2 =>
        obtain ⟨ws2, m3⟩ := r2
        simp only [hr, Except.ok.injEq, Prod.mk.injEq] at h
        obtain ⟨_, hm⟩ := h
        subst hm
        obtain ⟨hs1, hp1⟩ := hf w m w1 m2 hw
        obtain ⟨hs2, hp2⟩ := ih m2 ws2 hr
        exact ⟨Step.trans hs1 hs2, hp2.trans hp1⟩

theorem overrideWeapons_step (strict : Bool) (c : Constants) (uid self : Nat) (layerIndex : Nat)
    (newPlayerEntity : EntityHandle) (m m1 : Match)
    (h : Player.overrideWeapons c self layerIndex newPlayerEntity m = .ok m1) :
    Step strict uid self m m1 ∧ m1.m_players = m.m_players := by
  unfold Player.overrideWeapons at h
  cases hp : m.getPlayer self with
  | error e => simp [hp] at h
  | ok p =>
    simp only [hp] at h
    cases hd : m.getEntity p.m_playerEntity with
    | error e => simp [hd] at h
    | ok d =>
      simp only [hd] at h
      cases hw : d.weaponWielderComponent with
      | none =>
        simp only [hw, Except.ok.injEq] at h
        subst h
        exact ⟨Step.refl _ _ _ _, rfl⟩
      | some weapons =>
        simp only [hw] at h
        cases ho : Player.OverrideEntities (Player.cloneWeapon c layerIndex newPlayerEntity)
            weapons m with
        | error e => simp [ho] at h
        | ok r =>
          obtain ⟨ws, m2⟩ := r
          simp only [ho, Except.ok.injEq] at h
          subst h
          obtain ⟨hs, hpl⟩ := overrideEntities_step strict uid self _
            (fun w x w1 x1 hx => cloneWeapon_step strict c uid self layerIndex newPlayerEntity w x x1 w1 hx)
            weapons m m2 ws ho
          refine ⟨Step.trans hs (Step.modifyEntity strict uid self _ _ _
            (by intro d; exact ⟨rfl, rfl⟩)), ?_⟩
          rw [(modifyEntity_fields _ _ _).1, hpl]

/-! ## `Player::MoveToLayer` -/

theorem controls_modifyPlayer (self : Nat) (g : EntityHandle) (m : Match) (f : Player → Player)
    (hf : ∀ p, (f p).m_playerEntity = p.m_playerEntity) (hc : Controls self g m) :
    Controls self g (m.modifyPlayer self f) := by
  obtain ⟨p, hp, hg⟩ := hc
  exact ⟨f p, by rw [player?_modifyPlayer, if_pos rfl, hp]; rfl, (hf p).trans hg⟩

theorem cloneEntity_some (layer : Nat) (g : EntityHandle) (m : Match) (d : EntityData)
    (h : m.entity? g = some d) :
    World.CloneEntity layer g m =
      (some m.entities.length,
        { m with entities := m.entities ++
            [{ d with alive := true, world := layer, id := World.freshId layer m }] }) := by
  simp [World.CloneEntity, h]

theorem register_clone_step (strict : Bool) (c : Constants) (uid self : Nat) (m m2 : Match)
    (x : EntityData) (f : EntityData → EntityData) (id : Nat) (halive : (f x).alive = true)
    (hreg : ((Match.AllocateUniqueId c { m with entities := m.entities ++ [x] }).2.modifyEntity
        (some m.entities.length) f).RegisterEntity id (some m.entities.length) = .ok m2) :
    Step strict uid self m m2 ∧ m2.m_players = m.m_players ∧
    m2.RetrieveEntityByUniqueId id = some m.entities.length ∧
    Match.findEntity m.m_entitiesByUniqueId id = none ∧
    ∃ d2, m2.entity? (some m.entities.length) = some d2 ∧
      d2.matchComponent = (f x).matchComponent := by
  obtain ⟨hs2, hpl2, hret2, _⟩ := registerEntity_step strict uid self _ _ _ _ hreg
  have hnone := (registerEntity_ok _ _ _ _ hreg).1
  have hsX : Step strict uid self m
      ((Match.AllocateUniqueId c { m with entities := m.entities ++ [x] }).2.modifyEntity
        (some m.entities.length) f) :=
    Step.of_fields strict uid self m _ rfl rfl rfl rfl
      (fun g d1 hd1 => entity?_clone_modify m _ x f rfl g d1 hd1)
  have hnew : ((Match.AllocateUniqueId c { m with entities := m.entities ++ [x] }).2.modifyEntity
        (some m.entities.length) f).entity? (some m.entities.length) = some (f x) :=
    entity?_clone_new m _ x f rfl halive
  obtain ⟨d2, hd2, hmc2⟩ := hs2.ent _ _ hnew
  exact ⟨Step.trans hsX hs2, hpl2, hret2, hnone, d2, hd2, hmc2⟩

theorem migrateEntity_spec (c : Constants) (self layerIndex : Nat) (m m1 : Match) (p : Player)
    (d : EntityData) (hp : m.player? self = some p) (hd : m.entity? p.m_playerEntity = some d)
    (hrun : Player.migrateEntity c self layerIndex m = .ok m1) :
    Step true m.m_nextUniqueId self m m1 ∧
    Controls self (some m.entities.length) m1 ∧
    m1.RetrieveEntityByUniqueId m.m_nextUniqueId = some m.entities.length ∧
    Match.findEntity m.m_entitiesByUniqueId m.m_nextUniqueId = none ∧
    layerIndex < m.layerCount ∧
    ∃ d1, m1.entity? (some m.entities.length) = some d1 ∧
      d1.matchComponent = some ⟨layerIndex, m.m_nextUniqueId⟩ := by
  unfold Player.migrateEntity at hrun
  simp only [getPlayer_of m self p hp, hd, Terrain.GetLayer] at hrun
  by_cases hl : layerIndex < m.layerCount
  · simp only [hl, if_true, cloneEntity_some layerIndex p.m_playerEntity m d hd] at hrun
    split at hrun
    · cases hrun
    · rename_i m2 hreg
      split at hrun
      · cases hrun
      · rename_i m3 hupd
        split at hrun
        · cases hrun
        · rename_i m4 hov
          simp only [Except.ok.injEq] at hrun
          subst hrun
          obtain ⟨hs2, _, hret2, hnone, d2, hd2, hmc2⟩ :=
            register_clone_step true c m.m_nextUniqueId self m m2 _ _ _ rfl hreg
          obtain ⟨hs3, hc3, _⟩ := updateControlled_step true (fun _ x => .ok x) c self
            m.entities.length true true m2 m3 d2 ⟨layerIndex, m.m_nextUniqueId⟩ hd2 hmc2
            (by
              intro l x x1 _ hx
              simp only [Except.ok.injEq] at hx
              subst hx
              exact Step.refl _ _ _ _) hupd
          obtain ⟨hs4, hpl4⟩ := overrideWeapons_step true c m.m_nextUniqueId self layerIndex _ m3 m4 hov
          have hs5 : Step true m.m_nextUniqueId self m4
              (m4.modifyPlayer self (fun q => { q with m_shouldSendWeapons := true })) :=
            Step.modifyPlayer true _ self m4 _
              (by intro p; exact ⟨rfl, rfl, rfl, fun _ => ⟨rfl, rfl⟩⟩)
          have hs25 := Step.trans (Step.trans hs3 hs4) hs5
          refine ⟨Step.trans hs2 hs25, ?_, ?_, hnone, hl, ?_⟩
          · exact controls_modifyPlayer self _ m4 _ (fun _ => rfl)
              (controls_of_players_eq self _ m3 m4 hpl4 hc3)
          · exact retrieve_of_step hs25 _ _ hret2
          · obtain ⟨d5, hd5, hmc5⟩ := hs25.ent _ _ hd2
            exact ⟨d5, hd5, hmc5.trans hmc2⟩
  · simp [hl] at hrun

theorem updateLayerVisibility_ok (self layerIndex : Nat) (isVisible : Bool) (m m1 : Match)
    (h : Player.UpdateLayerVisibility self layerIndex isVisible m = .ok m1) :
    ∃ p, m.player? self = some p ∧ layerIndex < m.layerCount ∧
      m1 = (m.log (Event.visibility p.m_session
              (if isVisible then VisibilityCall.ShowLayer layerIndex
               else VisibilityCall.HideLayer layerIndex))).modifyPlayer self
            (fun q => { q with m_visibleLayers :=
              Bitset.UnboundedSet q.m_visibleLayers layerIndex isVisible }) := by
  unfold Player.UpdateLayerVisibility at h
  cases hp : m.getPlayer self with
  | error e => simp [hp] at h
  | ok p =>
    simp only [hp] at h
    by_cases hl : layerIndex ≥ m.layerCount
    · simp [hl] at h
    · simp only [hl, if_false, Except.ok.injEq] at h
      exact ⟨p, getPlayer_ok m self p hp, by omega, h.symm⟩

theorem unboundedTest_unboundedSet (b : List Bool) (i j : Nat) (v : Bool) :
    Bitset.UnboundedTest (Bitset.UnboundedSet b i v) j =
      if i = j then v else Bitset.UnboundedTest b j := by
  unfold Bitset.UnboundedSet
  by_cases hi : i < b.length
  · simp only [hi, if_true, Bitset.UnboundedTest, Bitset.Set, Bitset.Test, List.length_set,
      List.getD_eq_getElem?_getD, List.getElem?_set]
    by_cases hij : i = j
    · subst hij
      simp [hi]
    · simp [hij]
  · simp only [hi, if_false]
    cases v with
    | false =>
      by_cases hij : i = j
      · subst hij
        simp [Bitset.UnboundedTest, hi]
      · simp [hij]
    | true =>
      simp only [if_true, Bitset.UnboundedTest, Bitset.Set, Bitset.Test, Bitset.Resize,
        List.length_set, List.getD_eq_getElem?_getD, List.getElem?_set, List.length_append,
        List.length_take, List.length_replicate]
      have hlen : min (i + 1) b.length + (i + 1 - b.length) = i + 1 := by omega
      by_cases hij : i = j
      · subst hij
        simp [hlen]
      · simp only [hij, if_false, hlen]
        by_cases hj : j < b.length
        · have hj1 : j < i + 1 := by omega
          have hjt : j < (List.take (i + 1) b).length := by simp; omega
          simp [hj, hj1, List.getElem?_append_left hjt, List.getElem?_take, hj1]
        · by_cases hj1 : j < i + 1
          · have hjt : (List.take (i + 1) b).length ≤ j := by simp; omega
            rw [List.getElem?_append_right hjt]
            simp only [hj, hj1, List.getElem?_replicate, List.length_take, decide_False,
              decide_True, Bool.false_and, Bool.true_and]
            split <;> rfl
          · simp [hj, hj1]

theorem retrieve_of_reg_eq (m m1 : Match)
    (h : m1.m_entitiesByUniqueId = m.m_entitiesByUniqueId) (k : Nat) :
    m1.RetrieveEntityByUniqueId k = m.RetrieveEntityByUniqueId k := by
  simp [Match.RetrieveEntityByUniqueId, h]

theorem migrateEntity_none (c : Constants) (self layerIndex : Nat) (m : Match) (p : Player)
    (hp : m.player? self = some p) (hd : m.entity? p.m_playerEntity = none) :
    Player.migrateEntity c self layerIndex m = .ok m := by
  unfold Player.migrateEntity
  simp only [getPlayer_of m self p hp, hd]

/-- What `MoveToLayer` between two different layers, neither of them `NoLayer`, does. -/
theorem moveToLayer_spec (c : Constants) (self B : Nat) (m m1 : Match) (p : Player)
    (hp : m.player? self = some p) (hAB : p.m_layerIndex ≠ B)
    (hA : p.m_layerIndex ≠ c.NoLayer) (hB : B ≠ c.NoLayer)
    (hrun : Player.MoveToLayer c self B m = .ok m1) :
    p.m_layerIndex < m.layerCount ∧ B < m.layerCount ∧
    ∃ p1 mid, m1.player? self = some p1 ∧ p1.m_layerIndex = B ∧
      p1.m_visibleLayers =
        Bitset.UnboundedSet (Bitset.UnboundedSet p.m_visibleLayers p.m_layerIndex false) B true ∧
      m1.trace = m.trace ++
        [Event.gamemode (GamemodeEvent.PlayerLayerUpdate self p.m_layerIndex B),
         Event.visibility p.m_session (VisibilityCall.HideLayer p.m_layerIndex)] ++ mid ++
        [Event.visibility p.m_session (VisibilityCall.PushLayerUpdate p.m_localIndex B),
         Event.visibility p.m_session (VisibilityCall.ShowLayer B)] ∧
      (∀ ev ∈ mid, CtlId m.m_nextUniqueId ev) ∧
      (∀ k e, m.RetrieveEntityByUniqueId k = some e → m1.RetrieveEntityByUniqueId k = some e) ∧
      (m.entity? p.m_playerEntity = none → p1.m_playerEntity = p.m_playerEntity ∧
        m1.m_entitiesByUniqueId = m.m_entitiesByUniqueId ∧ m1.entities = m.entities ∧
        m1.m_nextUniqueId = m.m_nextUniqueId ∧ mid = []) ∧
      (∀ d, m.entity? p.m_playerEntity = some d →
        p1.m_playerEntity = some m.entities.length ∧
        m1.RetrieveEntityByUniqueId m.m_nextUniqueId = some m.entities.length ∧
        Match.findEntity m.m_entitiesByUniqueId m.m_nextUniqueId = none ∧
        ∃ d1, m1.entity? (some m.entities.length) = some d1 ∧
          d1.matchComponent = some ⟨B, m.m_nextUniqueId⟩) := by
  unfold Player.MoveToLayer at hrun
  simp only [getPlayer_of m self p hp, hAB, if_false, hA, hB, ne_eq, not_false_eq_true, and_self,
    if_true] at hrun
  cases h1 : Player.UpdateLayerVisibility self p.m_layerIndex false
      (m.log (Event.gamemode (GamemodeEvent.PlayerLayerUpdate self p.m_layerIndex B))) with
  | error e => simp [h1] at hrun
  | ok x1 =>
    simp only [h1] at hrun
    obtain ⟨q, hq, hlA, hx1⟩ := updateLayerVisibility_ok _ _ _ _ _ h1
    rw [player?_log, hp] at hq
    simp only [Option.some.injEq] at hq
    subst hq
    simp only [Bool.false_eq_true, if_false] at hx1
    have hp1 : x1.player? self = some { p with
        m_visibleLayers := (Bitset.UnboundedSet p.m_visibleLayers p.m_layerIndex false) } := by
      rw [hx1, player?_modifyPlayer, if_pos rfl, player?_log, player?_log, hp]
      rfl
    have hent1 : ∀ g, x1.entity? g = m.entity? g := fun g =>
      entity?_of_entities_eq m x1 (by rw [hx1]; rfl) g
    have hreg1 : x1.m_entitiesByUniqueId = m.m_entitiesByUniqueId := by rw [hx1]; rfl
    have hnext1 : x1.m_nextUniqueId = m.m_nextUniqueId := by rw [hx1]; rfl
    have hlen1 : x1.entities.length = m.entities.length := by rw [hx1]; rfl
    have hents1 : x1.entities = m.entities := by rw [hx1]; rfl
    have htr1 : x1.trace = m.trace ++
        [Event.gamemode (GamemodeEvent.PlayerLayerUpdate self p.m_layerIndex B),
         Event.visibility p.m_session (VisibilityCall.HideLayer p.m_layerIndex)] := by
      rw [hx1]
      simp [Match.modifyPlayer, Match.log]
    cases h2 : Player.migrateEntity c self B x1 with
    | error e => simp [h2] at hrun
    | ok x2 =>
      simp only [h2] at hrun
      have hmig : Step true m.m_nextUniqueId self x1 x2 ∧
          (m.entity? p.m_playerEntity = none → x2 = x1) ∧
          (∀ d, m.entity? p.m_playerEntity = some d →
            Controls self (some m.entities.length) x2 ∧
            x2.RetrieveEntityByUniqueId m.m_nextUniqueId = some m.entities.length ∧
            Match.findEntity m.m_entitiesByUniqueId m.m_nextUniqueId = none ∧
            ∃ d1, x2.entity? (some m.entities.length) = some d1 ∧
              d1.matchComponent = some ⟨B, m.m_nextUniqueId⟩) := by
        cases hd : m.entity? p.m_playerEntity with
        | none =>
          have := migrateEntity_none c self B x1 _ hp1 (by rw [hent1]; exact hd)
          rw [this] at h2
          simp only [Except.ok.injEq] at h2
          subst h2
          exact ⟨Step.refl _ _ _ _, (fun _ => rfl), (fun d hd2 => by cases hd2)⟩
        | some d =>
          have := migrateEntity_spec c self B x1 x2 _ d hp1 (by rw [hent1]; exact hd) h2
          rw [hnext1, hlen1, hreg1] at this
          obtain ⟨hs, hc, hr, hn, _, he⟩ := this
          exact ⟨hs, (fun h => by cases h), (fun d2 _ => ⟨hc, hr, hn, he⟩)⟩
      obtain ⟨hs2, hnone2, hsome2⟩ := hmig
      obtain ⟨p2, hp2, hses2, hloc2, _, hstrict2⟩ := hs2.keeps _ hp1
      obtain ⟨hlay2, hvis2⟩ := hstrict2 rfl
      simp only at hses2 hloc2 hlay2 hvis2
      have hp3 : (x2.modifyPlayer self (fun q => { q with m_layerIndex := B })).player? self =
          some { p2 with m_layerIndex := B } := by
        rw [player?_modifyPlayer, if_pos rfl, hp2]
        rfl
      simp only [getPlayer_of _ self _ hp3] at hrun
      obtain ⟨q, hq, hlB, hm1⟩ := updateLayerVisibility_ok _ _ _ _ _ hrun
      rw [player?_log, hp3] at hq
      simp only [Option.some.injEq] at hq
      subst hq
      simp only [if_true] at hm1
      obtain ⟨mid, hmid, hctl⟩ := hs2.trace
      have hlc2 := hs2.layerCount
      have hlc1 : x1.layerCount = m.layerCount := by rw [hx1]; rfl
      refine ⟨by simpa using hlA, ?_, { p2 with
        m_layerIndex := B,
        m_visibleLayers := (Bitset.UnboundedSet p2.m_visibleLayers B true) }, mid, ?_, rfl, ?_, ?_,
        hctl, ?_, ?_, ?_⟩
      · have : B < x2.layerCount := by simpa using hlB
        rw [hlc2, hlc1] at this
        exact this
      · rw [hm1, player?_modifyPlayer, if_pos rfl, player?_log, player?_log, hp3]
        rfl
      · simp only [hvis2]
      · rw [hm1]
        simp only [Match.modifyPlayer, Match.log, hmid, htr1, hses2, hloc2, List.append_assoc]
        rfl
      · intro k e hk
        have h1' : x1.RetrieveEntityByUniqueId k = some e := by
          rw [retrieve_of_reg_eq m x1 hreg1]; exact hk
        have h2' := retrieve_of_step hs2 k e h1'
        rw [hm1]
        exact h2'
      · intro hnone
        have hx2 := hnone2 hnone
        subst hx2
        rw [hp1] at hp2
        simp only [Option.some.injEq] at hp2
        subst hp2
        refine ⟨rfl, by rw [hm1]; exact hreg1, by rw [hm1]; exact hents1,
          by rw [hm1]; exact hnext1, ?_⟩
        have := hmid
        simpa using this
      · intro d hd
        obtain ⟨hc, hr, hn, d1, hd1, hmc1⟩ := hsome2 d hd
        obtain ⟨pc, hpc, hpe⟩ := hc
        rw [hp2] at hpc
        simp only [Option.some.injEq] at hpc
        subst hpc
        refine ⟨hpe, by rw [hm1]; exact hr, hn, d1, ?_, hmc1⟩
        rw [hm1]
        exact hd1

theorem updateLayerVisibility_step (uid self layerIndex : Nat) (isVisible : Bool) (m m1 : Match)
    (h : Player.UpdateLayerVisibility self layerIndex isVisible m = .ok m1) :
    Step false uid self m m1 ∧ ∀ g, Controls self g m → Controls self g m1 := by
  obtain ⟨p, _, _, hm1⟩ := updateLayerVisibility_ok self layerIndex isVisible m m1 h
  subst hm1
  refine ⟨Step.trans (Step.log false uid self m _ (by intro q pi id hq; cases isVisible <;> cases hq))
    (Step.modifyPlayer false uid self _ _
      (by intro p; exact ⟨rfl, rfl, rfl, fun hs => by cases hs⟩)), ?_⟩
  intro g hc
  exact controls_modifyPlayer self g _ _ (fun _ => rfl) hc

theorem updateLayerVisibility_of (self layerIndex : Nat) (isVisible : Bool) (m : Match)
    (p : Player) (hp : m.player? self = some p) (hl : layerIndex < m.layerCount) :
    Player.UpdateLayerVisibility self layerIndex isVisible m =
      .ok ((m.log (Event.visibility p.m_session
              (if isVisible then VisibilityCall.ShowLayer layerIndex
               else VisibilityCall.HideLayer layerIndex))).modifyPlayer self
            (fun q => { q with m_visibleLayers :=
              Bitset.UnboundedSet q.m_visibleLayers layerIndex isVisible })) := by
  unfold Player.UpdateLayerVisibility
  have hnl : ¬ layerIndex ≥ m.layerCount := by omega
  simp only [getPlayer_of m self p hp, hnl, if_false]

/-- A `MoveToLayer` of a player that controls no entity clones and registers nothing. -/
theorem moveToLayer_step_noEntity (c : Constants) (uid self layerIndex : Nat) (m m1 : Match)
    (hc : Controls self none m) (hrun : Player.MoveToLayer c self layerIndex m = .ok m1) :
    Step false uid self m m1 := by
  obtain ⟨p, hp, hpe⟩ := hc
  unfold Player.MoveToLayer at hrun
  simp only [getPlayer_of m self p hp] at hrun
  by_cases hsame : p.m_layerIndex = layerIndex
  · simp only [hsame, if_true, Except.ok.injEq] at hrun
    subst hrun
    exact Step.refl _ _ _ _
  · simp only [hsame, if_false] at hrun
    have hs0 : Step false uid self m
        (m.log (Event.gamemode (GamemodeEvent.PlayerLayerUpdate self p.m_layerIndex layerIndex))) :=
      Step.log false uid self m _ (by intro q pi id hq; cases hq)
    have hc0 : Controls self none
        (m.log (Event.gamemode (GamemodeEvent.PlayerLayerUpdate self p.m_layerIndex layerIndex))) :=
      ⟨p, hp, hpe⟩
    split at hrun
    · cases hrun
    · rename_i x1 h1
      have hs1 : Step false uid self
          (m.log (Event.gamemode (GamemodeEvent.PlayerLayerUpdate self p.m_layerIndex layerIndex)))
          x1 ∧ Controls self none x1 := by
        split at h1
        · obtain ⟨hs, hk⟩ := updateLayerVisibility_step uid self _ _ _ _ h1
          exact ⟨hs, hk none hc0⟩
        · simp only [Except.ok.injEq] at h1
          subst h1
          exact ⟨Step.refl _ _ _ _, hc0⟩
      split at hrun
      · cases hrun
      · rename_i x2 h2
        have hs2 : Step false uid self x1 x2 := by
          split at h2
          · obtain ⟨p1, hp1, hpe1⟩ := hs1.2
            rw [migrateEntity_none c self layerIndex x1 p1 hp1
              (by rw [hpe1]; rfl)] at h2
            simp only [Except.ok.injEq] at h2
            subst h2
            exact Step.refl _ _ _ _
          · simp only [Except.ok.injEq] at h2
            subst h2
            exact Step.modifyPlayer false uid self _ _
              (by intro p; exact ⟨rfl, rfl, rfl, fun hs => by cases hs⟩)
        have hs3 : Step false uid self x2
            (x2.modifyPlayer self (fun q => { q with m_layerIndex := layerIndex })) :=
          Step.modifyPlayer false uid self _ _
            (by intro p; exact ⟨rfl, rfl, rfl, fun hs => by cases hs⟩)
        have hs03 := Step.trans (Step.trans (Step.trans hs0 hs1.1) hs2) hs3
        split at hrun
        · cases hrun
        · rename_i p3 _
          have hs4 : Step false uid self
              (x2.modifyPlayer self (fun q => { q with m_layerIndex := layerIndex }))
              ((x2.modifyPlayer self (fun q => { q with m_layerIndex := layerIndex })).log
                (Event.visibility p3.m_session
                  (VisibilityCall.PushLayerUpdate p3.m_localIndex p3.m_layerIndex))) :=
            Step.log false uid self _ _ (by intro q pi id hq; cases hq)
          split at hrun
          · exact Step.trans (Step.trans hs03 hs4)
              (updateLayerVisibility_step uid self _ _ _ _ hrun).1
          · simp only [Except.ok.injEq] at hrun
            subst hrun
            exact Step.trans hs03 hs4

/-! ## Layer migration: the claims -/

/-- C10: `MoveToLayer` from a valid layer `A` to a different valid layer `B`, when
it returns, leaves the player's recorded layer index at `B` and its
visible-layers set with `B` and without `A`; the trace gained, in this order,
the `PlayerLayerUpdate` callback, `HideLayer(A)`, the events of the clone block,
`PushLayerUpdate(localIndex, B)` and `ShowLayer(B)`, the three visibility calls
going to the player's session. For a player that controls no entity the call
does return. -/
theorem moveToLayer_switches_layer (c : Constants) (self A B : Nat) (m : Match) (p : Player)
    (hp : m.player? self = some p) (hpA : p.m_layerIndex = A) (hAB : A ≠ B)
    (hA : A < m.layerCount) (hAn : A ≠ c.NoLayer) (hB : B < m.layerCount)
    (hBn : B ≠ c.NoLayer) :
    (m.entity? p.m_playerEntity = none → ∃ m1, Player.MoveToLayer c self B m = .ok m1) ∧
    ∀ m1, Player.MoveToLayer c self B m = .ok m1 →
      ∃ p1 mid, m1.player? self = some p1 ∧ p1.m_layerIndex = B ∧
        Bitset.UnboundedTest p1.m_visibleLayers B = true ∧
        Bitset.UnboundedTest p1.m_visibleLayers A = false ∧
        m1.trace = m.trace ++
          [Event.gamemode (GamemodeEvent.PlayerLayerUpdate self A B),
           Event.visibility p.m_session (VisibilityCall.HideLayer A)] ++ mid ++
          [Event.visibility p.m_session (VisibilityCall.PushLayerUpdate p.m_localIndex B),
           Event.visibility p.m_session (VisibilityCall.ShowLayer B)] := by
  subst hpA
  constructor
  · intro hnone
    have h1 := updateLayerVisibility_of self p.m_layerIndex false
      (m.log (Event.gamemode (GamemodeEvent.PlayerLayerUpdate self p.m_layerIndex B))) p hp hA
    have hp1 : (((m.log (Event.gamemode (GamemodeEvent.PlayerLayerUpdate self p.m_layerIndex
        B))).log (Event.visibility p.m_session (VisibilityCall.HideLayer
        p.m_layerIndex))).modifyPlayer self (fun q => { q with
        m_visibleLayers := (Bitset.UnboundedSet q.m_visibleLayers p.m_layerIndex false) })).player?
        self = some { p with
          m_visibleLayers := (Bitset.UnboundedSet p.m_visibleLayers p.m_layerIndex false) } := by
      rw [player?_modifyPlayer, if_pos rfl, player?_log, player?_log, hp]
      rfl
    have h2 := migrateEntity_none c self B _ _ hp1 hnone
    have hp3 : ((((m.log (Event.gamemode (GamemodeEvent.PlayerLayerUpdate self p.m_layerIndex
        B))).log (Event.visibility p.m_session (VisibilityCall.HideLayer
        p.m_layerIndex))).modifyPlayer self (fun q => { q with
        m_visibleLayers := (Bitset.UnboundedSet q.m_visibleLayers p.m_layerIndex false)
        })).modifyPlayer self (fun q => { q with m_layerIndex := B })).player? self =
        some { p with
          m_layerIndex := B,
          m_visibleLayers := (Bitset.UnboundedSet p.m_visibleLayers p.m_layerIndex false) } := by
      rw [player?_modifyPlayer, if_pos rfl, hp1]
      rfl
    have h4 := updateLayerVisibility_of self B true
      (((((m.log (Event.gamemode (GamemodeEvent.PlayerLayerUpdate self p.m_layerIndex
        B))).log (Event.visibility p.m_session (VisibilityCall.HideLayer
        p.m_layerIndex))).modifyPlayer self (fun q => { q with
        m_visibleLayers := (Bitset.UnboundedSet q.m_visibleLayers p.m_layerIndex false)
        })).modifyPlayer self (fun q => { q with m_layerIndex := B })).log
        (Event.visibility p.m_session (VisibilityCall.PushLayerUpdate p.m_localIndex B)))
      _ hp3 hB
    unfold Player.MoveToLayer
    simp only [getPlayer_of m self p hp, hAB, if_false, hAn, hBn, ne_eq, not_false_eq_true,
      and_self, if_true, h1, Bool.false_eq_true, h2, getPlayer_of _ self _ hp3, h4]
    exact ⟨_, rfl⟩
  · intro m1 hrun
    obtain ⟨_, _, p1, mid, hp1, hl1, hv1, ht1, _⟩ := moveToLayer_spec c self B m m1 p hp hAB hAn hBn hrun
    refine ⟨p1, mid, hp1, hl1, ?_, ?_, ht1⟩
    · rw [hv1, unboundedTest_unboundedSet, if_pos rfl]
    · rw [hv1, unboundedTest_unboundedSet, if_neg (fun h => hAB h.symm),
        unboundedTest_unboundedSet, if_pos rfl]

theorem moveToLayer_switches_layer_witness :
    ∃ p1 mid, Examples.afterMove.player? 0 = some p1 ∧ p1.m_layerIndex = 1 ∧
      Bitset.UnboundedTest p1.m_visibleLayers 1 = true ∧
      Bitset.UnboundedTest p1.m_visibleLayers 0 = false ∧
      Examples.afterMove.trace = Examples.arena.trace ++
        [Event.gamemode (GamemodeEvent.PlayerLayerUpdate 0 0 1),
         Event.visibility Examples.alice.m_session (VisibilityCall.HideLayer 0)] ++ mid ++
        [Event.visibility Examples.alice.m_session
          (VisibilityCall.PushLayerUpdate Examples.alice.m_localIndex 1),
         Event.visibility Examples.alice.m_session (VisibilityCall.ShowLayer 1)] :=
  (moveToLayer_switches_layer Examples.consts 0 0 1 Examples.arena Examples.alice rfl rfl
    (by decide) (by decide) (by decide) (by decide) (by decide)).2 Examples.afterMove rfl

/-- C8: round trip between the broadcast `PlayerControlEntity` id and the registry.
First part: when `UpdateControlledEntity` returns for a live target whose
`MatchComponent` id is the id it is registered under, the call ended with the
broadcast of `PlayerControlEntity` carrying that id, every such packet sent
during the call carries it, the player now controls the target and the id
resolves to the target. Second part: when `MoveToLayer` between two layers
returns for a player controlling a live entity, every `PlayerControlEntity`
packet sent carries the id taken from the counter, which was not registered
before, and that id resolves to the clone, which the player now controls. -/
theorem controlled_id_resolves (c : Constants) (self : Nat) (m : Match) :
    (∀ h d mc sendPacket ignoreLayerUpdate m1,
      m.entity? (some h) = some d → d.matchComponent = some mc →
      m.RetrieveEntityByUniqueId mc.uniqueId = some h →
      Player.UpdateControlledEntity c self (some h) sendPacket ignoreLayerUpdate m = .ok m1 →
        (∃ (m5 : Match) (pi : Nat), m1 =
          m5.BroadcastPacket (Packet.PlayerControlEntity pi mc.uniqueId) true (some self)) ∧
        (∃ mid, m1.trace = m.trace ++ mid ∧ ∀ ev ∈ mid, CtlId mc.uniqueId ev) ∧
        Controls self (some h) m1 ∧
        m1.RetrieveEntityByUniqueId mc.uniqueId = some h) ∧
    (∀ p d B m1,
      m.player? self = some p → m.entity? p.m_playerEntity = some d →
      p.m_layerIndex ≠ B → p.m_layerIndex ≠ c.NoLayer → B ≠ c.NoLayer →
      Player.MoveToLayer c self B m = .ok m1 →
        (∃ mid, m1.trace = m.trace ++ mid ∧ ∀ ev ∈ mid, CtlId m.m_nextUniqueId ev) ∧
        Match.findEntity m.m_entitiesByUniqueId m.m_nextUniqueId = none ∧
        Controls self (some m.entities.length) m1 ∧
        m1.RetrieveEntityByUniqueId m.m_nextUniqueId = some m.entities.length) := by
  constructor
  · intro h d mc sendPacket ignoreLayerUpdate m1 hd hmc hreg hrun
    obtain ⟨hs, hc, hb⟩ := updateControlled_step false (Player.MoveToLayer c self) c self h
      sendPacket ignoreLayerUpdate m m1 d mc hd hmc
      (fun l x x1 hx hmv => moveToLayer_step_noEntity c mc.uniqueId self l x x1 hx hmv) hrun
    exact ⟨hb, hs.trace, hc, retrieve_of_step hs _ _ hreg⟩
  · intro p d B m1 hp hd hAB hA hB hrun
    obtain ⟨_, _, p1, mid, hp1, _, _, ht1, hctl, _, _, hsome⟩ :=
      moveToLayer_spec c self B m m1 p hp hAB hA hB hrun
    obtain ⟨hpe, hret, hnone, _⟩ := hsome d hd
    refine ⟨⟨_, by rw [ht1, List.append_assoc, List.append_assoc], ?_⟩, hnone, ⟨p1, hp1, hpe⟩, hret⟩
    intro ev hev
    rcases List.mem_append.mp hev with h1 | h2
    · intro q pi id hq
      subst hq
      simp at h1
    · rcases List.mem_append.mp h2 with h3 | h4
      · exact hctl ev h3
      · intro q pi id hq
        subst hq
        simp at h4

theorem controlled_id_resolves_witness :
    (Controls 1 (some 1) Examples.afterControl ∧
      Examples.afterControl.RetrieveEntityByUniqueId 6 = some 1) ∧
    (Controls 0 (some 2) Examples.afterMove ∧
      Examples.afterMove.RetrieveEntityByUniqueId 7 = some 2) :=
  ⟨((controlled_id_resolves Examples.consts 1 Examples.arena).1 1 Examples.sword ⟨0, 6⟩ true false
      Examples.afterControl rfl rfl rfl rfl).2.2,
   ((controlled_id_resolves Examples.consts 0 Examples.arena).2 Examples.alice Examples.hero 1
      Examples.afterMove rfl rfl (by decide) (by decide) (by decide) rfl).2.2⟩

/-- C9, as stated, fails: `MoveToLayer` does not destroy the original entity, so
after the move of `arena`'s player 0 from layer 0 to layer 1 the original unique
id 5 still resolves to the original entity 0. -/
theorem original_id_still_resolves :
    ¬ (∀ m1, Player.MoveToLayer Examples.consts 0 1 Examples.arena = .ok m1 →
        m1.RetrieveEntityByUniqueId 5 = none) := by
  intro h
  have := h Examples.afterMove rfl
  exact absurd this (by decide)

/-- C9, amended: after `MoveToLayer` has migrated the controlled entity `E`,
registered under `origId`, between two layers, the clone is a new entity that
carries the newly allocated id, which differs from `origId` and resolves to the
clone; `origId` still resolves to `E`. -/
theorem moveToLayer_keeps_original_id (c : Constants) (self B E origId : Nat) (m m1 : Match)
    (p : Player) (d : EntityData)
    (hp : m.player? self = some p) (hE : p.m_playerEntity = some E)
    (hd : m.entity? (some E) = some d)
    (hreg : m.RetrieveEntityByUniqueId origId = some E)
    (hAB : p.m_layerIndex ≠ B) (hA : p.m_layerIndex ≠ c.NoLayer) (hB : B ≠ c.NoLayer)
    (hrun : Player.MoveToLayer c self B m = .ok m1) :
    origId ≠ m.m_nextUniqueId ∧ E ≠ m.entities.length ∧
    Controls self (some m.entities.length) m1 ∧
    (∃ d1, m1.entity? (some m.entities.length) = some d1 ∧
      d1.matchComponent = some ⟨B, m.m_nextUniqueId⟩) ∧
    m1.RetrieveEntityByUniqueId m.m_nextUniqueId = some m.entities.length ∧
    m1.RetrieveEntityByUniqueId origId = some E := by
  obtain ⟨_, _, p1, mid, hp1, _, _, _, _, hkeep, _, hsome⟩ :=
    moveToLayer_spec c self B m m1 p hp hAB hA hB hrun
  obtain ⟨hpe, hret, hnone, hclone⟩ := hsome d (by rw [hE]; exact hd)
  refine ⟨?_, ?_, ⟨p1, hp1, hpe⟩, hclone, hret, hkeep _ _ hreg⟩
  · intro heq
    rw [heq] at hreg
    simp [Match.RetrieveEntityByUniqueId, hnone] at hreg
  · have := entity?_lt m E d hd
    omega

theorem moveToLayer_keeps_original_id_witness :
    Examples.afterMove.RetrieveEntityByUniqueId 7 = some 2 ∧
    Examples.afterMove.RetrieveEntityByUniqueId 5 = some 0 :=
  (moveToLayer_keeps_original_id Examples.consts 0 1 0 5 Examples.arena Examples.afterMove
    Examples.alice Examples.hero rfl rfl rfl rfl (by decide) (by decide) (by decide)
    rfl).2.2.2.2

/-! ## Layer visibility: bounds and idempotence -/

/-- C13: for an existing player, `UpdateLayerVisibility(layerIndex, isVisible)` throws
the runtime error exactly when `layerIndex >= layer count` (so it throws for
`layerIndex = layer count` and returns for `layerIndex = 0` on a terrain with a
layer). The state a throwing call leaves behind is the state it was given: no
`ShowLayer` or `HideLayer` call (no event at all) was added to the trace and the
visible-layers bitset of the player is the one before the call. A call that
returns logged exactly one such call. -/
theorem updateLayerVisibility_throws_iff (self layerIndex : Nat) (isVisible : Bool) (m : Match)
    (p : Player) (hp : m.player? self = some p) :
    (Player.UpdateLayerVisibility self layerIndex isVisible m = .error .runtimeError ↔
      layerIndex ≥ m.layerCount) ∧
    (layerIndex < m.layerCount →
      ∃ m1, Player.UpdateLayerVisibility self layerIndex isVisible m = .ok m1 ∧
        m1.trace = m.trace ++ [Event.visibility p.m_session
          (if isVisible then VisibilityCall.ShowLayer layerIndex
           else VisibilityCall.HideLayer layerIndex)]) ∧
    Player.UpdateLayerVisibility self m.layerCount isVisible m = .error .runtimeError ∧
    (0 < m.layerCount → ∃ m1, Player.UpdateLayerVisibility self 0 isVisible m = .ok m1) ∧
    Player.UpdateLayerVisibility self layerIndex isVisible m =
      (match (Player.updateLayerVisibilityUnwound self layerIndex isVisible m).2 with
        | none => .ok (Player.updateLayerVisibilityUnwound self layerIndex isVisible m).1
        | some e => .error e) ∧
    (layerIndex ≥ m.layerCount →
      Player.updateLayerVisibilityUnwound self layerIndex isVisible m =
        (m, some .runtimeError) ∧
      (Player.updateLayerVisibilityUnwound self layerIndex isVisible m).1.trace = m.trace ∧
      (∀ s call, Event.visibility s call ∈
          (Player.updateLayerVisibilityUnwound self layerIndex isVisible m).1.trace →
        Event.visibility s call ∈ m.trace) ∧
      ∃ q, (Player.updateLayerVisibilityUnwound self layerIndex isVisible m).1.player? self =
          some q ∧ q.m_visibleLayers = p.m_visibleLayers) := by
  have herr : ∀ l, l ≥ m.layerCount →
      Player.UpdateLayerVisibility self l isVisible m = .error .runtimeError := by
    intro l hl
    unfold Player.UpdateLayerVisibility
    simp only [getPlayer_of m self p hp, hl, if_true]
  have hleft : layerIndex ≥ m.layerCount →
      Player.updateLayerVisibilityUnwound self layerIndex isVisible m =
        (m, some .runtimeError) := by
    intro hl
    unfold Player.updateLayerVisibilityUnwound
    simp only [getPlayer_of m self p hp, hl, if_true]
  refine ⟨⟨?_, herr layerIndex⟩, ?_, herr _ (Nat.le_refl _), ?_, ?_, ?_⟩
  · intro h
    by_contra hlt
    rw [updateLayerVisibility_of self layerIndex isVisible m p hp (by omega)] at h
    cases h
  · intro hlt
    exact ⟨_, updateLayerVisibility_of self layerIndex isVisible m p hp hlt, rfl⟩
  · intro hpos
    exact ⟨_, updateLayerVisibility_of self 0 isVisible m p hp hpos⟩
  · by_cases hl : layerIndex ≥ m.layerCount
    · rw [herr layerIndex hl, hleft hl]
    · unfold Player.UpdateLayerVisibility Player.updateLayerVisibilityUnwound
      simp only [getPlayer_of m self p hp, hl, if_false]
  · intro hl
    rw [hleft hl]
    exact ⟨rfl, rfl, fun _ _ h => h, p, hp, rfl⟩

theorem updateLayerVisibility_throws_iff_witness :
    Player.UpdateLayerVisibility 0 2 true Examples.arena = .error .runtimeError ∧
    Player.updateLayerVisibilityUnwound 0 2 true Examples.arena =
      (Examples.arena, some .runtimeError) :=
  ⟨(updateLayerVisibility_throws_iff 0 2 true Examples.arena Examples.alice rfl).2.2.1,
    ((updateLayerVisibility_throws_iff 0 2 true Examples.arena Examples.alice rfl).2.2.2.2.2
      (by decide)).1⟩

theorem unboundedSet_of_test (b : List Bool) (i : Nat) (v : Bool)
    (h : Bitset.UnboundedTest b i = v) : Bitset.UnboundedSet b i v = b := by
  unfold Bitset.UnboundedSet
  by_cases hi : i < b.length
  · simp only [hi, if_true, Bitset.Set]
    simp only [Bitset.UnboundedTest, Bitset.Test, hi, decide_True, Bool.true_and,
      List.getD_eq_getElem?_getD, List.getElem?_eq_getElem hi, Option.getD_some] at h
    rw [← h]
    apply List.ext_getElem?
    intro j
    rw [List.getElem?_set]
    by_cases hij : i = j
    · subst hij
      simp [hi]
    · simp [hij]
  · simp only [hi, if_false]
    simp only [Bitset.UnboundedTest, hi, decide_False, Bool.false_and] at h
    subst h
    simp

/-- C15, as stated, fails: `Player::UpdateLayerVisibility` passes every request on;
showing layer 0 to `arena`'s player 0, who already sees it, adds a `ShowLayer(0)`
call to the trace. -/
theorem show_visible_layer_calls_again :
    ¬ (∀ m1, Player.UpdateLayerVisibility 0 0 true Examples.arena = .ok m1 →
        m1.trace = Examples.arena.trace) := by
  intro h
  have := h Examples.shownAgain rfl
  exact absurd this (by decide)

/-- C15, amended: showing through `Player::UpdateLayerVisibility` a layer the player
already sees, or hiding one it does not see, returns and leaves the player,
its visible-layers set included, unchanged; the request is still passed on: the
trace gains exactly one `ShowLayer`/`HideLayer` call on the player's session. -/
theorem updateLayerVisibility_same_state (self layerIndex : Nat) (isVisible : Bool) (m : Match)
    (p : Player) (hp : m.player? self = some p) (hl : layerIndex < m.layerCount)
    (hsame : Bitset.UnboundedTest p.m_visibleLayers layerIndex = isVisible) :
    ∃ m1, Player.UpdateLayerVisibility self layerIndex isVisible m = .ok m1 ∧
      m1.player? self = some p ∧
      m1.trace = m.trace ++ [Event.visibility p.m_session
        (if isVisible then VisibilityCall.ShowLayer layerIndex
         else VisibilityCall.HideLayer layerIndex)] := by
  refine ⟨_, updateLayerVisibility_of self layerIndex isVisible m p hp hl, ?_, rfl⟩
  rw [player?_modifyPlayer, if_pos rfl, player?_log, hp]
  simp only [Option.map_some', unboundedSet_of_test _ _ _ hsame]

theorem updateLayerVisibility_same_state_witness :
    ∃ m1, Player.UpdateLayerVisibility 0 0 true Examples.arena = .ok m1 ∧
      m1.player? 0 = some Examples.alice ∧
      m1.trace = Examples.arena.trace ++ [Event.visibility Examples.alice.m_session
        (if true then VisibilityCall.ShowLayer 0 else VisibilityCall.HideLayer 0)] :=
  updateLayerVisibility_same_state 0 0 true Examples.arena Examples.alice rfl (by decide) rfl

/-! ## `MoveToLayer` from or to `NoLayer` -/

theorem updateLayerVisibility_fields (self layerIndex : Nat) (isVisible : Bool) (m m1 : Match)
    (h : Player.UpdateLayerVisibility self layerIndex isVisible m = .ok m1) :
    m1.m_nextUniqueId = m.m_nextUniqueId ∧
    m1.m_entitiesByUniqueId = m.m_entitiesByUniqueId ∧ m1.entities = m.entities ∧
    m1.layerCount = m.layerCount ∧ m1.m_freePlayerId = m.m_freePlayerId := by
  obtain ⟨p, _, _, hm1⟩ := updateLayerVisibility_ok self layerIndex isVisible m m1 h
  subst hm1
  exact ⟨rfl, rfl, rfl, rfl, rfl⟩

/-- C12: `MoveToLayer` to a different layer when the old layer or the destination is
`NoLayer`: whenever it returns, the unique-id counter, the registry and the
entity worlds are unchanged (nothing was cloned, allocated or registered), the
player's controlled entity is empty and its layer index is the destination. It
does return when the layer that is not `NoLayer` is a layer of the terrain. -/
theorem moveToLayer_noLayer (c : Constants) (self B : Nat) (m : Match) (p : Player)
    (hp : m.player? self = some p) (hAB : p.m_layerIndex ≠ B)
    (hno : p.m_layerIndex = c.NoLayer ∨ B = c.NoLayer) :
    (∀ m1, Player.MoveToLayer c self B m = .ok m1 →
      m1.m_nextUniqueId = m.m_nextUniqueId ∧
      m1.m_entitiesByUniqueId = m.m_entitiesByUniqueId ∧ m1.entities = m.entities ∧
      ∃ p1, m1.player? self = some p1 ∧ p1.m_playerEntity = none ∧ p1.m_layerIndex = B) ∧
    (p.m_layerIndex = c.NoLayer → B < m.layerCount →
      ∃ m1, Player.MoveToLayer c self B m = .ok m1) ∧
    (B = c.NoLayer → p.m_layerIndex < m.layerCount →
      ∃ m1, Player.MoveToLayer c self B m = .ok m1) := by
  have hcond : ¬ (p.m_layerIndex ≠ c.NoLayer ∧ B ≠ c.NoLayer) := by
    rintro ⟨h1, h2⟩
    rcases hno with h | h
    · exact h1 h
    · exact h2 h
  refine ⟨?_, ?_, ?_⟩
  · intro m1 hrun
    unfold Player.MoveToLayer at hrun
    simp only [getPlayer_of m self p hp, hAB, if_false, hcond] at hrun
    split at hrun
    · cases hrun
    · rename_i x1 h1
      have hx1 : x1.m_nextUniqueId = m.m_nextUniqueId ∧
          x1.m_entitiesByUniqueId = m.m_entitiesByUniqueId ∧ x1.entities = m.entities ∧
          ∃ q, x1.player? self = some q := by
        split at h1
        · obtain ⟨a, b, e, _, _⟩ := updateLayerVisibility_fields _ _ _ _ _ h1
          obtain ⟨q, hq, _, hm⟩ := updateLayerVisibility_ok _ _ _ _ _ h1
          refine ⟨a, b, e, ?_⟩
          rw [hm, player?_modifyPlayer, if_pos rfl, player?_log, hq]
          exact ⟨_, rfl⟩
        · simp only [Except.ok.injEq] at h1
          subst h1
          exact ⟨rfl, rfl, rfl, p, hp⟩
      obtain ⟨hn1, hr1, he1, q, hq⟩ := hx1
      have hp3 : ((x1.modifyPlayer self (fun q => { q with m_playerEntity := none })).modifyPlayer
          self (fun q => { q with m_layerIndex := B })).player? self =
          some { q with m_playerEntity := none, m_layerIndex := B } := by
        rw [player?_modifyPlayer, if_pos rfl, player?_modifyPlayer, if_pos rfl, hq]
        rfl
      simp only [getPlayer_of _ self _ hp3] at hrun
      split at hrun
      · obtain ⟨a, b, e, _, _⟩ := updateLayerVisibility_fields _ _ _ _ _ hrun
        obtain ⟨q2, hq2, _, hm⟩ := updateLayerVisibility_ok _ _ _ _ _ hrun
        rw [player?_log, hp3] at hq2
        refine ⟨a.trans hn1, b.trans hr1, e.trans he1, ?_⟩
        rw [hm, player?_modifyPlayer, if_pos rfl, player?_log, player?_log, hp3]
        exact ⟨_, rfl, rfl, rfl⟩
      · simp only [Except.ok.injEq] at hrun
        subst hrun
        exact ⟨hn1, hr1, he1, _, hp3, rfl, rfl⟩
  · intro hA hB
    have hBn : B ≠ c.NoLayer := fun h => hAB (hA.trans h.symm)
    have hp3 : (((m.log (Event.gamemode (GamemodeEvent.PlayerLayerUpdate self p.m_layerIndex
        B))).modifyPlayer self (fun q => { q with m_playerEntity := none })).modifyPlayer
        self (fun q => { q with m_layerIndex := B })).player? self =
        some { p with m_playerEntity := none, m_layerIndex := B } := by
      rw [player?_modifyPlayer, if_pos rfl, player?_modifyPlayer, if_pos rfl, player?_log, hp]
      rfl
    have h4 := updateLayerVisibility_of self B true
      ((((m.log (Event.gamemode (GamemodeEvent.PlayerLayerUpdate self p.m_layerIndex
        B))).modifyPlayer self (fun q => { q with m_playerEntity := none })).modifyPlayer
        self (fun q => { q with m_layerIndex := B })).log
        (Event.visibility p.m_session (VisibilityCall.PushLayerUpdate p.m_localIndex B)))
      _ hp3 hB
    have hAnn : ¬ (p.m_layerIndex ≠ c.NoLayer) := not_not.mpr hA
    unfold Player.MoveToLayer
    simp only [getPlayer_of m self p hp, hAB, if_false, hcond, hAnn, false_and,
      getPlayer_of _ self _ hp3, hBn, ne_eq, not_false_eq_true, if_true]
    exact ⟨_, h4⟩
  · intro hB hA
    subst hB
    have hAn : p.m_layerIndex ≠ c.NoLayer := hAB
    have h1 := updateLayerVisibility_of self p.m_layerIndex false
      (m.log (Event.gamemode (GamemodeEvent.PlayerLayerUpdate self p.m_layerIndex c.NoLayer)))
      p hp hA
    have hp3 : (((((m.log (Event.gamemode (GamemodeEvent.PlayerLayerUpdate self p.m_layerIndex
        c.NoLayer))).log (Event.visibility p.m_session (VisibilityCall.HideLayer
        p.m_layerIndex))).modifyPlayer self (fun q => { q with
        m_visibleLayers := (Bitset.UnboundedSet q.m_visibleLayers p.m_layerIndex false)
        })).modifyPlayer self (fun q => { q with m_playerEntity := none })).modifyPlayer
        self (fun q => { q with m_layerIndex := c.NoLayer })).player? self =
        some { p with
          m_playerEntity := none, m_layerIndex := c.NoLayer,
          m_visibleLayers := (Bitset.UnboundedSet p.m_visibleLayers p.m_layerIndex false) } := by
      rw [player?_modifyPlayer, if_pos rfl, player?_modifyPlayer, if_pos rfl,
        player?_modifyPlayer, if_pos rfl, player?_log, player?_log, hp]
      rfl
    unfold Player.MoveToLayer
    simp only [getPlayer_of m self p hp, hAB, if_false, hAn, ne_eq, not_false_eq_true,
      if_true, h1, Bool.false_eq_true, getPlayer_of _ self _ hp3, not_true_eq_false, and_false]
    exact ⟨_, rfl⟩

theorem moveToLayer_noLayer_witness :
    Examples.afterLeave.m_nextUniqueId = Examples.arena.m_nextUniqueId ∧
    Examples.afterLeave.m_entitiesByUniqueId = Examples.arena.m_entitiesByUniqueId ∧
    Examples.afterLeave.entities = Examples.arena.entities ∧
    ∃ p1, Examples.afterLeave.player? 1 = some p1 ∧ p1.m_playerEntity = none ∧
      p1.m_layerIndex = 65535 :=
  (moveToLayer_noLayer Examples.consts 1 65535 Examples.arena Examples.bob rfl (by decide)
    (Or.inr rfl)).1 Examples.afterLeave rfl

/-! ## `MoveToLayer` with a destination outside the terrain -/

/-- `MoveToLayer` to another layer is `moveToLayerBeforeShow` followed by the last
statement of the method. -/
theorem moveToLayer_eq_beforeShow (c : Constants) (self layerIndex : Nat) (m : Match)
    (p : Player) (hp : m.player? self = some p) (hne : p.m_layerIndex ≠ layerIndex) :
    Player.MoveToLayer c self layerIndex m =
      match Player.moveToLayerBeforeShow c self layerIndex m with
      | .error e => .error e
      | .ok m4 =>
        if layerIndex ≠ c.NoLayer then Player.UpdateLayerVisibility self layerIndex true m4
        else .ok m4 := by
  unfold Player.MoveToLayer Player.moveToLayerBeforeShow
  simp only [getPlayer_of m self p hp, hne, if_false]
  split
  · rfl
  · split
    · rfl
    · split <;> rfl

/-- C14 on the code: bob (player 1 of `arena`, on layer 0 of two layers, no controlled
entity) is moved to layer 5. The call ends in the runtime error, thrown by the
last statement `UpdateLayerVisibility(5, true)`; the state it is thrown in has the
player's layer index at 5 and layer 0 removed from its visible layers, where
before the call they were 0 and layer 0 visible; from that state a further
`MoveToLayer` to the valid layer 1 throws as well. -/
theorem moveToLayer_out_of_range_corrupts :
    Player.MoveToLayer Examples.consts 1 5 Examples.arena = .error .runtimeError ∧
    Player.moveToLayerBeforeShow Examples.consts 1 5 Examples.arena = .ok Examples.strandedMove ∧
    Player.UpdateLayerVisibility 1 5 true Examples.strandedMove = .error .runtimeError ∧
    (Examples.arena.player? 1).map (fun p => (p.m_layerIndex, p.m_visibleLayers)) =
      some (0, [true]) ∧
    (Examples.strandedMove.player? 1).map (fun p => (p.m_layerIndex, p.m_visibleLayers)) =
      some (5, [false]) ∧
    Player.MoveToLayer Examples.consts 1 1 Examples.strandedMove = .error .runtimeError := by
  refine ⟨rfl, rfl, rfl, rfl, rfl, rfl⟩

/-! ## Recipients of a broadcast -/

theorem broadcast_trace (m : Match) (packet : Packet) (onlyReady : Bool) (except : Option Nat) :
    (m.BroadcastPacket packet onlyReady except).trace =
      m.trace ++ (m.recipients onlyReady except).map (fun i => Event.send i packet) := by
  simp [Match.BroadcastPacket, Match.logAll, Match.recipients, List.map_map, Function.comp_def]

theorem mem_livePlayers (m : Match) (i : Nat) (q : Player) :
    (i, q) ∈ m.livePlayers ↔ m.player? i = some q := by
  simp only [Match.livePlayers, List.mem_filterMap, List.mem_enum_iff_getElem?, Match.player?,
    List.getD_eq_getElem?_getD]
  constructor
  · rintro ⟨⟨j, op⟩, hj, hop⟩
    cases op with
    | none => simp at hop
    | some x =>
      simp only [Option.map_some', Option.some.injEq, Prod.mk.injEq] at hop
      obtain ⟨h1, h2⟩ := hop
      subst h1; subst h2
      simp only at hj
      rw [hj]
      rfl
  · intro h
    cases hg : m.m_players[i]? with
    | none => simp [hg] at h
    | some op =>
      simp only [hg, Option.getD_some] at h
      subst h
      exact ⟨(i, some q), hg, rfl⟩

theorem mem_recipients (m : Match) (onlyReady : Bool) (except : Option Nat) (i : Nat) :
    i ∈ m.recipients onlyReady except ↔
      ∃ q, m.player? i = some q ∧ (onlyReady = true → q.m_isReady = true) ∧ some i ≠ except := by
  simp only [Match.recipients, List.mem_map, List.mem_filter, Bool.and_eq_true, Bool.or_eq_true,
    Bool.not_eq_true', decide_eq_true_eq]
  constructor
  · rintro ⟨⟨j, q⟩, ⟨hmem, hr, he⟩, hij⟩
    simp only at hij
    subst hij
    refine ⟨q, (mem_livePlayers m j q).mp hmem, ?_, he⟩
    intro ho
    rcases hr with h | h
    · rw [ho] at h
      cases h
    · exact h
  · rintro ⟨q, hq, hr, he⟩
    refine ⟨(i, q), ⟨(mem_livePlayers m i q).mpr hq, ?_, he⟩, rfl⟩
    cases onlyReady with
    | false => exact Or.inl rfl
    | true => exact Or.inr (hr rfl)

theorem livePlayers_map_fst (l : List (Nat × Option Player)) :
    (l.filterMap (fun ip => ip.2.map (fun p => (ip.1, p)))).map Prod.fst =
      (l.filter (fun ip => ip.2.isSome)).map Prod.fst := by
  induction l with
  | nil => rfl
  | cons a rest ih =>
    obtain ⟨i, op⟩ := a
    cases op with
    | none => simpa [List.filterMap_cons, List.filter_cons] using ih
    | some x => simpa [List.filterMap_cons, List.filter_cons] using ih

theorem recipients_sorted (m : Match) (onlyReady : Bool) (except : Option Nat) :
    (m.recipients onlyReady except).Pairwise (· < ·) := by
  have h1 : (m.livePlayers.map Prod.fst).Pairwise (· < ·) := by
    rw [Match.livePlayers, livePlayers_map_fst]
    have hsub : ((m.m_players.enum.filter (fun ip => ip.2.isSome)).map Prod.fst).Sublist
        (m.m_players.enum.map Prod.fst) := (List.filter_sublist _).map _
    rw [List.enum_map_fst] at hsub
    exact List.Pairwise.sublist hsub (List.pairwise_lt_range _)
  exact List.Pairwise.sublist ((List.filter_sublist _).map _) h1

theorem recipients_congr (m m1 : Match) (onlyReady : Bool) (except : Option Nat)
    (h : ∀ i, some i ≠ except →
      (m1.player? i).map (fun p => p.m_isReady) = (m.player? i).map (fun p => p.m_isReady)) :
    m1.recipients onlyReady except = m.recipients onlyReady except := by
  have hmem : ∀ i, i ∈ m1.recipients onlyReady except ↔ i ∈ m.recipients onlyReady except := by
    intro i
    rw [mem_recipients, mem_recipients]
    constructor
    · rintro ⟨q, hq, hr, he⟩
      have := h i he
      rw [hq] at this
      cases hq0 : m.player? i with
      | none => simp [hq0] at this
      | some q0 =>
        simp only [hq0, Option.map_some', Option.some.injEq] at this
        exact ⟨q0, rfl, fun ho => this ▸ hr ho, he⟩
    · rintro ⟨q, hq, hr, he⟩
      have := h i he
      rw [hq] at this
      cases hq1 : m1.player? i with
      | none => simp [hq1] at this
      | some q1 =>
        simp only [hq1, Option.map_some', Option.some.injEq] at this
        exact ⟨q1, rfl, fun ho => this ▸ hr ho, he⟩
  have hs1 := recipients_sorted m1 onlyReady except
  have hs := recipients_sorted m onlyReady except
  have hperm : (m1.recipients onlyReady except).Perm (m.recipients onlyReady except) :=
    (List.perm_ext_iff_of_nodup (hs1.imp (fun h => Nat.ne_of_lt h))
      (hs.imp (fun h => Nat.ne_of_lt h))).mpr hmem
  exact List.eq_of_perm_of_sorted hperm hs1 hs

/-! ## `UpdateControlledEntity` with an empty target -/

theorem releaseControlled_entity? (self : Nat) (m m2 : Match)
    (h : Player.releaseControlled self m = .ok m2) (g : EntityHandle) :
    (m2.entity? g).isSome = (m.entity? g).isSome := by
  unfold Player.releaseControlled at h
  cases hp : m.getPlayer self with
  | error e => simp [hp] at h
  | ok p =>
    simp only [hp] at h
    cases hd : m.entity? p.m_playerEntity with
    | none =>
      simp only [hd, Except.ok.injEq] at h
      subst h
      rfl
    | some d =>
      simp only [hd] at h
      cases hc : Match.component d.matchComponent with
      | error e => simp [hc] at h
      | ok mc =>
        simp only [hc, Except.ok.injEq] at h
        subst h
        have : ∀ x : Match, ∀ ev, (x.log ev).entity? g = x.entity? g := fun _ _ => rfl
        rw [this, entity?_modifyEntity m p.m_playerEntity _ (by intro _; rfl) g]
        split
        · cases m.entity? g <;> rfl
        · rfl

theorem controlTarget_invalid (move : Nat → Match → Except Err Match) (c : Constants)
    (self : Nat) (target : EntityHandle) (ignoreLayerUpdate : Bool) (m : Match)
    (h : m.entity? target = none) :
    Player.controlTarget move c self target ignoreLayerUpdate m = .ok (c.InvalidEntityId, m) := by
  unfold Player.controlTarget
  cases target with
  | none => rfl
  | some t => simp only [h]

/-- `UpdateControlledEntity` with an invalid target handle: the release of the
previous entity, the disconnection of the hooks, the optional `ControlEntity`
packet and the broadcast. -/
theorem updateControlled_invalid_target (move : Nat → Match → Except Err Match) (c : Constants)
    (self : Nat) (target : EntityHandle) (sendPacket ignoreLayerUpdate : Bool) (m : Match)
    (p : Player) (hp : m.player? self = some p) (htarget : m.entity? target = none) :
    Player.UpdateControlledEntityWith move c self target sendPacket ignoreLayerUpdate m =
      match Player.releaseControlled self m with
      | .error e => .error e
      | .ok m2 =>
        .ok ((if sendPacket then
              (m2.modifyPlayer self Player.disconnectHooks).log
                (Event.send self (Packet.ControlEntity p.m_localIndex c.NoLayer 0))
             else m2.modifyPlayer self Player.disconnectHooks).BroadcastPacket
          (Packet.PlayerControlEntity (p.m_playerIndex % 65536) c.InvalidEntityId) true
          (some self)) := by
  unfold Player.UpdateControlledEntityWith
  cases hrel : Player.releaseControlled self m with
  | error e => rfl
  | ok m2 =>
    simp only
    have hpl := (releaseControlled_step false 0 self m m2 hrel).2
    have hp2 : (m2.modifyPlayer self Player.disconnectHooks).player? self =
        some (Player.disconnectHooks p) := by
      rw [player?_modifyPlayer, if_pos rfl, player?_of_players_eq m m2 hpl, hp]
      rfl
    have ht2 : (m2.modifyPlayer self Player.disconnectHooks).entity? target = none := by
      have h1 := releaseControlled_entity? self m m2 hrel target
      rw [htarget] at h1
      have h2 : (m2.modifyPlayer self Player.disconnectHooks).entity? target = m2.entity? target :=
        rfl
      rw [h2]
      cases hx : m2.entity? target with
      | none => rfl
      | some d => simp [hx] at h1
    rw [controlTarget_invalid move c self target ignoreLayerUpdate _ ht2]
    simp only
    cases sendPacket with
    | false =>
      simp only [Bool.false_eq_true, if_false, getPlayer_of _ self _ hp2]
      rfl
    | true =>
      have hsend : Player.sendControlEntity c self target
          (m2.modifyPlayer self Player.disconnectHooks) =
          .ok ((m2.modifyPlayer self Player.disconnectHooks).log
            (Event.send self (Packet.ControlEntity p.m_localIndex c.NoLayer 0))) := by
        unfold Player.sendControlEntity
        simp only [getPlayer_of _ self _ hp2]
        rfl
      have hp3 : ((m2.modifyPlayer self Player.disconnectHooks).log
            (Event.send self (Packet.ControlEntity p.m_localIndex c.NoLayer 0))).player? self =
          some (Player.disconnectHooks p) := hp2
      simp only [if_true, hsend, getPlayer_of _ self _ hp3]
      rfl

theorem recipients_modifyPlayer (m : Match) (self : Nat) (f : Player → Player)
    (hf : ∀ p, (f p).m_isReady = p.m_isReady) (onlyReady : Bool) (except : Option Nat) :
    (m.modifyPlayer self f).recipients onlyReady except = m.recipients onlyReady except := by
  apply recipients_congr
  intro i _
  rw [player?_modifyPlayer]
  split
  · cases m.player? i with
    | none => rfl
    | some q => simp [hf]
  · rfl


/-- C17: for a player that controls no entity, `UpdateControlledEntity` with an empty
target returns for every flag combination. Its result is the state with the
player's hooks disconnected, then, if `sendPacket`, the `ControlEntity` packet
`(localIndex, NoLayer, 0)` sent to the player, then the broadcast of
`PlayerControlEntity` with `InvalidEntityId`: nothing else is added to the trace
(no `SetEntityControlledStatus`, no `PlayerLayerUpdate` of a `MoveToLayer`), no
entity is changed and the controlled entity stays empty. -/
theorem updateControlled_empty (c : Constants) (self : Nat) (target : EntityHandle)
    (sendPacket ignoreLayerUpdate : Bool) (m : Match) (p : Player)
    (hp : m.player? self = some p) (hnone : m.entity? p.m_playerEntity = none)
    (htarget : m.entity? target = none) :
    Player.UpdateControlledEntity c self target sendPacket ignoreLayerUpdate m =
      .ok ((if sendPacket then
            (m.modifyPlayer self Player.disconnectHooks).log
              (Event.send self (Packet.ControlEntity p.m_localIndex c.NoLayer 0))
           else m.modifyPlayer self Player.disconnectHooks).BroadcastPacket
        (Packet.PlayerControlEntity (p.m_playerIndex % 65536) c.InvalidEntityId) true (some self)) ∧
    ∀ m1, Player.UpdateControlledEntity c self target sendPacket ignoreLayerUpdate m = .ok m1 →
      m1.entities = m.entities ∧ Controls self none m1 ∧
      m1.trace = m.trace ++
        (if sendPacket then
          [Event.send self (Packet.ControlEntity p.m_localIndex c.NoLayer 0)] else []) ++
        (m.recipients true (some self)).map (fun i => Event.send i
          (Packet.PlayerControlEntity (p.m_playerIndex % 65536) c.InvalidEntityId)) := by
  have hrel : Player.releaseControlled self m = .ok m := by
    unfold Player.releaseControlled
    simp only [getPlayer_of m self p hp, hnone]
  have hrun := updateControlled_invalid_target (Player.MoveToLayer c self) c self target
    sendPacket ignoreLayerUpdate m p hp htarget
  rw [hrel] at hrun
  simp only at hrun
  refine ⟨hrun, ?_⟩
  intro m1 h1
  unfold Player.UpdateControlledEntity at h1
  rw [hrun] at h1
  simp only [Except.ok.injEq] at h1
  subst h1
  have hrec : ∀ x : Match, x.m_players = (m.modifyPlayer self Player.disconnectHooks).m_players →
      x.recipients true (some self) = m.recipients true (some self) := by
    intro x hx
    refine (recipients_congr _ x true (some self) (fun i _ => ?_)).trans
      (recipients_modifyPlayer m self Player.disconnectHooks (fun _ => rfl) true (some self))
    rw [player?_of_players_eq _ x hx]
  cases sendPacket with
  | false =>
    refine ⟨rfl, ⟨Player.disconnectHooks p, ?_, rfl⟩, ?_⟩
    · show (m.modifyPlayer self Player.disconnectHooks).player? self = _
      rw [player?_modifyPlayer, if_pos rfl, hp]
      rfl
    · rw [broadcast_trace]
      simp only [Bool.false_eq_true, if_false, List.append_nil,
        hrec (m.modifyPlayer self Player.disconnectHooks) rfl]
      rfl
  | true =>
    refine ⟨rfl, ⟨Player.disconnectHooks p, ?_, rfl⟩, ?_⟩
    · show (m.modifyPlayer self Player.disconnectHooks).player? self = _
      rw [player?_modifyPlayer, if_pos rfl, hp]
      rfl
    · rw [broadcast_trace, if_pos rfl, if_pos rfl,
        hrec ((m.modifyPlayer self Player.disconnectHooks).log
          (Event.send self (Packet.ControlEntity p.m_localIndex c.NoLayer 0))) rfl]
      rfl

theorem updateControlled_empty_witness :
    Examples.afterRelease.entities = Examples.arena.entities ∧
    Controls 1 none Examples.afterRelease ∧
    Examples.afterRelease.trace = Examples.arena.trace ++
      (if true then
        [Event.send 1 (Packet.ControlEntity Examples.bob.m_localIndex Examples.consts.NoLayer 0)]
       else []) ++
      (Examples.arena.recipients true (some 1)).map (fun i => Event.send i
        (Packet.PlayerControlEntity (Examples.bob.m_playerIndex % 65536)
          Examples.consts.InvalidEntityId)) :=
  (updateControlled_empty Examples.consts 1 none true false Examples.arena Examples.bob rfl rfl
    rfl).2 Examples.afterRelease rfl

/-! ## Calls that leave entities and registry alone -/

theorem quiet_refl (self : Nat) (m : Match) : Quiet self m m :=
  { entities := rfl, reg := rfl, next := rfl, layerCount := rfl, free := rfl
    others := fun _ _ => rfl
    keeps := fun p h => ⟨p, h, rfl, rfl, rfl, rfl, rfl, rfl, rfl⟩
    trace := ⟨[], by simp⟩ }

theorem quiet_trans {self : Nat} {m m1 m2 : Match} (h1 : Quiet self m m1)
    (h2 : Quiet self m1 m2) : Quiet self m m2 := by
  constructor
  · exact h2.entities.trans h1.entities
  · exact h2.reg.trans h1.reg
  · exact h2.next.trans h1.next
  · exact h2.layerCount.trans h1.layerCount
  · exact h2.free.trans h1.free
  · exact fun i hi => (h2.others i hi).trans (h1.others i hi)
  · intro p hp
    obtain ⟨p1, hp1, a1, b1, c1, d1, e1, f1, g1⟩ := h1.keeps p hp
    obtain ⟨p2, hp2, a2, b2, c2, d2, e2, f2, g2⟩ := h2.keeps p1 hp1
    exact ⟨p2, hp2, a2.trans a1, b2.trans b1, c2.trans c1, d2.trans d1, e2.trans e1,
      f2.trans f1, g2.trans g1⟩
  · obtain ⟨a, ha, hca⟩ := h1.trace
    obtain ⟨b, hb, hcb⟩ := h2.trace
    refine ⟨a ++ b, by rw [hb, ha, List.append_assoc], ?_⟩
    intro ev hev
    rcases List.mem_append.mp hev with h | h
    · exact hca ev h
    · exact hcb ev h

theorem quiet_log (self : Nat) (m : Match) (ev : Event) (hev : NoCtl ev) :
    Quiet self m (m.log ev) :=
  { entities := rfl, reg := rfl, next := rfl, layerCount := rfl, free := rfl
    others := fun _ _ => rfl
    keeps := fun p h => ⟨p, h, rfl, rfl, rfl, rfl, rfl, rfl, rfl⟩
    trace := ⟨[ev], rfl, by simpa using hev⟩ }

theorem quiet_modifyPlayer (self : Nat) (m : Match) (f : Player → Player)
    (hf : ∀ p, (f p).m_isReady = p.m_isReady ∧ (f p).m_playerIndex = p.m_playerIndex ∧
      (f p).m_session = p.m_session ∧ (f p).m_localIndex = p.m_localIndex ∧
      (f p).m_name = p.m_name ∧ (f p).m_onPlayerEntityDied = p.m_onPlayerEntityDied ∧
      (f p).m_onPlayerEntityDestruction = p.m_onPlayerEntityDestruction) :
    Quiet self m (m.modifyPlayer self f) :=
  { entities := rfl, reg := rfl, next := rfl, layerCount := rfl, free := rfl
    others := fun i hi => by rw [player?_modifyPlayer, if_neg (fun h => hi h.symm)]
    keeps := fun p h => by
      refine ⟨f p, ?_, hf p⟩
      rw [player?_modifyPlayer, if_pos rfl, h]
      rfl
    trace := ⟨[], by simp [Match.modifyPlayer]⟩ }

theorem updateLayerVisibility_quiet (self layerIndex : Nat) (isVisible : Bool) (m m1 : Match)
    (h : Player.UpdateLayerVisibility self layerIndex isVisible m = .ok m1) :
    Quiet self m m1 := by
  obtain ⟨p, _, _, hm1⟩ := updateLayerVisibility_ok self layerIndex isVisible m m1 h
  subst hm1
  exact quiet_trans (quiet_log self m _ ⟨(by intro q pi id hq; cases isVisible <;> cases hq),
    (by intro s l i b hq; cases isVisible <;> cases hq)⟩)
    (quiet_modifyPlayer self _ _ (by intro p; exact ⟨rfl, rfl, rfl, rfl, rfl, rfl, rfl⟩))

theorem sendControlEntity_quiet (c : Constants) (self : Nat) (entity : EntityHandle)
    (m m1 : Match) (h : Player.sendControlEntity c self entity m = .ok m1) :
    Quiet self m m1 ∧ m1.m_players = m.m_players := by
  unfold Player.sendControlEntity at h
  cases hp : m.getPlayer self with
  | error e => simp [hp] at h
  | ok p =>
    simp only [hp] at h
    cases hd : m.entity? p.m_playerEntity with
    | none =>
      simp only [hd, Except.ok.injEq] at h
      subst h
      exact ⟨quiet_log self _ _ ⟨(by intro q pi id hq; cases hq), (by intro s l i b hq; cases hq)⟩, rfl⟩
    | some d =>
      simp only [hd] at h
      cases hc : Match.component d.matchComponent with
      | error e => simp [hc] at h
      | ok mc =>
        simp only [hc] at h
        cases he : m.getEntity entity with
        | error e => simp [he] at h
        | ok de =>
          simp only [he, Except.ok.injEq] at h
          subst h
          exact ⟨quiet_log self _ _ ⟨(by intro q pi id hq; cases hq), (by intro s l i b hq; cases hq)⟩, rfl⟩

/-- A `MoveToLayer` of a player that controls no entity touches neither entities nor registry. -/
theorem moveToLayer_quiet (c : Constants) (self layerIndex : Nat) (m m1 : Match)
    (hc : Controls self none m) (hrun : Player.MoveToLayer c self layerIndex m = .ok m1) :
    Quiet self m m1 := by
  obtain ⟨p, hp, hpe⟩ := hc
  unfold Player.MoveToLayer at hrun
  simp only [getPlayer_of m self p hp] at hrun
  by_cases hsame : p.m_layerIndex = layerIndex
  · simp only [hsame, if_true, Except.ok.injEq] at hrun
    subst hrun
    exact quiet_refl _ _
  · simp only [hsame, if_false] at hrun
    have hs0 : Quiet self m
        (m.log (Event.gamemode (GamemodeEvent.PlayerLayerUpdate self p.m_layerIndex layerIndex))) :=
      quiet_log self m _ ⟨(by intro q pi id hq; cases hq), (by intro s l i b hq; cases hq)⟩
    have hc0 : Controls self none
        (m.log (Event.gamemode (GamemodeEvent.PlayerLayerUpdate self p.m_layerIndex layerIndex))) :=
      ⟨p, hp, hpe⟩
    split at hrun
    · cases hrun
    · rename_i x1 h1
      have hs1 : Quiet self
          (m.log (Event.gamemode (GamemodeEvent.PlayerLayerUpdate self p.m_layerIndex layerIndex)))
          x1 ∧ Controls self none x1 := by
        split at h1
        · exact ⟨updateLayerVisibility_quiet self _ _ _ _ h1,
            (updateLayerVisibility_step 0 self _ _ _ _ h1).2 none hc0⟩
        · simp only [Except.ok.injEq] at h1
          subst h1
          exact ⟨quiet_refl _ _, hc0⟩
      split at hrun
      · cases hrun
      · rename_i x2 h2
        have hs2 : Quiet self x1 x2 := by
          split at h2
          · obtain ⟨p1, hp1, hpe1⟩ := hs1.2
            rw [migrateEntity_none c self layerIndex x1 p1 hp1
              (by rw [hpe1]; rfl)] at h2
            simp only [Except.ok.injEq] at h2
            subst h2
            exact quiet_refl _ _
          · simp only [Except.ok.injEq] at h2
            subst h2
            exact quiet_modifyPlayer self _ _ (by intro p; exact ⟨rfl, rfl, rfl, rfl, rfl, rfl, rfl⟩)
        have hs3 : Quiet self x2
            (x2.modifyPlayer self (fun q => { q with m_layerIndex := layerIndex })) :=
          quiet_modifyPlayer self _ _ (by intro p; exact ⟨rfl, rfl, rfl, rfl, rfl, rfl, rfl⟩)
        have hs03 := quiet_trans (quiet_trans (quiet_trans hs0 hs1.1) hs2) hs3
        split at hrun
        · cases hrun
        · rename_i p3 _
          have hs4 : Quiet self
              (x2.modifyPlayer self (fun q => { q with m_layerIndex := layerIndex }))
              ((x2.modifyPlayer self (fun q => { q with m_layerIndex := layerIndex })).log
                (Event.visibility p3.m_session
                  (VisibilityCall.PushLayerUpdate p3.m_localIndex p3.m_layerIndex))) :=
            quiet_log self _ _ ⟨(by intro q pi id hq; cases hq), (by intro s l i b hq; cases hq)⟩
          split at hrun
          · exact quiet_trans (quiet_trans hs03 hs4)
              (updateLayerVisibility_quiet self _ _ _ _ hrun)
          · simp only [Except.ok.injEq] at hrun
            subst hrun
            exact quiet_trans hs03 hs4

/-! ## `UpdateControlledEntity`: what each block does -/

theorem releaseControlled_explicit (self : Nat) (m m2 : Match) (p : Player)
    (hp : m.player? self = some p) (h : Player.releaseControlled self m = .ok m2) :
    m2.m_players = m.m_players ∧ m2.m_entitiesByUniqueId = m.m_entitiesByUniqueId ∧
    m2.m_nextUniqueId = m.m_nextUniqueId ∧
    ((m.entity? p.m_playerEntity = none ∧ m2 = m) ∨
      ∃ o dold mco, p.m_playerEntity = some o ∧ m.entity? (some o) = some dold ∧
        dold.matchComponent = some mco ∧
        m2.entities = m.entities.modify releasedData o ∧
        m2.trace = m.trace ++ [Event.visibility p.m_session
          (VisibilityCall.SetEntityControlledStatus mco.layerIndex dold.id false)]) := by
  unfold Player.releaseControlled at h
  simp only [getPlayer_of m self p hp] at h
  cases hd : m.entity? p.m_playerEntity with
  | none =>
    simp only [hd, Except.ok.injEq] at h
    subst h
    exact ⟨rfl, rfl, rfl, Or.inl ⟨rfl, rfl⟩⟩
  | some d =>
    simp only [hd] at h
    cases hc : Match.component d.matchComponent with
    | error e => simp [hc] at h
    | ok mc =>
      simp only [hc, Except.ok.injEq] at h
      subst h
      cases ho : p.m_playerEntity with
      | none => rw [ho] at hd; cases hd
      | some o =>
        rw [ho] at hd
        exact ⟨rfl, rfl, rfl, Or.inr ⟨o, d, mc, rfl, hd, component_ok _ _ hc, rfl, rfl⟩⟩

theorem takeControl_explicit (self h : Nat) (m m4 : Match) (id : Nat)
    (hrun : Player.takeControl self h m = .ok (id, m4)) :
    ∃ p d mc, m.player? self = some p ∧ m.entity? (some h) = some d ∧
      d.matchComponent = some mc ∧ id = mc.uniqueId ∧
      m4.entities = m.entities.modify (controlledData self) h ∧
      m4.m_entitiesByUniqueId = m.m_entitiesByUniqueId ∧
      m4.m_nextUniqueId = m.m_nextUniqueId ∧
      (∀ i, i ≠ self → m4.player? i = m.player? i) ∧
      (∃ p4, m4.player? self = some p4 ∧ p4.m_playerEntity = some h ∧
        p4.m_isReady = p.m_isReady ∧ p4.m_playerIndex = p.m_playerIndex ∧
        p4.m_session = p.m_session ∧ p4.m_localIndex = p.m_localIndex ∧
        p4.m_onPlayerEntityDestruction = some h ∧
        p4.m_onPlayerEntityDied =
          (if d.healthComponent then some h else p.m_onPlayerEntityDied)) ∧
      m4.trace = m.trace ++ [Event.visibility p.m_session
        (VisibilityCall.SetEntityControlledStatus mc.layerIndex d.id true)] := by
  unfold Player.takeControl at hrun
  cases hp : m.getPlayer self with
  | error e => simp [hp] at hrun
  | ok p =>
    simp only [hp] at hrun
    cases hd : m.getEntity (some h) with
    | error e => simp [hd] at hrun
    | ok d =>
      simp only [hd] at hrun
      cases hc : Match.component d.matchComponent with
      | error e => simp [hc] at hrun
      | ok mc =>
        simp only [hc, Except.ok.injEq, Prod.mk.injEq] at hrun
        obtain ⟨hid, hm4⟩ := hrun
        have hpl := getPlayer_ok m self p hp
        refine ⟨p, d, mc, hpl, getEntity_ok m _ d hd, component_ok _ _ hc, hid.symm, ?_, ?_, ?_,
          ?_, ?_, ?_⟩
        · rw [← hm4]
          by_cases hw : d.weaponWielderComponent.isSome = true <;>
            by_cases hh : d.healthComponent = true <;>
            simp [hw, hh, Match.log, Match.modifyPlayer, Match.modifyEntity] <;> rfl
        · rw [← hm4]
          by_cases hw : d.weaponWielderComponent.isSome = true <;>
            by_cases hh : d.healthComponent = true <;>
            simp [hw, hh, Match.log, Match.modifyPlayer, Match.modifyEntity]
        · rw [← hm4]
          by_cases hw : d.weaponWielderComponent.isSome = true <;>
            by_cases hh : d.healthComponent = true <;>
            simp [hw, hh, Match.log, Match.modifyPlayer, Match.modifyEntity]
        · intro i hi
          have hne : ¬ self = i := fun e => hi e.symm
          rw [← hm4]
          by_cases hw : d.weaponWielderComponent.isSome = true <;>
            by_cases hh : d.healthComponent = true <;>
            simp [hw, hh, player?_log, player?_modifyEntity, player?_modifyPlayer, hne]
        · rw [← hm4]
          by_cases hw : d.weaponWielderComponent.isSome = true <;>
            by_cases hh : d.healthComponent = true <;>
            simp [hw, hh, player?_log, player?_modifyEntity, player?_modifyPlayer, hpl]
        · rw [← hm4]
          by_cases hw : d.weaponWielderComponent.isSome = true <;>
            by_cases hh : d.healthComponent = true <;>
            simp [hw, hh, Match.log, Match.modifyPlayer, Match.modifyEntity]

theorem entity?_modify_eq (m m1 : Match) (f : EntityData → EntityData) (o : Nat)
    (hf : ∀ d, (f d).alive = d.alive) (hents : m1.entities = m.entities.modify f o)
    (g : EntityHandle) :
    m1.entity? g = if some o = g then (m.entity? g).map f else m.entity? g := by
  rw [← entity?_modifyEntity m (some o) f hf g]
  exact entity?_of_entities_eq (m.modifyEntity (some o) f) m1 hents g

/-- `UpdateControlledEntity` with a live target carrying a `MatchComponent`: the
previous entity is released, the target gets the control components and the
hooks, and the call ends with `SetEntityControlledStatus(true)`, the optional
`ControlEntity` packet and the broadcast to the ready other players. -/
theorem updateControlled_valid (move : Nat → Match → Except Err Match) (c : Constants)
    (self h : Nat) (sendPacket ignoreLayerUpdate : Bool) (m m1 : Match) (p : Player)
    (d : EntityData) (mc : MatchComponent)
    (hp : m.player? self = some p)
    (hd : m.entity? (some h) = some d) (hmc : d.matchComponent = some mc)
    (hmove : ∀ l x x1, Controls self none x → move l x = .ok x1 → Quiet self x x1)
    (hrun : Player.UpdateControlledEntityWith move c self (some h) sendPacket ignoreLayerUpdate m
      = .ok m1) :
    ∃ m2 mid post, Player.releaseControlled self m = .ok m2 ∧
      m1.entities = m2.entities.modify (controlledData self) h ∧
      m1.m_entitiesByUniqueId = m.m_entitiesByUniqueId ∧
      m1.m_nextUniqueId = m.m_nextUniqueId ∧
      (∀ i, i ≠ self → m1.player? i = m.player? i) ∧
      (∃ p1, m1.player? self = some p1 ∧ p1.m_playerEntity = some h ∧
        p1.m_isReady = p.m_isReady ∧ p1.m_playerIndex = p.m_playerIndex ∧
        p1.m_session = p.m_session ∧ p1.m_localIndex = p.m_localIndex ∧
        p1.m_onPlayerEntityDestruction = some h ∧
        p1.m_onPlayerEntityDied = (if d.healthComponent then some h else none)) ∧
      m1.trace = m2.trace ++ mid ++
        [Event.visibility p.m_session
          (VisibilityCall.SetEntityControlledStatus mc.layerIndex d.id true)] ++ post ++
        (m.recipients true (some self)).map (fun i => Event.send i
          (Packet.PlayerControlEntity (p.m_playerIndex % 65536) mc.uniqueId)) ∧
      (∀ ev ∈ mid, NoCtl ev) ∧ (∀ ev ∈ post, NoCtl ev) ∧
      (ignoreLayerUpdate = true → mid = []) ∧ (sendPacket = false → post = []) := by
  unfold Player.UpdateControlledEntityWith at hrun
  cases hrel : Player.releaseControlled self m with
  | error e => simp [hrel] at hrun
  | ok m2 =>
    simp only [hrel] at hrun
    obtain ⟨hpl2, hreg2, hnext2, hcase2⟩ := releaseControlled_explicit self m m2 p hp hrel
    -- the target after the release
    have hd2 : ∃ d2, m2.entity? (some h) = some d2 ∧ d2.matchComponent = some mc ∧
        d2.id = d.id ∧ d2.healthComponent = d.healthComponent := by
      rcases hcase2 with ⟨_, hm2⟩ | ⟨o, dold, mco, _, _, _, hents, _⟩
      · subst hm2
        exact ⟨d, hd, hmc, rfl, rfl⟩
      · rw [entity?_modify_eq m m2 releasedData o (fun _ => rfl) hents (some h), hd]
        split
        · exact ⟨releasedData d, rfl, hmc, rfl, rfl⟩
        · exact ⟨d, rfl, hmc, rfl, rfl⟩
    obtain ⟨d2, hd2, hmc2, hid2, hhealth2⟩ := hd2
    have hp2 : m2.player? self = some p := by
      rw [player?_of_players_eq m m2 hpl2]; exact hp
    have hp3 : (m2.modifyPlayer self Player.disconnectHooks).player? self =
        some (Player.disconnectHooks p) := by
      rw [player?_modifyPlayer, if_pos rfl, hp2]; rfl
    have ho3 : ∀ i, i ≠ self →
        (m2.modifyPlayer self Player.disconnectHooks).player? i = m.player? i := by
      intro i hi
      rw [player?_modifyPlayer, if_neg (fun e => hi e.symm), player?_of_players_eq m m2 hpl2]
    have hd3 : (m2.modifyPlayer self Player.disconnectHooks).entity? (some h) = some d2 := hd2
    -- the block `if (entity)`
    unfold Player.controlTarget at hrun
    simp only [hd3, hmc2, Match.component] at hrun
    cases hmv : (if ignoreLayerUpdate = true then
        Except.ok (m2.modifyPlayer self Player.disconnectHooks)
        else move mc.layerIndex (m2.modifyPlayer self Player.disconnectHooks)) with
    | error e => simp [hmv] at hrun
    | ok x1 =>
      simp only [hmv] at hrun
      have hq : Quiet self (m2.modifyPlayer self Player.disconnectHooks) x1 ∧
          (ignoreLayerUpdate = true → x1 = m2.modifyPlayer self Player.disconnectHooks) := by
        cases ignoreLayerUpdate with
        | true =>
          simp only [if_true, Except.ok.injEq] at hmv
          subst hmv
          exact ⟨quiet_refl _ _, fun _ => rfl⟩
        | false =>
          simp only [Bool.false_eq_true, if_false] at hmv
          exact ⟨hmove _ _ _ ⟨_, hp3, rfl⟩ hmv, (fun hh => by cases hh)⟩
      obtain ⟨hq, hqid⟩ := hq
      cases htk : Player.takeControl self h x1 with
      | error e => simp [htk] at hrun
      | ok r =>
        obtain ⟨id, m4⟩ := r
        simp only [htk] at hrun
        obtain ⟨px, dx, mcx, hpx, hdx, hmcx, hidx, hents4, hreg4, hnext4, ho4,
          ⟨p4, hp4, hpe4, hr4, hi4, hs4, hl4, hdes4, hdied4⟩, htr4⟩ :=
          takeControl_explicit self h x1 m4 id htk
        obtain ⟨px', hpx', hr1, hi1, hs1, hl1, _, hdied1, _⟩ := hq.keeps _ hp3
        rw [hpx] at hpx'
        simp only [Option.some.injEq] at hpx'
        subst hpx'
        have hdx' : dx = d2 := by
          have := entity?_of_entities_eq _ x1 hq.entities (some h)
          rw [hdx, hd3] at this
          exact Option.some.inj this
        subst hdx'
        rw [hmc2] at hmcx
        simp only [Option.some.injEq] at hmcx
        subst hmcx
        cases hsend : (if sendPacket = true then Player.sendControlEntity c self (some h) m4
            else Except.ok m4) with
        | error e => simp [hsend] at hrun
        | ok m5 =>
          simp only [hsend] at hrun
          have h5 : ∃ post, m5.trace = m4.trace ++ post ∧ (∀ ev ∈ post, NoCtl ev) ∧
              (sendPacket = false → post = []) ∧ m5.m_players = m4.m_players ∧
              m5.entities = m4.entities ∧ m5.m_entitiesByUniqueId = m4.m_entitiesByUniqueId ∧
              m5.m_nextUniqueId = m4.m_nextUniqueId := by
            cases sendPacket with
            | true =>
              simp only [if_true] at hsend
              obtain ⟨hq5, hpl5⟩ := sendControlEntity_quiet c self _ m4 m5 hsend
              obtain ⟨post, hpost, hno⟩ := hq5.trace
              exact ⟨post, hpost, hno, (fun hh => by cases hh), hpl5, hq5.entities, hq5.reg,
                hq5.next⟩
            | false =>
              simp only [Bool.false_eq_true, if_false, Except.ok.injEq] at hsend
              subst hsend
              exact ⟨[], by simp, by simp, fun _ => rfl, rfl, rfl, rfl, rfl⟩
          obtain ⟨post, htr5, hno5, hpost5, hpl5, hents5, hreg5, hnext5⟩ := h5
          have hp5 : m5.player? self = some p4 := by
            rw [player?_of_players_eq m4 m5 hpl5]; exact hp4
          simp only [getPlayer_of m5 self p4 hp5, Except.ok.injEq] at hrun
          subst hrun
          obtain ⟨mid, hmid, hnomid⟩ := hq.trace
          have hrec : m5.recipients true (some self) = m.recipients true (some self) := by
            apply recipients_congr
            intro i hi
            have hne : i ≠ self := fun e => hi (by rw [e])
            rw [player?_of_players_eq m4 m5 hpl5, ho4 i hne, hq.others i hne, ho3 i hne]
          refine ⟨m2, mid, post, rfl, ?_, ?_, ?_, ?_, ?_, ?_, hnomid, hno5, ?_, hpost5⟩
          · show m5.entities = _
            rw [hents5, hents4, hq.entities]
            rfl
          · show m5.m_entitiesByUniqueId = _
            rw [hreg5, hreg4, hq.reg]
            exact hreg2
          · show m5.m_nextUniqueId = _
            rw [hnext5, hnext4, hq.next]
            exact hnext2
          · intro i hi
            show m5.player? i = _
            rw [player?_of_players_eq m4 m5 hpl5, ho4 i hi, hq.others i hi, ho3 i hi]
          · refine ⟨p4, hp5, hpe4, hr4.trans hr1, hi4.trans hi1, hs4.trans hs1, hl4.trans hl1,
              hdes4, ?_⟩
            rw [hdied4, hhealth2, hdied1]
            rfl
          · rw [broadcast_trace, hrec, htr5, htr4, hmid, hi4, hi1, hs1, hid2, hidx]
            simp only [Player.disconnectHooks, List.append_assoc]
            rfl
          · intro hilu
            have hx1 := hqid hilu
            subst hx1
            have := hmid
            simpa using this

/-! ## `UpdateControlledEntity` returns -/

theorem releaseControlled_returns (self : Nat) (m : Match) (p : Player)
    (hp : m.player? self = some p)
    (hprev : ∀ dold, m.entity? p.m_playerEntity = some dold → dold.matchComponent ≠ none) :
    ∃ m2, Player.releaseControlled self m = .ok m2 := by
  unfold Player.releaseControlled
  simp only [getPlayer_of m self p hp]
  cases hd : m.entity? p.m_playerEntity with
  | none => exact ⟨m, rfl⟩
  | some dold =>
    cases hmc : dold.matchComponent with
    | none => exact absurd hmc (hprev dold hd)
    | some mc =>
      simp only [hmc, Match.component]
      exact ⟨_, rfl⟩

theorem takeControl_returns (self h : Nat) (m : Match) (p : Player) (d : EntityData)
    (mc : MatchComponent) (hp : m.player? self = some p) (hd : m.entity? (some h) = some d)
    (hmc : d.matchComponent = some mc) :
    ∃ m4, Player.takeControl self h m = .ok (mc.uniqueId, m4) := by
  unfold Player.takeControl
  simp only [getPlayer_of m self p hp, Match.getEntity, hd, hmc, Match.component]
  exact ⟨_, rfl⟩

theorem sendControlEntity_returns (c : Constants) (self : Nat) (entity : EntityHandle) (m : Match)
    (p : Player) (d de : EntityData) (mc : MatchComponent) (hp : m.player? self = some p)
    (hd : m.entity? p.m_playerEntity = some d) (hmc : d.matchComponent = some mc)
    (he : m.entity? entity = some de) :
    ∃ m1, Player.sendControlEntity c self entity m = .ok m1 := by
  unfold Player.sendControlEntity
  simp only [getPlayer_of m self p hp, Match.getEntity, hd, hmc, Match.component, he]
  exact ⟨_, rfl⟩

/-- A `MoveToLayer` of a player without controlled entity returns when the layer it
leaves and the layer it enters are `NoLayer` or layers of the terrain. -/
theorem moveToLayer_returns_noEntity (c : Constants) (self B : Nat) (m : Match) (p : Player)
    (hp : m.player? self = some p) (hpe : p.m_playerEntity = none)
    (hA : p.m_layerIndex = c.NoLayer ∨ p.m_layerIndex < m.layerCount)
    (hB : B = c.NoLayer ∨ B < m.layerCount) :
    ∃ m1, Player.MoveToLayer c self B m = .ok m1 := by
  unfold Player.MoveToLayer
  simp only [getPlayer_of m self p hp]
  by_cases hsame : p.m_layerIndex = B
  · exact ⟨m, by simp [hsame]⟩
  · simp only [hsame, if_false]
    have h1 : ∃ x1, (if p.m_layerIndex ≠ c.NoLayer then
          Player.UpdateLayerVisibility self p.m_layerIndex false
            (m.log (Event.gamemode (GamemodeEvent.PlayerLayerUpdate self p.m_layerIndex B)))
        else .ok (m.log (Event.gamemode (GamemodeEvent.PlayerLayerUpdate self p.m_layerIndex B))))
          = .ok x1 ∧ x1.layerCount = m.layerCount ∧
          ∃ p1, x1.player? self = some p1 ∧ p1.m_playerEntity = none := by
      by_cases hno : p.m_layerIndex = c.NoLayer
      · rw [if_neg (not_not.mpr hno)]
        exact ⟨_, rfl, rfl, p, hp, hpe⟩
      · have hlt : p.m_layerIndex < m.layerCount := by
          rcases hA with h | h
          · exact absurd h hno
          · exact h
        rw [if_pos hno, updateLayerVisibility_of self p.m_layerIndex false
          (m.log (Event.gamemode (GamemodeEvent.PlayerLayerUpdate self p.m_layerIndex B))) p hp hlt]
        refine ⟨_, rfl, rfl, { p with m_visibleLayers :=
          (Bitset.UnboundedSet p.m_visibleLayers p.m_layerIndex false) }, ?_, ?_⟩
        · rw [player?_modifyPlayer, if_pos rfl]
          show Option.map _ (m.player? self) = _
          rw [hp]
          rfl
        · exact hpe
    obtain ⟨x1, hx1, hlc1, p1, hp1, hpe1⟩ := h1
    rw [hx1]
    simp only
    have h2 : ∃ x2, (if p.m_layerIndex ≠ c.NoLayer ∧ B ≠ c.NoLayer then
          Player.migrateEntity c self B x1
        else .ok (x1.modifyPlayer self (fun q => { q with m_playerEntity := none }))) = .ok x2 ∧
          x2.layerCount = m.layerCount ∧ ∃ p2, x2.player? self = some p2 := by
      by_cases hcond : p.m_layerIndex ≠ c.NoLayer ∧ B ≠ c.NoLayer
      · rw [if_pos hcond, migrateEntity_none c self B x1 p1 hp1 (by rw [hpe1]; rfl)]
        exact ⟨x1, rfl, hlc1, p1, hp1⟩
      · rw [if_neg hcond]
        refine ⟨_, rfl, hlc1, { p1 with m_playerEntity := none }, ?_⟩
        rw [player?_modifyPlayer, if_pos rfl, hp1]
        rfl
    obtain ⟨x2, hx2, hlc2, p2, hp2⟩ := h2
    rw [hx2]
    simp only
    have hp3 : (x2.modifyPlayer self (fun q => { q with m_layerIndex := B })).player? self =
        some { p2 with m_layerIndex := B } := by
      rw [player?_modifyPlayer, if_pos rfl, hp2]
      rfl
    simp only [getPlayer_of _ self _ hp3]
    by_cases hno : B = c.NoLayer
    · rw [if_neg (not_not.mpr hno)]
      exact ⟨_, rfl⟩
    · have hlt : B < m.layerCount := by
        rcases hB with h | h
        · exact absurd h hno
        · exact h
      rw [if_pos hno, updateLayerVisibility_of self B true
        ((x2.modifyPlayer self (fun q => { q with m_layerIndex := B })).log
          (Event.visibility p2.m_session (VisibilityCall.PushLayerUpdate p2.m_localIndex B)))
        _ hp3 (by rw [← hlc2] at hlt; exact hlt)]
      exact ⟨_, rfl⟩

/-- The call `UpdateControlledEntity` on a live target returns when the previously
controlled entity (if any) and the target carry a `MatchComponent` and, unless
`ignoreLayerUpdate`, the player's layer and the target's layer are `NoLayer` or
layers of the terrain. -/
theorem updateControlled_returns (move : Nat → Match → Except Err Match) (c : Constants)
    (self h : Nat) (sendPacket ignoreLayerUpdate : Bool)
    (m : Match) (p : Player) (d : EntityData) (mc : MatchComponent)
    (hp : m.player? self = some p) (hd : m.entity? (some h) = some d)
    (hmc : d.matchComponent = some mc)
    (hprev : ∀ dold, m.entity? p.m_playerEntity = some dold → dold.matchComponent ≠ none)
    (hmove : ∀ l x x1, Controls self none x → move l x = .ok x1 → Quiet self x x1)
    (hret : ignoreLayerUpdate = false → ∀ x q, x.player? self = some q →
      q.m_playerEntity = none → q.m_layerIndex = p.m_layerIndex →
      x.layerCount = m.layerCount → ∃ x1, move mc.layerIndex x = .ok x1) :
    ∃ m1, Player.UpdateControlledEntityWith move c self (some h) sendPacket ignoreLayerUpdate m
      = .ok m1 := by
  unfold Player.UpdateControlledEntityWith
  obtain ⟨m2, hrel⟩ := releaseControlled_returns self m p hp hprev
  rw [hrel]
  simp only
  obtain ⟨hpl2, hreg2, hnext2, hcase2⟩ := releaseControlled_explicit self m m2 p hp hrel
  have hlc2 : m2.layerCount = m.layerCount := (releaseControlled_step false 0 self m m2 hrel).1.layerCount
  have hd2 : ∃ d2, m2.entity? (some h) = some d2 ∧ d2.matchComponent = some mc := by
    rcases hcase2 with ⟨_, hm2⟩ | ⟨o, dold, mco, _, _, _, hents, _⟩
    · subst hm2
      exact ⟨d, hd, hmc⟩
    · rw [entity?_modify_eq m m2 releasedData o (fun _ => rfl) hents (some h), hd]
      split
      · exact ⟨releasedData d, rfl, hmc⟩
      · exact ⟨d, rfl, hmc⟩
  obtain ⟨d2, hd2, hmc2⟩ := hd2
  have hp2 : m2.player? self = some p := by
    rw [player?_of_players_eq m m2 hpl2]; exact hp
  have hp3 : (m2.modifyPlayer self Player.disconnectHooks).player? self =
      some (Player.disconnectHooks p) := by
    rw [player?_modifyPlayer, if_pos rfl, hp2]; rfl
  have hd3 : (m2.modifyPlayer self Player.disconnectHooks).entity? (some h) = some d2 := hd2
  unfold Player.controlTarget
  simp only [hd3, hmc2, Match.component]
  have hmv : ∃ x1, (if ignoreLayerUpdate = true then
        Except.ok (m2.modifyPlayer self Player.disconnectHooks)
        else move mc.layerIndex (m2.modifyPlayer self Player.disconnectHooks)) = .ok x1 ∧
        Quiet self (m2.modifyPlayer self Player.disconnectHooks) x1 := by
    cases ignoreLayerUpdate with
    | true => exact ⟨_, rfl, quiet_refl _ _⟩
    | false =>
      obtain ⟨x1, hx1⟩ := hret rfl (m2.modifyPlayer self Player.disconnectHooks) _ hp3 rfl rfl hlc2
      refine ⟨x1, ?_, hmove _ _ _ ⟨_, hp3, rfl⟩ hx1⟩
      simp only [Bool.false_eq_true, if_false]
      exact hx1
  obtain ⟨x1, hx1, hq⟩ := hmv
  rw [hx1]
  simp only
  obtain ⟨px, hpx, _⟩ := hq.keeps _ hp3
  have hdx : x1.entity? (some h) = some d2 :=
    (entity?_of_entities_eq _ x1 hq.entities (some h)).trans hd3
  obtain ⟨m4, htk⟩ := takeControl_returns self h x1 px d2 mc hpx hdx hmc2
  rw [htk]
  simp only
  obtain ⟨_, _, _, _, _, _, _, hents4, _, _, _, ⟨p4, hp4, hpe4, _⟩, _⟩ :=
    takeControl_explicit self h x1 m4 mc.uniqueId htk
  have hd4 : m4.entity? (some h) = some (controlledData self d2) := by
    rw [entity?_modify_eq x1 m4 (controlledData self) h (fun _ => rfl) hents4 (some h), if_pos rfl,
      hdx]
    rfl
  have hsend : ∃ m5, (if sendPacket = true then Player.sendControlEntity c self (some h) m4
      else Except.ok m4) = .ok m5 ∧ m5.m_players = m4.m_players := by
    cases sendPacket with
    | false => exact ⟨m4, rfl, rfl⟩
    | true =>
      obtain ⟨m5, h5⟩ := sendControlEntity_returns c self (some h) m4 p4 (controlledData self d2)
        (controlledData self d2) mc hp4 (by rw [hpe4]; exact hd4) hmc2 hd4
      exact ⟨m5, by simp only [if_true]; exact h5, (sendControlEntity_quiet c self _ m4 m5 h5).2⟩
  obtain ⟨m5, hm5, hpl5⟩ := hsend
  rw [hm5]
  simp only
  have hp5 : m5.player? self = some p4 := by
    rw [player?_of_players_eq m4 m5 hpl5]; exact hp4
  simp only [getPlayer_of m5 self p4 hp5]
  exact ⟨_, rfl⟩

/-! ## `UpdateControlledEntity`: the broadcast -/

theorem releaseControlled_trace (self : Nat) (m m2 : Match) (p : Player)
    (hp : m.player? self = some p) (h : Player.releaseControlled self m = .ok m2) :
    ∃ rel, m2.trace = m.trace ++ rel ∧
      (∀ ev ∈ rel, ∀ q pi id, ev ≠ Event.send q (Packet.PlayerControlEntity pi id)) ∧
      m2.recipients true (some self) = m.recipients true (some self) := by
  obtain ⟨hpl2, _, _, hcase2⟩ := releaseControlled_explicit self m m2 p hp h
  have hrec : m2.recipients true (some self) = m.recipients true (some self) :=
    recipients_congr m m2 true (some self) (fun i _ => by rw [player?_of_players_eq m m2 hpl2])
  rcases hcase2 with ⟨_, hm2⟩ | ⟨o, dold, mco, _, _, _, _, htr⟩
  · subst hm2
    exact ⟨[], by simp, by simp, hrec⟩
  · refine ⟨_, htr, ?_, hrec⟩
    intro ev hev q pi id hq
    simp only [List.mem_singleton] at hev
    rw [hev] at hq
    cases hq

/-- C16, amended: a call of `UpdateControlledEntity` on a player whose
previous entity and target (when live) carry a `MatchComponent`, and whose layers
are layers of the terrain unless `ignoreLayerUpdate`, returns; the trace grows by
events that hand no `PlayerControlEntity` packet to anybody, followed by one
`PlayerControlEntity` packet (player index truncated to 16 bits, unique id of the
target or `InvalidEntityId`) for each recipient of the broadcast, in slot order.
The recipients are the other players that are ready, each listed once; the acting
player is not among them, and neither is a connected player that is not ready. -/
theorem updateControlled_broadcast (c : Constants) (self : Nat) (target : EntityHandle)
    (sendPacket ignoreLayerUpdate : Bool) (m : Match) (p : Player)
    (hp : m.player? self = some p)
    (hprev : ∀ dold, m.entity? p.m_playerEntity = some dold → dold.matchComponent ≠ none)
    (htarget : ∀ d, m.entity? target = some d → ∃ mc, d.matchComponent = some mc ∧
      (ignoreLayerUpdate = false →
        (p.m_layerIndex = c.NoLayer ∨ p.m_layerIndex < m.layerCount) ∧
        (mc.layerIndex = c.NoLayer ∨ mc.layerIndex < m.layerCount))) :
    ∃ m1 pre, Player.UpdateControlledEntity c self target sendPacket ignoreLayerUpdate m = .ok m1 ∧
      m1.trace = m.trace ++ pre ++ (m.recipients true (some self)).map (fun i => Event.send i
        (Packet.PlayerControlEntity (p.m_playerIndex % 65536)
          (m.RetrieveUniqueIdByEntity c target))) ∧
      (∀ ev ∈ pre, ∀ q pi id, ev ≠ Event.send q (Packet.PlayerControlEntity pi id)) ∧
      (∀ i, i ∈ m.recipients true (some self) ↔
        i ≠ self ∧ ∃ q, m.player? i = some q ∧ q.m_isReady = true) ∧
      (m.recipients true (some self)).Nodup := by
  have hmemrec : ∀ i, i ∈ m.recipients true (some self) ↔
      i ≠ self ∧ ∃ q, m.player? i = some q ∧ q.m_isReady = true := by
    intro i
    rw [mem_recipients]
    constructor
    · rintro ⟨q, hq, hr, hne⟩
      exact ⟨fun e => hne (by rw [e]), q, hq, hr rfl⟩
    · rintro ⟨hne, q, hq, hr⟩
      exact ⟨q, hq, fun _ => hr, fun e => hne (Option.some.inj e)⟩
  have hnodup : (m.recipients true (some self)).Nodup :=
    (recipients_sorted m true (some self)).imp (fun h => Nat.ne_of_lt h)
  obtain ⟨m2, hrel⟩ := releaseControlled_returns self m p hp hprev
  obtain ⟨rel, htr2, hrelno, hrec2⟩ := releaseControlled_trace self m m2 p hp hrel
  cases ht : m.entity? target with
  | none =>
    have hrun := updateControlled_invalid_target (Player.MoveToLayer c self) c self target
      sendPacket ignoreLayerUpdate m p hp ht
    rw [hrel] at hrun
    simp only at hrun
    have hid : m.RetrieveUniqueIdByEntity c target = c.InvalidEntityId := by
      simp only [Match.RetrieveUniqueIdByEntity, ht]
    have hrec3 : (m2.modifyPlayer self Player.disconnectHooks).recipients true (some self) =
        m.recipients true (some self) :=
      (recipients_modifyPlayer m2 self Player.disconnectHooks (fun _ => rfl) true (some self)).trans
        hrec2
    refine ⟨_, rel ++ (if sendPacket then
        [Event.send self (Packet.ControlEntity p.m_localIndex c.NoLayer 0)] else []), hrun, ?_, ?_,
      hmemrec, hnodup⟩
    · rw [broadcast_trace, hid]
      cases sendPacket with
      | false =>
        simp only [Bool.false_eq_true, if_false, List.append_nil, hrec3]
        show m2.trace ++ _ = _
        rw [htr2]
      | true =>
        simp only [if_true]
        have : ((m2.modifyPlayer self Player.disconnectHooks).log
            (Event.send self (Packet.ControlEntity p.m_localIndex c.NoLayer 0))).recipients true
            (some self) = m.recipients true (some self) := hrec3
        rw [this]
        show (m2.trace ++ _) ++ _ = _
        rw [htr2]
        simp only [List.append_assoc]
    · intro ev hev q pi id hq
      rw [List.mem_append] at hev
      rcases hev with hev | hev
      · exact hrelno ev hev q pi id hq
      · cases sendPacket with
        | false => simp at hev
        | true =>
          simp only [if_true, List.mem_singleton] at hev
          rw [hev] at hq
          cases hq
  | some d =>
    cases target with
    | none => cases ht
    | some h =>
      obtain ⟨mc, hmc, hlay⟩ := htarget d ht
      obtain ⟨m1, hrun⟩ := updateControlled_returns (Player.MoveToLayer c self) c self h sendPacket
        ignoreLayerUpdate m p d mc hp ht hmc hprev
        (by intro l x x1 hc hx; exact moveToLayer_quiet c self l x x1 hc hx)
        (by
          intro hilu x q hq hqe hql hlc
          obtain ⟨hA, hB⟩ := hlay hilu
          exact moveToLayer_returns_noEntity c self mc.layerIndex x q hq hqe
            (by rw [hql, hlc]; exact hA) (by rw [hlc]; exact hB))
      obtain ⟨m2', mid, post, hrel', _, _, _, _, _, htr, hmid, hpost, _, _⟩ :=
        updateControlled_valid (Player.MoveToLayer c self) c self h sendPacket ignoreLayerUpdate
          m m1 p d mc hp ht hmc
          (by intro l x x1 hc hx; exact moveToLayer_quiet c self l x x1 hc hx) hrun
      rw [hrel] at hrel'
      simp only [Except.ok.injEq] at hrel'
      subst hrel'
      have hid : m.RetrieveUniqueIdByEntity c (some h) = mc.uniqueId := by
        simp only [Match.RetrieveUniqueIdByEntity, ht, hmc]
      refine ⟨m1, rel ++ mid ++ [Event.visibility p.m_session
          (VisibilityCall.SetEntityControlledStatus mc.layerIndex d.id true)] ++ post, hrun, ?_, ?_,
        hmemrec, hnodup⟩
      · rw [htr, htr2, hid]
        simp only [List.append_assoc]
      · intro ev hev q pi id hq
        simp only [List.mem_append, List.mem_singleton] at hev
        rcases hev with ((hev | hev) | hev) | hev
        · exact hrelno ev hev q pi id hq
        · exact (hmid ev hev).1 q pi id hq
        · rw [hev] at hq
          cases hq
        · exact (hpost ev hev).1 q pi id hq

theorem updateControlled_broadcast_witness :
    ∃ m1 pre, Player.UpdateControlledEntity Examples.consts 1 (some 1) true false Examples.arena
        = .ok m1 ∧
      m1.trace = Examples.arena.trace ++ pre ++
        (Examples.arena.recipients true (some 1)).map (fun i => Event.send i
          (Packet.PlayerControlEntity (Examples.bob.m_playerIndex % 65536)
            (Examples.arena.RetrieveUniqueIdByEntity Examples.consts (some 1)))) ∧
      (∀ ev ∈ pre, ∀ q pi id, ev ≠ Event.send q (Packet.PlayerControlEntity pi id)) ∧
      (∀ i, i ∈ Examples.arena.recipients true (some 1) ↔
        i ≠ 1 ∧ ∃ q, Examples.arena.player? i = some q ∧ q.m_isReady = true) ∧
      (Examples.arena.recipients true (some 1)).Nodup :=
  updateControlled_broadcast Examples.consts 1 (some 1) true false Examples.arena Examples.bob rfl
    (by intro dold hd; cases hd)
    (by
      intro d hd
      have hs : Examples.arena.entity? (some 1) = some Examples.sword := rfl
      rw [hs] at hd
      cases hd
      exact ⟨⟨0, 6⟩, rfl, fun _ => ⟨Or.inr (by decide), Or.inr (by decide)⟩⟩)

/-- C16, as stated, fails: in `waiting`, bob is a connected player other than
alice, yet the call `UpdateControlledEntity(hero, false, true)` of alice returns
without handing him any packet: the broadcast is restricted to ready players. -/
theorem broadcast_skips_unready :
    Examples.waiting.player? 1 = some { Examples.bob with m_isReady := false } ∧
    ∃ m1, Player.UpdateControlledEntity Examples.consts 0 (some 0) false true Examples.waiting
        = .ok m1 ∧
      ∀ pkt, Event.send 1 pkt ∉ m1.trace := by
  refine ⟨rfl, Examples.resultOf
    (Player.UpdateControlledEntity Examples.consts 0 (some 0) false true Examples.waiting), ?_, ?_⟩
  · rfl
  · intro pkt
    have : (Examples.resultOf (Player.UpdateControlledEntity Examples.consts 0 (some 0) false true
        Examples.waiting)).trace =
        [Event.visibility 0 (VisibilityCall.SetEntityControlledStatus 0 0 false),
         Event.visibility 0 (VisibilityCall.SetEntityControlledStatus 0 0 true)] := by decide
    rw [this]
    simp

/-! ## `UpdateControlledEntity` with a live target -/

/-- C18: `UpdateControlledEntity` with a live target returns (previous entity and
target carrying a `MatchComponent`, layers of the terrain unless
`ignoreLayerUpdate`). Its first block leaves the previously controlled entity, if
any, without `OwnerComponent` and `PlayerControlledComponent` and adds the call
`SetEntityControlledStatus(its layer, its id, false)` on the player's session;
that entity is still without them after the call unless it is the target. After
the call the player's controlled entity is the target, the target carries
`OwnerComponent` and `PlayerControlledComponent` of this player, and the last
`SetEntityControlledStatus` call is `(target's layer, target's id, true)`. -/
theorem updateControlled_target (c : Constants) (self h : Nat)
    (sendPacket ignoreLayerUpdate : Bool) (m : Match) (p : Player) (d : EntityData)
    (mc : MatchComponent)
    (hp : m.player? self = some p) (hd : m.entity? (some h) = some d)
    (hmc : d.matchComponent = some mc)
    (hprev : ∀ dold, m.entity? p.m_playerEntity = some dold → dold.matchComponent ≠ none)
    (hlay : ignoreLayerUpdate = false →
      (p.m_layerIndex = c.NoLayer ∨ p.m_layerIndex < m.layerCount) ∧
      (mc.layerIndex = c.NoLayer ∨ mc.layerIndex < m.layerCount)) :
    ∃ m2 m1 mid rest, Player.releaseControlled self m = .ok m2 ∧
      Player.UpdateControlledEntity c self (some h) sendPacket ignoreLayerUpdate m = .ok m1 ∧
      (∀ o dold, p.m_playerEntity = some o → m.entity? (some o) = some dold →
        ∃ mco, dold.matchComponent = some mco ∧
          m2.entity? (some o) = some (releasedData dold) ∧
          m2.trace = m.trace ++ [Event.visibility p.m_session
            (VisibilityCall.SetEntityControlledStatus mco.layerIndex dold.id false)] ∧
          (o ≠ h → m1.entity? (some o) = some (releasedData dold))) ∧
      (m.entity? p.m_playerEntity = none → m2 = m) ∧
      Controls self (some h) m1 ∧
      (∃ d1, m1.entity? (some h) = some d1 ∧ d1.ownerComponent = some (some self) ∧
        d1.playerControlledComponent = some (some self) ∧ d1.matchComponent = some mc ∧
        d1.id = d.id) ∧
      m1.trace = m2.trace ++ mid ++ [Event.visibility p.m_session
        (VisibilityCall.SetEntityControlledStatus mc.layerIndex d.id true)] ++ rest ∧
      (∀ ev ∈ mid ++ rest, ∀ s l i b,
        ev ≠ Event.visibility s (VisibilityCall.SetEntityControlledStatus l i b)) := by
  obtain ⟨m1, hrun⟩ := updateControlled_returns (Player.MoveToLayer c self) c self h sendPacket
    ignoreLayerUpdate m p d mc hp hd hmc hprev
    (by intro l x x1 hc hx; exact moveToLayer_quiet c self l x x1 hc hx)
    (by
      intro hilu x q hq hqe hql hlc
      obtain ⟨hA, hB⟩ := hlay hilu
      exact moveToLayer_returns_noEntity c self mc.layerIndex x q hq hqe
        (by rw [hql, hlc]; exact hA) (by rw [hlc]; exact hB))
  obtain ⟨m2, mid, post, hrel, hents1, _, _, _, ⟨p1, hp1, hpe1, _⟩, htr, hmid, hpost, _, _⟩ :=
    updateControlled_valid (Player.MoveToLayer c self) c self h sendPacket ignoreLayerUpdate
      m m1 p d mc hp hd hmc
      (by intro l x x1 hc hx; exact moveToLayer_quiet c self l x x1 hc hx) hrun
  obtain ⟨_, _, _, hcase2⟩ := releaseControlled_explicit self m m2 p hp hrel
  have hent1 := entity?_modify_eq m2 m1 (controlledData self) h (fun _ => rfl) hents1
  refine ⟨m2, m1, mid, post ++ (m.recipients true (some self)).map (fun i => Event.send i
      (Packet.PlayerControlEntity (p.m_playerIndex % 65536) mc.uniqueId)), hrel, hrun, ?_, ?_,
    ⟨p1, hp1, hpe1⟩, ?_, ?_, ?_⟩
  · intro o dold hpo hdold
    rcases hcase2 with ⟨hnone, _⟩ | ⟨o', dold', mco, hpo', hdold', hmco, hents2, htr2⟩
    · rw [hpo, hdold] at hnone
      cases hnone
    · rw [hpo] at hpo'
      cases hpo'
      rw [hdold] at hdold'
      cases hdold'
      have h2 : m2.entity? (some o) = some (releasedData dold) := by
        rw [entity?_modify_eq m m2 releasedData o (fun _ => rfl) hents2 (some o), if_pos rfl,
          hdold]
        rfl
      refine ⟨mco, hmco, h2, htr2, ?_⟩
      intro hne
      rw [hent1 (some o), if_neg (fun e => hne (Option.some.inj e).symm), h2]
  · intro hnone
    rcases hcase2 with ⟨_, h2⟩ | ⟨o', dold', mco, hpo', hdold', _⟩
    · exact h2
    · rw [hpo', hdold'] at hnone
      cases hnone
  · have hd2 : ∃ d2, m2.entity? (some h) = some d2 ∧ d2.matchComponent = some mc ∧
        d2.id = d.id := by
      rcases hcase2 with ⟨_, hm2⟩ | ⟨o, dold, mco, _, _, _, hents, _⟩
      · subst hm2
        exact ⟨d, hd, hmc, rfl⟩
      · rw [entity?_modify_eq m m2 releasedData o (fun _ => rfl) hents (some h), hd]
        split
        · exact ⟨releasedData d, rfl, hmc, rfl⟩
        · exact ⟨d, rfl, hmc, rfl⟩
    obtain ⟨d2, hd2, hmc2, hid2⟩ := hd2
    refine ⟨controlledData self d2, ?_, rfl, rfl, hmc2, hid2⟩
    rw [hent1 (some h), if_pos rfl, hd2]
    rfl
  · rw [htr]
    simp only [List.append_assoc]
  · intro ev hev s l i b hq
    simp only [List.mem_append, List.mem_map] at hev
    rcases hev with hev | hev | ⟨j, _, hev⟩
    · exact (hmid ev hev).2 s l i b hq
    · exact (hpost ev hev).2 s l i b hq
    · rw [← hev] at hq
      cases hq

theorem updateControlled_target_witness :
    ∃ m2 m1 mid rest, Player.releaseControlled 0 Examples.arena = .ok m2 ∧
      Player.UpdateControlledEntity Examples.consts 0 (some 1) true false Examples.arena = .ok m1 ∧
      (∀ o dold, Examples.alice.m_playerEntity = some o →
        Examples.arena.entity? (some o) = some dold →
        ∃ mco, dold.matchComponent = some mco ∧
          m2.entity? (some o) = some (releasedData dold) ∧
          m2.trace = Examples.arena.trace ++ [Event.visibility Examples.alice.m_session
            (VisibilityCall.SetEntityControlledStatus mco.layerIndex dold.id false)] ∧
          (o ≠ 1 → m1.entity? (some o) = some (releasedData dold))) ∧
      (Examples.arena.entity? Examples.alice.m_playerEntity = none → m2 = Examples.arena) ∧
      Controls 0 (some 1) m1 ∧
      (∃ d1, m1.entity? (some 1) = some d1 ∧ d1.ownerComponent = some (some 0) ∧
        d1.playerControlledComponent = some (some 0) ∧ d1.matchComponent = some ⟨0, 6⟩ ∧
        d1.id = Examples.sword.id) ∧
      m1.trace = m2.trace ++ mid ++ [Event.visibility Examples.alice.m_session
        (VisibilityCall.SetEntityControlledStatus 0 Examples.sword.id true)] ++ rest ∧
      (∀ ev ∈ mid ++ rest, ∀ s l i b,
        ev ≠ Event.visibility s (VisibilityCall.SetEntityControlledStatus l i b)) :=
  updateControlled_target Examples.consts 0 1 true false Examples.arena Examples.alice
    Examples.sword ⟨0, 6⟩ rfl rfl rfl
    (by
      intro dold hdold
      have hs : Examples.arena.entity? Examples.alice.m_playerEntity = some Examples.hero := rfl
      rw [hs] at hdold
      cases hdold
      exact (by decide))
    (fun _ => ⟨Or.inr (by decide), Or.inr (by decide)⟩)

/-! ## Death of the controlled entity -/

theorem deathMessage_returns (self : Nat) (attacker : EntityHandle) (x : Match) (p : Player)
    (hp : x.player? self = some p)
    (hk : ∀ a o, x.entity? attacker = some a → a.ownerComponent = some o → o ≠ some self →
      ∃ k q, o = some k ∧ x.player? k = some q) :
    ∃ content, Player.deathMessage self attacker x = .ok content := by
  unfold Player.deathMessage
  simp only [getPlayer_of x self p hp]
  cases ha : x.entity? attacker with
  | none => exact ⟨_, rfl⟩
  | some a =>
    simp only
    cases ho : a.ownerComponent with
    | none => exact ⟨_, rfl⟩
    | some o =>
      simp only
      by_cases hks : o = some self
      · simp only [hks, ne_eq, not_true_eq_false, if_false]
        exact ⟨_, rfl⟩
      · obtain ⟨k, q, hok, hq⟩ := hk a o ha ho hks
        subst hok
        simp only [ne_eq, hks, not_false_eq_true, if_true, getPlayer_of x k q hq]
        exact ⟨_, rfl⟩

/-- What `OnDeath` does for a player that controls a live entity: it returns, the
player is left with its hooks disconnected and without controlled entity, and the
trace gains events that are no `PlayerDeath` callback, then one `PlayerDeath`. -/
theorem onDeath_explicit (c : Constants) (ignoreLayerUpdate : Bool) (self h : Nat)
    (attacker : EntityHandle) (m : Match) (p : Player) (d : EntityData) (mc : MatchComponent)
    (hp : m.player? self = some p) (hpe : p.m_playerEntity = some h)
    (hd : m.entity? (some h) = some d) (hmc : d.matchComponent = some mc)
    (hkiller : ∀ a o, m.entity? attacker = some a → a.ownerComponent = some o →
      ∃ k q, o = some k ∧ m.player? k = some q) :
    ∃ m1 table pre, Player.OnDeath c ignoreLayerUpdate self attacker m = .ok m1 ∧
      m1.player? self = some (Player.disconnectHooks p) ∧
      m1.trace = m.trace ++ pre ++ [Event.gamemode (GamemodeEvent.PlayerDeath self table)] ∧
      (∀ ev ∈ pre, ∀ q a, ev ≠ Event.gamemode (GamemodeEvent.PlayerDeath q a)) := by
  have hprev : ∀ dold, m.entity? p.m_playerEntity = some dold → dold.matchComponent ≠ none := by
    intro dold hdold
    rw [hpe, hd] at hdold
    cases hdold
    rw [hmc]
    exact fun e => by cases e
  obtain ⟨m2, hrel⟩ := releaseControlled_returns self m p hp hprev
  obtain ⟨hpl2, _, _, hcase2⟩ := releaseControlled_explicit self m m2 p hp hrel
  have hup := updateControlled_invalid_target (Player.MoveToLayer c self) c self none false
    ignoreLayerUpdate m p hp rfl
  rw [hrel] at hup
  simp only [Bool.false_eq_true, if_false] at hup
  have hp2 : m2.player? self = some p := by
    rw [player?_of_players_eq m m2 hpl2]; exact hp
  have hpU : ((m2.modifyPlayer self Player.disconnectHooks).BroadcastPacket
      (Packet.PlayerControlEntity (p.m_playerIndex % 65536) c.InvalidEntityId) true
      (some self)).player? self = some (Player.disconnectHooks p) := by
    show (m2.modifyPlayer self Player.disconnectHooks).player? self = _
    rw [player?_modifyPlayer, if_pos rfl, hp2]
    rfl
  have hoU : ∀ k, k ≠ self → ((m2.modifyPlayer self Player.disconnectHooks).BroadcastPacket
      (Packet.PlayerControlEntity (p.m_playerIndex % 65536) c.InvalidEntityId) true
      (some self)).player? k = m.player? k := by
    intro k hk
    show (m2.modifyPlayer self Player.disconnectHooks).player? k = _
    rw [player?_modifyPlayer, if_neg (fun e => hk e.symm), player?_of_players_eq m m2 hpl2]
  rcases hcase2 with ⟨hnone, _⟩ | ⟨o, dold, mco, hpo, _, _, hents2, htr2⟩
  · rw [hpe, hd] at hnone
    cases hnone
  · have hentU : ∀ g, ((m2.modifyPlayer self Player.disconnectHooks).BroadcastPacket
        (Packet.PlayerControlEntity (p.m_playerIndex % 65536) c.InvalidEntityId) true
        (some self)).entity? g =
        if some o = g then (m.entity? g).map releasedData else m.entity? g := by
      intro g
      exact entity?_modify_eq m _ releasedData o (fun _ => rfl) hents2 g
    obtain ⟨content, hcontent⟩ := deathMessage_returns self attacker _ _ hpU (by
      intro a o1 ha ho hks
      rw [hentU attacker] at ha
      split at ha
      · cases hx : m.entity? attacker with
        | none => simp [hx] at ha
        | some a0 =>
          simp only [hx, Option.map_some', Option.some.injEq] at ha
          rw [← ha] at ho
          cases ho
      · obtain ⟨k, q, hok, hq⟩ := hkiller a o1 ha ho
        refine ⟨k, q, hok, ?_⟩
        rw [hoU k (fun e => hks (by rw [hok, e]))]
        exact hq)
    unfold Player.OnDeath
    simp only [getPlayer_of m self p hp, hpe, hd]
    unfold Player.UpdateControlledEntity
    rw [hup]
    simp only [hcontent]
    refine ⟨_, (match ((((m2.modifyPlayer self Player.disconnectHooks).BroadcastPacket
        (Packet.PlayerControlEntity (p.m_playerIndex % 65536) c.InvalidEntityId) true
        (some self)).logAll ((((m2.modifyPlayer self Player.disconnectHooks).BroadcastPacket
        (Packet.PlayerControlEntity (p.m_playerIndex % 65536) c.InvalidEntityId) true
        (some self)).livePlayers.map
          (fun ip => Event.send ip.1 (Packet.ChatMessage none none content))))).entity? attacker)
        with
        | some a => if a.scriptComponent then attacker else none
        | none => none), [Event.visibility p.m_session
        (VisibilityCall.SetEntityControlledStatus mco.layerIndex dold.id false)] ++
      ((m2.modifyPlayer self Player.disconnectHooks).recipients true (some self)).map
        (fun i => Event.send i
          (Packet.PlayerControlEntity (p.m_playerIndex % 65536) c.InvalidEntityId)) ++
      (((m2.modifyPlayer self Player.disconnectHooks).BroadcastPacket
        (Packet.PlayerControlEntity (p.m_playerIndex % 65536) c.InvalidEntityId) true
        (some self)).livePlayers.map
          (fun ip => Event.send ip.1 (Packet.ChatMessage none none content))), rfl, hpU, ?_, ?_⟩
    · show (((m2.modifyPlayer self Player.disconnectHooks).BroadcastPacket
        (Packet.PlayerControlEntity (p.m_playerIndex % 65536) c.InvalidEntityId) true
        (some self)).trace ++ _) ++ _ = _
      rw [broadcast_trace]
      show ((m2.trace ++ _) ++ _) ++ _ = _
      rw [htr2]
      simp only [List.append_assoc]
    · intro ev hev q a hq
      simp only [List.mem_append, List.mem_singleton, List.mem_map] at hev
      rcases hev with (hev | ⟨i, _, hev⟩) | ⟨ip, _, hev⟩
      · rw [hev] at hq
        cases hq
      · rw [← hev] at hq
        cases hq
      · rw [← hev] at hq
        cases hq

theorem releaseControlled_target (self h : Nat) (m m2 : Match) (p : Player) (d : EntityData)
    (hp : m.player? self = some p) (hd : m.entity? (some h) = some d)
    (hrel : Player.releaseControlled self m = .ok m2) :
    ∃ d2, m2.entity? (some h) = some d2 ∧ d2.matchComponent = d.matchComponent ∧
      d2.id = d.id ∧ d2.healthComponent = d.healthComponent ∧
      d2.weaponWielderComponent = d.weaponWielderComponent ∧ d2.world = d.world := by
  obtain ⟨_, _, _, hcase2⟩ := releaseControlled_explicit self m m2 p hp hrel
  rcases hcase2 with ⟨_, hm2⟩ | ⟨o, dold, mco, _, _, _, hents, _⟩
  · subst hm2
    exact ⟨d, hd, rfl, rfl, rfl, rfl, rfl⟩
  · rw [entity?_modify_eq m m2 releasedData o (fun _ => rfl) hents (some h), hd]
    split
    · exact ⟨releasedData d, rfl, rfl, rfl, rfl, rfl, rfl⟩
    · exact ⟨d, rfl, rfl, rfl, rfl, rfl, rfl⟩

/-- The death of a controlled entity when the owner handle of the attacker, if it has
an `OwnerComponent`, refers to a connected player. A player takes control, through
`UpdateControlledEntity`, of an entity with a `HealthComponent`; this connects both
the `OnDied` and the `OnEntityDestruction` hook of the player to that entity. When
the entity then dies, the `OnDied` hook runs `OnDeath`, which returns and adds
exactly one `PlayerDeath` callback to the trace. When the entity is destroyed
afterwards, the `OnEntityDestruction` hook of the player is no longer connected:
the destruction runs no `OnDeath`, adds nothing to the trace, and a further
`OnDeath` would have failed its assertion. -/
theorem onDeath_once_of_live_owner (c : Constants) (sendPacket ilu0 ilu : Bool) (self h : Nat)
    (attacker : EntityHandle) (m0 m : Match) (p0 : Player) (d : EntityData) (mc : MatchComponent)
    (hp0 : m0.player? self = some p0) (hd : m0.entity? (some h) = some d)
    (hmc : d.matchComponent = some mc) (hhealth : d.healthComponent = true)
    (hrun : Player.UpdateControlledEntity c self (some h) sendPacket ilu0 m0 = .ok m)
    (hkiller : ∀ a o, m.entity? attacker = some a → a.ownerComponent = some o →
      ∃ k q, o = some k ∧ m.player? k = some q) :
    ∃ p m1 table pre,
      m.player? self = some p ∧ p.m_onPlayerEntityDied = some h ∧
      p.m_onPlayerEntityDestruction = some h ∧
      Player.onPlayerEntityDied c ilu self h attacker m = .ok m1 ∧
      m1.trace = m.trace ++ pre ++ [Event.gamemode (GamemodeEvent.PlayerDeath self table)] ∧
      (∀ ev ∈ pre, ∀ q a, ev ≠ Event.gamemode (GamemodeEvent.PlayerDeath q a)) ∧
      Player.onPlayerEntityDestruction c ilu self h m1 = .ok m1 ∧
      Player.entityDestroyed c ilu self h m1 = .ok (m1.DestroyEntity h) ∧
      (m1.DestroyEntity h).trace = m1.trace ∧
      Player.OnDeath c ilu self none m1 = .error .assertion := by
  obtain ⟨m2, mid, post, hrel, hents1, _, _, _, ⟨p1, hp1, hpe1, _, _, _, _, hdes1, hdied1⟩, _⟩ :=
    updateControlled_valid (Player.MoveToLayer c self) c self h sendPacket ilu0
      m0 m p0 d mc hp0 hd hmc
      (by intro l x x1 hc hx; exact moveToLayer_quiet c self l x x1 hc hx) hrun
  obtain ⟨d2, hd2, hmc2, _⟩ := releaseControlled_target self h m0 m2 p0 d hp0 hd hrel
  have hdm : m.entity? (some h) = some (controlledData self d2) := by
    rw [entity?_modify_eq m2 m (controlledData self) h (fun _ => rfl) hents1 (some h), if_pos rfl,
      hd2]
    rfl
  rw [hhealth, if_pos rfl] at hdied1
  obtain ⟨m1, table, pre, hdeath, hpm1, htr, hpre⟩ := onDeath_explicit c ilu self h attacker m p1
    (controlledData self d2) mc hp1 hpe1 hdm (hmc2.trans hmc) hkiller
  have hslot : Player.onPlayerEntityDestruction c ilu self h m1 = .ok m1 := by
    unfold Player.onPlayerEntityDestruction
    simp only [hpm1]
    rw [if_neg (by intro e; cases e)]
  refine ⟨p1, m1, table, pre, hp1, hdied1, hdes1, ?_, htr, hpre, hslot, ?_, rfl, ?_⟩
  · unfold Player.onPlayerEntityDied
    simp only [hp1, hdied1, if_true]
    exact hdeath
  · unfold Player.entityDestroyed
    rw [hslot]
  · unfold Player.OnDeath
    simp only [getPlayer_of m1 self _ hpm1]
    rfl

/-! ## Player slots and the free-slot bitset -/

theorem findFirst_some (b : List Bool) (k : Nat) (h : Bitset.FindFirst b = some k) :
    k < b.length ∧ Bitset.Test b k = true := by
  induction b generalizing k with
  | nil => simp [Bitset.FindFirst] at h
  | cons x rest ih =>
    cases x with
    | true =>
      simp only [Bitset.FindFirst, Option.some.injEq] at h
      subst h
      exact ⟨by simp, rfl⟩
    | false =>
      simp only [Bitset.FindFirst, Option.map_eq_some'] at h
      obtain ⟨j, hj, hk⟩ := h
      subst hk
      obtain ⟨h1, h2⟩ := ih j hj
      refine ⟨by simp; omega, ?_⟩
      simpa [Bitset.Test] using h2

theorem test_set (b : List Bool) (k i : Nat) (v : Bool) :
    Bitset.Test (Bitset.Set b k v) i = if k = i ∧ k < b.length then v else Bitset.Test b i := by
  simp only [Bitset.Test, Bitset.Set, List.getD_eq_getElem?_getD, List.getElem?_set]
  by_cases hki : k = i
  · subst hki
    by_cases hlt : k < b.length
    · simp [hlt]
    · simp [hlt, List.getElem?_eq_none (Nat.le_of_not_lt hlt)]
  · simp [hki]

theorem player?_set (m : Match) (k i : Nat) (v : Option Player) (pl : List (Option Player))
    (h : pl = m.m_players.set k v) (x : Match) (hx : x.m_players = pl) :
    x.player? i = if k = i ∧ k < m.m_players.length then v else m.player? i := by
  simp only [Match.player?, hx, h, List.getD_eq_getElem?_getD, List.getElem?_set]
  by_cases hki : k = i
  · subst hki
    by_cases hlt : k < m.m_players.length
    · simp [hlt]
    · simp [hlt, List.getElem?_eq_none (Nat.le_of_not_lt hlt)]
  · simp [hki]

theorem slotsInv_init (s : MatchSettings) : SlotsInv (Match.init s) :=
  ⟨rfl, fun i h => by simp [Match.init, Bitset.Test] at h⟩

theorem installPlayer_ok (c : Constants) (session localIndex : Nat) (name : String)
    (playerIndex : Nat) (m m1 : Match) (r : Option Nat)
    (h : Match.installPlayer c session localIndex name playerIndex m = .ok (r, m1)) :
    r = some playerIndex ∧ playerIndex < m.m_players.length ∧
    m1.m_freePlayerId = m.m_freePlayerId ∧
    m1.m_players = m.m_players.set playerIndex
      (some (Match.newPlayer c session playerIndex localIndex name)) := by
  unfold Match.installPlayer at h
  by_cases hlt : playerIndex < m.m_players.length
  · simp only [hlt, if_true, Except.ok.injEq, Prod.mk.injEq] at h
    obtain ⟨h1, h2⟩ := h
    subst h2
    exact ⟨h1.symm, hlt, rfl, rfl⟩
  · simp [hlt] at h

/-- What `CreatePlayer` hands out: an index whose bit is set in `m_freePlayerId`, or
the size of `m_freePlayerId`. -/
theorem createPlayer_index (c : Constants) (session localIndex : Nat) (name : String)
    (m m1 : Match) (i : Nat)
    (h : Match.CreatePlayer c session localIndex name m = .ok (some i, m1)) :
    Bitset.Test m.m_freePlayerId i = true ∨ i = m.m_freePlayerId.length := by
  unfold Match.CreatePlayer at h
  by_cases hfull : m.m_players.length ≥ m.m_maxPlayerCount
  · simp [hfull] at h
  · simp only [hfull, if_false] at h
    cases hff : Bitset.FindFirst m.m_freePlayerId with
    | none =>
      simp only [hff] at h
      obtain ⟨hr, _⟩ := installPlayer_ok c session localIndex name _ _ m1 _ h
      exact Or.inr (Option.some.inj hr)
    | some k =>
      simp only [hff] at h
      obtain ⟨hr, _⟩ := installPlayer_ok c session localIndex name _ _ m1 _ h
      cases Option.some.inj hr
      exact Or.inl (findFirst_some _ _ hff).2

theorem slotsInv_createPlayer (c : Constants) (session localIndex : Nat) (name : String)
    (m m1 : Match) (r : Option Nat) (hinv : SlotsInv m)
    (h : Match.CreatePlayer c session localIndex name m = .ok (r, m1)) : SlotsInv m1 := by
  obtain ⟨hlen, hfree⟩ := hinv
  unfold Match.CreatePlayer at h
  by_cases hfull : m.m_players.length ≥ m.m_maxPlayerCount
  · simp only [hfull, if_true, Except.ok.injEq, Prod.mk.injEq] at h
    obtain ⟨_, h2⟩ := h
    subst h2
    exact ⟨hlen, hfree⟩
  · simp only [hfull, if_false] at h
    cases hff : Bitset.FindFirst m.m_freePlayerId with
    | none =>
      simp only [hff] at h
      obtain ⟨_, hlt, hf1, hp1⟩ := installPlayer_ok c session localIndex name _ _ m1 _ h
      simp only at hf1 hp1 hlt
      have hX1 : Bitset.Resize m.m_freePlayerId (m.m_freePlayerId.length + 1) false =
          m.m_freePlayerId ++ [false] := by
        simp [Bitset.Resize, List.take_of_length_le]
      have hX2 : m.m_players.take (m.m_freePlayerId.length + 1) ++
          List.replicate (m.m_freePlayerId.length + 1 - m.m_players.length) none =
          m.m_players ++ [none] := by
        rw [← hlen]
        simp [List.take_of_length_le]
      rw [hX1] at hf1
      rw [hX2] at hp1
      refine ⟨?_, ?_⟩
      · rw [hp1, hf1]
        simp [hlen]
      · intro i hi
        rw [hf1] at hi
        have hi2 : i < m.m_freePlayerId.length ∧ Bitset.Test m.m_freePlayerId i = true := by
          simp only [Bitset.Test, List.getD_eq_getElem?_getD] at hi ⊢
          by_cases hlt2 : i < m.m_freePlayerId.length
          · rw [List.getElem?_append_left hlt2] at hi
            exact ⟨hlt2, hi⟩
          · rw [List.getElem?_append_right (Nat.le_of_not_lt hlt2)] at hi
            cases hsub : i - m.m_freePlayerId.length with
            | zero => simp [hsub] at hi
            | succ j => simp [hsub] at hi
        have hnone := hfree i hi2.2
        simp only [Match.player?, List.getD_eq_getElem?_getD] at hnone ⊢
        rw [hp1, List.getElem?_set, if_neg (by omega),
          List.getElem?_append_left (by rw [hlen]; exact hi2.1)]
        exact hnone
    | some k =>
      simp only [hff] at h
      obtain ⟨_, hlt, hf1, hp1⟩ := installPlayer_ok c session localIndex name _ _ m1 _ h
      simp only at hf1 hp1 hlt
      obtain ⟨hk, _⟩ := findFirst_some _ _ hff
      refine ⟨?_, ?_⟩
      · rw [hp1, hf1]
        simp [Bitset.Set, hlen]
      · intro i hi
        rw [hf1, test_set] at hi
        rw [player?_set m k i _ _ rfl m1 hp1]
        by_cases hki : k = i
        · subst hki
          simp [hk] at hi
        · simp only [hki, false_and, if_false] at hi ⊢
          exact hfree i hi

theorem player?_lt (m : Match) (i : Nat) (p : Player) (h : m.player? i = some p) :
    i < m.m_players.length := by
  by_contra hlt
  simp [Match.player?, List.getD_eq_getElem?_getD,
    List.getElem?_eq_none (Nat.le_of_not_lt hlt)] at h

/-- The two halves of `Match::RemovePlayer`: up to the destruction of the player, and
from the marking of its index on. -/
theorem removePlayer_of (c : Constants) (player : Nat) (reason : DisconnectionReason)
    (m : Match) (p : Player) (hp : m.player? player = some p)
    (hlt : player < m.m_freePlayerId.length) :
    ∃ m3 m1 pre post, Match.removePlayerBeforeFree c player m = .ok m3 ∧
      Match.RemovePlayer c player reason m = .ok m1 ∧
      m3.m_freePlayerId = m.m_freePlayerId ∧ m3.m_players = m.m_players.set player none ∧
      m3.trace = m.trace ++ pre ++ (Bitset.setBits p.m_visibleLayers).map
        (fun l => Event.visibility p.m_session (VisibilityCall.HideLayer l)) ∧
      (∀ ev ∈ pre, ∀ s call, ev ≠ Event.visibility s call) ∧
      m1.m_freePlayerId = Bitset.Set m.m_freePlayerId player true ∧
      m1.m_players = m3.m_players ∧
      m1.trace = m3.trace ++ post ∧ (∀ ev ∈ post, ∃ q pkt, ev = Event.send q pkt) := by
  have hpre : ∃ m2 pre, (if p.m_isReady then
        (m.log (Event.gamemode (GamemodeEvent.PlayerLeave player))).BroadcastPacket
          (Packet.PlayerLeaving (p.m_playerIndex % 65536)) c.broadcastOnlyReady none
      else m.log (Event.gamemode (GamemodeEvent.PlayerLeave player))) = m2 ∧
      m2.trace = m.trace ++ pre ∧ (∀ ev ∈ pre, ∀ s call, ev ≠ Event.visibility s call) ∧
      m2.m_players = m.m_players ∧ m2.m_freePlayerId = m.m_freePlayerId := by
    cases p.m_isReady with
    | false =>
      refine ⟨_, [Event.gamemode (GamemodeEvent.PlayerLeave player)], rfl, rfl, ?_, rfl, rfl⟩
      intro ev hev s call hq
      simp only [List.mem_singleton] at hev
      rw [hev] at hq
      cases hq
    | true =>
      refine ⟨_, [Event.gamemode (GamemodeEvent.PlayerLeave player)] ++
        ((m.log (Event.gamemode (GamemodeEvent.PlayerLeave player))).recipients
          c.broadcastOnlyReady none).map
          (fun i => Event.send i (Packet.PlayerLeaving (p.m_playerIndex % 65536))),
        rfl, ?_, ?_, rfl, rfl⟩
      · simp only [if_true]
        rw [broadcast_trace]
        simp [Match.log]
      · intro ev hev s call hq
        simp only [List.mem_append, List.mem_singleton, List.mem_map] at hev
        rcases hev with hev | ⟨i, _, hev⟩
        · rw [hev] at hq
          cases hq
        · rw [← hev] at hq
          cases hq
  obtain ⟨m2, pre, hm2, htr2, hpre2, hpl2, hfr2⟩ := hpre
  unfold Match.removePlayerBeforeFree Match.RemovePlayer
  simp only [hp]
  rw [hm2]
  have hlt3 : player < (Match.destroyPlayer player p m2).m_freePlayerId.length := by
    show player < m2.m_freePlayerId.length
    rw [hfr2]
    exact hlt
  simp only [hlt3, if_true]
  refine ⟨_, _, pre, _, rfl, rfl, hfr2, ?_, ?_, hpre2, ?_, rfl, rfl, ?_⟩
  · show m2.m_players.set player none = _
    rw [hpl2]
  · show m2.trace ++ _ = _
    rw [htr2]
  · show Bitset.Set m2.m_freePlayerId player true = _
    rw [hfr2]
  · intro ev hev
    simp only [List.mem_map] at hev
    obtain ⟨ip, _, hev⟩ := hev
    exact ⟨_, _, hev.symm⟩

theorem test_lt (b : List Bool) (i : Nat) (h : Bitset.Test b i = true) : i < b.length := by
  by_contra hlt
  simp [Bitset.Test, List.getD_eq_getElem?_getD,
    List.getElem?_eq_none (Nat.le_of_not_lt hlt)] at h

theorem mem_setBits (b : List Bool) (l : Nat) :
    l ∈ Bitset.setBits b ↔ Bitset.Test b l = true := by
  simp only [Bitset.setBits, List.mem_filter, List.mem_range]
  exact ⟨fun h => h.2, fun h => ⟨test_lt b l h, h⟩⟩

theorem setBits_nodup (b : List Bool) : (Bitset.setBits b).Nodup :=
  (List.nodup_range _).filter _

theorem slotsInv_removed (m m1 : Match) (player : Nat) (hinv : SlotsInv m)
    (hfree : m1.m_freePlayerId = Bitset.Set m.m_freePlayerId player true)
    (hpl : m1.m_players = m.m_players.set player none) : SlotsInv m1 := by
  obtain ⟨hlen, hfr⟩ := hinv
  refine ⟨?_, ?_⟩
  · rw [hfree, hpl]
    simp [Bitset.Set, hlen]
  · intro i hi
    rw [hfree, test_set] at hi
    rw [player?_set m player i none _ rfl m1 hpl]
    by_cases hc : player = i ∧ player < m.m_players.length
    · rw [if_pos hc]
    · rw [if_neg hc]
      by_cases hc2 : player = i ∧ player < m.m_freePlayerId.length
      · exact absurd (hlen ▸ hc2) hc
      · rw [if_neg hc2] at hi
        exact hfr i hi

theorem slotsInv_removePlayer (c : Constants) (player : Nat) (reason : DisconnectionReason)
    (m m1 : Match) (hinv : SlotsInv m) (h : Match.RemovePlayer c player reason m = .ok m1) :
    SlotsInv m1 := by
  cases hp : m.player? player with
  | none => simp [Match.RemovePlayer, hp] at h
  | some p =>
    have hlt : player < m.m_freePlayerId.length := by
      rw [← hinv.1]
      exact player?_lt m player p hp
    obtain ⟨m3, m1', pre, post, _, hrem, _, hpl3, _, _, hfr1, hpl1, _, _⟩ :=
      removePlayer_of c player reason m p hp hlt
    rw [hrem] at h
    simp only [Except.ok.injEq] at h
    subst h
    exact slotsInv_removed m m1' player hinv hfr1 (hpl1.trans hpl3)

/-- C20: `RemovePlayer` on an occupied slot of a match that satisfies the slot
invariant returns. When its statement `it->reset()` has run, the trace holds one
`HideLayer` call on the player's session for every layer set in its
visible-layers bitset (each layer once, and no other visibility call was made),
the slot is empty and the free-slot bitset is still the one before the call, in
which the index is not marked: `CreatePlayer` hands out the index neither before
the call nor in that state. Only after that the index is marked free; the rest of
the call sends packets only, and the slot invariant holds again at the end. -/
theorem removePlayer_teardown_before_free (c : Constants) (player : Nat)
    (reason : DisconnectionReason) (m : Match) (p : Player)
    (hinv : SlotsInv m) (hp : m.player? player = some p) :
    ∃ m3 m1 pre post,
      Match.removePlayerBeforeFree c player m = .ok m3 ∧
      Match.RemovePlayer c player reason m = .ok m1 ∧
      m3.trace = m.trace ++ pre ++ (Bitset.setBits p.m_visibleLayers).map
        (fun l => Event.visibility p.m_session (VisibilityCall.HideLayer l)) ∧
      (∀ ev ∈ pre, ∀ s call, ev ≠ Event.visibility s call) ∧
      (∀ l, l ∈ Bitset.setBits p.m_visibleLayers ↔ Bitset.Test p.m_visibleLayers l = true) ∧
      (Bitset.setBits p.m_visibleLayers).Nodup ∧
      m3.player? player = none ∧
      Bitset.Test m.m_freePlayerId player = false ∧
      m3.m_freePlayerId = m.m_freePlayerId ∧
      (∀ s li n i x, Match.CreatePlayer c s li n m = .ok (some i, x) → i ≠ player) ∧
      (∀ s li n i x, Match.CreatePlayer c s li n m3 = .ok (some i, x) → i ≠ player) ∧
      m1.m_freePlayerId = Bitset.Set m.m_freePlayerId player true ∧
      Bitset.Test m1.m_freePlayerId player = true ∧
      m1.player? player = none ∧
      m1.trace = m3.trace ++ post ∧ (∀ ev ∈ post, ∃ q pkt, ev = Event.send q pkt) ∧
      SlotsInv m1 := by
  have hltp : player < m.m_players.length := player?_lt m player p hp
  have hlt : player < m.m_freePlayerId.length := by
    rw [← hinv.1]
    exact hltp
  have hbit : Bitset.Test m.m_freePlayerId player = false := by
    cases hb : Bitset.Test m.m_freePlayerId player with
    | false => rfl
    | true =>
      have := hinv.2 player hb
      rw [hp] at this
      cases this
  obtain ⟨m3, m1, pre, post, hbefore, hrem, hfr3, hpl3, htr3, hpre, hfr1, hpl1, htr1, hpost⟩ :=
    removePlayer_of c player reason m p hp hlt
  have hnone3 : m3.player? player = none := by
    rw [player?_set m player player none _ rfl m3 hpl3, if_pos ⟨rfl, hltp⟩]
  have hcreate : ∀ y : Match, y.m_freePlayerId = m.m_freePlayerId →
      ∀ s li n i x, Match.CreatePlayer c s li n y = .ok (some i, x) → i ≠ player := by
    intro y hy s li n i x hx hi
    subst hi
    rcases createPlayer_index c s li n y x i hx with h | h
    · rw [hy, hbit] at h
      cases h
    · rw [hy] at h
      omega
  refine ⟨m3, m1, pre, post, hbefore, hrem, htr3, hpre, mem_setBits _, setBits_nodup _, hnone3,
    hbit, hfr3, hcreate m rfl, hcreate m3 hfr3, hfr1, ?_, ?_, htr1, hpost,
    slotsInv_removed m m1 player hinv hfr1 (hpl1.trans hpl3)⟩
  · rw [hfr1, test_set, if_pos ⟨rfl, hlt⟩]
  · rw [player?_of_players_eq m3 m1 hpl1]
    exact hnone3

theorem removePlayer_teardown_before_free_witness :
    ∃ m3 m1 pre post,
      Match.removePlayerBeforeFree Examples.consts 1 Examples.arena = .ok m3 ∧
      Match.RemovePlayer Examples.consts 1 DisconnectionReason.PlayerLeft Examples.arena = .ok m1 ∧
      m3.trace = Examples.arena.trace ++ pre ++ (Bitset.setBits Examples.bob.m_visibleLayers).map
        (fun l => Event.visibility Examples.bob.m_session (VisibilityCall.HideLayer l)) ∧
      (∀ ev ∈ pre, ∀ s call, ev ≠ Event.visibility s call) ∧
      (∀ l, l ∈ Bitset.setBits Examples.bob.m_visibleLayers ↔
        Bitset.Test Examples.bob.m_visibleLayers l = true) ∧
      (Bitset.setBits Examples.bob.m_visibleLayers).Nodup ∧
      m3.player? 1 = none ∧
      Bitset.Test Examples.arena.m_freePlayerId 1 = false ∧
      m3.m_freePlayerId = Examples.arena.m_freePlayerId ∧
      (∀ s li n i x, Match.CreatePlayer Examples.consts s li n Examples.arena = .ok (some i, x) →
        i ≠ 1) ∧
      (∀ s li n i x, Match.CreatePlayer Examples.consts s li n m3 = .ok (some i, x) → i ≠ 1) ∧
      m1.m_freePlayerId = Bitset.Set Examples.arena.m_freePlayerId 1 true ∧
      Bitset.Test m1.m_freePlayerId 1 = true ∧
      m1.player? 1 = none ∧
      m1.trace = m3.trace ++ post ∧ (∀ ev ∈ post, ∃ q pkt, ev = Event.send q pkt) ∧
      SlotsInv m1 :=
  removePlayer_teardown_before_free Examples.consts 1 DisconnectionReason.PlayerLeft
    Examples.arena Examples.bob
    ⟨rfl, fun i hi => by
      have hlt := test_lt _ _ hi
      have h2 : i < 2 := hlt
      interval_cases i <;> cases hi⟩
    rfl

/-! ## `MoveToLayer`: the clones and their ids -/

theorem registerEntity_of (uniqueId h : Nat) (m : Match) (d : EntityData)
    (hfresh : Match.findEntity m.m_entitiesByUniqueId uniqueId = none)
    (hd : m.entity? (some h) = some d) :
    m.RegisterEntity uniqueId (some h) =
      .ok { m with m_entitiesByUniqueId := m.m_entitiesByUniqueId ++
        [(uniqueId, { entity := some h, onDestruction := some ⟨h, uniqueId⟩ })] } := by
  unfold Match.RegisterEntity
  simp only [hfresh, hd]

theorem modify_append_last {α : Type} (l : List α) (y : α) (f : α → α) :
    (l ++ [y]).modify f l.length = l ++ [f y] := by
  apply List.ext_getElem?
  intro i
  rw [List.getElem?_modify]
  by_cases hi : i < l.length
  · rw [List.getElem?_append_left hi, List.getElem?_append_left hi]
    have hne : ¬ l.length = i := by omega
    simp only [hne, if_false]
    cases l[i]? <;> rfl
  · rw [List.getElem?_append_right (Nat.le_of_not_lt hi),
      List.getElem?_append_right (Nat.le_of_not_lt hi)]
    by_cases hi2 : l.length = i
    · subst hi2
      simp
    · have hpos : i - l.length ≠ 0 := by omega
      cases hsub : i - l.length with
      | zero => exact absurd hsub hpos
      | succ j => simp

theorem entity?_last (m : Match) (l : List EntityData) (y : EntityData) (hl : m.entities = l ++ [y])
    (halive : y.alive = true) : m.entity? (some l.length) = some y := by
  simp [Match.entity?, hl, halive]

/-- The clone of one weapon by the lambda of `MoveToLayer`, computed. -/
theorem cloneWeapon_of (c : Constants) (B : Nat) (np w : EntityHandle) (x : Match)
    (dw : EntityData) (hw : x.entity? w = some dw)
    (hn : dw.nodeComponent ≠ none) (hs : dw.networkSyncComponent ≠ none)
    (hwc : dw.weaponComponent ≠ none)
    (hfresh : Match.findEntity x.m_entitiesByUniqueId x.m_nextUniqueId = none) :
    Player.cloneWeapon c B np w x = .ok (some x.entities.length,
      { x with
        m_nextUniqueId := (x.m_nextUniqueId + 1) % c.entityIdCount
        entities := x.entities ++ [{ dw with
          alive := true, world := B, id := World.freshId B x,
          matchComponent := some ⟨B, x.m_nextUniqueId⟩,
          nodeComponent := some np, networkSyncComponent := some np,
          weaponComponent := some np }]
        m_entitiesByUniqueId := x.m_entitiesByUniqueId ++
          [(x.m_nextUniqueId,
            ⟨some x.entities.length, some ⟨x.entities.length, x.m_nextUniqueId⟩⟩)] }) := by
  unfold Player.cloneWeapon
  have hw2 : (x.AllocateUniqueId c).2.entity? w = some dw := hw
  simp only [cloneEntity_some B w _ dw hw2]
  have hlen : (x.AllocateUniqueId c).2.entities.length = x.entities.length := rfl
  have hget : Match.getEntity
      ({ (x.AllocateUniqueId c).2 with entities := (x.AllocateUniqueId c).2.entities ++
        [{ dw with alive := true, world := B, id := World.freshId B (x.AllocateUniqueId c).2 }] })
      (some (x.AllocateUniqueId c).2.entities.length) =
      .ok { dw with alive := true, world := B, id := World.freshId B (x.AllocateUniqueId c).2 } := by
    unfold Match.getEntity
    rw [entity?_last _ (x.AllocateUniqueId c).2.entities _ rfl rfl]
  rw [hget]
  simp only
  cases h1 : dw.nodeComponent with
  | none => exact absurd h1 hn
  | some a1 =>
    cases h2 : dw.networkSyncComponent with
    | none => exact absurd h2 hs
    | some a2 =>
      cases h3 : dw.weaponComponent with
      | none => exact absurd h3 hwc
      | some a3 =>
        simp only [Match.component, Match.modifyEntity, modify_append_last]
        refine (congrArg (Except.map _) (registerEntity_of _ _ _
          { dw with
            alive := true, world := B, id := World.freshId B x,
            matchComponent := some ⟨B, x.m_nextUniqueId⟩,
            nodeComponent := some np, networkSyncComponent := some np,
            weaponComponent := some np } ?hf ?hd)).trans ?_
        case hf => exact hfresh
        case hd => exact entity?_last _ x.entities _ rfl rfl
        simp only [Except.map, Match.AllocateUniqueId, h1, h2, h3]
        rfl

/-- The loop of `OverrideEntities` over the lambda of `MoveToLayer`, computed: weapon
`j` is replaced by a clone appended to the arena, registered under the `j`-th id
counted from the counter. -/
theorem overrideEntities_cloneWeapon (c : Constants) (B : Nat) (np : EntityHandle)
    (ws : List EntityHandle) (x : Match)
    (hws : ∀ w ∈ ws, ∃ dw, x.entity? w = some dw ∧ dw.nodeComponent ≠ none ∧
      dw.networkSyncComponent ≠ none ∧ dw.weaponComponent ≠ none)
    (hfresh : ∀ j, j < ws.length →
      Match.findEntity x.m_entitiesByUniqueId (x.m_nextUniqueId + j) = none)
    (hov : x.m_nextUniqueId + ws.length < c.entityIdCount) :
    ∃ x1 clones, Player.OverrideEntities (Player.cloneWeapon c B np) ws x =
        .ok ((List.range' x.entities.length ws.length).map some, x1) ∧
      x1.m_nextUniqueId = x.m_nextUniqueId + ws.length ∧
      x1.m_entitiesByUniqueId = x.m_entitiesByUniqueId ++ (List.range ws.length).map
        (fun j => (x.m_nextUniqueId + j, (⟨some (x.entities.length + j),
          some ⟨x.entities.length + j, x.m_nextUniqueId + j⟩⟩ : Match.Entity))) ∧
      x1.m_players = x.m_players ∧ x1.trace = x.trace ∧ x1.layerCount = x.layerCount ∧
      x1.entities = x.entities ++ clones ∧ clones.length = ws.length ∧
      ∀ j, j < ws.length → ∃ dc, clones[j]? = some dc ∧ dc.alive = true ∧
        dc.matchComponent = some ⟨B, x.m_nextUniqueId + j⟩ ∧ dc.nodeComponent = some np ∧
        dc.networkSyncComponent = some np ∧ dc.weaponComponent = some np := by
  induction ws generalizing x with
  | nil =>
    exact ⟨x, [], rfl, rfl, by simp, rfl, rfl, rfl, by simp, rfl, fun j hj => by cases hj⟩
  | cons w rest ih =>
    obtain ⟨dw, hdw, hn, hs, hwc⟩ := hws w (List.mem_cons_self _ _)
    have hf0 : Match.findEntity x.m_entitiesByUniqueId x.m_nextUniqueId = none :=
      hfresh 0 (by simp)
    have hclone := cloneWeapon_of c B np w x dw hdw hn hs hwc hf0
    have hlen : (w :: rest).length = rest.length + 1 := rfl
    rw [hlen] at hov
    have hmod : (x.m_nextUniqueId + 1) % c.entityIdCount = x.m_nextUniqueId + 1 :=
      Nat.mod_eq_of_lt (by omega)
    rw [hmod] at hclone
    obtain ⟨X, y, hclone, hXnext, hXreg, hXents, hXpl, hXtr, hXlc, hya, hym, hy1, hy2, hy3⟩ :
        ∃ (X : Match) (y : EntityData),
          Player.cloneWeapon c B np w x = .ok (some x.entities.length, X) ∧
          X.m_nextUniqueId = x.m_nextUniqueId + 1 ∧
          X.m_entitiesByUniqueId = x.m_entitiesByUniqueId ++ [(x.m_nextUniqueId,
            ⟨some x.entities.length, some ⟨x.entities.length, x.m_nextUniqueId⟩⟩)] ∧
          X.entities = x.entities ++ [y] ∧ X.m_players = x.m_players ∧ X.trace = x.trace ∧
          X.layerCount = x.layerCount ∧ y.alive = true ∧
          y.matchComponent = some ⟨B, x.m_nextUniqueId⟩ ∧ y.nodeComponent = some np ∧
          y.networkSyncComponent = some np ∧ y.weaponComponent = some np :=
      ⟨_, _, hclone, rfl, rfl, rfl, rfl, rfl, rfl, rfl, rfl, rfl, rfl, rfl⟩
    have hXlen : X.entities.length = x.entities.length + 1 := by simp [hXents]
    obtain ⟨x1, clones, hrun, hnext, hreg, hpl, htr, hlc, hents, hclen, hcl⟩ :=
      ih X
        (by
          intro w' hw'
          obtain ⟨dw', hdw', hrest⟩ := hws w' (List.mem_cons_of_mem _ hw')
          exact ⟨dw', (entity?_of_entities_eq ({ x with entities := x.entities ++ [y] }) X hXents
            w').trans (entity?_append x [y] w' dw' hdw'), hrest⟩)
        (by
          intro j hj
          rw [hXreg, hXnext, findEntity_append, Nat.add_assoc, Nat.add_comm 1 j,
            hfresh (j + 1) (by rw [hlen]; omega)]
          simp only
          rw [if_neg (by omega)])
        (by rw [hXnext]; omega)
    rw [hXnext] at hnext hcl
    rw [hXnext, hXlen, hXreg] at hreg
    rw [hXlen] at hrun
    rw [hXents] at hents
    refine ⟨x1, y :: clones, ?_, ?_, ?_, hpl.trans hXpl, htr.trans hXtr, hlc.trans hXlc, ?_, ?_, ?_⟩
    · simp only [Player.OverrideEntities, hclone, hrun]
      simp [List.range'_succ]
    · rw [hnext, hlen]
      omega
    · rw [hreg, hlen, List.range_succ_eq_map]
      simp only [List.map_cons, List.map_map, List.append_assoc, List.singleton_append,
        Nat.add_zero]
      congr 2
      apply List.map_congr_left
      intro j _
      simp only [Function.comp, Nat.succ_eq_add_one]
      have e1 : x.m_nextUniqueId + 1 + j = x.m_nextUniqueId + (j + 1) := by omega
      have e2 : x.entities.length + 1 + j = x.entities.length + (j + 1) := by omega
      rw [e1, e2]
    · rw [hents]
      simp
    · simp [hclen]
    · intro j hj
      cases j with
      | zero =>
        exact ⟨y, by simp, hya, hym, hy1, hy2, hy3⟩
      | succ i =>
        obtain ⟨dc, hdc, ha, hm, h1, h2, h3⟩ := hcl i (by rw [hlen] at hj; omega)
        refine ⟨dc, by simpa using hdc, ha, ?_, h1, h2, h3⟩
        rw [hm]
        have e1 : x.m_nextUniqueId + 1 + i = x.m_nextUniqueId + (i + 1) := by omega
        rw [e1]

/-- The clone of the controlled entity and its registration in `MoveToLayer`, computed. -/
theorem migrate_register (c : Constants) (B e : Nat) (m : Match) (d : EntityData)
    (hd : m.entity? (some e) = some d)
    (hfresh : Match.findEntity m.m_entitiesByUniqueId m.m_nextUniqueId = none)
    (hov : m.m_nextUniqueId + 1 < c.entityIdCount) :
    ∃ (mr : Match) (dcl : EntityData),
      ((((World.CloneEntity B (some e) m).2.AllocateUniqueId c).2.modifyEntity
          (World.CloneEntity B (some e) m).1
          (fun x => { x with matchComponent := (some
            ⟨B, ((World.CloneEntity B (some e) m).2.AllocateUniqueId c).1⟩) })).RegisterEntity
        ((World.CloneEntity B (some e) m).2.AllocateUniqueId c).1
        (World.CloneEntity B (some e) m).1) = .ok mr ∧
      (World.CloneEntity B (some e) m).1 = some m.entities.length ∧
      mr.m_nextUniqueId = m.m_nextUniqueId + 1 ∧
      mr.m_entitiesByUniqueId = m.m_entitiesByUniqueId ++ [(m.m_nextUniqueId,
        ⟨some m.entities.length, some ⟨m.entities.length, m.m_nextUniqueId⟩⟩)] ∧
      mr.entities = m.entities ++ [dcl] ∧ mr.m_players = m.m_players ∧ mr.trace = m.trace ∧
      mr.layerCount = m.layerCount ∧
      dcl = { d with alive := true, world := B, id := World.freshId B m,
                     matchComponent := some ⟨B, m.m_nextUniqueId⟩ } := by
  rw [cloneEntity_some B (some e) m d hd]
  simp only [Match.AllocateUniqueId, Match.modifyEntity, modify_append_last,
    Nat.mod_eq_of_lt hov]
  refine ⟨_, _, registerEntity_of _ _ _
    { d with alive := true, world := B, id := World.freshId B m,
             matchComponent := some ⟨B, m.m_nextUniqueId⟩ } hfresh
    (entity?_last _ m.entities _ rfl rfl), trivial, rfl, rfl, rfl, rfl, rfl, rfl, rfl⟩

/-- The block `if (m_playerEntity)` of `MoveToLayer`, computed for a controlled entity
that wields `weapons`. -/
theorem migrateEntity_of (c : Constants) (self B e : Nat) (m : Match) (p : Player)
    (d : EntityData) (mcd : MatchComponent) (weapons : List EntityHandle)
    (hp : m.player? self = some p) (he : p.m_playerEntity = some e)
    (hd : m.entity? (some e) = some d) (hmcd : d.matchComponent = some mcd)
    (hw : d.weaponWielderComponent = some weapons)
    (hws : ∀ w ∈ weapons, ∃ dw, m.entity? w = some dw ∧ dw.nodeComponent ≠ none ∧
      dw.networkSyncComponent ≠ none ∧ dw.weaponComponent ≠ none)
    (hfresh : ∀ j, j < weapons.length + 1 →
      Match.findEntity m.m_entitiesByUniqueId (m.m_nextUniqueId + j) = none)
    (hov : m.m_nextUniqueId + weapons.length + 1 < c.entityIdCount)
    (hBl : B < m.layerCount) :
    ∃ mg dp, Player.migrateEntity c self B m = .ok mg ∧
      mg.m_nextUniqueId = m.m_nextUniqueId + (weapons.length + 1) ∧
      mg.m_entitiesByUniqueId = m.m_entitiesByUniqueId ++ (List.range (weapons.length + 1)).map
        (fun j => (m.m_nextUniqueId + j, (⟨some (m.entities.length + j),
          some ⟨m.entities.length + j, m.m_nextUniqueId + j⟩⟩ : Match.Entity))) ∧
      mg.layerCount = m.layerCount ∧
      Controls self (some m.entities.length) mg ∧
      mg.entities.length = m.entities.length + (weapons.length + 1) ∧
      mg.entity? (some m.entities.length) = some dp ∧
      dp.matchComponent = some ⟨B, m.m_nextUniqueId⟩ ∧
      dp.weaponWielderComponent =
        some ((List.range' (m.entities.length + 1) weapons.length).map some) ∧
      dp.ownerComponent = some (some self) ∧ dp.playerControlledComponent = some (some self) ∧
      (∀ j, j < weapons.length → ∃ dc, mg.entity? (some (m.entities.length + 1 + j)) = some dc ∧
        dc.matchComponent = some ⟨B, m.m_nextUniqueId + 1 + j⟩ ∧
        dc.nodeComponent = some (some m.entities.length) ∧
        dc.networkSyncComponent = some (some m.entities.length) ∧
        dc.weaponComponent = some (some m.entities.length)) := by
  have hen : e < m.entities.length := entity?_lt m e d hd
  obtain ⟨mr, dcl, hreg, hk1, hrnext, hrreg, hrents, hrpl, hrtr, hrlc, hdcl⟩ :=
    migrate_register c B e m d hd (hfresh 0 (by omega)) (by omega)
  have hpr : mr.player? self = some p := by
    rw [player?_of_players_eq m mr hrpl]; exact hp
  have hrent : ∀ g dg, m.entity? g = some dg → mr.entity? g = some dg := by
    intro g dg hg
    exact (entity?_of_entities_eq ({ m with entities := m.entities ++ [dcl] }) mr hrents g).trans
      (entity?_append m [dcl] g dg hg)
  have hrn : mr.entity? (some m.entities.length) = some dcl :=
    entity?_last mr m.entities dcl hrents (by rw [hdcl])
  have hdclmc : dcl.matchComponent = some ⟨B, m.m_nextUniqueId⟩ := by rw [hdcl]
  -- the call `UpdateControlledEntity(newPlayerEntity, true, true)`
  obtain ⟨mu, hurun⟩ := updateControlled_returns (fun _ x => .ok x) c self m.entities.length
    true true mr p dcl ⟨B, m.m_nextUniqueId⟩ hpr hrn hdclmc
    (by
      intro dold hdold
      rw [he, hrent _ _ hd] at hdold
      cases hdold
      rw [hmcd]
      exact fun h => by cases h)
    (by
      intro l x x1 _ hx
      simp only [Except.ok.injEq] at hx
      subst hx
      exact quiet_refl _ _)
    (by intro h; cases h)
  obtain ⟨m2, mid, post, hrel, huents, hureg, hunext, _, ⟨p1, hp1, hpe1, _⟩, _⟩ :=
    updateControlled_valid (fun _ x => .ok x) c self m.entities.length true true mr mu p dcl
      ⟨B, m.m_nextUniqueId⟩ hpr hrn hdclmc
      (by
        intro l x x1 _ hx
        simp only [Except.ok.injEq] at hx
        subst hx
        exact quiet_refl _ _) hurun
  have hustep := (updateControlled_step true (fun _ x => .ok x) c self m.entities.length
    true true mr mu dcl ⟨B, m.m_nextUniqueId⟩ hrn hdclmc
    (by
      intro l x x1 _ hx
      simp only [Except.ok.injEq] at hx
      subst hx
      exact Step.refl _ _ _ _) hurun).1
  obtain ⟨_, _, _, hcase2⟩ := releaseControlled_explicit self mr m2 p hpr hrel
  have hm2ents : m2.entities = mr.entities.modify releasedData e := by
    rcases hcase2 with ⟨hnone, _⟩ | ⟨o, dold, mco, hpo, _, _, hents, _⟩
    · rw [he, hrent _ _ hd] at hnone
      cases hnone
    · rw [he] at hpo
      cases hpo
      exact hents
  have hm2 := entity?_modify_eq mr m2 releasedData e (fun _ => rfl) hm2ents
  have hmu := entity?_modify_eq m2 mu (controlledData self) m.entities.length (fun _ => rfl) huents
  have hmulen : mu.entities.length = m.entities.length + 1 := by
    rw [huents, List.length_modify, hm2ents, List.length_modify, hrents]
    simp
  have hmun : mu.entity? (some m.entities.length) = some (controlledData self dcl) := by
    rw [hmu, if_pos rfl, hm2, if_neg (by intro h; cases h; omega), hrn]
    rfl
  have hmuw : ∀ w ∈ weapons, ∃ dw, mu.entity? w = some dw ∧ dw.nodeComponent ≠ none ∧
      dw.networkSyncComponent ≠ none ∧ dw.weaponComponent ≠ none := by
    intro w hwm
    obtain ⟨dw, hdw, h1, h2, h3⟩ := hws w hwm
    have hwr := hrent w dw hdw
    cases w with
    | none => cases hdw
    | some i =>
      have hi : i < m.entities.length := entity?_lt m i dw hdw
      rw [hmu, if_neg (by intro h; cases h; omega), hm2, hwr]
      split
      · exact ⟨releasedData dw, rfl, h1, h2, h3⟩
      · exact ⟨dw, rfl, h1, h2, h3⟩
  obtain ⟨x1, clones, horun, hxnext, hxreg, hxpl, hxtr, hxlc, hxents, hclen, hcl⟩ :=
    overrideEntities_cloneWeapon c B (some m.entities.length) weapons mu hmuw
      (by
        intro j hj
        rw [hureg, hunext, hrreg, hrnext, findEntity_append, Nat.add_assoc, Nat.add_comm 1 j,
          hfresh (j + 1) (by omega)]
        simp only
        rw [if_neg (by omega)])
      (by rw [hunext, hrnext]; omega)
  rw [hmulen] at horun hxreg
  rw [hunext, hrnext] at hxnext hxreg hcl
  have hrunall : Player.migrateEntity c self B m =
      .ok ((x1.modifyEntity (some m.entities.length) (fun x => { x with weaponWielderComponent :=
        (some ((List.range' (m.entities.length + 1) weapons.length).map some)) })).modifyPlayer
        self (fun q => { q with m_shouldSendWeapons := true })) := by
    unfold Player.migrateEntity
    simp only [getPlayer_of m self p hp, he, hd, Terrain.GetLayer, hBl, if_true]
    rw [hreg]
    simp only [hk1, hurun]
    unfold Player.overrideWeapons
    simp only [getPlayer_of mu self p1 hp1, hpe1, Match.getEntity, hmun]
    have hww : (controlledData self dcl).weaponWielderComponent = some weapons := by
      rw [hdcl]
      exact hw
    simp only [hww, horun]
  have hx1n : x1.entity? (some m.entities.length) = some (controlledData self dcl) :=
    (entity?_of_entities_eq ({ mu with entities := mu.entities ++ clones }) x1 hxents _).trans
      (entity?_append mu clones _ _ hmun)
  have hge : ∀ g, ((x1.modifyEntity (some m.entities.length) (fun x =>
      { x with weaponWielderComponent :=
        (some ((List.range' (m.entities.length + 1) weapons.length).map some)) })).modifyPlayer
      self (fun q => { q with m_shouldSendWeapons := true })).entity? g =
      if some m.entities.length = g then (x1.entity? g).map (fun x =>
        { x with weaponWielderComponent :=
          (some ((List.range' (m.entities.length + 1) weapons.length).map some)) })
      else x1.entity? g := by
    intro g
    exact entity?_modifyEntity x1 (some m.entities.length) _ (by intro _; rfl) g
  refine ⟨_, { controlledData self dcl with weaponWielderComponent :=
      (some ((List.range' (m.entities.length + 1) weapons.length).map some)) },
    hrunall, ?_, ?_, ?_, ?_, ?_, ?_, ?_, ?_, ?_, ?_, ?_⟩
  · show x1.m_nextUniqueId = _
    rw [hxnext]
    omega
  · show x1.m_entitiesByUniqueId = _
    rw [hxreg, hureg, hrreg, List.range_succ_eq_map]
    simp only [List.map_cons, List.map_map, List.append_assoc, List.singleton_append,
      Nat.add_zero]
    congr 2
    apply List.map_congr_left
    intro j _
    simp only [Function.comp, Nat.succ_eq_add_one]
    have e1 : m.m_nextUniqueId + 1 + j = m.m_nextUniqueId + (j + 1) := by omega
    have e2 : m.entities.length + 1 + j = m.entities.length + (j + 1) := by omega
    rw [e1, e2]
  · show x1.layerCount = _
    rw [hxlc, hustep.layerCount, hrlc]
  · exact controls_modifyPlayer self _ _ _ (fun _ => rfl)
      (controls_of_players_eq self _ mu _
        (by rw [(modifyEntity_fields _ _ _).1, hxpl]) ⟨p1, hp1, hpe1⟩)
  · show (x1.entities.modify _ _).length = _
    rw [List.length_modify, hxents, List.length_append, hmulen, hclen]
    omega
  · rw [hge, if_pos rfl, hx1n]
    rfl
  · rw [hdcl]
    rfl
  · rfl
  · rfl
  · rfl
  · intro j hj
    obtain ⟨dc, hdc, ha, hm, h1, h2, h3⟩ := hcl j hj
    refine ⟨dc, ?_, hm, h1, h2, h3⟩
    rw [hge, if_neg (by intro h; have := Option.some.inj h; omega)]
    have hidx : x1.entities[m.entities.length + 1 + j]? = some dc := by
      rw [hxents, List.getElem?_append_right (by rw [hmulen]; omega), hmulen]
      have e : m.entities.length + 1 + j - (m.entities.length + 1) = j := by omega
      rw [e]
      exact hdc
    simp only [Match.entity?, hidx, ha, if_true]

theorem findEntity_append_list (r l : List (Nat × Match.Entity)) (k : Nat) :
    Match.findEntity (r ++ l) k =
      match Match.findEntity r k with
      | some y => some y
      | none => Match.findEntity l k := by
  induction r with
  | nil => rfl
  | cons kv rest ih =>
    simp only [List.cons_append, Match.findEntity]
    split
    · rfl
    · exact ih

theorem findEntity_range_none (a : Nat) (g : Nat → Match.Entity) (N j : Nat) (hj : N ≤ j) :
    Match.findEntity ((List.range N).map (fun i => (a + i, g i))) (a + j) = none := by
  induction N with
  | zero => rfl
  | succ n ih =>
    rw [List.range_succ, List.map_append, List.map_singleton, findEntity_append,
      ih (by omega)]
    simp only
    rw [if_neg (by omega)]

theorem findEntity_range (a : Nat) (g : Nat → Match.Entity) (N j : Nat) (hj : j < N) :
    Match.findEntity ((List.range N).map (fun i => (a + i, g i))) (a + j) = some (g j) := by
  induction N with
  | zero => cases hj
  | succ n ih =>
    rw [List.range_succ, List.map_append, List.map_singleton, findEntity_append]
    by_cases hjn : j < n
    · rw [ih hjn]
    · have hjeq : j = n := by omega
      subst hjeq
      rw [findEntity_range_none a g j j (Nat.le_refl _)]
      simp

theorem allocateMany_next (c : Constants) (n : Nat) (m : Match)
    (h : m.m_nextUniqueId + n < c.entityIdCount) :
    (Match.allocateMany c n m).2.m_nextUniqueId = m.m_nextUniqueId + n := by
  induction n generalizing m with
  | zero => rfl
  | succ k ih =>
    have hnext : (Match.AllocateUniqueId c m).2.m_nextUniqueId = m.m_nextUniqueId + 1 := by
      simp [Match.AllocateUniqueId, Nat.mod_eq_of_lt (show m.m_nextUniqueId + 1 < c.entityIdCount
        by omega)]
    have := ih (Match.AllocateUniqueId c m).2 (by rw [hnext]; omega)
    rw [Match.allocateMany]
    simp only
    rw [this, hnext]
    omega

/-- The method `MoveToLayer` between two layers of the terrain, computed for a player
whose controlled entity wields `weapons`: the clones are appended to the arena,
the player's clone first, and registered under successive ids from the counter. -/
theorem moveToLayer_of (c : Constants) (self B e : Nat) (m : Match) (p : Player)
    (d : EntityData) (mcd : MatchComponent) (weapons : List EntityHandle)
    (hp : m.player? self = some p)
    (hA : p.m_layerIndex ≠ c.NoLayer) (hB : B ≠ c.NoLayer) (hAB : p.m_layerIndex ≠ B)
    (hAl : p.m_layerIndex < m.layerCount) (hBl : B < m.layerCount)
    (he : p.m_playerEntity = some e)
    (hd : m.entity? (some e) = some d) (hmcd : d.matchComponent = some mcd)
    (hw : d.weaponWielderComponent = some weapons)
    (hws : ∀ w ∈ weapons, ∃ dw, m.entity? w = some dw ∧ dw.nodeComponent ≠ none ∧
      dw.networkSyncComponent ≠ none ∧ dw.weaponComponent ≠ none)
    (hfresh : ∀ j, j < weapons.length + 1 →
      Match.findEntity m.m_entitiesByUniqueId (m.m_nextUniqueId + j) = none)
    (hov : m.m_nextUniqueId + weapons.length + 1 < c.entityIdCount) :
    ∃ m1 dp, Player.MoveToLayer c self B m = .ok m1 ∧
      m1.m_nextUniqueId = m.m_nextUniqueId + (weapons.length + 1) ∧
      m1.m_entitiesByUniqueId = m.m_entitiesByUniqueId ++ (List.range (weapons.length + 1)).map
        (fun j => (m.m_nextUniqueId + j, (⟨some (m.entities.length + j),
          some ⟨m.entities.length + j, m.m_nextUniqueId + j⟩⟩ : Match.Entity))) ∧
      m1.layerCount = m.layerCount ∧
      Controls self (some m.entities.length) m1 ∧
      m1.entities.length = m.entities.length + (weapons.length + 1) ∧
      m1.entity? (some m.entities.length) = some dp ∧
      dp.matchComponent = some ⟨B, m.m_nextUniqueId⟩ ∧
      dp.weaponWielderComponent =
        some ((List.range' (m.entities.length + 1) weapons.length).map some) ∧
      dp.ownerComponent = some (some self) ∧ dp.playerControlledComponent = some (some self) ∧
      (∀ j, j < weapons.length → ∃ dc, m1.entity? (some (m.entities.length + 1 + j)) = some dc ∧
        dc.matchComponent = some ⟨B, m.m_nextUniqueId + 1 + j⟩ ∧
        dc.nodeComponent = some (some m.entities.length) ∧
        dc.networkSyncComponent = some (some m.entities.length) ∧
        dc.weaponComponent = some (some m.entities.length)) := by
  -- the old layer is hidden
  have hp0 : (m.log (Event.gamemode (GamemodeEvent.PlayerLayerUpdate self p.m_layerIndex B))).player?
      self = some p := hp
  have h1 := updateLayerVisibility_of self p.m_layerIndex false
    (m.log (Event.gamemode (GamemodeEvent.PlayerLayerUpdate self p.m_layerIndex B))) p hp0 hAl
  obtain ⟨M1, hM1, hents1, hreg1, hnext1, hlc1, p1, hp1, hpe1⟩ :
      ∃ M1, Player.UpdateLayerVisibility self p.m_layerIndex false
          (m.log (Event.gamemode (GamemodeEvent.PlayerLayerUpdate self p.m_layerIndex B)))
          = .ok M1 ∧
        M1.entities = m.entities ∧ M1.m_entitiesByUniqueId = m.m_entitiesByUniqueId ∧
        M1.m_nextUniqueId = m.m_nextUniqueId ∧ M1.layerCount = m.layerCount ∧
        ∃ p1, M1.player? self = some p1 ∧ p1.m_playerEntity = some e := by
    refine ⟨_, h1, rfl, rfl, rfl, rfl, { p with m_visibleLayers :=
      (Bitset.UnboundedSet p.m_visibleLayers p.m_layerIndex false) }, ?_, he⟩
    rw [player?_modifyPlayer, if_pos rfl]
    show Option.map _ (m.player? self) = _
    rw [hp]
    rfl
  -- the clones
  obtain ⟨mg, dp, hmig, hgnext, hgreg, hglc, hgc, hglen, hgn, hdp1, hdp2, hdp3, hdp4, hgcl⟩ :=
    migrateEntity_of c self B e M1 p1 d mcd weapons hp1 hpe1
      ((entity?_of_entities_eq m M1 hents1 _).trans hd) hmcd hw
      (by
        intro w hwm
        obtain ⟨dw, hdw, hrest⟩ := hws w hwm
        exact ⟨dw, (entity?_of_entities_eq m M1 hents1 _).trans hdw, hrest⟩)
      (by
        intro j hj
        rw [hreg1, hnext1]
        exact hfresh j hj)
      (by rw [hnext1]; exact hov) (by rw [hlc1]; exact hBl)
  rw [hents1] at hgreg hgc hglen hgn hdp2 hgcl
  rw [hnext1] at hgnext hgreg hdp1 hgcl
  rw [hreg1] at hgreg
  rw [hlc1] at hglc
  -- the new layer is shown
  obtain ⟨pg, hpg, hpeg⟩ := hgc
  have hp3 : (mg.modifyPlayer self (fun q => { q with m_layerIndex := B })).player? self =
      some { pg with m_layerIndex := B } := by
    rw [player?_modifyPlayer, if_pos rfl, hpg]
    rfl
  have h5 := updateLayerVisibility_of self B true
    ((mg.modifyPlayer self (fun q => { q with m_layerIndex := B })).log
      (Event.visibility pg.m_session (VisibilityCall.PushLayerUpdate pg.m_localIndex B)))
    { pg with m_layerIndex := B } hp3 (by show B < mg.layerCount; rw [hglc]; exact hBl)
  have hrun : Player.MoveToLayer c self B m = .ok
      ((((mg.modifyPlayer self (fun q => { q with m_layerIndex := B })).log
        (Event.visibility pg.m_session (VisibilityCall.PushLayerUpdate pg.m_localIndex B))).log
        (Event.visibility pg.m_session (VisibilityCall.ShowLayer B))).modifyPlayer self
        (fun q => { q with m_visibleLayers := (Bitset.UnboundedSet q.m_visibleLayers B true) })) := by
    unfold Player.MoveToLayer
    simp only [getPlayer_of m self p hp, hAB, if_false]
    rw [if_pos hA, hM1]
    simp only
    rw [if_pos ⟨hA, hB⟩, hmig]
    simp only [getPlayer_of _ self _ hp3]
    rw [if_pos hB]
    exact h5
  refine ⟨_, dp, hrun, hgnext, hgreg, hglc, ?_, ?_, ?_, hdp1, hdp2, hdp3, hdp4, ?_⟩
  · refine ⟨{ pg with m_layerIndex := B, m_visibleLayers :=
      (Bitset.UnboundedSet pg.m_visibleLayers B true) }, ?_, hpeg⟩
    rw [player?_modifyPlayer, if_pos rfl]
    show Option.map _ ((mg.modifyPlayer self (fun q => { q with m_layerIndex := B })).player? self)
      = _
    rw [hp3]
    rfl
  · exact hglen
  · exact hgn
  · exact hgcl

/-- C11: `MoveToLayer` between two different layers of the terrain, for a player whose
controlled entity wields the `k` live weapons `weapons`, in a match whose
registered ids are all below the id counter and whose counter does not overflow:
the call returns; the counter and the new registry keys are those of exactly
`k + 1` successive `AllocateUniqueId` calls, pairwise different, none below the
counter's old value and none a key of the registry before; the player's clone
and the clone of each weapon carry a `MatchComponent` with their own id and the
destination layer and are registered under that id; node parent, network-sync
parent and weapon owner of each weapon clone are the player's clone, which the
player now controls. -/
theorem moveToLayer_clones (c : Constants) (self B e : Nat) (m : Match) (p : Player)
    (d : EntityData) (mcd : MatchComponent) (weapons : List EntityHandle)
    (hp : m.player? self = some p)
    (hA : p.m_layerIndex ≠ c.NoLayer) (hB : B ≠ c.NoLayer) (hAB : p.m_layerIndex ≠ B)
    (hAl : p.m_layerIndex < m.layerCount) (hBl : B < m.layerCount)
    (he : p.m_playerEntity = some e)
    (hd : m.entity? (some e) = some d) (hmcd : d.matchComponent = some mcd)
    (hw : d.weaponWielderComponent = some weapons)
    (hws : ∀ w ∈ weapons, ∃ dw, m.entity? w = some dw ∧ dw.nodeComponent ≠ none ∧
      dw.networkSyncComponent ≠ none ∧ dw.weaponComponent ≠ none)
    (hissued : ∀ kv ∈ m.m_entitiesByUniqueId, kv.1 < m.m_nextUniqueId)
    (hov : m.m_nextUniqueId + weapons.length + 1 < c.entityIdCount) :
    ∃ m1 dp, Player.MoveToLayer c self B m = .ok m1 ∧
      m1.m_nextUniqueId = (Match.allocateMany c (weapons.length + 1) m).2.m_nextUniqueId ∧
      m1.m_entitiesByUniqueId.map Prod.fst =
        m.m_entitiesByUniqueId.map Prod.fst ++ (Match.allocateMany c (weapons.length + 1) m).1 ∧
      (Match.allocateMany c (weapons.length + 1) m).1 =
        (List.range (weapons.length + 1)).map (fun j => m.m_nextUniqueId + j) ∧
      (Match.allocateMany c (weapons.length + 1) m).1.Nodup ∧
      (∀ id ∈ (Match.allocateMany c (weapons.length + 1) m).1,
        m.m_nextUniqueId ≤ id ∧ Match.findEntity m.m_entitiesByUniqueId id = none) ∧
      Controls self (some m.entities.length) m1 ∧
      m1.entity? (some m.entities.length) = some dp ∧
      dp.matchComponent = some ⟨B, m.m_nextUniqueId⟩ ∧
      m1.RetrieveEntityByUniqueId m.m_nextUniqueId = some m.entities.length ∧
      dp.weaponWielderComponent =
        some ((List.range' (m.entities.length + 1) weapons.length).map some) ∧
      (∀ j, j < weapons.length → ∃ dc, m1.entity? (some (m.entities.length + 1 + j)) = some dc ∧
        dc.matchComponent = some ⟨B, m.m_nextUniqueId + 1 + j⟩ ∧
        m1.RetrieveEntityByUniqueId (m.m_nextUniqueId + 1 + j) =
          some (m.entities.length + 1 + j) ∧
        dc.nodeComponent = some (some m.entities.length) ∧
        dc.networkSyncComponent = some (some m.entities.length) ∧
        dc.weaponComponent = some (some m.entities.length)) := by
  have hfreshge : ∀ id, m.m_nextUniqueId ≤ id →
      Match.findEntity m.m_entitiesByUniqueId id = none := by
    intro id hid
    cases hf : Match.findEntity m.m_entitiesByUniqueId id with
    | none => rfl
    | some x =>
      have := hissued _ (findEntity_mem _ _ _ hf)
      simp only at this
      omega
  have hfresh : ∀ j, j < weapons.length + 1 →
      Match.findEntity m.m_entitiesByUniqueId (m.m_nextUniqueId + j) = none :=
    fun j _ => hfreshge _ (by omega)
  obtain ⟨m1, dp, hrun, hnext, hreg, _, hc, _, hn, hdp1, hdp2, _, _, hcl⟩ :=
    moveToLayer_of c self B e m p d mcd weapons hp hA hB hAB hAl hBl he hd hmcd hw hws hfresh hov
  have hids : (Match.allocateMany c (weapons.length + 1) m).1 =
      (List.range (weapons.length + 1)).map (fun j => m.m_nextUniqueId + j) := by
    rw [allocateMany_fst c _ m (by omega), List.range'_eq_map_range]
  have hret : ∀ j, j < weapons.length + 1 →
      m1.RetrieveEntityByUniqueId (m.m_nextUniqueId + j) = some (m.entities.length + j) := by
    intro j hj
    unfold Match.RetrieveEntityByUniqueId
    rw [hreg, findEntity_append_list, hfresh j hj]
    simp only
    rw [findEntity_range m.m_nextUniqueId (fun j => (⟨some (m.entities.length + j),
      some ⟨m.entities.length + j, m.m_nextUniqueId + j⟩⟩ : Match.Entity)) _ j hj]
  refine ⟨m1, dp, hrun, ?_, ?_, hids, ?_, ?_, hc, hn, hdp1, ?_, hdp2, ?_⟩
  · rw [hnext, allocateMany_next c _ m (by omega)]
  · rw [hreg, hids]
    simp [List.map_append, List.map_map, Function.comp_def]
  · rw [allocateMany_fst c _ m (by omega)]
    exact List.nodup_range' _ _
  · intro id hid
    rw [hids, List.mem_map] at hid
    obtain ⟨j, _, hj⟩ := hid
    subst hj
    exact ⟨by omega, hfreshge _ (by omega)⟩
  · have := hret 0 (by omega)
    simpa using this
  · intro j hj
    obtain ⟨dc, hdc, hm, h1, h2, h3⟩ := hcl j hj
    refine ⟨dc, hdc, hm, ?_, h1, h2, h3⟩
    have := hret (j + 1) (by omega)
    have e1 : m.m_nextUniqueId + 1 + j = m.m_nextUniqueId + (j + 1) := by omega
    have e2 : m.entities.length + 1 + j = m.entities.length + (j + 1) := by omega
    rw [e1, e2]
    exact this

theorem moveToLayer_clones_witness :
    ∃ m1 dp, Player.MoveToLayer Examples.consts 0 1 Examples.arena = .ok m1 ∧
      m1.m_nextUniqueId = (Match.allocateMany Examples.consts (1 + 1) Examples.arena).2.m_nextUniqueId ∧
      m1.m_entitiesByUniqueId.map Prod.fst =
        Examples.arena.m_entitiesByUniqueId.map Prod.fst ++
          (Match.allocateMany Examples.consts (1 + 1) Examples.arena).1 ∧
      (Match.allocateMany Examples.consts (1 + 1) Examples.arena).1 =
        (List.range (1 + 1)).map (fun j => Examples.arena.m_nextUniqueId + j) ∧
      (Match.allocateMany Examples.consts (1 + 1) Examples.arena).1.Nodup ∧
      (∀ id ∈ (Match.allocateMany Examples.consts (1 + 1) Examples.arena).1,
        Examples.arena.m_nextUniqueId ≤ id ∧
        Match.findEntity Examples.arena.m_entitiesByUniqueId id = none) ∧
      Controls 0 (some Examples.arena.entities.length) m1 ∧
      m1.entity? (some Examples.arena.entities.length) = some dp ∧
      dp.matchComponent = some ⟨1, Examples.arena.m_nextUniqueId⟩ ∧
      m1.RetrieveEntityByUniqueId Examples.arena.m_nextUniqueId =
        some Examples.arena.entities.length ∧
      dp.weaponWielderComponent =
        some ((List.range' (Examples.arena.entities.length + 1) 1).map some) ∧
      (∀ j, j < 1 → ∃ dc,
        m1.entity? (some (Examples.arena.entities.length + 1 + j)) = some dc ∧
        dc.matchComponent = some ⟨1, Examples.arena.m_nextUniqueId + 1 + j⟩ ∧
        m1.RetrieveEntityByUniqueId (Examples.arena.m_nextUniqueId + 1 + j) =
          some (Examples.arena.entities.length + 1 + j) ∧
        dc.nodeComponent = some (some Examples.arena.entities.length) ∧
        dc.networkSyncComponent = some (some Examples.arena.entities.length) ∧
        dc.weaponComponent = some (some Examples.arena.entities.length)) :=
  moveToLayer_clones Examples.consts 0 1 0 Examples.arena Examples.alice Examples.hero ⟨0, 5⟩
    [some 1] rfl (by decide) (by decide) (by decide) (by decide) (by decide) rfl rfl rfl rfl
    (by
      intro w hwm
      simp only [List.mem_singleton] at hwm
      subst hwm
      exact ⟨Examples.sword, rfl, by decide, by decide, by decide⟩)
    (by
      intro kv hkv
      have hm : kv ∈ [(5, (⟨some 0, some ⟨0, 5⟩⟩ : Match.Entity)),
          (6, (⟨some 1, some ⟨1, 6⟩⟩ : Match.Entity))] := hkv
      simp only [List.mem_cons, List.mem_singleton, List.not_mem_nil, or_false] at hm
      rcases hm with h | h <;> subst h <;> decide)
    (by decide)

/-! ## `RemovePlayer`: the packets -/

theorem livePlayers_sorted (m : Match) : (m.livePlayers.map Prod.fst).Pairwise (· < ·) := by
  rw [Match.livePlayers, livePlayers_map_fst]
  have hsub : ((m.m_players.enum.filter (fun ip => ip.2.isSome)).map Prod.fst).Sublist
      (m.m_players.enum.map Prod.fst) := (List.filter_sublist _).map _
  rw [List.enum_map_fst] at hsub
  exact List.Pairwise.sublist hsub (List.pairwise_lt_range _)

/-- The whole trace of a `RemovePlayer` call: the `PlayerLeave` callback, the
`PlayerLeaving` broadcast of a ready player, the `HideLayer` calls of the
destructor, and the chat message to every player still in the match. -/
theorem removePlayer_trace (c : Constants) (player : Nat) (reason : DisconnectionReason)
    (m : Match) (p : Player) (hp : m.player? player = some p)
    (hlt : player < m.m_freePlayerId.length) :
    ∃ m1, Match.RemovePlayer c player reason m = .ok m1 ∧
      m1.m_players = m.m_players.set player none ∧
      m1.trace = m.trace ++ [Event.gamemode (GamemodeEvent.PlayerLeave player)] ++
        (if p.m_isReady then (m.recipients c.broadcastOnlyReady none).map
          (fun i => Event.send i (Packet.PlayerLeaving (p.m_playerIndex % 65536))) else []) ++
        (Bitset.setBits p.m_visibleLayers).map
          (fun l => Event.visibility p.m_session (VisibilityCall.HideLayer l)) ++
        m1.livePlayers.map (fun ip => Event.send ip.1
          (Packet.ChatMessage (some ip.2.m_localIndex) none
            (p.m_name ++ " has left" ++ Match.leftSuffix reason))) := by
  unfold Match.RemovePlayer
  simp only [hp]
  cases hready : p.m_isReady with
  | false =>
    simp only [Bool.false_eq_true, if_false]
    have hlt3 : player < (Match.destroyPlayer player p
        (m.log (Event.gamemode (GamemodeEvent.PlayerLeave player)))).m_freePlayerId.length := hlt
    simp only [hlt3, if_true]
    refine ⟨_, rfl, rfl, ?_⟩
    simp [Match.destroyPlayer, Match.logAll, Match.log, Match.livePlayers]
  | true =>
    simp only [if_true]
    have hlt3 : player < (Match.destroyPlayer player p
        ((m.log (Event.gamemode (GamemodeEvent.PlayerLeave player))).BroadcastPacket
          (Packet.PlayerLeaving (p.m_playerIndex % 65536)) c.broadcastOnlyReady
          none)).m_freePlayerId.length := hlt
    simp only [hlt3, if_true]
    refine ⟨_, rfl, rfl, ?_⟩
    have hb := broadcast_trace (m.log (Event.gamemode (GamemodeEvent.PlayerLeave player)))
      (Packet.PlayerLeaving (p.m_playerIndex % 65536)) c.broadcastOnlyReady none
    have hrec : (m.log (Event.gamemode (GamemodeEvent.PlayerLeave player))).recipients
        c.broadcastOnlyReady none = m.recipients c.broadcastOnlyReady none := rfl
    rw [hrec] at hb
    show (((m.log (Event.gamemode (GamemodeEvent.PlayerLeave player))).BroadcastPacket
      (Packet.PlayerLeaving (p.m_playerIndex % 65536)) c.broadcastOnlyReady none).trace ++ _) ++ _
      = _
    rw [hb]
    rfl

/-- C21: `RemovePlayer(p, reason)` on an occupied slot of a match that satisfies the
slot invariant returns; the last events of its trace are one `ChatMessage` for
every player still in the match, in slot order, with the recipient's own local
index and the content `name ++ " has left" ++ suffix`, where the suffix is
`" (kicked)."`, `"."` or `" (timed out)."` for `Kicked`, `PlayerLeft` and
`TimedOut`; nothing else the call adds to the trace is a `ChatMessage`; the
recipients are the occupants of the other slots, each listed once, so the
removed player is not among them. -/
theorem removePlayer_chat (c : Constants) (player : Nat) (reason : DisconnectionReason)
    (m : Match) (p : Player) (hinv : SlotsInv m) (hp : m.player? player = some p) :
    ∃ m1 before, Match.RemovePlayer c player reason m = .ok m1 ∧
      m1.trace = m.trace ++ before ++ m1.livePlayers.map (fun ip => Event.send ip.1
        (Packet.ChatMessage (some ip.2.m_localIndex) none
          (p.m_name ++ " has left" ++ Match.leftSuffix reason))) ∧
      (∀ ev ∈ before, ∀ q li pi s, ev ≠ Event.send q (Packet.ChatMessage li pi s)) ∧
      (∀ i q, (i, q) ∈ m1.livePlayers ↔ i ≠ player ∧ m.player? i = some q) ∧
      (m1.livePlayers.map Prod.fst).Nodup ∧
      Match.leftSuffix DisconnectionReason.Kicked = " (kicked)." ∧
      Match.leftSuffix DisconnectionReason.PlayerLeft = "." ∧
      Match.leftSuffix DisconnectionReason.TimedOut = " (timed out)." := by
  have hltp : player < m.m_players.length := player?_lt m player p hp
  have hlt : player < m.m_freePlayerId.length := by
    rw [← hinv.1]
    exact hltp
  obtain ⟨m1, hrun, hpl, htr⟩ := removePlayer_trace c player reason m p hp hlt
  refine ⟨m1, [Event.gamemode (GamemodeEvent.PlayerLeave player)] ++
      (if p.m_isReady then (m.recipients c.broadcastOnlyReady none).map
        (fun i => Event.send i (Packet.PlayerLeaving (p.m_playerIndex % 65536))) else []) ++
      (Bitset.setBits p.m_visibleLayers).map
        (fun l => Event.visibility p.m_session (VisibilityCall.HideLayer l)),
    hrun, ?_, ?_, ?_, (livePlayers_sorted m1).imp (fun h => Nat.ne_of_lt h), rfl, rfl, rfl⟩
  · rw [htr]
    simp only [List.append_assoc]
  · intro ev hev q li pi s hq
    simp only [List.mem_append, List.mem_singleton, List.mem_map] at hev
    rcases hev with (hev | hev) | ⟨l, _, hev⟩
    · rw [hev] at hq
      cases hq
    · cases hr : p.m_isReady with
      | false => simp [hr] at hev
      | true =>
        simp only [hr, if_true, List.mem_map] at hev
        obtain ⟨i, _, hev⟩ := hev
        rw [← hev] at hq
        cases hq
    · rw [← hev] at hq
      cases hq
  · intro i q
    rw [mem_livePlayers, player?_set m player i none _ rfl m1 hpl]
    by_cases hi : player = i
    · subst hi
      simp [hltp]
    · rw [if_neg (fun h => hi h.1)]
      exact ⟨fun h => ⟨fun e => hi e.symm, h⟩, fun h => h.2⟩

theorem removePlayer_chat_witness :
    ∃ m1 before, Match.RemovePlayer Examples.consts 0 DisconnectionReason.TimedOut Examples.arena
        = .ok m1 ∧
      m1.trace = Examples.arena.trace ++ before ++ m1.livePlayers.map (fun ip => Event.send ip.1
        (Packet.ChatMessage (some ip.2.m_localIndex) none
          (Examples.alice.m_name ++ " has left" ++
            Match.leftSuffix DisconnectionReason.TimedOut))) ∧
      (∀ ev ∈ before, ∀ q li pi s, ev ≠ Event.send q (Packet.ChatMessage li pi s)) ∧
      (∀ i q, (i, q) ∈ m1.livePlayers ↔ i ≠ 0 ∧ Examples.arena.player? i = some q) ∧
      (m1.livePlayers.map Prod.fst).Nodup ∧
      Match.leftSuffix DisconnectionReason.Kicked = " (kicked)." ∧
      Match.leftSuffix DisconnectionReason.PlayerLeft = "." ∧
      Match.leftSuffix DisconnectionReason.TimedOut = " (timed out)." :=
  removePlayer_chat Examples.consts 0 DisconnectionReason.TimedOut Examples.arena Examples.alice
    ⟨rfl, fun i hi => by
      have h2 : i < 2 := test_lt _ _ hi
      interval_cases i <;> cases hi⟩
    rfl

/-- C22: `RemovePlayer(p, reason)` on an occupied slot of a match that satisfies the
slot invariant returns. When `p` is ready, the trace gains one `PlayerLeaving`
packet, carrying `p`'s player index as a 16-bit value (the index itself when it
is below 65536), for each recipient of the broadcast, and no other
`PlayerLeaving` packet; every ready occupant of another slot is a recipient, and
each recipient is listed once. When `p` is not ready the call adds no
`PlayerLeaving` packet to the trace. -/
theorem removePlayer_leaving (c : Constants) (player : Nat) (reason : DisconnectionReason)
    (m : Match) (p : Player) (hinv : SlotsInv m) (hp : m.player? player = some p) :
    ∃ m1 pre leaving post, Match.RemovePlayer c player reason m = .ok m1 ∧
      m1.trace = m.trace ++ pre ++ leaving ++ post ∧
      (∀ ev ∈ pre ++ post, ∀ q pi, ev ≠ Event.send q (Packet.PlayerLeaving pi)) ∧
      (p.m_isReady = true → leaving = (m.recipients c.broadcastOnlyReady none).map
        (fun i => Event.send i (Packet.PlayerLeaving (p.m_playerIndex % 65536)))) ∧
      (p.m_isReady = false → leaving = []) ∧
      (m.recipients c.broadcastOnlyReady none).Nodup ∧
      (∀ i q, i ≠ player → m.player? i = some q → q.m_isReady = true →
        i ∈ m.recipients c.broadcastOnlyReady none) ∧
      (p.m_playerIndex < 65536 → p.m_playerIndex % 65536 = p.m_playerIndex) := by
  have hlt : player < m.m_freePlayerId.length := by
    rw [← hinv.1]
    exact player?_lt m player p hp
  obtain ⟨m1, hrun, _, htr⟩ := removePlayer_trace c player reason m p hp hlt
  refine ⟨m1, [Event.gamemode (GamemodeEvent.PlayerLeave player)],
    (if p.m_isReady then (m.recipients c.broadcastOnlyReady none).map
      (fun i => Event.send i (Packet.PlayerLeaving (p.m_playerIndex % 65536))) else []),
    (Bitset.setBits p.m_visibleLayers).map
      (fun l => Event.visibility p.m_session (VisibilityCall.HideLayer l)) ++
    m1.livePlayers.map (fun ip => Event.send ip.1
      (Packet.ChatMessage (some ip.2.m_localIndex) none
        (p.m_name ++ " has left" ++ Match.leftSuffix reason))), hrun, ?_, ?_, ?_, ?_,
    (recipients_sorted m _ _).imp (fun h => Nat.ne_of_lt h), ?_, fun h => Nat.mod_eq_of_lt h⟩
  · rw [htr]
    simp only [List.append_assoc]
  · intro ev hev q pi hq
    simp only [List.mem_append, List.mem_singleton, List.mem_map] at hev
    rcases hev with hev | ⟨l, _, hev⟩ | ⟨ip, _, hev⟩
    · rw [hev] at hq
      cases hq
    · rw [← hev] at hq
      cases hq
    · rw [← hev] at hq
      cases hq
  · intro h
    rw [h, if_pos rfl]
  · intro h
    rw [h]
    rfl
  · intro i q _ hq hr
    rw [mem_recipients]
    exact ⟨q, hq, fun _ => hr, fun e => by cases e⟩

theorem removePlayer_leaving_witness :
    ∃ m1 pre leaving post,
      Match.RemovePlayer Examples.consts 0 DisconnectionReason.TimedOut Examples.arena = .ok m1 ∧
      m1.trace = Examples.arena.trace ++ pre ++ leaving ++ post ∧
      (∀ ev ∈ pre ++ post, ∀ q pi, ev ≠ Event.send q (Packet.PlayerLeaving pi)) ∧
      (Examples.alice.m_isReady = true →
        leaving = (Examples.arena.recipients Examples.consts.broadcastOnlyReady none).map
          (fun i => Event.send i (Packet.PlayerLeaving (Examples.alice.m_playerIndex % 65536)))) ∧
      (Examples.alice.m_isReady = false → leaving = []) ∧
      (Examples.arena.recipients Examples.consts.broadcastOnlyReady none).Nodup ∧
      (∀ i q, i ≠ 0 → Examples.arena.player? i = some q → q.m_isReady = true →
        i ∈ Examples.arena.recipients Examples.consts.broadcastOnlyReady none) ∧
      (Examples.alice.m_playerIndex < 65536 →
        Examples.alice.m_playerIndex % 65536 = Examples.alice.m_playerIndex) :=
  removePlayer_leaving Examples.consts 0 DisconnectionReason.TimedOut Examples.arena
    Examples.alice
    ⟨rfl, fun i hi => by
      have h2 : i < 2 := test_lt _ _ hi
      interval_cases i <;> cases hi⟩
    rfl

/-! ## `Player::OnTick` -/

theorem mem_setBits_unbounded (b : List Bool) (l : Nat) :
    l ∈ Bitset.setBits b ↔ Bitset.UnboundedTest b l = true := by
  rw [mem_setBits]
  constructor
  · intro h
    simp [Bitset.UnboundedTest, h, test_lt b l h]
  · intro h
    simp only [Bitset.UnboundedTest, Bool.and_eq_true] at h
    exact h.2

theorem collectWeapons_spec (m : Match) (ws : List EntityHandle) (acc : List Nat × List Bool)
    (hlive : ∀ w ∈ ws, m.entity? w ≠ none) :
    ∃ r, Player.collectWeapons m ws acc = .ok r ∧
      r.1 = acc.1 ++ (liveIds m ws).map (fun i => i % 4294967296) ∧
      ∀ x, Bitset.UnboundedTest r.2 x = true ↔
        (Bitset.UnboundedTest acc.2 x = true ∨ x ∈ liveIds m ws) := by
  induction ws generalizing acc with
  | nil => exact ⟨acc, rfl, by simp [liveIds], by simp [liveIds]⟩
  | cons w rest ih =>
    cases hw : m.entity? w with
    | none => exact absurd hw (hlive w (List.mem_cons_self _ _))
    | some dw =>
      obtain ⟨r, hr, h1, h2⟩ := ih (acc.1 ++ [dw.id % 4294967296],
        Bitset.UnboundedSet acc.2 dw.id true) (fun w' hw' => hlive w' (List.mem_cons_of_mem _ hw'))
      refine ⟨r, ?_, ?_, ?_⟩
      · simp only [Player.collectWeapons, hw]
        exact hr
      · rw [h1]
        simp [liveIds, hw]
      · intro x
        rw [h2 x, unboundedTest_unboundedSet]
        simp only [liveIds, List.filterMap_cons, hw, Option.map_some', List.mem_cons]
        by_cases hx : dw.id = x
        · simp [hx]
        · have hx' : ¬ x = dw.id := fun e => hx e.symm
          simp [hx, hx']

theorem collectWeapons_error (m : Match) (ws : List EntityHandle) (acc : List Nat × List Bool)
    (w : EntityHandle) (hw : w ∈ ws) (hdead : m.entity? w = none) :
    Player.collectWeapons m ws acc = .error .assertion := by
  induction ws generalizing acc with
  | nil => cases hw
  | cons w' rest ih =>
    simp only [Player.collectWeapons]
    cases hw' : m.entity? w' with
    | none => rfl
    | some dw =>
      simp only
      rcases List.mem_cons.mp hw with h | h
      · rw [h, hw'] at hdead
        cases hdead
      · exact ih _ h

/-- What `Player::OnTick` does on the last tick with a pending weapon update, for a
player whose controlled entity and weapons are live. -/
theorem onTick_of (self : Nat) (m : Match) (p : Player) (d : EntityData)
    (hp : m.player? self = some p) (hflag : p.m_shouldSendWeapons = true)
    (hd : m.entity? p.m_playerEntity = some d)
    (hlive : ∀ w ∈ d.weaponWielderComponent.getD [], m.entity? w ≠ none) :
    ∃ m1 weaponEntities weaponIds, Player.OnTick self true m = .ok m1 ∧
      m1 = (m.log (Event.visibility p.m_session
        (VisibilityCall.PushEntitiesPacket p.m_layerIndex weaponIds
          (Packet.PlayerWeapons p.m_localIndex p.m_layerIndex weaponEntities)))).modifyPlayer
        self (fun q => { q with m_shouldSendWeapons := false }) ∧
      weaponEntities = (liveIds m (d.weaponWielderComponent.getD [])).map
        (fun i => i % 4294967296) ∧
      (∀ x, x ∈ weaponIds ↔ x ∈ liveIds m (d.weaponWielderComponent.getD [])) ∧
      weaponIds.Nodup := by
  unfold Player.OnTick
  simp only [getPlayer_of m self p hp, hflag, Bool.and_self, if_true, Match.getEntity, hd]
  cases hww : d.weaponWielderComponent with
  | none =>
    simp only
    refine ⟨_, _, _, rfl, rfl, ?_, ?_, setBits_nodup _⟩
    · simp [liveIds]
    · intro x
      simp [liveIds, Bitset.setBits]
  | some weapons =>
    simp only
    obtain ⟨r, hr, h1, h2⟩ := collectWeapons_spec m weapons ([], [])
      (by intro w hw; exact hlive w (by rw [hww]; exact hw))
    rw [hr]
    simp only
    refine ⟨_, _, _, rfl, rfl, ?_, ?_, setBits_nodup _⟩
    · rw [h1]
      simp
    · intro x
      rw [mem_setBits_unbounded, h2 x]
      simp [Bitset.UnboundedTest]

theorem onWeaponEvent_spec (self : Nat) (m : Match) (p : Player) (b : Bool) (ev : WeaponEvent)
    (hp : m.player? self = some { p with m_shouldSendWeapons := b }) :
    (Player.onWeaponEvent self m ev).trace = m.trace ∧
    (Player.onWeaponEvent self m ev).entities = m.entities ∧
    (Player.onWeaponEvent self m ev).player? self =
      some { p with m_shouldSendWeapons := b || ev.connected p } := by
  have hmod : (m.modifyPlayer self (fun q => { q with m_shouldSendWeapons := true })).player? self
      = some { p with m_shouldSendWeapons := true } := by
    rw [player?_modifyPlayer, if_pos rfl, hp]
    rfl
  cases ev with
  | added h =>
    have key : Player.onWeaponEvent self m (WeaponEvent.added h) =
        if p.m_onWeaponAdded = some h then
          m.modifyPlayer self (fun q => { q with m_shouldSendWeapons := true })
        else m := by
      simp only [Player.onWeaponEvent, Player.onWeaponAdded, hp]
    rw [key]
    by_cases hc : p.m_onWeaponAdded = some h
    · rw [if_pos hc]
      have hcon : (WeaponEvent.added h).connected p = true := decide_eq_true hc
      rw [hcon, Bool.or_true]
      exact ⟨rfl, rfl, hmod⟩
    · rw [if_neg hc]
      have hcon : (WeaponEvent.added h).connected p = false := decide_eq_false hc
      rw [hcon, Bool.or_false]
      exact ⟨rfl, rfl, hp⟩
  | removed h =>
    have key : Player.onWeaponEvent self m (WeaponEvent.removed h) =
        if p.m_onWeaponRemove = some h then
          m.modifyPlayer self (fun q => { q with m_shouldSendWeapons := true })
        else m := by
      simp only [Player.onWeaponEvent, Player.onWeaponRemove, hp]
    rw [key]
    by_cases hc : p.m_onWeaponRemove = some h
    · rw [if_pos hc]
      have hcon : (WeaponEvent.removed h).connected p = true := decide_eq_true hc
      rw [hcon, Bool.or_true]
      exact ⟨rfl, rfl, hmod⟩
    · rw [if_neg hc]
      have hcon : (WeaponEvent.removed h).connected p = false := decide_eq_false hc
      rw [hcon, Bool.or_false]
      exact ⟨rfl, rfl, hp⟩

/-- Weapon-set changes only raise the flag `m_shouldSendWeapons` of the player. -/
theorem onWeaponEvents_spec (self : Nat) (evs : List WeaponEvent) (m : Match) (p : Player)
    (b : Bool) (hp : m.player? self = some { p with m_shouldSendWeapons := b }) :
    (Player.onWeaponEvents self evs m).trace = m.trace ∧
    (Player.onWeaponEvents self evs m).entities = m.entities ∧
    (Player.onWeaponEvents self evs m).player? self =
      some { p with m_shouldSendWeapons := b || evs.any (fun ev => ev.connected p) } := by
  induction evs generalizing m b with
  | nil =>
    refine ⟨rfl, rfl, ?_⟩
    simp only [List.any_nil, Bool.or_false]
    exact hp
  | cons ev rest ih =>
    obtain ⟨h1, h2, h3⟩ := onWeaponEvent_spec self m p b ev hp
    obtain ⟨k1, k2, k3⟩ := ih (Player.onWeaponEvent self m ev) (b || ev.connected p) h3
    simp only [Player.onWeaponEvents, List.foldl_cons] at k1 k2 k3 ⊢
    refine ⟨k1.trans h1, k2.trans h2, ?_⟩
    rw [k3]
    simp [Bool.or_assoc]

theorem mem_liveIds (m : Match) (ws : List EntityHandle) (x : Nat) :
    x ∈ liveIds m ws ↔ ∃ w ∈ ws, ∃ dw, m.entity? w = some dw ∧ dw.id = x := by
  simp only [liveIds, List.mem_filterMap, Option.map_eq_some']

theorem liveIds_congr (m m1 : Match) (h : m1.entities = m.entities) (ws : List EntityHandle) :
    liveIds m1 ws = liveIds m ws := by
  simp only [liveIds, entity?_of_entities_eq m m1 h]

theorem liveIds_length (m : Match) (ws : List EntityHandle) (hlive : ∀ w ∈ ws, m.entity? w ≠ none) :
    (liveIds m ws).length = ws.length := by
  induction ws with
  | nil => rfl
  | cons w rest ih =>
    cases hw : m.entity? w with
    | none => exact absurd hw (hlive w (List.mem_cons_self _ _))
    | some dw =>
      simp only [liveIds, List.filterMap_cons, hw, Option.map_some', List.length_cons]
      have := ih (fun w' hw' => hlive w' (List.mem_cons_of_mem _ hw'))
      simp only [liveIds] at this
      rw [this]

theorem onTick_idle (self : Nat) (lastTick : Bool) (m : Match) (p : Player)
    (hp : m.player? self = some p) (h : lastTick = false ∨ p.m_shouldSendWeapons = false) :
    Player.OnTick self lastTick m = .ok m := by
  unfold Player.OnTick
  simp only [getPlayer_of m self p hp]
  rcases h with h | h
  · rw [h]
    rfl
  · rw [h, Bool.and_false]
    rfl

/-- C25: `Player::OnTick` with `lastTick = false`, or without a pending weapon update,
returns and changes nothing (nothing is sent, the flag is kept). For a player
whose controlled entity and weapons are live: after any sequence of weapon
added/removed events that leaves the flag pending, a call with `lastTick = false`
still changes nothing, and the call with `lastTick = true` returns and adds to
the trace exactly one `PushEntitiesPacket` call on the player's session, with a
`PlayerWeapons` packet whose `weaponEntities` are the ids (as 32-bit values) of
the weapons of the controlled entity, in their order, and an id bitset whose set
bits are exactly those ids; the flag is then cleared, and a further call sends
nothing. -/
theorem onTick_flushes_once (self : Nat) (lastTick : Bool) (evs : List WeaponEvent)
    (m : Match) (p : Player) (d : EntityData)
    (hp : m.player? self = some p) (hd : m.entity? p.m_playerEntity = some d)
    (hlive : ∀ w ∈ d.weaponWielderComponent.getD [], m.entity? w ≠ none) :
    Player.OnTick self false m = .ok m ∧
    (p.m_shouldSendWeapons = false → Player.OnTick self lastTick m = .ok m) ∧
    ((p.m_shouldSendWeapons || evs.any (fun ev => ev.connected p)) = true →
      ∃ m1 weaponEntities weaponIds,
        Player.OnTick self false (Player.onWeaponEvents self evs m) =
          .ok (Player.onWeaponEvents self evs m) ∧
        Player.OnTick self true (Player.onWeaponEvents self evs m) = .ok m1 ∧
        m1.trace = m.trace ++ [Event.visibility p.m_session
          (VisibilityCall.PushEntitiesPacket p.m_layerIndex weaponIds
            (Packet.PlayerWeapons p.m_localIndex p.m_layerIndex weaponEntities))] ∧
        weaponEntities = (liveIds m (d.weaponWielderComponent.getD [])).map
          (fun i => i % 4294967296) ∧
        (liveIds m (d.weaponWielderComponent.getD [])).length =
          (d.weaponWielderComponent.getD []).length ∧
        (∀ x, x ∈ weaponIds ↔
          ∃ w ∈ d.weaponWielderComponent.getD [], ∃ dw, m.entity? w = some dw ∧ dw.id = x) ∧
        weaponIds.Nodup ∧
        m1.player? self = some { p with m_shouldSendWeapons := false } ∧
        Player.OnTick self true m1 = .ok m1) := by
  refine ⟨onTick_idle self false m p hp (Or.inl rfl),
    fun h => onTick_idle self lastTick m p hp (Or.inr h), ?_⟩
  intro hpend
  obtain ⟨htr, hents, hpl⟩ := onWeaponEvents_spec self evs m p p.m_shouldSendWeapons hp
  rw [hpend] at hpl
  have hent : ∀ g, (Player.onWeaponEvents self evs m).entity? g = m.entity? g :=
    entity?_of_entities_eq m _ hents
  obtain ⟨m1, we, wi, hrun, hm1, hwe, hwi, hnd⟩ := onTick_of self
    (Player.onWeaponEvents self evs m) { p with m_shouldSendWeapons := true } d hpl rfl
    ((hent _).trans hd) (by intro w hw; rw [hent]; exact hlive w hw)
  rw [liveIds_congr m _ hents] at hwe hwi
  have hp1 : m1.player? self = some { p with m_shouldSendWeapons := false } := by
    rw [hm1, player?_modifyPlayer, if_pos rfl]
    show Option.map _ ((Player.onWeaponEvents self evs m).player? self) = _
    rw [hpl]
    rfl
  refine ⟨m1, we, wi, onTick_idle self false _ _ hpl (Or.inl rfl), hrun, ?_, hwe, ?_, ?_, hnd,
    hp1, onTick_idle self true m1 _ hp1 (Or.inr rfl)⟩
  · rw [hm1]
    show (Player.onWeaponEvents self evs m).trace ++ _ = _
    rw [htr]
  · exact liveIds_length m _ hlive
  · intro x
    rw [hwi x, mem_liveIds]

theorem onTick_flushes_once_witness :
    ∃ m1 weaponEntities weaponIds,
      Player.OnTick 0 false (Player.onWeaponEvents 0
          [WeaponEvent.added 0, WeaponEvent.removed 0, WeaponEvent.added 0] Examples.arena) =
        .ok (Player.onWeaponEvents 0
          [WeaponEvent.added 0, WeaponEvent.removed 0, WeaponEvent.added 0] Examples.arena) ∧
      Player.OnTick 0 true (Player.onWeaponEvents 0
          [WeaponEvent.added 0, WeaponEvent.removed 0, WeaponEvent.added 0] Examples.arena)
        = .ok m1 ∧
      m1.trace = Examples.arena.trace ++ [Event.visibility Examples.alice.m_session
        (VisibilityCall.PushEntitiesPacket Examples.alice.m_layerIndex weaponIds
          (Packet.PlayerWeapons Examples.alice.m_localIndex Examples.alice.m_layerIndex
            weaponEntities))] ∧
      weaponEntities = (liveIds Examples.arena (Examples.hero.weaponWielderComponent.getD [])).map
        (fun i => i % 4294967296) ∧
      (liveIds Examples.arena (Examples.hero.weaponWielderComponent.getD [])).length =
        (Examples.hero.weaponWielderComponent.getD []).length ∧
      (∀ x, x ∈ weaponIds ↔
        ∃ w ∈ Examples.hero.weaponWielderComponent.getD [], ∃ dw,
          Examples.arena.entity? w = some dw ∧ dw.id = x) ∧
      weaponIds.Nodup ∧
      m1.player? 0 = some { Examples.alice with m_shouldSendWeapons := false } ∧
      Player.OnTick 0 true m1 = .ok m1 :=
  (onTick_flushes_once 0 true [WeaponEvent.added 0, WeaponEvent.removed 0, WeaponEvent.added 0]
    Examples.arena Examples.alice Examples.hero rfl rfl
    (by
      intro w hw
      have hw1 : w ∈ [some 1] := hw
      simp only [List.mem_singleton] at hw1
      subst hw1
      exact (by decide))).2.2 (by decide)

/-! ## Pending weapon update without controlled entity -/

/-- On the last tick, a pending weapon update of a player whose controlled-entity
handle is invalid makes `Player::OnTick` dereference that handle. -/
theorem onTick_invalid_entity (self : Nat) (m : Match) (p : Player)
    (hp : m.player? self = some p) (hflag : p.m_shouldSendWeapons = true)
    (hnone : m.entity? p.m_playerEntity = none) :
    Player.OnTick self true m = .error .invalidHandle := by
  unfold Player.OnTick
  simp only [getPlayer_of m self p hp, hflag, Bool.and_self, if_true, Match.getEntity, hnone]

/-- C28 on the code: alice controls `hero` (state `afterReclaim`, hooks connected by
`UpdateControlledEntity`); a weapon is added, which sets `m_shouldSendWeapons`;
then `hero` dies, or alice releases it through `UpdateControlledEntity` with an
empty target, or she is moved to `NoLayer`. Each of the three calls returns and
leaves the flag set and the controlled-entity handle invalid, and the next
`Player::OnTick(true)` dereferences the invalid handle. -/
theorem onTick_dereferences_released_entity :
    (∃ p, Examples.armed.player? 0 = some p ∧ p.m_shouldSendWeapons = true ∧
      p.m_playerEntity = some 0) ∧
    Player.onPlayerEntityDied Examples.consts false 0 0 (some 1) Examples.armed
      = .ok Examples.fallen ∧
    Player.UpdateControlledEntity Examples.consts 0 none true false Examples.armed
      = .ok Examples.released ∧
    Player.MoveToLayer Examples.consts 0 65535 Examples.armed = .ok Examples.parted ∧
    (∃ p, Examples.fallen.player? 0 = some p ∧ p.m_shouldSendWeapons = true ∧
      p.m_playerEntity = none) ∧
    (∃ p, Examples.released.player? 0 = some p ∧ p.m_shouldSendWeapons = true ∧
      p.m_playerEntity = none) ∧
    (∃ p, Examples.parted.player? 0 = some p ∧ p.m_shouldSendWeapons = true ∧
      p.m_playerEntity = none) ∧
    Player.OnTick 0 true Examples.fallen = .error .invalidHandle ∧
    Player.OnTick 0 true Examples.released = .error .invalidHandle ∧
    Player.OnTick 0 true Examples.parted = .error .invalidHandle :=
  ⟨⟨_, rfl, rfl, rfl⟩, rfl, rfl, rfl, ⟨_, rfl, rfl, rfl⟩, ⟨_, rfl, rfl, rfl⟩, ⟨_, rfl, rfl, rfl⟩,
    rfl, rfl, rfl⟩

/-- C29 on the code: alice controls `hero` (state `afterReclaim`), both her hooks are
connected to it. `MoveToLayer(NoLayer)` returns with the controlled-entity handle
reset and both hooks still connected to `hero`; when `hero` then dies or is
destroyed, the hook runs `OnDeath`, whose assertion on `m_playerEntity` fails. -/
theorem hooks_outlive_release :
    (∃ p, Examples.afterReclaim.player? 0 = some p ∧ p.m_playerEntity = some 0 ∧
      p.m_onPlayerEntityDied = some 0 ∧ p.m_onPlayerEntityDestruction = some 0) ∧
    Player.MoveToLayer Examples.consts 0 65535 Examples.afterReclaim = .ok Examples.departed ∧
    (∃ p, Examples.departed.player? 0 = some p ∧ p.m_playerEntity = none ∧
      p.m_onPlayerEntityDied = some 0 ∧ p.m_onPlayerEntityDestruction = some 0) ∧
    (∃ d, Examples.departed.entity? (some 0) = some d ∧ d.healthComponent = true) ∧
    Player.onPlayerEntityDied Examples.consts false 0 0 (some 1) Examples.departed
      = .error .assertion ∧
    Player.onPlayerEntityDestruction Examples.consts false 0 0 Examples.departed
      = .error .assertion ∧
    Player.entityDestroyed Examples.consts false 0 0 Examples.departed = .error .assertion :=
  ⟨⟨_, rfl, rfl, rfl, rfl⟩, rfl, ⟨_, rfl, rfl, rfl, rfl⟩, ⟨_, rfl, rfl⟩, rfl, rfl, rfl⟩

/-! ## `Match::OnTick` -/

theorem onTick_trace (self : Nat) (lastTick : Bool) (m m1 : Match)
    (h : Player.OnTick self lastTick m = .ok m1) :
    ∃ ext, m1.trace = m.trace ++ ext ∧ m1.m_sessions = m.m_sessions ∧
      ∀ ev ∈ ext, ∃ s l ids pkt,
        ev = Event.visibility s (VisibilityCall.PushEntitiesPacket l ids pkt) := by
  unfold Player.OnTick at h
  cases hp : m.getPlayer self with
  | error e => simp [hp] at h
  | ok p =>
    simp only [hp] at h
    split at h
    · split at h
      · cases h
      · split at h
        · cases h
        · simp only [Except.ok.injEq] at h
          subst h
          refine ⟨[_], rfl, rfl, ?_⟩
          intro ev hev
          simp only [List.mem_singleton] at hev
          exact ⟨_, _, _, _, hev⟩
    · simp only [Except.ok.injEq] at h
      subst h
      exact ⟨[], by simp, rfl, by simp⟩

theorem tickPlayers_spec (lastTick : Bool) (slots : List Nat) (m m1 : Match)
    (h : Match.tickPlayers lastTick slots m = .ok m1) :
    ∃ part, m1.trace = m.trace ++ part ∧ m1.m_sessions = m.m_sessions ∧
      part.filterMap Event.tickedPlayer = slots ∧
      ∀ ev ∈ part, (∃ i, ev = Event.playerOnTick i lastTick) ∨
        ∃ s l ids pkt, ev = Event.visibility s (VisibilityCall.PushEntitiesPacket l ids pkt) := by
  induction slots generalizing m with
  | nil =>
    simp only [Match.tickPlayers, Except.ok.injEq] at h
    subst h
    exact ⟨[], by simp, rfl, rfl, by simp⟩
  | cons i rest ih =>
    simp only [Match.tickPlayers] at h
    cases ht : Player.OnTick i lastTick (m.log (Event.playerOnTick i lastTick)) with
    | error e => simp [ht] at h
    | ok m2 =>
      simp only [ht] at h
      obtain ⟨ext, htr2, hs2, hext⟩ := onTick_trace i lastTick _ m2 ht
      obtain ⟨part, htr, hs, hf, hpart⟩ := ih m2 h
      refine ⟨[Event.playerOnTick i lastTick] ++ ext ++ part, ?_, ?_, ?_, ?_⟩
      · rw [htr, htr2]
        simp [Match.log]
      · rw [hs, hs2]
        rfl
      · have hextf : ext.filterMap Event.tickedPlayer = [] := by
          rw [List.filterMap_eq_nil_iff]
          intro ev hev
          obtain ⟨s, l, ids, pkt, he⟩ := hext ev hev
          rw [he]
          rfl
        simp [List.filterMap_append, hextf, hf, Event.tickedPlayer]
      · intro ev hev
        simp only [List.mem_append, List.mem_singleton] at hev
        rcases hev with (hev | hev) | hev
        · exact Or.inl ⟨i, hev⟩
        · exact Or.inr (hext ev hev)
        · exact hpart ev hev

theorem tickPlayers_false (slots : List Nat) (m : Match)
    (h : ∀ i ∈ slots, m.player? i ≠ none) :
    Match.tickPlayers false slots m =
      .ok (m.logAll (slots.map (fun i => Event.playerOnTick i false))) := by
  induction slots generalizing m with
  | nil => simp [Match.tickPlayers, Match.logAll]
  | cons i rest ih =>
    cases hp : m.player? i with
    | none => exact absurd hp (h i (List.mem_cons_self _ _))
    | some p =>
      have hp1 : (m.log (Event.playerOnTick i false)).player? i = some p := hp
      simp only [Match.tickPlayers, onTick_idle i false _ p hp1 (Or.inl rfl)]
      rw [ih (m.log (Event.playerOnTick i false))
        (fun j hj => h j (List.mem_cons_of_mem _ hj))]
      simp [Match.logAll, Match.log]

/-- C24, as stated, fails: one `Match::OnTick` of `arena` (two sessions, two players)
calls the `OnTick` hooks of the sessions, then the tick hooks of the players, then
the `Tick` callback of the gamemode, and only then advances the terrain; the
`Update` hooks of the sessions follow the terrain and the player hooks. -/
theorem onTick_terrain_after_hooks :
    ∃ m1, Match.OnTick true Examples.arena = .ok m1 ∧
      m1.trace = [Event.sessionOnTick 0, Event.sessionOnTick 1,
        Event.playerOnTick 0 true, Event.playerOnTick 1 true,
        Event.gamemode GamemodeEvent.Tick, Event.terrainUpdate,
        Event.sessionUpdate 0, Event.sessionUpdate 1] :=
  ⟨_, rfl, rfl⟩

/-- C24, amended: whenever `Match::OnTick` returns, it has added to the trace, in this
order: the `OnTick` hook of every session in session order; for every player in
slot order its tick hook, with the `PushEntitiesPacket` call the hook may make;
the `Tick` callback of the gamemode; the advance of the terrain; the `Update`
hook of every session in session order. So the session `OnTick` hooks precede the
player hooks, and the terrain is advanced after both and before the session
`Update` hooks. On a tick that is not the last one the call returns. -/
theorem onTick_order (lastTick : Bool) (m : Match) :
    (∀ m1, Match.OnTick lastTick m = .ok m1 →
      ∃ playerPart, m1.trace = m.trace ++ m.m_sessions.map Event.sessionOnTick ++ playerPart ++
          [Event.gamemode GamemodeEvent.Tick, Event.terrainUpdate] ++
          m.m_sessions.map Event.sessionUpdate ∧
        playerPart.filterMap Event.tickedPlayer = m.livePlayers.map Prod.fst ∧
        ∀ ev ∈ playerPart, (∃ i, ev = Event.playerOnTick i lastTick) ∨
          ∃ s l ids pkt,
            ev = Event.visibility s (VisibilityCall.PushEntitiesPacket l ids pkt)) ∧
    (lastTick = false → ∃ m1, Match.OnTick lastTick m = .ok m1) := by
  constructor
  · intro m1 h
    unfold Match.OnTick at h
    simp only at h
    cases ht : Match.tickPlayers lastTick
        ((m.logAll (m.m_sessions.map Event.sessionOnTick)).livePlayers.map Prod.fst)
        (m.logAll (m.m_sessions.map Event.sessionOnTick)) with
    | error e => simp [ht] at h
    | ok m2 =>
      simp only [ht, Except.ok.injEq] at h
      subst h
      obtain ⟨part, htr, hs, hf, hpart⟩ := tickPlayers_spec lastTick _ _ m2 ht
      refine ⟨part, ?_, hf, hpart⟩
      simp only [Match.logAll, Terrain.Update, Match.log, htr, hs, List.append_assoc,
        List.cons_append, List.nil_append]
  · intro hl
    subst hl
    unfold Match.OnTick
    simp only
    rw [tickPlayers_false]
    · exact ⟨_, rfl⟩
    · intro i hi
      rw [List.mem_map] at hi
      obtain ⟨⟨j, q⟩, hmem, hj⟩ := hi
      simp only at hj
      subst hj
      have := (mem_livePlayers _ j q).mp hmem
      rw [this]
      exact fun e => by cases e

theorem onTick_order_witness :
    ∃ playerPart, Examples.afterTick.trace =
        Examples.arena.trace ++ Examples.arena.m_sessions.map Event.sessionOnTick ++ playerPart ++
          [Event.gamemode GamemodeEvent.Tick, Event.terrainUpdate] ++
          Examples.arena.m_sessions.map Event.sessionUpdate ∧
      playerPart.filterMap Event.tickedPlayer = Examples.arena.livePlayers.map Prod.fst ∧
      ∀ ev ∈ playerPart, (∃ i, ev = Event.playerOnTick i true) ∨
        ∃ s l ids pkt, ev = Event.visibility s (VisibilityCall.PushEntitiesPacket l ids pkt) :=
  (onTick_order true Examples.arena).1 Examples.afterTick rfl

/-! ## The slot invariant over histories -/

theorem slotsExact_init (s : MatchSettings) : SlotsExact (Match.init s) := by
  refine ⟨rfl, Nat.zero_le _, ?_, ?_⟩
  · intro i hi
    exact absurd hi (Nat.not_lt_zero _)
  · intro i p hp
    simp [Match.init, Match.player?] at hp

theorem installPlayer_fields (c : Constants) (session localIndex : Nat) (name : String)
    (playerIndex : Nat) (m m1 : Match) (r : Option Nat)
    (h : Match.installPlayer c session localIndex name playerIndex m = .ok (r, m1)) :
    m1.m_maxPlayerCount = m.m_maxPlayerCount := by
  unfold Match.installPlayer at h
  by_cases hlt : playerIndex < m.m_players.length
  · simp only [hlt, if_true, Except.ok.injEq, Prod.mk.injEq] at h
    obtain ⟨_, h2⟩ := h
    subst h2
    rfl
  · simp [hlt] at h

theorem slotsExact_createPlayer (c : Constants) (session localIndex : Nat) (name : String)
    (m m1 : Match) (r : Option Nat) (hinv : SlotsExact m)
    (h : Match.CreatePlayer c session localIndex name m = .ok (r, m1)) :
    SlotsExact m1 ∧ m1.m_maxPlayerCount = m.m_maxPlayerCount := by
  obtain ⟨hlen, hmax, hfree, hidx⟩ := hinv
  unfold Match.CreatePlayer at h
  by_cases hfull : m.m_players.length ≥ m.m_maxPlayerCount
  · simp only [hfull, if_true, Except.ok.injEq, Prod.mk.injEq] at h
    obtain ⟨_, h2⟩ := h
    subst h2
    exact ⟨⟨hlen, hmax, hfree, hidx⟩, rfl⟩
  · simp only [hfull, if_false] at h
    cases hff : Bitset.FindFirst m.m_freePlayerId with
    | none =>
      simp only [hff] at h
      have hmx := installPlayer_fields c session localIndex name _ _ m1 _ h
      obtain ⟨_, hlt, hf1, hp1⟩ := installPlayer_ok c session localIndex name _ _ m1 _ h
      simp only at hf1 hp1 hlt hmx
      have hX1 : Bitset.Resize m.m_freePlayerId (m.m_freePlayerId.length + 1) false =
          m.m_freePlayerId ++ [false] := by
        simp [Bitset.Resize, List.take_of_length_le]
      have hX2 : m.m_players.take (m.m_freePlayerId.length + 1) ++
          List.replicate (m.m_freePlayerId.length + 1 - m.m_players.length) none =
          m.m_players ++ [none] := by
        rw [← hlen]
        simp [List.take_of_length_le]
      rw [hX1] at hf1
      rw [hX2] at hp1
      have hpl : ∀ i, m1.player? i = if i = m.m_players.length then
          some (Match.newPlayer c session m.m_freePlayerId.length localIndex name)
          else m.player? i := by
        intro i
        simp only [Match.player?, List.getD_eq_getElem?_getD, hp1, List.getElem?_set,
          List.length_append, List.length_singleton]
        by_cases hi : i = m.m_players.length
        · subst hi
          simp [hlen]
        · rw [if_neg (by rw [← hlen]; exact fun e => hi e.symm), if_neg hi]
          by_cases hi2 : i < m.m_players.length
          · rw [List.getElem?_append_left hi2]
          · rw [List.getElem?_eq_none (by simp; omega),
              List.getElem?_eq_none (Nat.le_of_not_lt hi2)]
      have hts : ∀ i, Bitset.Test m1.m_freePlayerId i =
          if i < m.m_freePlayerId.length then Bitset.Test m.m_freePlayerId i else false := by
        intro i
        simp only [Bitset.Test, List.getD_eq_getElem?_getD, hf1]
        by_cases hi : i < m.m_freePlayerId.length
        · rw [List.getElem?_append_left hi, if_pos hi]
        · rw [if_neg hi, List.getElem?_append_right (Nat.le_of_not_lt hi)]
          cases hsub : i - m.m_freePlayerId.length with
          | zero => simp
          | succ j => simp
      refine ⟨⟨?_, ?_, ?_, ?_⟩, hmx⟩
      · rw [hp1, hf1]
        simp [hlen]
      · rw [hp1]
        simp only [List.length_set, List.length_append, List.length_singleton]
        omega
      · intro i hi
        rw [hp1] at hi
        simp only [List.length_set, List.length_append, List.length_singleton] at hi
        rw [hts i, hpl i]
        by_cases hi2 : i = m.m_players.length
        · rw [if_neg (by omega), if_pos hi2]
          simp
        · rw [if_pos (by omega), if_neg hi2]
          exact hfree i (by omega)
      · intro i p hp
        rw [hpl i] at hp
        by_cases hi2 : i = m.m_players.length
        · rw [if_pos hi2] at hp
          cases hp
          show m.m_freePlayerId.length = i
          omega
        · rw [if_neg hi2] at hp
          exact hidx i p hp
    | some k =>
      simp only [hff] at h
      have hmx := installPlayer_fields c session localIndex name _ _ m1 _ h
      obtain ⟨_, hlt, hf1, hp1⟩ := installPlayer_ok c session localIndex name _ _ m1 _ h
      simp only at hf1 hp1 hlt hmx
      obtain ⟨hk, _⟩ := findFirst_some _ _ hff
      have hpl := fun i => player?_set m k i _ _ rfl m1 hp1
      refine ⟨⟨?_, ?_, ?_, ?_⟩, hmx⟩
      · rw [hp1, hf1]
        simp [Bitset.Set, hlen]
      · rw [hp1, hmx]
        simpa using hmax
      · intro i hi
        rw [hp1] at hi
        simp only [List.length_set] at hi
        rw [hf1, test_set, hpl i]
        by_cases hki : k = i
        · subst hki
          rw [if_pos ⟨rfl, hk⟩, if_pos ⟨rfl, hlt⟩]
          simp
        · rw [if_neg (fun e => hki e.1), if_neg (fun e => hki e.1)]
          exact hfree i hi
      · intro i p hp
        rw [hpl i] at hp
        by_cases hki : k = i
        · subst hki
          rw [if_pos ⟨rfl, hlt⟩] at hp
          cases hp
          rfl
        · rw [if_neg (fun e => hki e.1)] at hp
          exact hidx i p hp

theorem removePlayer_maxPlayerCount (c : Constants) (player : Nat)
    (reason : DisconnectionReason) (m m1 : Match) (p : Player)
    (hp : m.player? player = some p) (hlt : player < m.m_freePlayerId.length)
    (h : Match.RemovePlayer c player reason m = .ok m1) :
    m1.m_maxPlayerCount = m.m_maxPlayerCount := by
  have hpre : ∃ m2, (if p.m_isReady then
        (m.log (Event.gamemode (GamemodeEvent.PlayerLeave player))).BroadcastPacket
          (Packet.PlayerLeaving (p.m_playerIndex % 65536)) c.broadcastOnlyReady none
      else m.log (Event.gamemode (GamemodeEvent.PlayerLeave player))) = m2 ∧
      m2.m_maxPlayerCount = m.m_maxPlayerCount ∧ m2.m_freePlayerId = m.m_freePlayerId := by
    cases p.m_isReady with
    | false => exact ⟨_, rfl, rfl, rfl⟩
    | true => exact ⟨_, rfl, rfl, rfl⟩
  obtain ⟨m2, hm2, hmx2, hfr2⟩ := hpre
  unfold Match.RemovePlayer at h
  simp only [hp] at h
  rw [hm2] at h
  have hlt3 : player < (Match.destroyPlayer player p m2).m_freePlayerId.length := by
    show player < m2.m_freePlayerId.length
    rw [hfr2]
    exact hlt
  simp only [hlt3, if_true, Except.ok.injEq] at h
  subst h
  exact hmx2

theorem slotsExact_removePlayer (c : Constants) (player : Nat) (reason : DisconnectionReason)
    (m m1 : Match) (hinv : SlotsExact m) (h : Match.RemovePlayer c player reason m = .ok m1) :
    SlotsExact m1 ∧ m1.m_maxPlayerCount = m.m_maxPlayerCount := by
  obtain ⟨hlen, hmax, hfree, hidx⟩ := hinv
  cases hp : m.player? player with
  | none => simp [Match.RemovePlayer, hp] at h
  | some p =>
  have hltp : player < m.m_players.length := player?_lt m player p hp
  have hlt : player < m.m_freePlayerId.length := by rw [← hlen]; exact hltp
  have hmx := removePlayer_maxPlayerCount c player reason m m1 p hp hlt h
  obtain ⟨m3, m1x, pre, post, _, hrem, _, hpl3, _, _, hfr1, hpl1x, _, _⟩ :=
    removePlayer_of c player reason m p hp hlt
  rw [hrem] at h
  simp only [Except.ok.injEq] at h
  subst h
  have hpl1 : m1x.m_players = m.m_players.set player none := hpl1x.trans hpl3
  have hpl := fun i => player?_set m player i none _ rfl m1x hpl1
  refine ⟨⟨?_, ?_, ?_, ?_⟩, hmx⟩
  · rw [hpl1, hfr1]
    simp [Bitset.Set, hlen]
  · rw [hpl1, hmx]
    simpa using hmax
  · intro i hi
    rw [hpl1] at hi
    simp only [List.length_set] at hi
    rw [hfr1, test_set, hpl i]
    by_cases hki : player = i
    · subst hki
      rw [if_pos ⟨rfl, hlt⟩, if_pos ⟨rfl, hltp⟩]
      simp
    · rw [if_neg (fun e => hki e.1), if_neg (fun e => hki e.1)]
      exact hfree i hi
  · intro i q hq
    rw [hpl i] at hq
    by_cases hki : player = i
    · subst hki
      rw [if_pos ⟨rfl, hltp⟩] at hq
      cases hq
    · rw [if_neg (fun e => hki e.1)] at hq
      exact hidx i q hq

theorem slotsExact_runSlotOps (c : Constants) (ops : List SlotOp) (m m1 : Match)
    (hinv : SlotsExact m) (h : Match.runSlotOps c ops m = .ok m1) :
    SlotsExact m1 ∧ m1.m_maxPlayerCount = m.m_maxPlayerCount := by
  induction ops generalizing m with
  | nil =>
    simp only [Match.runSlotOps, Except.ok.injEq] at h
    subst h
    exact ⟨hinv, rfl⟩
  | cons op rest ih =>
    simp only [Match.runSlotOps] at h
    cases hop : m.applySlotOp c op with
    | error e => simp [hop] at h
    | ok m2 =>
      simp only [hop] at h
      have h2 : SlotsExact m2 ∧ m2.m_maxPlayerCount = m.m_maxPlayerCount := by
        cases op with
        | create s li n =>
          simp only [Match.applySlotOp] at hop
          cases hc : m.CreatePlayer c s li n with
          | error e => simp [hc] at hop
          | ok r =>
            obtain ⟨r1, r2⟩ := r
            simp only [hc, Except.ok.injEq] at hop
            subst hop
            exact slotsExact_createPlayer c s li n m r2 r1 hinv hc
        | remove pl rs =>
          exact slotsExact_removePlayer c pl rs m m2 hinv hop
      obtain ⟨h3, h4⟩ := ih m2 h2.1 h
      exact ⟨h3, h4.trans h2.2⟩

theorem livePlayers_length_le (m : Match) : m.livePlayers.length ≤ m.m_players.length := by
  unfold Match.livePlayers
  calc (m.m_players.enum.filterMap _).length ≤ m.m_players.enum.length :=
        List.length_filterMap_le _ _
    _ = m.m_players.length := List.enum_length

theorem getPlayerByIndex_of (m : Match) (hinv : SlotsExact m) (i : Nat) :
    Match.GetPlayerByIndex i m = .ok (if (m.player? i).isSome then some i else none) := by
  obtain ⟨hlen, _, hfree, _⟩ := hinv
  unfold Match.GetPlayerByIndex
  by_cases h1 : i ≥ m.m_players.length
  · have hnone : m.player? i = none := by
      simp [Match.player?, List.getD_eq_getElem?_getD, List.getElem?_eq_none h1]
    simp [h1, hnone]
  · have hlt : i < m.m_players.length := Nat.lt_of_not_le h1
    have h2 : ¬ i ≥ m.m_freePlayerId.length := by rw [← hlen]; exact h1
    simp only [h1, h2, if_false]
    cases ht : Bitset.Test m.m_freePlayerId i with
    | true =>
      have := (hfree i hlt).mp ht
      simp [this]
    | false =>
      cases hp : m.player? i with
      | none =>
        have := (hfree i hlt).mpr hp
        rw [ht] at this
        cases this
      | some p => simp

/-- C26: in every state reached from a freshly constructed match through `CreatePlayer`
and `RemovePlayer` calls that return, `m_players` and `m_freePlayerId` have the
same size, that size is at most the maximum player count of the settings, and
within it bit `i` of `m_freePlayerId` is set exactly when slot `i` is empty; so
`GetPlayerByIndex(i)` returns the player of slot `i` for an occupied slot and
`nullptr` otherwise, a player's recorded index is that of its slot, and the
number of players is at most the maximum player count. -/
theorem slots_exact_reachable (c : Constants) (settings : MatchSettings) (ops : List SlotOp)
    (m : Match) (h : Match.runSlotOps c ops (Match.init settings) = .ok m) :
    m.m_players.length = m.m_freePlayerId.length ∧
    m.m_maxPlayerCount = settings.maxPlayerCount ∧
    m.m_players.length ≤ settings.maxPlayerCount ∧
    (∀ i, i < m.m_players.length →
      (Bitset.Test m.m_freePlayerId i = true ↔ m.player? i = none)) ∧
    (∀ i, Match.GetPlayerByIndex i m = .ok (if (m.player? i).isSome then some i else none)) ∧
    (∀ i p, m.player? i = some p → p.m_playerIndex = i) ∧
    m.livePlayers.length ≤ settings.maxPlayerCount := by
  obtain ⟨hinv, hmx⟩ := slotsExact_runSlotOps c ops _ m (slotsExact_init settings) h
  have hmx' : m.m_maxPlayerCount = settings.maxPlayerCount := hmx
  obtain ⟨hlen, hmax, hfree, hidx⟩ := hinv
  rw [hmx'] at hmax
  exact ⟨hlen, hmx', hmax, hfree, getPlayerByIndex_of m ⟨hlen, hmx' ▸ hmax, hfree, hidx⟩, hidx,
    Nat.le_trans (livePlayers_length_le m) hmax⟩

theorem slots_exact_reachable_witness :
    Examples.afterComings.m_players.length = Examples.afterComings.m_freePlayerId.length ∧
    Examples.afterComings.m_maxPlayerCount = Examples.settings4.maxPlayerCount ∧
    Examples.afterComings.m_players.length ≤ Examples.settings4.maxPlayerCount ∧
    (∀ i, i < Examples.afterComings.m_players.length →
      (Bitset.Test Examples.afterComings.m_freePlayerId i = true ↔
        Examples.afterComings.player? i = none)) ∧
    (∀ i, Match.GetPlayerByIndex i Examples.afterComings =
      .ok (if (Examples.afterComings.player? i).isSome then some i else none)) ∧
    (∀ i p, Examples.afterComings.player? i = some p → p.m_playerIndex = i) ∧
    Examples.afterComings.livePlayers.length ≤ Examples.settings4.maxPlayerCount :=
  slots_exact_reachable Examples.consts Examples.settings4 Examples.comings
    Examples.afterComings rfl

/-! ## The visible layers of a player -/

theorem moveToLayer_layers (c : Constants) (self B : Nat) (m m1 : Match) (p : Player)
    (hp : m.player? self = some p) (hrun : Player.MoveToLayer c self B m = .ok m1) :
    ∃ p1, m1.player? self = some p1 ∧ p1.m_layerIndex = B ∧
      p1.m_visibleLayers =
        if p.m_layerIndex = B then p.m_visibleLayers
        else if B ≠ c.NoLayer then
          Bitset.UnboundedSet
            (if p.m_layerIndex ≠ c.NoLayer then
              Bitset.UnboundedSet p.m_visibleLayers p.m_layerIndex false
             else p.m_visibleLayers) B true
        else if p.m_layerIndex ≠ c.NoLayer then
          Bitset.UnboundedSet p.m_visibleLayers p.m_layerIndex false
        else p.m_visibleLayers := by
  by_cases hsame : p.m_layerIndex = B
  · unfold Player.MoveToLayer at hrun
    simp only [getPlayer_of m self p hp, hsame, if_true, Except.ok.injEq] at hrun
    subst hrun
    exact ⟨p, hp, hsame, by rw [if_pos hsame]⟩
  · by_cases hboth : p.m_layerIndex ≠ c.NoLayer ∧ B ≠ c.NoLayer
    · obtain ⟨_, _, p1, mid, hp1, hl1, hv1, _⟩ :=
        moveToLayer_spec c self B m m1 p hp hsame hboth.1 hboth.2 hrun
      refine ⟨p1, hp1, hl1, ?_⟩
      rw [hv1, if_neg hsame, if_pos hboth.2, if_pos hboth.1]
    · unfold Player.MoveToLayer at hrun
      simp only [getPlayer_of m self p hp, hsame, if_false] at hrun
      split at hrun
      · cases hrun
      · rename_i x1 h1
        have hx1 : x1.player? self = some { p with m_visibleLayers :=
            (if p.m_layerIndex ≠ c.NoLayer then
              Bitset.UnboundedSet p.m_visibleLayers p.m_layerIndex false
            else p.m_visibleLayers) } := by
          split at h1
          · rename_i hA
            obtain ⟨q, hq, _, hx⟩ := updateLayerVisibility_ok _ _ _ _ _ h1
            rw [player?_log, hp] at hq
            simp only [Option.some.injEq] at hq
            subst hq
            rw [hx, player?_modifyPlayer, if_pos rfl, player?_log, player?_log, hp, if_pos hA]
            rfl
          · rename_i hA
            simp only [Except.ok.injEq] at h1
            subst h1
            rw [player?_log, hp, if_neg hA]
        rw [if_neg hboth] at hrun
        simp only at hrun
        split at hrun
        · cases hrun
        · rename_i p3 h3
          have h3p := getPlayer_ok _ _ _ h3
          rw [player?_modifyPlayer, if_pos rfl, player?_modifyPlayer, if_pos rfl, hx1] at h3p
          simp only [Option.map_some', Option.some.injEq] at h3p
          split at hrun
          · rename_i hB
            obtain ⟨q, hq, _, hx⟩ := updateLayerVisibility_ok _ _ _ _ _ hrun
            rw [player?_log] at hq
            rw [getPlayer_ok _ _ _ h3] at hq
            have hq1 : q = p3 := (Option.some.inj hq).symm
            rw [hq1] at hx
            refine ⟨{ p3 with m_visibleLayers := Bitset.UnboundedSet p3.m_visibleLayers B true },
              ?_, ?_, ?_⟩
            · rw [hx, player?_modifyPlayer, if_pos rfl, player?_log, player?_log,
                getPlayer_ok _ _ _ h3]
              rfl
            · rw [← h3p]
            · rw [if_neg hsame, if_pos hB, ← h3p]
          · rename_i hB
            simp only [Except.ok.injEq] at hrun
            subst hrun
            refine ⟨p3, ?_, ?_, ?_⟩
            · rw [player?_log]
              exact getPlayer_ok _ _ _ h3
            · rw [← h3p]
            · rw [if_neg hsame, if_neg hB, ← h3p]

theorem setBits_of_unboundedTest (b : List Bool) (a : Nat) (flag : Bool)
    (h : ∀ l, Bitset.UnboundedTest b l = (flag && decide (l = a))) :
    Bitset.setBits b = if flag = true then [a] else [] := by
  cases flag with
  | false =>
    simp only [Bool.false_eq_true, if_false]
    rw [List.eq_nil_iff_forall_not_mem]
    intro l hl
    rw [mem_setBits_unbounded, h l] at hl
    simp at hl
  | true =>
    simp only [if_true]
    apply List.perm_singleton.mp
    apply (List.perm_ext_iff_of_nodup (setBits_nodup b) (List.nodup_singleton a)).mpr
    intro l
    rw [mem_setBits_unbounded, h l]
    simp

theorem layersExact_moved (c : Constants) (self : Nat) (m : Match) (h : MovedOnly c self m) :
    ∃ p, m.player? self = some p ∧
      ∀ l, Bitset.UnboundedTest p.m_visibleLayers l =
        (decide (p.m_layerIndex ≠ c.NoLayer) && decide (l = p.m_layerIndex)) := by
  induction h with
  | fresh m session playerIndex localIndex name hp =>
    refine ⟨_, hp, ?_⟩
    intro l
    simp [Match.newPlayer, Bitset.UnboundedTest]
  | move m m1 layerIndex _ hrun ih =>
    obtain ⟨p, hp, hinv⟩ := ih
    obtain ⟨p1, hp1, hl1, hv1⟩ := moveToLayer_layers c self layerIndex m m1 p hp hrun
    refine ⟨p1, hp1, ?_⟩
    intro l
    rw [hv1, hl1]
    by_cases hsame : p.m_layerIndex = layerIndex
    · rw [if_pos hsame, hinv l, hsame]
    · rw [if_neg hsame]
      by_cases hB : layerIndex ≠ c.NoLayer
      · rw [if_pos hB, unboundedTest_unboundedSet]
        by_cases hl : layerIndex = l
        · rw [if_pos hl]
          subst hl
          simp [hB]
        · rw [if_neg hl]
          have hl2 : ¬ l = layerIndex := fun e => hl e.symm
          by_cases hA : p.m_layerIndex ≠ c.NoLayer
          · rw [if_pos hA, unboundedTest_unboundedSet]
            by_cases hAl : p.m_layerIndex = l
            · rw [if_pos hAl]
              simp [hl2]
            · rw [if_neg hAl, hinv l]
              have : ¬ l = p.m_layerIndex := fun e => hAl e.symm
              simp [this, hl2]
          · rw [if_neg hA, hinv l]
            simp [hA, hl2]
      · rw [if_neg hB]
        have hA : p.m_layerIndex ≠ c.NoLayer := fun e => hsame (e.trans (not_not.mp hB).symm)
        rw [if_pos hA, unboundedTest_unboundedSet]
        by_cases hAl : p.m_layerIndex = l
        · rw [if_pos hAl]
          simp [hB]
        · rw [if_neg hAl, hinv l]
          have : ¬ l = p.m_layerIndex := fun e => hAl e.symm
          simp [this, hB]
  | other m m1 p p1 _ hp hp1 hl hv ih =>
    obtain ⟨q, hq, hinv⟩ := ih
    rw [hp] at hq
    have hq1 : p = q := Option.some.inj hq
    subst hq1
    refine ⟨p1, hp1, ?_⟩
    intro l
    rw [hv, hl]
    exact hinv l

/-- C27: in every state in which the layer visibility of a player has been changed only
by `MoveToLayer` calls that returned, since the player was constructed (layer
`NoLayer`, no visible layer), the set bits of `m_visibleLayers` are none when
`m_layerIndex` is `NoLayer` and exactly `m_layerIndex` otherwise; and `MoveToLayer`
to the player's current layer returns the state it was given: nothing changes and
no callback or packet is added to the trace. -/
theorem visibleLayers_exact (c : Constants) (self : Nat) (m : Match)
    (h : MovedOnly c self m) :
    ∃ p, m.player? self = some p ∧
      Bitset.setBits p.m_visibleLayers =
        (if p.m_layerIndex = c.NoLayer then [] else [p.m_layerIndex]) ∧
      (∀ l, Bitset.UnboundedTest p.m_visibleLayers l = true ↔
        p.m_layerIndex ≠ c.NoLayer ∧ l = p.m_layerIndex) ∧
      Player.MoveToLayer c self p.m_layerIndex m = .ok m := by
  obtain ⟨p, hp, hinv⟩ := layersExact_moved c self m h
  refine ⟨p, hp, ?_, ?_, ?_⟩
  · rw [setBits_of_unboundedTest _ p.m_layerIndex (decide (p.m_layerIndex ≠ c.NoLayer)) hinv]
    by_cases hA : p.m_layerIndex = c.NoLayer
    · simp [hA]
    · simp [hA]
  · intro l
    rw [hinv l]
    simp
  · unfold Player.MoveToLayer
    simp only [getPlayer_of m self p hp, if_true]

theorem visibleLayers_exact_witness :
    ∃ p, Examples.afterEnter.player? 0 = some p ∧
      Bitset.setBits p.m_visibleLayers =
        (if p.m_layerIndex = Examples.consts.NoLayer then [] else [p.m_layerIndex]) ∧
      (∀ l, Bitset.UnboundedTest p.m_visibleLayers l = true ↔
        p.m_layerIndex ≠ Examples.consts.NoLayer ∧ l = p.m_layerIndex) ∧
      Player.MoveToLayer Examples.consts 0 p.m_layerIndex Examples.afterEnter =
        .ok Examples.afterEnter :=
  visibleLayers_exact Examples.consts 0 Examples.afterEnter
    (MovedOnly.move Examples.newcomer Examples.afterEnter 1
      (MovedOnly.fresh Examples.newcomer 0 0 0 "carol" rfl) rfl)

/-! ## The cell loop of `AddTilemap` -/

theorem find_none_iff (materials : List (String × Nat)) (path : String) :
    ClientEntityLibrary.find materials path = none ↔ path ∉ materials.map Prod.fst := by
  induction materials with
  | nil => simp [ClientEntityLibrary.find]
  | cons e rest ih =>
    obtain ⟨key, matIndex⟩ := e
    simp only [ClientEntityLibrary.find, List.map_cons, List.mem_cons, not_or]
    by_cases hk : key = path
    · simp [hk]
    · rw [if_neg hk, ih]
      constructor
      · intro h
        exact ⟨fun e => hk e.symm, h⟩
      · intro h
        exact h.2

theorem find_mem (materials : List (String × Nat)) (path : String) (k : Nat)
    (h : ClientEntityLibrary.find materials path = some k) : (path, k) ∈ materials := by
  induction materials with
  | nil => simp [ClientEntityLibrary.find] at h
  | cons e rest ih =>
    obtain ⟨key, matIndex⟩ := e
    simp only [ClientEntityLibrary.find] at h
    by_cases hk : key = path
    · rw [if_pos hk] at h
      have := Option.some.inj h
      subst this
      subst hk
      exact List.mem_cons_self _ _
    · rw [if_neg hk] at h
      exact List.mem_cons_of_mem _ (ih h)

theorem collectMaterials_spec {R : Type} (tiles : List (ClientEntityLibrary.TileData R))
    (acc : List (String × Nat))
    (hidx : acc.map Prod.snd = List.range acc.length) (hnd : (acc.map Prod.fst).Nodup) :
    ((ClientEntityLibrary.collectMaterials tiles acc).map Prod.snd =
        List.range (ClientEntityLibrary.collectMaterials tiles acc).length) ∧
      ((ClientEntityLibrary.collectMaterials tiles acc).map Prod.fst).Nodup ∧
      ∀ path, path ∈ (ClientEntityLibrary.collectMaterials tiles acc).map Prod.fst ↔
        (path ∈ acc.map Prod.fst ∨ path ∈ tiles.map (fun t => t.materialPath)) := by
  induction tiles generalizing acc with
  | nil =>
    simp only [ClientEntityLibrary.collectMaterials]
    refine ⟨hidx, hnd, ?_⟩
    intro path
    simp
  | cons tile rest ih =>
    simp only [ClientEntityLibrary.collectMaterials]
    cases hf : ClientEntityLibrary.find acc tile.materialPath with
    | some k =>
      simp only
      obtain ⟨h1, h2, h3⟩ := ih acc hidx hnd
      refine ⟨h1, h2, ?_⟩
      intro path
      rw [h3 path]
      have hmem : tile.materialPath ∈ acc.map Prod.fst := by
        have := find_mem acc _ k hf
        exact List.mem_map.mpr ⟨_, this, rfl⟩
      simp only [List.map_cons, List.mem_cons]
      constructor
      · rintro (h | h)
        · exact Or.inl h
        · exact Or.inr (Or.inr h)
      · rintro (h | h | h)
        · exact Or.inl h
        · rw [h]
          exact Or.inl hmem
        · exact Or.inr h
    | none =>
      simp only
      have hnot := (find_none_iff acc tile.materialPath).mp hf
      obtain ⟨h1, h2, h3⟩ := ih (acc ++ [(tile.materialPath, acc.length)])
        (by simp [hidx, List.range_succ])
        (by
          rw [List.map_append, List.nodup_append]
          refine ⟨hnd, by simp, ?_⟩
          intro a ha hb
          simp only [List.map_cons, List.map_nil, List.mem_singleton] at hb
          rw [hb] at ha
          exact hnot ha)
      refine ⟨h1, h2, ?_⟩
      intro path
      rw [h3 path]
      simp only [List.map_append, List.map_cons, List.map_nil, List.mem_append,
        List.mem_singleton, List.mem_cons]
      tauto

theorem cell_of {R : Type} (uintSize : Nat) (mapSize : Nat × Nat) (content : List Nat)
    (tiles : List (ClientEntityLibrary.TileData R)) (materials : List (String × Nat))
    (i v : Nat) (hv : content[i]? = some v) (hx : mapSize.1 ≠ 0)
    (hmat : ∀ t ∈ tiles, t.materialPath ∈ materials.map Prod.fst) :
    ∃ c, ClientEntityLibrary.cell uintSize mapSize content tiles materials i = .ok c ∧
      c.tilePos = ((i % mapSize.1) % uintSize, (i / mapSize.1) % uintSize) ∧
      ((1 ≤ v ∧ v ≤ tiles.length) → ∃ t k, tiles[v - 1]? = some t ∧
        ClientEntityLibrary.find materials t.materialPath = some k ∧
        c.tile = some (t.texCoords, k)) ∧
      (¬ (1 ≤ v ∧ v ≤ tiles.length) → c.tile = none) := by
  by_cases h0 : v > 0
  · by_cases hle : v ≤ tiles.length
    · have hlt : v - 1 < tiles.length := by omega
      have ht : tiles[v - 1]? = some (tiles[v - 1]) := List.getElem?_eq_getElem hlt
      have hin : tiles[v - 1] ∈ tiles := List.getElem_mem hlt
      cases hf : ClientEntityLibrary.find materials (tiles[v - 1]).materialPath with
      | none =>
        exact absurd (hmat _ hin) ((find_none_iff _ _).mp hf)
      | some k =>
        have key : ClientEntityLibrary.cell uintSize mapSize content tiles materials i =
            .ok ⟨((i % mapSize.1) % uintSize, (i / mapSize.1) % uintSize),
              some ((tiles[v - 1]).texCoords, k)⟩ := by
          unfold ClientEntityLibrary.cell
          simp only [hv, hx, if_false, h0, hle, if_true, ht, hf]
        refine ⟨_, key, rfl, ?_, ?_⟩
        · intro _
          exact ⟨_, k, ht, hf, rfl⟩
        · intro hn
          exact absurd ⟨h0, hle⟩ hn
    · have key : ClientEntityLibrary.cell uintSize mapSize content tiles materials i =
          .ok ⟨((i % mapSize.1) % uintSize, (i / mapSize.1) % uintSize), none⟩ := by
        unfold ClientEntityLibrary.cell
        simp only [hv, hx, if_false, h0, hle, if_true]
      refine ⟨_, key, rfl, ?_, ?_⟩
      · intro hn
        exact absurd hn.2 hle
      · intro _
        rfl
  · have key : ClientEntityLibrary.cell uintSize mapSize content tiles materials i =
        .ok ⟨((i % mapSize.1) % uintSize, (i / mapSize.1) % uintSize), none⟩ := by
      unfold ClientEntityLibrary.cell
      simp only [hv, hx, if_false, h0]
    refine ⟨_, key, rfl, ?_, ?_⟩
    · intro hn
      exact absurd hn.1 h0
    · intro _
      rfl

theorem cells_of {R : Type} (uintSize : Nat) (mapSize : Nat × Nat) (content : List Nat)
    (tiles : List (ClientEntityLibrary.TileData R)) (materials : List (String × Nat))
    (hx : mapSize.1 ≠ 0) (hmat : ∀ t ∈ tiles, t.materialPath ∈ materials.map Prod.fst)
    (n i : Nat) (hn : i + n ≤ content.length) :
    ∃ cs, ClientEntityLibrary.cells uintSize mapSize content tiles materials n i = .ok cs ∧
      cs.length = n ∧
      ∀ j, j < n → ∃ c, cs[j]? = some c ∧
        ClientEntityLibrary.cell uintSize mapSize content tiles materials (i + j) = .ok c := by
  induction n generalizing i with
  | zero =>
    refine ⟨[], rfl, rfl, ?_⟩
    intro j hj
    omega
  | succ n ih =>
    have hi : i < content.length := by omega
    obtain ⟨c, hc, _⟩ := cell_of uintSize mapSize content tiles materials i _
      (List.getElem?_eq_getElem hi) hx hmat
    obtain ⟨cs, hcs, hlen, hall⟩ := ih (i + 1) (by omega)
    refine ⟨c :: cs, ?_, ?_, ?_⟩
    · simp only [ClientEntityLibrary.cells, hc, hcs]
    · simp [hlen]
    · intro j hj
      cases j with
      | zero => exact ⟨c, by simp, hc⟩
      | succ j =>
        obtain ⟨c1, hc1, hcell⟩ := hall j (by omega)
        refine ⟨c1, by simpa using hc1, ?_⟩
        rw [← hcell]
        congr 1
        omega

/-- C30 (counterexample): with 32-bit `unsigned int`, a map of 65536 × 65536 cells,
one content value and one tile, `mapSize.x * mapSize.y` wraps to 0, so the cell loop
visits no cell, whereas `min(#content, mapSize.x * mapSize.y)` is 1. -/
theorem addTilemap_wraps :
    ClientEntityLibrary.AddTilemap (2 ^ 32) (65536, 65536) [1]
        [(⟨"a", 0⟩ : ClientEntityLibrary.TileData Nat)] =
      .ok (some ⟨[("a", 0)], []⟩) ∧
    ([] : List (ClientEntityLibrary.Cell Nat)).length ≠ min [1].length (65536 * 65536) :=
  ⟨rfl, by decide⟩

/-- C30 (amended): for every `mapSize` (two `unsigned int` values), content table and
tiles list with at least one tile, `AddTilemap` reaches the end of its cell loop: no
division by zero (also when `mapSize.x = 0`), no out-of-range access and no failed
assertion. The loop visits exactly `min(#content, (mapSize.x * mapSize.y) mod 2^w)`
cells, `w` being the width of `unsigned int`; cell `i` has the value `content[i + 1]`
and the position `(i mod mapSize.x, i div mapSize.x)` with row below `mapSize.y`; a
value `v` enables a tile iff `1 ≤ v ≤ #tiles`, with the texture coordinates of
`tiles[v - 1]` and the material index `materials` holds for that tile's material
path. The material indices are `0, 1, ..., n - 1` in insertion order, one per
material path, `n` being the number of distinct material paths of `tiles`. -/
theorem addTilemap_cells {R : Type} (uintSize : Nat) (mapSize : Nat × Nat)
    (content : List Nat) (tiles : List (ClientEntityLibrary.TileData R))
    (ht : tiles ≠ []) (hx : mapSize.1 < uintSize) (hy : mapSize.2 < uintSize) :
    ∃ materials visited,
      ClientEntityLibrary.AddTilemap uintSize mapSize content tiles =
        .ok (some ⟨materials, visited⟩) ∧
      materials = ClientEntityLibrary.collectMaterials tiles [] ∧
      visited.length = min content.length ((mapSize.1 * mapSize.2) % uintSize) ∧
      (∀ i, i < visited.length → ∃ v c, content[i]? = some v ∧ visited[i]? = some c ∧
        mapSize.1 ≠ 0 ∧ c.tilePos = (i % mapSize.1, i / mapSize.1) ∧
        i / mapSize.1 < mapSize.2 ∧
        ((1 ≤ v ∧ v ≤ tiles.length) → ∃ t k, tiles[v - 1]? = some t ∧
          ClientEntityLibrary.find materials t.materialPath = some k ∧
          c.tile = some (t.texCoords, k)) ∧
        (¬ (1 ≤ v ∧ v ≤ tiles.length) → c.tile = none)) ∧
      materials.map Prod.snd = List.range materials.length ∧
      (materials.map Prod.fst).Nodup ∧
      (∀ path, path ∈ materials.map Prod.fst ↔ path ∈ tiles.map (fun t => t.materialPath)) ∧
      materials.length = (tiles.map (fun t => t.materialPath)).toFinset.card := by
  obtain ⟨h1, h2, h3⟩ := collectMaterials_spec tiles [] rfl (by simp)
  have h3x : ∀ path, path ∈ (ClientEntityLibrary.collectMaterials tiles []).map Prod.fst ↔
      path ∈ tiles.map (fun t => t.materialPath) := by
    intro path
    rw [h3 path]
    simp
  have hmat : ∀ t ∈ tiles,
      t.materialPath ∈ (ClientEntityLibrary.collectMaterials tiles []).map Prod.fst := by
    intro t htm
    rw [h3x]
    exact List.mem_map.mpr ⟨t, htm, rfl⟩
  have hne : (ClientEntityLibrary.collectMaterials tiles []).isEmpty = false := by
    cases tiles with
    | nil => exact absurd rfl ht
    | cons t rest =>
      have := hmat t (List.mem_cons_self _ _)
      cases hc : ClientEntityLibrary.collectMaterials (t :: rest) [] with
      | nil =>
        rw [hc] at this
        simp at this
      | cons e es => rfl
  have hcount : (if content.length ≠ (mapSize.1 * mapSize.2) % uintSize then
        min content.length ((mapSize.1 * mapSize.2) % uintSize) else content.length) =
      min content.length ((mapSize.1 * mapSize.2) % uintSize) := by
    by_cases he : content.length = (mapSize.1 * mapSize.2) % uintSize
    · rw [if_neg (not_not.mpr he), ← he, Nat.min_self]
    · rw [if_pos he]
  have hcard : (ClientEntityLibrary.collectMaterials tiles []).length =
      (tiles.map (fun t => t.materialPath)).toFinset.card := by
    rw [← List.length_map (ClientEntityLibrary.collectMaterials tiles []) Prod.fst,
      ← List.toFinset_card_of_nodup h2]
    congr 1
    ext path
    simp only [List.mem_toFinset]
    exact h3x path
  have hle : (mapSize.1 * mapSize.2) % uintSize ≤ mapSize.1 * mapSize.2 := Nat.mod_le _ _
  by_cases hx0 : mapSize.1 = 0
  · have hE : (mapSize.1 * mapSize.2) % uintSize = 0 := by
      rw [hx0, Nat.zero_mul, Nat.zero_mod]
    refine ⟨_, [], ?_, rfl, ?_, ?_, h1, h2, h3x, hcard⟩
    · unfold ClientEntityLibrary.AddTilemap
      simp only [hne, Bool.false_eq_true, if_false, hcount]
      rw [hE, Nat.min_zero]
      rfl
    · rw [hE, Nat.min_zero]
      rfl
    · intro i hi
      exact absurd hi (Nat.not_lt_zero _)
  · obtain ⟨cs, hcs, hlen, hall⟩ := cells_of uintSize mapSize content tiles
      (ClientEntityLibrary.collectMaterials tiles []) hx0 hmat
      (min content.length ((mapSize.1 * mapSize.2) % uintSize)) 0
      (by rw [Nat.zero_add]; exact Nat.min_le_left _ _)
    refine ⟨_, cs, ?_, rfl, hlen, ?_, h1, h2, h3x, hcard⟩
    · unfold ClientEntityLibrary.AddTilemap
      simp only [hne, Bool.false_eq_true, if_false, hcount, hcs]
    · intro i hi
      rw [hlen] at hi
      obtain ⟨c, hc, hcell⟩ := hall i hi
      rw [Nat.zero_add] at hcell
      have hic : i < content.length := Nat.lt_of_lt_of_le hi (Nat.min_le_left _ _)
      have hiE : i < mapSize.1 * mapSize.2 :=
        Nat.lt_of_lt_of_le (Nat.lt_of_lt_of_le hi (Nat.min_le_right _ _)) hle
      have hrow : i / mapSize.1 < mapSize.2 := by
        rw [Nat.div_lt_iff_lt_mul (Nat.pos_of_ne_zero hx0), Nat.mul_comm]
        exact hiE
      have hcol : i % mapSize.1 < mapSize.1 := Nat.mod_lt _ (Nat.pos_of_ne_zero hx0)
      obtain ⟨c1, hc1, hpos, hon, hoff⟩ := cell_of uintSize mapSize content tiles
        (ClientEntityLibrary.collectMaterials tiles []) i _
        (List.getElem?_eq_getElem hic) hx0 hmat
      rw [hcell] at hc1
      have hcc : c = c1 := Except.ok.inj hc1
      subst hcc
      refine ⟨_, c, List.getElem?_eq_getElem hic, hc, hx0, ?_, hrow, hon, hoff⟩
      rw [hpos, Nat.mod_eq_of_lt (Nat.lt_trans hcol hx),
        Nat.mod_eq_of_lt (Nat.lt_trans hrow hy)]

theorem addTilemap_cells_witness :
    ∃ materials visited,
      ClientEntityLibrary.AddTilemap (2 ^ 32) (2, 2) [1, 0, 2, 5]
          [(⟨"a", 0⟩ : ClientEntityLibrary.TileData Nat), ⟨"b", 1⟩] =
        .ok (some ⟨materials, visited⟩) ∧
      materials = ClientEntityLibrary.collectMaterials
        [(⟨"a", 0⟩ : ClientEntityLibrary.TileData Nat), ⟨"b", 1⟩] [] ∧
      visited.length = min [1, 0, 2, 5].length ((2 * 2) % 2 ^ 32) ∧
      (∀ i, i < visited.length → ∃ v c, [1, 0, 2, 5][i]? = some v ∧ visited[i]? = some c ∧
        (2 : Nat) ≠ 0 ∧ c.tilePos = (i % 2, i / 2) ∧
        i / 2 < 2 ∧
        ((1 ≤ v ∧ v ≤ [(⟨"a", 0⟩ : ClientEntityLibrary.TileData Nat), ⟨"b", 1⟩].length) →
          ∃ t k, [(⟨"a", 0⟩ : ClientEntityLibrary.TileData Nat), ⟨"b", 1⟩][v - 1]? = some t ∧
          ClientEntityLibrary.find materials t.materialPath = some k ∧
          c.tile = some (t.texCoords, k)) ∧
        (¬ (1 ≤ v ∧ v ≤ [(⟨"a", 0⟩ : ClientEntityLibrary.TileData Nat), ⟨"b", 1⟩].length) →
          c.tile = none)) ∧
      materials.map Prod.snd = List.range materials.length ∧
      (materials.map Prod.fst).Nodup ∧
      (∀ path, path ∈ materials.map Prod.fst ↔
        path ∈ [(⟨"a", 0⟩ : ClientEntityLibrary.TileData Nat), ⟨"b", 1⟩].map
          (fun t => t.materialPath)) ∧
      materials.length =
        ([(⟨"a", 0⟩ : ClientEntityLibrary.TileData Nat), ⟨"b", 1⟩].map
          (fun t => t.materialPath)).toFinset.card :=
  addTilemap_cells (2 ^ 32) (2, 2) [1, 0, 2, 5]
    [(⟨"a", 0⟩ : ClientEntityLibrary.TileData Nat), ⟨"b", 1⟩]
    (by simp) (by decide) (by decide)

/-! ## The controlled mark across `MoveToLayer` -/

/-- C23: `MoveToLayer` to `NoLayer` (and from `NoLayer`) drops the handle to the
controlled entity without the `SetEntityControlledStatus(…, false)` call that
`UpdateControlledEntity` makes when it releases an entity. In `afterReclaim` alice
controls `hero` and `hero` is the one entity marked controlled in her session's
visibility. After `MoveToLayer(NoLayer)` returns she controls no entity and `hero`
is still marked, whereas `UpdateControlledEntity` with an empty target from the same
state leaves no mark. Likewise a player on `NoLayer` that controls `hero` and is
moved to layer 0 ends up with no controlled entity and `hero` marked. -/
theorem moveToLayer_keeps_stale_mark :
    (Examples.afterReclaim.controlledKey 0 = some (0, 0) ∧
      controlledMarks 0 Examples.afterReclaim.trace = [(0, 0)]) ∧
    (Player.MoveToLayer Examples.consts 0 65535 Examples.afterReclaim = .ok Examples.departed ∧
      Examples.departed.controlledKey 0 = none ∧
      (Examples.departed.player? 0).map (fun p => p.m_playerEntity) = some none ∧
      controlledMarks 0 Examples.departed.trace = [(0, 0)]) ∧
    (Player.UpdateControlledEntity Examples.consts 0 none true false Examples.afterReclaim =
        .ok Examples.letGo ∧
      Examples.letGo.controlledKey 0 = none ∧
      controlledMarks 0 Examples.letGo.trace = []) ∧
    (Player.UpdateControlledEntity Examples.consts 0 (some 0) false true Examples.newcomer =
        .ok Examples.seized ∧
      Examples.seized.controlledKey 0 = some (0, 0) ∧
      controlledMarks 0 Examples.seized.trace = [(0, 0)] ∧
      Player.MoveToLayer Examples.consts 0 0 Examples.seized = .ok Examples.strayed ∧
      Examples.strayed.controlledKey 0 = none ∧
      controlledMarks 0 Examples.strayed.trace = [(0, 0)]) :=
  ⟨⟨rfl, rfl⟩, ⟨rfl, rfl, rfl, rfl⟩, ⟨rfl, rfl, rfl⟩, ⟨rfl, rfl, rfl, rfl, rfl, rfl⟩⟩

/-! ## Death by the entity of a player that has left -/

/-- C19: `OnDeath` dereferences the owner of the attacker without a null check. In
`duel` alice controls `hero` (hooks connected by `UpdateControlledEntity`) and bob
controls `sword`: when `hero` is killed by `sword`, the `OnDied` hook runs
`OnDeath`, which adds one `PlayerDeath` callback, and the later destruction runs
no further `OnDeath`. Once bob has left the match, the `OwnerComponent` of `sword`
is still there and its handle is null: when `hero` is then killed by `sword`, the
`OnDied` hook runs `OnDeath`, which fails on the null `playerKiller` and executes
no `PlayerDeath` callback. The same happens after a new player was given bob's
slot. -/
theorem onDeath_dereferences_departed_killer :
    (Player.UpdateControlledEntity Examples.consts 0 (some 0) false true Examples.afterControl =
        .ok Examples.duel ∧
      (Examples.duel.entity? (some 1)).map (fun a => a.ownerComponent) = some (some (some 1)) ∧
      (Examples.duel.player? 0).map (fun p => (p.m_playerEntity, p.m_onPlayerEntityDied,
        p.m_onPlayerEntityDestruction)) = some (some 0, some 0, some 0)) ∧
    (∃ m1, Player.onPlayerEntityDied Examples.consts false 0 0 (some 1) Examples.duel = .ok m1 ∧
      playerDeaths m1.trace = playerDeaths Examples.duel.trace + 1 ∧
      Player.onPlayerEntityDestruction Examples.consts false 0 0 m1 = .ok m1) ∧
    (Match.RemovePlayer Examples.consts 1 DisconnectionReason.PlayerLeft Examples.duel =
        .ok Examples.bobGone ∧
      (Examples.bobGone.entity? (some 1)).map (fun a => a.ownerComponent) = some (some none) ∧
      (Examples.bobGone.player? 0).map (fun p => (p.m_playerEntity, p.m_onPlayerEntityDied,
        p.m_onPlayerEntityDestruction)) = some (some 0, some 0, some 0) ∧
      Player.onPlayerEntityDied Examples.consts false 0 0 (some 1) Examples.bobGone =
        .error .invalidHandle) ∧
    (Match.CreatePlayer Examples.consts 2 0 "dave" Examples.bobGone =
        .ok (some 1, Examples.daveIn) ∧
      (Examples.daveIn.entity? (some 1)).map (fun a => a.ownerComponent) = some (some none) ∧
      Player.onPlayerEntityDied Examples.consts false 0 0 (some 1) Examples.daveIn =
        .error .invalidHandle) :=
  ⟨⟨rfl, rfl, rfl⟩, ⟨_, rfl, rfl, rfl⟩, ⟨rfl, rfl, rfl, rfl⟩, ⟨rfl, rfl, rfl⟩⟩

end bw
